import Mathlib

/-!
# Spreadsheet formula engine (GTU CSE 241 homeworks 1 and 2)

A shallow embedding of the formula engine of the two spreadsheet revisions
(`HW_#1` and `HW_#2-HW_#1_continued`) together with theorems about it.

Conventions of the embedding

* `std::string` is a `List Char` (`Str`).
* `double` is `Dbl`: an exact rational, `+∞`, `-∞` or NaN.  Arithmetic on
  finite values is exact (no rounding, no overflow, no signed zero); the
  special values follow IEEE 754.  Statements about computed values either
  compare the results of the same operations, or carry the hypothesis that the
  values involved are finite values of binary64 (`Dbl.Representable`), on
  which binary64 arithmetic is exact too.  `std::stod` raises its range error
  (`stodRangeError`).  `sqrt` is a parameter of the evaluator.
* `int` is `Int`; `size_t` is a `Nat` reduced modulo `2 ^ 64` where the source
  can wrap.
* A C++ exception is an `Err` carried by `Except`.  An unchecked access outside
  a container is `Err.undefinedBehaviour`, and a recursion that does not return
  within its fuel is `Err.outOfFuel`; no handler catches either.
* The first revision lives in namespace `Rev1`, the second in `Rev2`; what is
  textually the same in both (tokenizers, the two reduction loops) is defined
  once.
-/

/-! ## Exceptions -/

/-- The exceptions the engine can raise, one constructor per `throw` site or
library failure. -/
inductive Err where
  /-- `invalid_argument("Not a valid formula there is a + or - sign at the end")` -/
  | plusMinusAtEnd
  /-- `invalid_argument("Not a valid formula there is a / or * sign at the end")` -/
  | multDivAtEnd
  /-- `invalid_argument("Invalid cell reference in function range.")` -/
  | invalidRangeReference
  /-- `invalid_argument("token is not a valid")` -/
  | tokenNotValid
  /-- `invalid_argument("token is not a valid cell reference function or numeric value")` -/
  | tokenInvalid
  /-- `runtime_error("Empty formula input.\n")` -/
  | emptyFormulaInput
  /-- `runtime_error("Empty tokens at parseAndEvaluate.\n")` -/
  | emptyTokens
  /-- `runtime_error("Invalid function type.\n")` -/
  | invalidFunctionType
  /-- `out_of_range` thrown by `Spreadsheet::getCell` / `setCell` -/
  | cellOutOfRange
  /-- `out_of_range` thrown by `std::string::substr` -/
  | substrOutOfRange
  /-- `invalid_argument` thrown by `std::stoi` (no conversion) -/
  | stoiInvalid
  /-- `out_of_range` thrown by `std::stoi` -/
  | stoiOutOfRange
  /-- `invalid_argument` thrown by `std::stod` (no conversion) -/
  | stodInvalid
  /-- `out_of_range` thrown by `std::stod` (the value is outside `double`) -/
  | stodOutOfRange
  /-- `runtime_error("Invalid initializer for Cell instance.")` -/
  | invalidCellInitializer
  /-- `invalid_argument("Capacity must be positive")` of `spc::myvec` -/
  | capacityNotPositive
  /-- `invalid_argument("Invalid size for spreadsheet")` -/
  | invalidSheetSize
  /-- `std::bad_array_new_length` thrown by `new T[n]` for a negative `n` -/
  | badArrayNewLength
  /-- an unchecked access outside a container: not an exception -/
  | undefinedBehaviour
  /-- the recursion did not return within the fuel given: not an exception -/
  | outOfFuel
  deriving DecidableEq, Repr

/-- Whether `catch (const std::invalid_argument &)` catches the exception. -/
def Err.isInvalidArgument : Err → Bool
  | .plusMinusAtEnd => true
  | .multDivAtEnd => true
  | .invalidRangeReference => true
  | .tokenNotValid => true
  | .tokenInvalid => true
  | .stoiInvalid => true
  | .stodInvalid => true
  | .capacityNotPositive => true
  | .invalidSheetSize => true
  | _ => false

/-- Whether `catch (const std::exception &)` catches it: everything that is an
exception at all. -/
def Err.isException : Err → Bool
  | .undefinedBehaviour => false
  | .outOfFuel => false
  | _ => true

deriving instance DecidableEq for Except

/-! ## Doubles -/

/-- A `double`: a finite value or one of the IEEE special values.  Finite
values are kept as exact rationals and the operations below do not round and
do not overflow: they agree with binary64 where the operands and the exact
result are finite values of binary64 (`Dbl.Representable`), which binary64
returns unrounded. -/
inductive Dbl where
  | fin (q : ℚ)
  | pinf
  | ninf
  | nan
  deriving DecidableEq

namespace Dbl

/-- Unary minus. -/
def neg : Dbl → Dbl
  | fin a => fin (-a)
  | pinf => ninf
  | ninf => pinf
  | nan => nan

/-- Addition of doubles: `a + b`. -/
def add : Dbl → Dbl → Dbl
  | fin a, fin b => fin (a + b)
  | nan, _ => nan
  | _, nan => nan
  | pinf, ninf => nan
  | ninf, pinf => nan
  | pinf, _ => pinf
  | _, pinf => pinf
  | ninf, _ => ninf
  | _, ninf => ninf

/-- Subtraction of doubles: `a - b`. -/
def sub (a b : Dbl) : Dbl := add a (neg b)

/-- An infinity of the sign of `q` times `+∞`, NaN when `q = 0`. -/
def infTimes (q : ℚ) : Dbl :=
  if q = 0 then nan else if 0 < q then pinf else ninf

/-- Multiplication of doubles: `a * b`. -/
def mul : Dbl → Dbl → Dbl
  | fin a, fin b => fin (a * b)
  | nan, _ => nan
  | _, nan => nan
  | fin a, pinf => infTimes a
  | fin a, ninf => infTimes (-a)
  | pinf, fin b => infTimes b
  | ninf, fin b => infTimes (-b)
  | pinf, pinf => pinf
  | pinf, ninf => ninf
  | ninf, pinf => ninf
  | ninf, ninf => pinf

/-- Division of doubles: `a / b`; a finite value over zero is an infinity of the
sign of the dividend, `0 / 0` is NaN. -/
def div : Dbl → Dbl → Dbl
  | fin a, fin b => if b = 0 then infTimes a else fin (a / b)
  | nan, _ => nan
  | _, nan => nan
  | fin _, pinf => fin 0
  | fin _, ninf => fin 0
  | pinf, fin b => if 0 ≤ b then pinf else ninf
  | ninf, fin b => if 0 ≤ b then ninf else pinf
  | pinf, pinf => nan
  | pinf, ninf => nan
  | ninf, pinf => nan
  | ninf, ninf => nan

/-- The comparison `a < b` of doubles (false when either side is NaN). -/
def lt : Dbl → Dbl → Bool
  | fin a, fin b => decide (a < b)
  | nan, _ => false
  | _, nan => false
  | ninf, ninf => false
  | ninf, _ => true
  | _, ninf => false
  | pinf, _ => false
  | _, pinf => true

/-- `std::max(a, b)`: `(a < b) ? b : a`. -/
def max (a b : Dbl) : Dbl := if lt a b then b else a

/-- `std::min(a, b)`: `(b < a) ? b : a`. -/
def min (a b : Dbl) : Dbl := if lt b a then b else a

/-- `static_cast<double>(n)` for an `int`. -/
def ofInt (n : Int) : Dbl := fin n

/-- The test `x == 0.0`. -/
def isZero (x : Dbl) : Bool := decide (x = fin 0)

/-- From this magnitude on a value rounds to an infinity in binary64:
`2^1024 - 2^970`, half a unit in the last place above `DBL_MAX`. -/
def overflowBound : ℚ := ((2 ^ 1024 - 2 ^ 970 : Nat) : ℚ)

/-- The smallest positive normal `double`, `DBL_MIN = 2^-1022`. -/
def minNormal : ℚ := 1 / ((2 ^ 1022 : Nat) : ℚ)

/-- The rational is a finite value of binary64: a multiple of `2^-1074`, of
magnitude at most `DBL_MAX = 2^1024 - 2^971`, whose numerator is `m * 2^j` with
`m < 2^53` (at most 53 significant bits). -/
def Representable (q : ℚ) : Prop :=
  2 ^ 1074 % q.den = 0 ∧ q.num.natAbs ≤ (2 ^ 1024 - 2 ^ 971) * q.den ∧
  ∃ j < 1024, q.num.natAbs % 2 ^ j = 0 ∧ q.num.natAbs / 2 ^ j < 2 ^ 53

instance (q : ℚ) : Decidable (Representable q) := by
  unfold Representable; infer_instance

end Dbl

/-! ## Strings -/

/-- A `std::string`. -/
abbrev Str := List Char

/-- `std::string::npos`, the largest `size_t`. -/
def npos : Nat := 2 ^ 64 - 1

/-- `std::string::find(char)`: the first position of `c`, or `npos`. -/
def findChar (s : Str) (c : Char) : Nat :=
  if s.indexOf c < s.length then s.indexOf c else npos

/-- The search loop of `std::string::find(const char*)`, from position `i`. -/
def findStrFrom (pat : Str) : Str → Nat → Nat
  | [], i => if pat = [] then i else npos
  | c :: cs, i => if pat.isPrefixOf (c :: cs) then i else findStrFrom pat cs (i + 1)

/-- `std::string::find(const char*)`: the first position where `pat` occurs,
or `npos`. -/
def findStr (s pat : Str) : Nat := findStrFrom pat s 0

/-- `std::string::substr(pos, len)`: throws `out_of_range` when `pos` is past
the end, otherwise at most `len` characters from `pos`. -/
def substr (s : Str) (pos len : Nat) : Except Err Str :=
  if s.length < pos then .error .substrOutOfRange else .ok ((s.drop pos).take len)

/-- Conversion of a `size_t` to `int` (two's complement truncation to 32 bits). -/
def sizeToInt (n : Nat) : Int :=
  let m : Nat := n % 2 ^ 32
  if m < 2 ^ 31 then (m : Int) else (m : Int) - 2 ^ 32

/-- Conversion of an `int` to `size_t` (reduction modulo `2 ^ 64`). -/
def intToSize (z : Int) : Nat := (z % 2 ^ 64).toNat

/-- The free function `removeSpaces`: erase every `' '`. -/
def removeSpaces (str : Str) : Str := str.filter fun c => c ≠ ' '

/-- `isdigit` on the characters `'0'`..`'9'`. -/
def isdigit (c : Char) : Bool := decide ('0'.toNat ≤ c.toNat ∧ c.toNat ≤ '9'.toNat)

/-- `isspace` in the "C" locale. -/
def isspace (c : Char) : Bool :=
  c = ' ' || c = '\t' || c = '\n' || c = '\x0b' || c = '\x0c' || c = '\r'

/-- The value of a decimal digit character. -/
def digitVal (c : Char) : Nat := c.toNat - '0'.toNat

/-- The number denoted by a run of decimal digits, continuing from `acc`. -/
def digitsValue (acc : Nat) : Str → Nat
  | [] => acc
  | c :: cs => digitsValue (acc * 10 + digitVal c) cs

/-- `std::to_string(int)`. -/
def to_string (n : Int) : Str :=
  if n < 0 then '-' :: Nat.toDigits 10 n.natAbs else Nat.toDigits 10 n.natAbs

/-! ## The C++ library conversions `std::stoi` and `std::stod` -/

/-- The sign prefix of a numeral: the sign as `true` for `-`, and what follows
with the number of characters used. -/
def takeSign : Str → Bool × Str × Nat
  | '-' :: r => (true, r, 1)
  | '+' :: r => (false, r, 1)
  | s => (false, s, 0)

/-- `std::stoi(str, &pos)`: skip white space, read an optional sign and a
non-empty run of decimal digits; the value and the number of characters used.
No digits is `invalid_argument`, a value outside `int` is `out_of_range`. -/
def stoi (str : Str) : Except Err (Int × Nat) :=
  let ws := str.takeWhile isspace
  let (negative, r, signLen) := takeSign (str.dropWhile isspace)
  let ds := r.takeWhile isdigit
  if ds = [] then .error .stoiInvalid
  else
    let v : Int := if negative then -(digitsValue 0 ds : Int) else (digitsValue 0 ds : Int)
    if v < -(2 : Int) ^ 31 ∨ (2 : Int) ^ 31 ≤ v then .error .stoiOutOfRange
    else .ok (v, ws.length + signLen + ds.length)

/-- The optional exponent part `e[sign]digits` of a decimal floating literal:
the power of ten to scale by and the number of characters used (none when no
digit follows the `e`). -/
def stodExponent : Str → Int × Nat
  | c :: r =>
    if c = 'e' ∨ c = 'E' then
      let (negative, r', signLen) := takeSign r
      let ds := r'.takeWhile isdigit
      if ds = [] then (0, 0)
      else (if negative then -(digitsValue 0 ds : Int) else (digitsValue 0 ds : Int),
            1 + signLen + ds.length)
    else (0, 0)
  | [] => (0, 0)

/-- The decimal form accepted by `strtod`: digits with an optional point, at
least one digit, then an optional exponent.  The exact value and the number of
characters used. -/
def stodDecimal (s : Str) : Option (ℚ × Nat) :=
  let intPart := s.takeWhile isdigit
  let r1 := s.dropWhile isdigit
  let fracPart := match r1 with
    | '.' :: r2 => r2.takeWhile isdigit
    | _ => []
  let pointLen := match r1 with
    | '.' :: _ => 1
    | _ => 0
  if intPart = [] ∧ fracPart = [] then none
  else
    let used := intPart.length + pointLen + fracPart.length
    let mantissa : ℚ := (digitsValue 0 (intPart ++ fracPart) : ℚ) / 10 ^ fracPart.length
    let (e, eLen) := stodExponent (s.drop used)
    some (mantissa * 10 ^ e, used + eLen)

/-- Whether `s` starts with `word`, ignoring the case of letters. -/
def startsWithNoCase (word s : Str) : Bool :=
  (word.map Char.toLower).isPrefixOf (s.map Char.toLower)

/-- The characters allowed between the parentheses of `nan(...)`. -/
def isNanChar (c : Char) : Bool := c.isAlphanum || c = '_'

/-- The special forms accepted by `strtod`: `infinity`, `inf`, `nan(chars)` and
`nan`, in any letter case.  The value and the number of characters used. -/
def stodSpecial (s : Str) : Option (Dbl × Nat) :=
  if startsWithNoCase "infinity".toList s then some (.pinf, 8)
  else if startsWithNoCase "inf".toList s then some (.pinf, 3)
  else if startsWithNoCase "nan".toList s then
    match s.drop 3 with
    | '(' :: r =>
      match r.dropWhile isNanChar with
      | ')' :: _ => some (.nan, 3 + 1 + (r.takeWhile isNanChar).length + 1)
      | _ => some (.nan, 3)
    | _ => some (.nan, 3)
  else none

/-- The value of a hexadecimal digit, if the character is one. -/
def hexVal (c : Char) : Option Nat :=
  if isdigit c then some (digitVal c)
  else if 'a'.toNat ≤ c.toNat ∧ c.toNat ≤ 'f'.toNat then some (c.toNat - 'a'.toNat + 10)
  else if 'A'.toNat ≤ c.toNat ∧ c.toNat ≤ 'F'.toNat then some (c.toNat - 'A'.toNat + 10)
  else none

/-- The number denoted by a run of hexadecimal digits, continuing from `acc`. -/
def hexDigitsValue (acc : Nat) : Str → Nat
  | [] => acc
  | c :: cs => hexDigitsValue (acc * 16 + (hexVal c).getD 0) cs

/-- The optional binary exponent `p[sign]digits` of a hexadecimal floating
literal. -/
def stodBinExponent : Str → Int × Nat
  | c :: r =>
    if c = 'p' ∨ c = 'P' then
      let (negative, r', signLen) := takeSign r
      let ds := r'.takeWhile isdigit
      if ds = [] then (0, 0)
      else (if negative then -(digitsValue 0 ds : Int) else (digitsValue 0 ds : Int),
            1 + signLen + ds.length)
    else (0, 0)
  | [] => (0, 0)

/-- The hexadecimal form accepted by `strtod`: `0x`, hexadecimal digits with an
optional point (at least one digit), then an optional binary exponent. -/
def stodHex (s : Str) : Option (ℚ × Nat) :=
  match s with
  | '0' :: x :: r =>
    if x = 'x' ∨ x = 'X' then
      let isHex := fun c => (hexVal c).isSome
      let intPart := r.takeWhile isHex
      let r1 := r.dropWhile isHex
      let fracPart := match r1 with
        | '.' :: r2 => r2.takeWhile isHex
        | _ => []
      let pointLen := match r1 with
        | '.' :: _ => 1
        | _ => 0
      if intPart = [] ∧ fracPart = [] then none
      else
        let used := intPart.length + pointLen + fracPart.length
        let mantissa : ℚ := (hexDigitsValue 0 (intPart ++ fracPart) : ℚ) / 16 ^ fracPart.length
        let (e, eLen) := stodBinExponent (r.drop used)
        some (mantissa * 2 ^ e, 2 + used + eLen)
    else none
  | _ => none

/-- The magnitude `q` read from the text makes `strtod` report `ERANGE`: it
rounds to an infinity, or it is not zero, lies below the smallest normal
`double` and is not a multiple of `2^-1074` (the result is tiny and
inexact). -/
def stodRangeError (q : ℚ) : Prop :=
  Dbl.overflowBound ≤ q ∨ (0 < q ∧ q < Dbl.minNormal ∧ 2 ^ 1074 % q.den ≠ 0)

instance (q : ℚ) : Decidable (stodRangeError q) := by
  unfold stodRangeError; infer_instance

/-- `std::stod(str, &pos)`: skip white space, read an optional sign and the
longest special, hexadecimal or decimal form; the value and the number of
characters used.  No conversion is `invalid_argument`, a range error of
`strtod` is `out_of_range`.  A value in range is kept exact: the rounding to
the nearest `double` is not modelled. -/
def stod (str : Str) : Except Err (Dbl × Nat) :=
  let ws := str.takeWhile isspace
  let (negative, r, signLen) := takeSign (str.dropWhile isspace)
  let signed := fun (d : Dbl) => if negative then d.neg else d
  match stodSpecial r with
  | some (d, n) => .ok (signed d, ws.length + signLen + n)
  | none =>
    match stodHex r with
    | some (q, n) =>
      if stodRangeError q then .error .stodOutOfRange
      else .ok (signed (.fin q), ws.length + signLen + n)
    | none =>
      match stodDecimal r with
      | some (q, n) =>
        if stodRangeError q then .error .stodOutOfRange
        else .ok (signed (.fin q), ws.length + signLen + n)
      | none => .error .stodInvalid

/-! ## Tokenizers (the same text in both revisions) -/

/-- `FormulaParser::isValue`, the loop over the characters with the flag
`decimalPointSeen`. -/
def isValueLoop : Str → Bool → Bool
  | [], _ => true
  | c :: cs, decimalPointSeen =>
    if !isdigit c then
      if c = '.' ∧ !decimalPointSeen then isValueLoop cs true
      else false
    else isValueLoop cs decimalPointSeen

/-- `FormulaParser::isValue`: non-empty, only digits and at most one `.`. -/
def isValue (token : Str) : Bool :=
  if token = [] then false else isValueLoop token false

/-- The loop of `FormulaParser::parsePlusAndMinus` over the characters of the
formula, with the token list and the operand being collected. -/
def parsePlusAndMinusLoop : Str → List Str → Str → List Str × Str
  | [], tokens, token => (tokens, token)
  | c :: cs, tokens, token =>
    if c = '+' ∨ c = '-' then
      let tokens := if token ≠ [] then tokens ++ [token] else tokens
      parsePlusAndMinusLoop cs (tokens ++ [[c]]) []
    else if c = ' ' then parsePlusAndMinusLoop cs tokens token
    else parsePlusAndMinusLoop cs tokens (token ++ [c])

/-- `FormulaParser::parsePlusAndMinus`: split at `+` and `-`, dropping spaces;
throws when the operand after the last split is empty. -/
def parsePlusAndMinus (formula : Str) : Except Err (List Str) :=
  let (tokens, token) := parsePlusAndMinusLoop formula [] []
  if token = [] then .error .plusMinusAtEnd
  else .ok (tokens ++ [token])

/-- The loop of `FormulaParser::parseMultpAndDiv` over the characters of the
operand, with the token list and the sub-token being collected. -/
def parseMultpAndDivLoop : Str → List Str → Str → List Str × Str
  | [], tokens, subToken => (tokens, subToken)
  | c :: cs, tokens, subToken =>
    if c = '/' ∨ c = '*' then
      let tokens := if subToken ≠ [] then tokens ++ [subToken] else tokens
      parseMultpAndDivLoop cs (tokens ++ [[c]]) []
    else parseMultpAndDivLoop cs tokens (subToken ++ [c])

/-- `FormulaParser::parseMultpAndDiv`: split at `*` and `/`; throws when the
operand `token` itself is empty, and otherwise appends the last sub-token
whatever it is. -/
def parseMultpAndDiv (token : Str) : Except Err (List Str) :=
  let (tokens, subToken) := parseMultpAndDivLoop token [] []
  if token = [] then .error .multDivAtEnd
  else .ok (tokens ++ [subToken])

/-! ## The two reduction loops (the same text in both revisions)

Both are parametrised by the evaluator of the level below, which reads the grid
and threads the set of dependencies `uniqueDependents`. -/

/-- The set of dependencies collected during one evaluation. -/
abbrev Deps := List (Int × Int)

/-- The `for` loop of `FormulaParser::evaluateMultpAndDivToken` over
`tokens[1..]`, with `result`, `isMultp` and the dependencies. -/
def evaluateMultpAndDivLoop (evaluateSingleToken : Str → Deps → Except Err (Dbl × Deps)) :
    List Str → Dbl → Bool → Deps → Except Err (Dbl × Deps)
  | [], result, _, deps => .ok (result, deps)
  | t :: ts, result, isMultp, deps =>
    if t = ['*'] then evaluateMultpAndDivLoop evaluateSingleToken ts result true deps
    else if t = ['/'] then evaluateMultpAndDivLoop evaluateSingleToken ts result false deps
    else
      match evaluateSingleToken t deps with
      | .error e => .error e
      | .ok (nextVal, deps) =>
        let nextVal := if nextVal.isZero ∧ isMultp = false then Dbl.fin 1 else nextVal
        evaluateMultpAndDivLoop evaluateSingleToken ts
          (if isMultp then result.mul nextVal else result.div nextVal) isMultp deps

/-- `FormulaParser::evaluateMultpAndDivToken`: split the operand at `*` and `/`
and reduce from the left; a divisor equal to `0.0` is replaced by `1`. -/
def evaluateMultpAndDivToken (evaluateSingleToken : Str → Deps → Except Err (Dbl × Deps))
    (token : Str) (deps : Deps) : Except Err (Dbl × Deps) :=
  match parseMultpAndDiv token with
  | .error e => .error e
  | .ok [] => .error .undefinedBehaviour
  | .ok (t0 :: ts) =>
    match evaluateSingleToken t0 deps with
    | .error e => .error e
    | .ok (result, deps) => evaluateMultpAndDivLoop evaluateSingleToken ts result true deps

/-- The `for` loop of `FormulaParser::parseAndEvaluate` over the additive
tokens, with `isAddition`, `result` and the dependencies. -/
def parseAndEvaluateLoop (evaluateSingleToken : Str → Deps → Except Err (Dbl × Deps)) :
    List Str → Bool → Dbl → Deps → Except Err (Dbl × Deps)
  | [], _, result, deps => .ok (result, deps)
  | token :: tokens, isAddition, result, deps =>
    if token = ['+'] then parseAndEvaluateLoop evaluateSingleToken tokens true result deps
    else if token = ['-'] then parseAndEvaluateLoop evaluateSingleToken tokens false result deps
    else
      match evaluateMultpAndDivToken evaluateSingleToken token deps with
      | .error e => .error e
      | .ok (tokenResult, deps) =>
        parseAndEvaluateLoop evaluateSingleToken tokens isAddition
          (if isAddition then result.add tokenResult else result.sub tokenResult) deps

/-! ## Cell labels -/

/-- The `while (c >= 0)` loop of `Cell::getLetterTransformation` (first
revision) and of `Cell::setLetterRepresentation` (second revision); `fuel`
bounds the number of iterations. -/
def letterLoop : Nat → Int → Str → Str
  | 0, _, letter => letter
  | fuel + 1, c, letter =>
    if 0 ≤ c then
      letterLoop fuel (c / 26 - 1) (Char.ofNat ('A'.toNat + (c % 26).toNat) :: letter)
    else letter

/-- The column letters of column `col`: `A`..`Z`, `AA`, ... -/
def getLetterTransformation (col : Int) : Str :=
  letterLoop (col.toNat + 1) col []

/-- The label a cell at `(row, col)` is given: column letters followed by
`row + 1`. -/
def cellLabel (row col : Int) : Str :=
  getLetterTransformation col ++ to_string (row + 1)

/-- The function names of `enum class FunctionType`. -/
inductive FunctionType where
  | SUM
  | AVER
  | STDDEV
  | MAX
  | MIN
  | INVALID
  deriving DecidableEq, Repr

/-- The pairs `(i, j)` visited by `for i < rows, for j < cols`, in order. -/
def gridIndices (rows cols : Nat) : List (Nat × Nat) :=
  (List.range rows).flatMap fun i => (List.range cols).map fun j => (i, j)

/-- The values `lo, lo + 1, ..., hi` of an `int` loop variable. -/
def intRange (lo hi : Int) : List Int :=
  (List.range (hi + 1 - lo).toNat).map fun (k : Nat) => lo + (k : Int)

/-- The index pairs visited by `for row = start.first..end.first, for col =
start.second..end.second` in `STDDEV`, `MAX` and `MIN` (both revisions). -/
def rectIndices (startPos endPos : Int × Int) : List (Int × Int) :=
  (intRange startPos.1 endPos.1).flatMap fun row =>
    (intRange startPos.2 endPos.2).map fun col => (row, col)

/-! ## Containers of coordinates -/

/-- `spc::myset::insert`: append the value unless it is already present. -/
def mysetInsert (value : Int × Int) (elements : Deps) : Deps :=
  if value ∈ elements then elements else elements ++ [value]

/-- The order of `std::pair<int, int>`: lexicographic. -/
def pairLt (a b : Int × Int) : Bool :=
  decide (a.1 < b.1 ∨ (a.1 = b.1 ∧ a.2 < b.2))

/-- `std::set<std::pair<int, int>>::insert` on the ascending list of the
elements. -/
def stdSetInsert (value : Int × Int) : Deps → Deps
  | [] => [value]
  | x :: xs =>
    if value = x then x :: xs
    else if pairLt value x then value :: x :: xs
    else x :: stdSetInsert value xs

/-- `std::set<std::pair<int, int>>::erase(value)`. -/
def stdSetErase (value : Int × Int) (s : Deps) : Deps := s.erase value

/-! ## Second revision: cells and the grid -/

namespace Rev2

/-- The dynamic type of a cell with the fields of that class. -/
inductive CellBody where
  | FormulaCell (formula : Str) (calculatedValue : Dbl) (dependentCells : Deps)
  | IntValueCell (val : Int)
  | StringValueCell (val : Str)
  | DoubleValueCell (val : Dbl)
  deriving DecidableEq

/-- A `Cell` object: the fields of the base class and the derived part. -/
structure Cell where
  letter_rep : Str
  row : Int
  col : Int
  body : CellBody
  deriving DecidableEq

/-- The constructor `Cell::Cell(r, c)` followed by that of the derived class:
throws for a negative index, otherwise sets the label from the coordinates. -/
def Cell.new (r c : Int) (body : CellBody) : Except Err Cell :=
  if r < 0 ∨ c < 0 then .error .invalidCellInitializer
  else .ok { letter_rep := cellLabel r c, row := r, col := c, body := body }

/-- `Cell::getCellValueAsDouble`. -/
def Cell.getCellValueAsDouble (cell : Cell) : Dbl :=
  match cell.body with
  | .IntValueCell val => Dbl.ofInt val
  | .DoubleValueCell val => val
  | .FormulaCell _ calculatedValue _ => calculatedValue
  | .StringValueCell _ => Dbl.fin 0

/-- The `Spreadsheet` object: the rows of cells. -/
structure Spreadsheet where
  cells : List (List Cell)
  deriving DecidableEq

namespace Spreadsheet

/-- `Spreadsheet::getRowCount`. -/
def getRowCount (g : Spreadsheet) : Nat := g.cells.length

/-- `Spreadsheet::getColCount`: the size of row 0. -/
def getColCount (g : Spreadsheet) : Nat := (g.cells.headD []).length

/-- The unchecked access `cells[r][c]`. -/
def cellAt (g : Spreadsheet) (r c : Nat) : Option Cell :=
  match g.cells[r]? with
  | some row => row[c]?
  | none => none

/-- `Spreadsheet::getCell`: throws when an index is at or past the count of
rows or columns; a negative index is not checked. -/
def getCell (g : Spreadsheet) (r c : Int) : Except Err Cell :=
  if (g.getRowCount : Int) ≤ r ∨ (g.getColCount : Int) ≤ c then .error .cellOutOfRange
  else if r < 0 ∨ c < 0 then .error .undefinedBehaviour
  else
    match g.cellAt r.toNat c.toNat with
    | some cell => .ok cell
    | none => .error .undefinedBehaviour

/-- The assignment `cells[r][c] = cell`. -/
def assign (g : Spreadsheet) (r c : Nat) (cell : Cell) : Spreadsheet :=
  { cells := g.cells.modify (fun row => row.set c cell) r }

/-- `Spreadsheet::setCell`: the same bound check as `getCell`, then the
assignment. -/
def setCell (g : Spreadsheet) (r c : Int) (cell : Cell) : Except Err Spreadsheet :=
  if (g.getRowCount : Int) ≤ r ∨ (g.getColCount : Int) ≤ c then .error .cellOutOfRange
  else if r < 0 ∨ c < 0 then .error .undefinedBehaviour
  else
    match g.cellAt r.toNat c.toNat with
    | some _ => .ok (g.assign r.toNat c.toNat cell)
    | none => .error .undefinedBehaviour

/-- The cells `getCell(i, j)` for the index pairs of a list, in order; the first
failing access raises. -/
def getCells (g : Spreadsheet) : List (Int × Int) → Except Err (List Cell)
  | [] => .ok []
  | (i, j) :: rest =>
    match g.getCell i j with
    | .error e => .error e
    | .ok cell =>
      match getCells g rest with
      | .error e => .error e
      | .ok cells => .ok (cell :: cells)

/-- The index pairs visited by the loops of `Spreadsheet::getCellsInRange`:
after ordering the two corners, row `i` runs from `startCol` (on the first
row, else from 0) to `endCol` (on the last row, else to the last column). -/
def rangeIndices (colCount : Nat) (startPos endPos : Int × Int) : List (Int × Int) :=
  let startRow := if startPos.1 > endPos.1 then endPos.1 else startPos.1
  let endRow := if startPos.1 > endPos.1 then startPos.1 else endPos.1
  let startCol := if startPos.2 > endPos.2 then endPos.2 else startPos.2
  let endCol := if startPos.2 > endPos.2 then startPos.2 else endPos.2
  (intRange startRow endRow).flatMap fun i =>
    let colStart := if i = startRow then startCol else 0
    let colEnd := if i = endRow then endCol else (colCount : Int) - 1
    (intRange colStart colEnd).map fun j => (i, j)

/-- `Spreadsheet::getCellsInRange`. -/
def getCellsInRange (g : Spreadsheet) (startPos endPos : Int × Int) : Except Err (List Cell) :=
  g.getCells (rangeIndices g.getColCount startPos endPos)

end Spreadsheet


/-! ## Second revision: the evaluator -/

/-- The scan of `FormulaParser::getCellReference` over the index pairs: the
first cell whose label equals `str`, or `(-1, -1)`. -/
def getCellReferenceLoop (g : Spreadsheet) (str : Str) : List (Nat × Nat) → Except Err (Int × Int)
  | [] => .ok (-1, -1)
  | (i, j) :: rest =>
    match g.getCell i j with
    | .error e => .error e
    | .ok cell =>
      if str = cell.letter_rep then .ok ((i : Int), (j : Int))
      else getCellReferenceLoop g str rest

/-- `FormulaParser::getCellReference`. -/
def getCellReference (g : Spreadsheet) (token : Str) : Except Err (Int × Int) :=
  getCellReferenceLoop g (removeSpaces token) (gridIndices g.getRowCount g.getColCount)

/-- `FormulaParser::isValidRange`. -/
def isValidRange (g : Spreadsheet) (range : Str) : Except Err Bool :=
  let dotPos := findStr range "..".toList
  if dotPos = npos then .ok false
  else do
    let startCell ← substr range 0 dotPos
    let endCell ← substr range ((dotPos + 2) % 2 ^ 64) npos
    let s ← getCellReference g startCell
    if s ≠ (-1, -1) then
      let e ← getCellReference g endCell
      pure (decide (e ≠ (-1, -1)))
    else pure false

/-- `FormulaParser::getFunctionType`. -/
def getFunctionType (g : Spreadsheet) (token : Str) : Except Err FunctionType :=
  let str := removeSpaces token
  let openParenPos := findChar str '('
  let closeParenPos := findChar str ')'
  if openParenPos ≠ npos ∧ closeParenPos ≠ npos ∧ closeParenPos > openParenPos then do
    let range ← substr str ((openParenPos + 1) % 2 ^ 64) (closeParenPos - openParenPos - 1)
    if (← isValidRange g range) then
      let funcName ← substr str 0 openParenPos
      if funcName = "SUM".toList then pure .SUM
      else if funcName = "AVER".toList then pure .AVER
      else if funcName = "STDDEV".toList then pure .STDDEV
      else if funcName = "MAX".toList then pure .MAX
      else if funcName = "MIN".toList then pure .MIN
      else pure .INVALID
    else pure .INVALID
  else .ok .INVALID

/-- `FormulaParser::SUM`. -/
def SUM (g : Spreadsheet) (startPos endPos : Int × Int) (uniqueDependents : Deps) :
    Except Err (Dbl × Deps) :=
  match g.getCellsInRange startPos endPos with
  | .error e => .error e
  | .ok cellsInRange =>
    .ok (cellsInRange.foldl
      (fun acc cell => (acc.1.add cell.getCellValueAsDouble, mysetInsert (cell.row, cell.col) acc.2))
      (Dbl.fin 0, uniqueDependents))

/-- `FormulaParser::AVER`. -/
def AVER (g : Spreadsheet) (startPos endPos : Int × Int) (uniqueDependents : Deps) :
    Except Err (Dbl × Deps) :=
  match g.getCellsInRange startPos endPos with
  | .error e => .error e
  | .ok cellsInRange =>
    if cellsInRange = [] then .ok (Dbl.fin 0, uniqueDependents)
    else
      let r := cellsInRange.foldl
        (fun (acc : Dbl × Int × Deps) cell =>
          (acc.1.add cell.getCellValueAsDouble, acc.2.1 + 1,
            mysetInsert (cell.row, cell.col) acc.2.2))
        (Dbl.fin 0, 0, uniqueDependents)
      if r.2.1 = 0 then .ok (Dbl.fin 0, r.2.2)
      else .ok (r.1.div (Dbl.ofInt r.2.1), r.2.2)

/-- `FormulaParser::STDDEV`; `sqrt` is the library function. -/
def STDDEV (sqrt : Dbl → Dbl) (g : Spreadsheet) (startPos endPos : Int × Int)
    (uniqueDependents : Deps) : Except Err (Dbl × Deps) :=
  let idx := rectIndices startPos endPos
  match g.getCells idx with
  | .error e => .error e
  | .ok cells =>
    let deps := idx.foldl (fun acc pos => mysetInsert pos acc) uniqueDependents
    let values := cells.map Cell.getCellValueAsDouble
    let sum := values.foldl Dbl.add (Dbl.fin 0)
    let count : Int := values.length
    if count = 0 then .ok (Dbl.fin 0, deps)
    else
      let mean := sum.div (Dbl.ofInt count)
      let varianceSum := values.foldl
        (fun acc value => acc.add ((value.sub mean).mul (value.sub mean))) (Dbl.fin 0)
      let variance := varianceSum.div (Dbl.ofInt count)
      .ok (sqrt variance, deps)

/-- `FormulaParser::MAX`. -/
def MAX (g : Spreadsheet) (startPos endPos : Int × Int) (uniqueDependents : Deps) :
    Except Err (Dbl × Deps) :=
  let idx := rectIndices startPos endPos
  match g.getCells idx with
  | .error e => .error e
  | .ok cells =>
    .ok (cells.foldl (fun maxValue cell => Dbl.max maxValue cell.getCellValueAsDouble) Dbl.ninf,
         idx.foldl (fun acc pos => mysetInsert pos acc) uniqueDependents)

/-- `FormulaParser::MIN`. -/
def MIN (g : Spreadsheet) (startPos endPos : Int × Int) (uniqueDependents : Deps) :
    Except Err (Dbl × Deps) :=
  let idx := rectIndices startPos endPos
  match g.getCells idx with
  | .error e => .error e
  | .ok cells =>
    .ok (cells.foldl (fun minValue cell => Dbl.min minValue cell.getCellValueAsDouble) Dbl.pinf,
         idx.foldl (fun acc pos => mysetInsert pos acc) uniqueDependents)

/-- `FormulaParser::evaluateSingleToken`: a cell reference, else an aggregate
call, else a numeric literal, else an error. -/
def evaluateSingleToken (sqrt : Dbl → Dbl) (g : Spreadsheet) (singleToken : Str)
    (uniqueDependents : Deps) : Except Err (Dbl × Deps) := do
  let coordinates ← getCellReference g singleToken
  if coordinates ≠ (-1, -1) then
    let cell ← g.getCell coordinates.1 coordinates.2
    pure (cell.getCellValueAsDouble, mysetInsert (cell.row, cell.col) uniqueDependents)
  else
    let func ← getFunctionType g singleToken
    if func ≠ .INVALID then
      let openPos := findChar singleToken '('
      let closePos := findChar singleToken ')'
      let range ← substr singleToken ((openPos + 1) % 2 ^ 64)
        ((closePos + 2 ^ 64 - openPos + 2 ^ 64 - 1) % 2 ^ 64)
      let dotdotPos : Int := sizeToInt (findStr range "..".toList)
      let startCell ← substr range 0 (intToSize dotdotPos)
      let endCell ← substr range (intToSize (dotdotPos + 2)) npos
      let startPos ← getCellReference g startCell
      let endPos ← getCellReference g endCell
      if startPos = (-1, -1) ∨ endPos = (-1, -1) then throw .invalidRangeReference
      else
        match func with
        | .SUM => SUM g startPos endPos uniqueDependents
        | .AVER => AVER g startPos endPos uniqueDependents
        | .STDDEV => STDDEV sqrt g startPos endPos uniqueDependents
        | .MAX => MAX g startPos endPos uniqueDependents
        | .MIN => MIN g startPos endPos uniqueDependents
        | .INVALID => throw .invalidFunctionType
    else if isValue singleToken then
      match stod singleToken with
      | .ok (v, _) => pure (v, uniqueDependents)
      | .error e => if e.isInvalidArgument then throw .tokenNotValid else throw e
    else throw .tokenInvalid

/-- `FormulaParser::parseAndEvaluate`: the value of the formula, and the
vector `dependentCells` with the cells read appended. -/
def parseAndEvaluate (sqrt : Dbl → Dbl) (g : Spreadsheet) (formula : Str)
    (_coordinates : Int × Int) (dependentCells : Deps) : Except Err (Dbl × Deps) :=
  if formula = [] then .error .emptyFormulaInput
  else
    match parsePlusAndMinus (formula.drop 1) with
    | .error e => .error e
    | .ok tokens =>
      if tokens = [] then .error .emptyTokens
      else
        match parseAndEvaluateLoop (evaluateSingleToken sqrt g) tokens true (Dbl.fin 0) [] with
        | .error e => .error e
        | .ok (result, uniqueDependents) => .ok (result, dependentCells ++ uniqueDependents)

/-! ## Second revision: entering data and recalculation -/

/-- `Spreadsheet::enterData`: a formula that evaluates becomes a `FormulaCell`
with its value and dependencies, a formula that fails a `StringValueCell`
holding the text; other input is tried as `int`, then as `double`, and is
a string otherwise. -/
def Spreadsheet.enterData (sqrt : Dbl → Dbl) (g : Spreadsheet) (r c : Int) (input : Str) :
    Except Err Spreadsheet :=
  if input ≠ [] ∧ input.head? = some '=' then
    let attempt : Except Err Spreadsheet := do
      let (result, dependentCells) ← parseAndEvaluate sqrt g input (r, c) []
      let cell ← Cell.new r c (.FormulaCell input (Dbl.fin 0) [])
      let g1 ← g.setCell r c cell
      let _ ← g1.getCell r c
      g1.setCell r c { cell with body := .FormulaCell input result ([] ++ dependentCells) }
    match attempt with
    | .ok g2 => .ok g2
    | .error e =>
      if e.isException then do
        let cell ← Cell.new r c (.StringValueCell input)
        g.setCell r c cell
      else .error e
  else
    match stoi input with
    | .ok (intValue, _) => do
      let cell ← Cell.new r c (.IntValueCell intValue)
      g.setCell r c cell
    | .error e =>
      if e.isInvalidArgument then
        match stod input with
        | .ok (doubleValue, _) => do
          let cell ← Cell.new r c (.DoubleValueCell doubleValue)
          g.setCell r c cell
        | .error e2 =>
          if e2.isInvalidArgument then do
            let cell ← Cell.new r c (.StringValueCell input)
            g.setCell r c cell
          else .error e2
      else .error e

/-- The function-local `static std::set` of `autoCalculate`. -/
abbrev Visited := Deps

/-- The two nested `for` loops of `FormulaParser::autoCalculate` over the
index pairs, on the grid and the static set `visited`; `recurse` is the
recursive call.  A failure of `parseAndEvaluate` is caught and the cell is
left as it was.  `autoCalculate` raises no exception of its own, so an error
of the recursive call is undefined behaviour or exhausted fuel and is passed
on. -/
def autoCalculateLoop (sqrt : Dbl → Dbl)
    (recurse : Spreadsheet → Visited → Int × Int → Except Err (Spreadsheet × Visited))
    (coordinate : Int × Int) :
    List (Nat × Nat) → Spreadsheet × Visited → Except Err (Spreadsheet × Visited)
  | [], s => .ok s
  | (i, j) :: rest, (g, visited) =>
    match g.getCell i j with
    | .error e => .error e
    | .ok cell =>
      match cell.body with
      | .FormulaCell formula _ dependentCells =>
        if coordinate ∈ dependentCells ∧ formula ≠ [] ∧ formula.head? = some '=' then
          match parseAndEvaluate sqrt g formula ((i : Int), (j : Int)) [] with
          | .error e =>
            if e.isException then autoCalculateLoop sqrt recurse coordinate rest (g, visited)
            else .error e
          | .ok (newValue, newDependentCells) =>
            let g1 := g.assign i j
              { cell with body := .FormulaCell formula newValue (dependentCells ++ newDependentCells) }
            match recurse g1 visited ((i : Int), (j : Int)) with
            | .error e => .error e
            | .ok s => autoCalculateLoop sqrt recurse coordinate rest s
        else autoCalculateLoop sqrt recurse coordinate rest (g, visited)
      | _ => autoCalculateLoop sqrt recurse coordinate rest (g, visited)

/-- `FormulaParser::autoCalculate`, with the static set `visited` as part of
the state; `fuel` bounds the depth of the recursion. -/
def autoCalculate (sqrt : Dbl → Dbl) :
    Nat → Spreadsheet → Visited → Int × Int → Except Err (Spreadsheet × Visited)
  | 0, _, _, _ => .error .outOfFuel
  | fuel + 1, g, visited, coordinate =>
    if coordinate ∈ visited then .ok (g, visited)
    else
      match autoCalculateLoop sqrt (autoCalculate sqrt fuel) coordinate
          (gridIndices g.getRowCount g.getColCount) (g, stdSetInsert coordinate visited) with
      | .error e => .error e
      | .ok (g2, visited2) => .ok (g2, stdSetErase coordinate visited2)

/-- One row of fresh cells `StringValueCell(i, j, "")` for `j` in `cols`. -/
def freshCells (i : Int) (cols : List Nat) : Except Err (List Cell) :=
  cols.mapM fun (j : Nat) => Cell.new i (j : Int) (.StringValueCell [])

/-- `Spreadsheet::Spreadsheet(rows, cols)`: each row is created with capacity
`cols` (which must be positive) and filled with empty string cells. -/
def Spreadsheet.new (rows cols : Int) : Except Err Spreadsheet := do
  let rowsList ← (List.range rows.toNat).mapM fun (i : Nat) =>
    if cols ≤ 0 then (.error .capacityNotPositive : Except Err (List Cell))
    else freshCells (i : Int) (List.range cols.toNat)
  pure { cells := rowsList }

/-- `Spreadsheet::expand`: first new rows of the current width, then new
columns on every row. -/
def Spreadsheet.expand (g : Spreadsheet) (newRowCount newColCount : Int) :
    Except Err Spreadsheet := do
  let currentRowCount := g.getRowCount
  let currentColCount := g.getColCount
  let newRows ← (List.range' currentRowCount (newRowCount.toNat - currentRowCount)).mapM fun (i : Nat) =>
    if (currentColCount : Int) ≤ 0 then (.error .capacityNotPositive : Except Err (List Cell))
    else freshCells (i : Int) (List.range currentColCount)
  let rows1 := g.cells ++ newRows
  let rows2 ← rows1.enum.mapM fun (i, row) => do
    let extra ← freshCells (i : Int)
      (List.range' currentColCount (newColCount.toNat - currentColCount))
    pure (row ++ extra)
  pure { cells := rows2 }

end Rev2

/-! ## First revision: cells and the grid -/

namespace Rev1

/-- `CellContent = variant<monostate, int, double, string>`. -/
inductive CellContent where
  | monostate
  | int (val : Int)
  | double (val : Dbl)
  | string (val : Str)
  deriving DecidableEq

/-- A `Cell` object of the first revision. -/
structure Cell where
  content : CellContent
  formula : Str
  letterRepresentation : Str
  row : Int
  col : Int
  dependentCells : Deps
  deriving DecidableEq

/-- `Cell::Cell(r, c)` followed by
`setLetterRepresentation(getLetterTransformation())`, as the constructor of the
spreadsheet does for every cell. -/
def Cell.new (r c : Int) : Cell :=
  { content := .monostate, formula := [], letterRepresentation := cellLabel r c,
    row := r, col := c, dependentCells := [] }

/-- The numeric reading of a content used by the evaluator: the value of a
`double` or `int`, nothing for text and for an empty cell. -/
def CellContent.numeric? : CellContent → Option Dbl
  | .double val => some val
  | .int val => some (Dbl.ofInt val)
  | _ => none

/-- The `Spreadsheet` object: the rows of cells. -/
structure Spreadsheet where
  cells : List (List Cell)
  deriving DecidableEq

namespace Spreadsheet

/-- `Spreadsheet::getRowCount`. -/
def getRowCount (g : Spreadsheet) : Nat := g.cells.length

/-- `Spreadsheet::getColCount`: the size of row 0. -/
def getColCount (g : Spreadsheet) : Nat := (g.cells.headD []).length

/-- The unchecked access `cells[r][c]`. -/
def cellAt (g : Spreadsheet) (r c : Nat) : Option Cell :=
  match g.cells[r]? with
  | some row => row[c]?
  | none => none

/-- `Spreadsheet::getCell`: throws unless `0 <= r < rows` and `0 <= c < cols`. -/
def getCell (g : Spreadsheet) (r c : Int) : Except Err Cell :=
  if 0 ≤ r ∧ r < (g.getRowCount : Int) ∧ 0 ≤ c ∧ c < (g.getColCount : Int) then
    match g.cellAt r.toNat c.toNat with
    | some cell => .ok cell
    | none => .error .undefinedBehaviour
  else .error .cellOutOfRange

/-- The assignment to the object `cells[r][c]`. -/
def assign (g : Spreadsheet) (r c : Nat) (cell : Cell) : Spreadsheet :=
  { cells := g.cells.modify (fun row => row.set c cell) r }

/-- `Spreadsheet::Spreadsheet(r, c)`. -/
def new (r c : Int) : Except Err Spreadsheet :=
  if r < 1 ∨ c < 1 then .error .invalidSheetSize
  else .ok { cells := (List.range r.toNat).map fun (i : Nat) =>
    (List.range c.toNat).map fun (j : Nat) => Cell.new (i : Int) (j : Int) }

/-- The cells `getCell(i, j)` for the index pairs of a list, in order; the first
failing access raises. -/
def getCells (g : Spreadsheet) : List (Int × Int) → Except Err (List Cell)
  | [] => .ok []
  | (i, j) :: rest =>
    match g.getCell i j with
    | .error e => .error e
    | .ok cell =>
      match getCells g rest with
      | .error e => .error e
      | .ok cells => .ok (cell :: cells)

/-- The index pairs visited by the loops of `Spreadsheet::getCellsInRange`:
after ordering the two corners, row `i` runs from `startCol` (on the first
row, else from 0) to `endCol` (on the last row, else to the last column). -/
def rangeIndices (colCount : Nat) (startPos endPos : Int × Int) : List (Int × Int) :=
  let startRow := if startPos.1 > endPos.1 then endPos.1 else startPos.1
  let endRow := if startPos.1 > endPos.1 then startPos.1 else endPos.1
  let startCol := if startPos.2 > endPos.2 then endPos.2 else startPos.2
  let endCol := if startPos.2 > endPos.2 then startPos.2 else endPos.2
  (intRange startRow endRow).flatMap fun i =>
    let colStart := if i = startRow then startCol else 0
    let colEnd := if i = endRow then endCol else (colCount : Int) - 1
    (intRange colStart colEnd).map fun j => (i, j)

/-- `Spreadsheet::getCellsInRange`. -/
def getCellsInRange (g : Spreadsheet) (startPos endPos : Int × Int) : Except Err (List Cell) :=
  g.getCells (rangeIndices g.getColCount startPos endPos)

end Spreadsheet

/-! ## First revision: the evaluator -/

/-- The scan of `FormulaParser::getCellReference` over the index pairs, reading
the labels through the unchecked `getLetterRepresentation(i, j)`. -/
def getCellReferenceLoop (g : Spreadsheet) (str : Str) : List (Nat × Nat) → Except Err (Int × Int)
  | [] => .ok (-1, -1)
  | (i, j) :: rest =>
    match g.cellAt i j with
    | none => .error .undefinedBehaviour
    | some cell =>
      if str = cell.letterRepresentation then .ok ((i : Int), (j : Int))
      else getCellReferenceLoop g str rest

/-- `FormulaParser::getCellReference`. -/
def getCellReference (g : Spreadsheet) (token : Str) : Except Err (Int × Int) :=
  getCellReferenceLoop g (removeSpaces token) (gridIndices g.getRowCount g.getColCount)

/-- `FormulaParser::isValidRange`. -/
def isValidRange (g : Spreadsheet) (range : Str) : Except Err Bool :=
  let dotPos := findStr range "..".toList
  if dotPos = npos then .ok false
  else do
    let startCell ← substr range 0 dotPos
    let endCell ← substr range ((dotPos + 2) % 2 ^ 64) npos
    let s ← getCellReference g startCell
    if s ≠ (-1, -1) then
      let e ← getCellReference g endCell
      pure (decide (e ≠ (-1, -1)))
    else pure false

/-- `FormulaParser::getFunctionType`. -/
def getFunctionType (g : Spreadsheet) (token : Str) : Except Err FunctionType :=
  let str := removeSpaces token
  let openParenPos := findChar str '('
  let closeParenPos := findChar str ')'
  if openParenPos ≠ npos ∧ closeParenPos ≠ npos ∧ closeParenPos > openParenPos then do
    let range ← substr str ((openParenPos + 1) % 2 ^ 64) (closeParenPos - openParenPos - 1)
    if (← isValidRange g range) then
      let funcName ← substr str 0 openParenPos
      if funcName = "SUM".toList then pure .SUM
      else if funcName = "AVER".toList then pure .AVER
      else if funcName = "STDDEV".toList then pure .STDDEV
      else if funcName = "MAX".toList then pure .MAX
      else if funcName = "MIN".toList then pure .MIN
      else pure .INVALID
    else pure .INVALID
  else .ok .INVALID

/-- `FormulaParser::SUM`: numeric cells are added, the others skipped. -/
def SUM (g : Spreadsheet) (startPos endPos : Int × Int) (uniqueDependents : Deps) :
    Except Err (Dbl × Deps) :=
  match g.getCellsInRange startPos endPos with
  | .error e => .error e
  | .ok cellsInRange =>
    .ok (cellsInRange.foldl
      (fun acc cell =>
        (match cell.content.numeric? with
          | some val => acc.1.add val
          | none => acc.1,
         stdSetInsert (cell.row, cell.col) acc.2))
      (Dbl.fin 0, uniqueDependents))

/-- `FormulaParser::AVER`: the sum of the numeric cells over their number. -/
def AVER (g : Spreadsheet) (startPos endPos : Int × Int) (uniqueDependents : Deps) :
    Except Err (Dbl × Deps) :=
  match g.getCellsInRange startPos endPos with
  | .error e => .error e
  | .ok cellsInRange =>
    if cellsInRange = [] then .ok (Dbl.fin 0, uniqueDependents)
    else
      let r := cellsInRange.foldl
        (fun (acc : Dbl × Int × Deps) cell =>
          (match cell.content.numeric? with
            | some val => acc.1.add val
            | none => acc.1,
           match cell.content.numeric? with
            | some _ => acc.2.1 + 1
            | none => acc.2.1,
           stdSetInsert (cell.row, cell.col) acc.2.2))
        (Dbl.fin 0, 0, uniqueDependents)
      if r.2.1 = 0 then .ok (Dbl.fin 0, r.2.2)
      else .ok (r.1.div (Dbl.ofInt r.2.1), r.2.2)

/-- `FormulaParser::STDDEV`: every cell of the rectangle counts, a non-numeric
one as `0.0`; `sqrt` is the library function. -/
def STDDEV (sqrt : Dbl → Dbl) (g : Spreadsheet) (startPos endPos : Int × Int)
    (uniqueDependents : Deps) : Except Err (Dbl × Deps) :=
  let idx := rectIndices startPos endPos
  match g.getCells idx with
  | .error e => .error e
  | .ok cells =>
    let deps := idx.foldl (fun acc pos => stdSetInsert pos acc) uniqueDependents
    let values := cells.map fun cell => (cell.content.numeric?).getD (Dbl.fin 0)
    let sum := values.foldl Dbl.add (Dbl.fin 0)
    let count : Int := values.length
    if count = 0 then .ok (Dbl.fin 0, deps)
    else
      let mean := sum.div (Dbl.ofInt count)
      let varianceSum := values.foldl
        (fun acc value => acc.add ((value.sub mean).mul (value.sub mean))) (Dbl.fin 0)
      let variance := varianceSum.div (Dbl.ofInt count)
      .ok (sqrt variance, deps)

/-- `FormulaParser::MAX`: the largest numeric cell, from minus infinity. -/
def MAX (g : Spreadsheet) (startPos endPos : Int × Int) (uniqueDependents : Deps) :
    Except Err (Dbl × Deps) :=
  let idx := rectIndices startPos endPos
  match g.getCells idx with
  | .error e => .error e
  | .ok cells =>
    .ok (cells.foldl
          (fun maxValue cell =>
            match cell.content.numeric? with
            | some val => Dbl.max maxValue val
            | none => maxValue) Dbl.ninf,
         idx.foldl (fun acc pos => stdSetInsert pos acc) uniqueDependents)

/-- `FormulaParser::MIN`: the smallest numeric cell, from plus infinity. -/
def MIN (g : Spreadsheet) (startPos endPos : Int × Int) (uniqueDependents : Deps) :
    Except Err (Dbl × Deps) :=
  let idx := rectIndices startPos endPos
  match g.getCells idx with
  | .error e => .error e
  | .ok cells =>
    .ok (cells.foldl
          (fun minValue cell =>
            match cell.content.numeric? with
            | some val => Dbl.min minValue val
            | none => minValue) Dbl.pinf,
         idx.foldl (fun acc pos => stdSetInsert pos acc) uniqueDependents)

/-- `FormulaParser::evaluateSingleToken`: a cell reference, else an aggregate
call, else a numeric literal, else an error. -/
def evaluateSingleToken (sqrt : Dbl → Dbl) (g : Spreadsheet) (singleToken : Str)
    (uniqueDependents : Deps) : Except Err (Dbl × Deps) := do
  let coordinates ← getCellReference g singleToken
  if coordinates ≠ (-1, -1) then
    let cell ← g.getCell coordinates.1 coordinates.2
    pure ((cell.content.numeric?).getD (Dbl.fin 0),
          stdSetInsert (cell.row, cell.col) uniqueDependents)
  else
    let func ← getFunctionType g singleToken
    if func ≠ .INVALID then
      let openPos := findChar singleToken '('
      let closePos := findChar singleToken ')'
      let range ← substr singleToken ((openPos + 1) % 2 ^ 64)
        ((closePos + 2 ^ 64 - openPos + 2 ^ 64 - 1) % 2 ^ 64)
      let dotdotPos : Int := sizeToInt (findStr range "..".toList)
      let startCell ← substr range 0 (intToSize dotdotPos)
      let endCell ← substr range (intToSize (dotdotPos + 2)) npos
      let startPos ← getCellReference g startCell
      let endPos ← getCellReference g endCell
      if startPos = (-1, -1) ∨ endPos = (-1, -1) then throw .invalidRangeReference
      else
        match func with
        | .SUM => SUM g startPos endPos uniqueDependents
        | .AVER => AVER g startPos endPos uniqueDependents
        | .STDDEV => STDDEV sqrt g startPos endPos uniqueDependents
        | .MAX => MAX g startPos endPos uniqueDependents
        | .MIN => MIN g startPos endPos uniqueDependents
        | .INVALID => pure (Dbl.fin 0, uniqueDependents)
    else if isValue singleToken then
      match stod singleToken with
      | .ok (v, _) => pure (v, uniqueDependents)
      | .error e => if e.isInvalidArgument then throw .tokenNotValid else throw e
    else throw .tokenInvalid

/-- `FormulaParser::parseAndEvaluate`: the value of the formula; on success the
target cell is given the formula, the sorted list of the cells read and the
value.  The empty string evaluates to `0.0` and changes nothing. -/
def parseAndEvaluate (sqrt : Dbl → Dbl) (g : Spreadsheet) (formula : Str)
    (coordinates : Int × Int) : Except Err (Dbl × Spreadsheet) :=
  if formula = [] then .ok (Dbl.fin 0, g)
  else
    match parsePlusAndMinus (formula.drop 1) with
    | .error e => .error e
    | .ok tokens =>
      if tokens = [] then .ok (Dbl.fin 0, g)
      else
        match parseAndEvaluateLoop (evaluateSingleToken sqrt g) tokens true (Dbl.fin 0) [] with
        | .error e => .error e
        | .ok (result, uniqueDependents) =>
          match g.getCell coordinates.1 coordinates.2 with
          | .error e => .error e
          | .ok cell =>
            .ok (result, g.assign coordinates.1.toNat coordinates.2.toNat
              { cell with formula := formula, dependentCells := uniqueDependents,
                          content := .double result })

/-! ## First revision: entering data and recalculation -/

/-- `Cell::tryParseToInt`: `stoi` succeeds and uses the whole input. -/
def tryParseToInt (input : Str) : Option Int :=
  match stoi input with
  | .ok (v, pos) => if pos = input.length then some v else none
  | .error _ => none

/-- `Cell::tryParseToDouble`: `stod` succeeds and uses the whole input. -/
def tryParseToDouble (input : Str) : Option Dbl :=
  match stod input with
  | .ok (v, pos) => if pos = input.length then some v else none
  | .error _ => none

/-- The plain overloads `Cell::setContent(string / double / int)` on the cell
at `(r, c)`: only the content changes. -/
def Spreadsheet.setContentPlain (g : Spreadsheet) (r c : Nat) (value : CellContent) :
    Spreadsheet :=
  match g.cellAt r c with
  | some cell => g.assign r c { cell with content := value }
  | none => g

/-- `Cell::setContent(input, parser, cellCoords)` called on the cell object at
`(r, c)`.  A formula is stored and evaluated for `cellCoords`; when the
evaluation fails the formula text itself becomes the content.  Other input
clears the formula and is stored as `int`, `double` or text. -/
def Spreadsheet.setContent (sqrt : Dbl → Dbl) (g : Spreadsheet) (r c : Nat) (input : Str)
    (cellCoords : Int × Int) : Except Err Spreadsheet :=
  match g.cellAt r c with
  | none => .error .undefinedBehaviour
  | some cell =>
    if input ≠ [] ∧ input.head? = some '=' then
      let g1 := g.assign r c { cell with formula := input }
      match parseAndEvaluate sqrt g1 input cellCoords with
      | .ok (result, g2) => .ok (g2.setContentPlain r c (.double result))
      | .error e =>
        if e.isException then .ok (g1.setContentPlain r c (.string input))
        else .error e
    else
      let cell1 := { cell with formula := [] }
      match tryParseToInt input with
      | some intValue =>
        if findChar input '.' = npos then .ok (g.assign r c { cell1 with content := .int intValue })
        else
          match tryParseToDouble input with
          | some doubleValue => .ok (g.assign r c { cell1 with content := .double doubleValue })
          | none => .ok (g.assign r c { cell1 with content := .string input })
      | none =>
        match tryParseToDouble input with
        | some doubleValue => .ok (g.assign r c { cell1 with content := .double doubleValue })
        | none => .ok (g.assign r c { cell1 with content := .string input })

/-- The two nested `for` loops of `FormulaParser::autoCalculate` over the
index pairs; `recurse` is the recursive call.  A failure of `parseAndEvaluate`
is caught and the cell is left as it was.  `autoCalculate` raises no exception
of its own, so an error of the recursive call is undefined behaviour or
exhausted fuel and is passed on. -/
def autoCalculateLoop (sqrt : Dbl → Dbl)
    (recurse : Spreadsheet → Int × Int → Except Err Spreadsheet)
    (coordinate : Int × Int) : List (Nat × Nat) → Spreadsheet → Except Err Spreadsheet
  | [], g => .ok g
  | (i, j) :: rest, g =>
    match g.getCell i j with
    | .error e => .error e
    | .ok cell =>
      if coordinate ∈ cell.dependentCells ∧ cell.formula ≠ [] ∧ cell.formula.head? = some '=' then
        match parseAndEvaluate sqrt g cell.formula ((i : Int), (j : Int)) with
        | .error e =>
          if e.isException then autoCalculateLoop sqrt recurse coordinate rest g
          else .error e
        | .ok (newValue, g1) =>
          match recurse (g1.setContentPlain i j (.double newValue)) ((i : Int), (j : Int)) with
          | .error e => .error e
          | .ok g2 => autoCalculateLoop sqrt recurse coordinate rest g2
      else autoCalculateLoop sqrt recurse coordinate rest g

/-- `FormulaParser::autoCalculate`; `fuel` bounds the depth of the recursion. -/
def autoCalculate (sqrt : Dbl → Dbl) : Nat → Spreadsheet → Int × Int → Except Err Spreadsheet
  | 0, _, _ => .error .outOfFuel
  | fuel + 1, g, coordinate =>
    autoCalculateLoop sqrt (autoCalculate sqrt fuel) coordinate
      (gridIndices g.getRowCount g.getColCount) g

end Rev1

/-! ## Well-formed grids and sample grids -/

/-- The text is empty or ends with `+` or `-`. -/
def endsWithPlusMinus (s : Str) : Prop :=
  s = [] ∨ s.getLast? = some '+' ∨ s.getLast? = some '-'

namespace Rev2

/-- The cell reports the position `(i, j)` and carries its label. -/
def Cell.WFAt (cell : Cell) (i j : Nat) : Prop :=
  cell.row = (i : Int) ∧ cell.col = (j : Int) ∧ cell.letter_rep = cellLabel (i : Int) (j : Int)

instance (cell : Cell) (i j : Nat) : Decidable (cell.WFAt i j) := by
  unfold Cell.WFAt; infer_instance

/-- The representation invariant of the grid: at least one row and one column,
every row of the width of row 0, and every cell at its own position. -/
def Spreadsheet.WF (g : Spreadsheet) : Prop :=
  0 < g.getRowCount ∧ 0 < g.getColCount ∧
  (∀ row ∈ g.cells, row.length = g.getColCount) ∧
  ∀ i < g.getRowCount, ∀ j < g.getColCount, ∃ cell ∈ g.cellAt i j, cell.WFAt i j

instance (g : Spreadsheet) : Decidable g.WF := by
  unfold Spreadsheet.WF; infer_instance

/-- The grid whose cell `(i, j)` has the body `bodies[i][j]`, each cell built
as the constructors build it. -/
def sheetOf (bodies : List (List CellBody)) : Spreadsheet :=
  { cells := bodies.enum.map fun (i, row) => row.enum.map fun (j, body) =>
      { letter_rep := cellLabel (i : Int) (j : Int), row := (i : Int), col := (j : Int),
        body := body } }

end Rev2

namespace Rev1

/-- The cell reports the position `(i, j)` and carries its label. -/
def Cell.WFAt (cell : Cell) (i j : Nat) : Prop :=
  cell.row = (i : Int) ∧ cell.col = (j : Int) ∧
    cell.letterRepresentation = cellLabel (i : Int) (j : Int)

instance (cell : Cell) (i j : Nat) : Decidable (cell.WFAt i j) := by
  unfold Cell.WFAt; infer_instance

/-- The representation invariant of the grid: at least one row and one column,
every row of the width of row 0, and every cell at its own position. -/
def Spreadsheet.WF (g : Spreadsheet) : Prop :=
  0 < g.getRowCount ∧ 0 < g.getColCount ∧
  (∀ row ∈ g.cells, row.length = g.getColCount) ∧
  ∀ i < g.getRowCount, ∀ j < g.getColCount, ∃ cell ∈ g.cellAt i j, cell.WFAt i j

instance (g : Spreadsheet) : Decidable g.WF := by
  unfold Spreadsheet.WF; infer_instance

/-- The grid whose cell `(i, j)` has the content, formula and dependency list
`parts[i][j]`, each cell labelled as the constructor labels it. -/
def sheetOf (parts : List (List (CellContent × Str × Deps))) : Spreadsheet :=
  { cells := parts.enum.map fun (i, row) => row.enum.map fun (j, part) =>
      { content := part.1, formula := part.2.1, letterRepresentation := cellLabel (i : Int) (j : Int),
        row := (i : Int), col := (j : Int), dependentCells := part.2.2 } }

end Rev1

/-! ## Labels, literals and formulas of literals -/

/-- A capital letter `A`..`Z`. -/
def isCapital (c : Char) : Prop := 'A'.toNat ≤ c.toNat ∧ c.toNat ≤ 'Z'.toNat

/-- The first position, in scan order, whose label is `str`; `(-1, -1)` when
there is none. -/
def labelLookupIn (str : Str) : List (Nat × Nat) → Int × Int
  | [] => (-1, -1)
  | (i, j) :: rest =>
    if str = cellLabel (i : Int) (j : Int) then ((i : Int), (j : Int)) else labelLookupIn str rest

/-- The cell that the label `str` names in a grid of the given size. -/
def labelLookup (rows cols : Nat) (str : Str) : Int × Int :=
  labelLookupIn str (gridIndices rows cols)

/-- The decimal digits, or the point. -/
def isLitChar (c : Char) : Prop := isdigit c = true ∨ c = '.'

/-- The number a literal `digits[.digits]` denotes: its integer part plus its
fractional part scaled by the number of fractional digits. -/
def decimalValue (t : Str) : ℚ :=
  let ip := t.takeWhile isdigit
  let fp := (t.dropWhile isdigit).drop 1
  (digitsValue 0 ip : ℚ) + (digitsValue 0 fp : ℚ) / 10 ^ fp.length

/-- A literal the evaluator accepts and can convert: only digits and at most one
point (`isValue`), and at least one digit. -/
def IsLiteral (t : Str) : Prop := isValue t = true ∧ ∃ c ∈ t, isdigit c = true

/-- The multiplicative operators. -/
inductive MulOp where
  | times
  | over
  deriving DecidableEq

/-- The additive operators. -/
inductive AddOp where
  | plus
  | minus
  deriving DecidableEq

/-- The operator character. -/
def MulOp.char : MulOp → Char
  | .times => '*'
  | .over => '/'

/-- The operator character. -/
def AddOp.char : AddOp → Char
  | .plus => '+'
  | .minus => '-'

/-- A product: a literal followed by operators `*` `/` each with a literal. -/
structure Term where
  first : Str
  rest : List (MulOp × Str)

/-- A sum: a product followed by operators `+` `-` each with a product. -/
structure Expr where
  first : Term
  rest : List (AddOp × Term)

/-- The text of a product. -/
def Term.render (t : Term) : Str :=
  t.first ++ t.rest.flatMap fun p => p.1.char :: p.2

/-- The text of a sum. -/
def Expr.render (e : Expr) : Str :=
  e.first.render ++ e.rest.flatMap fun p => p.1.char :: p.2.render

/-- The ordinary value of a product: from the left. -/
def Term.value (t : Term) : ℚ :=
  t.rest.foldl
    (fun acc p => match p.1 with
      | .times => acc * decimalValue p.2
      | .over => acc / decimalValue p.2)
    (decimalValue t.first)

/-- The ordinary value of a sum: products first, then from the left. -/
def Expr.value (e : Expr) : ℚ :=
  e.rest.foldl
    (fun acc p => match p.1 with
      | .plus => acc + p.2.value
      | .minus => acc - p.2.value)
    e.first.value

/-- Every operand is a literal and no divisor is zero. -/
def Term.WellFormed (t : Term) : Prop :=
  IsLiteral t.first ∧ ∀ p ∈ t.rest, IsLiteral p.2 ∧ (p.1 = .over → decimalValue p.2 ≠ 0)

/-- Every product is well formed. -/
def Expr.WellFormed (e : Expr) : Prop :=
  e.first.WellFormed ∧ ∀ p ∈ e.rest, p.2.WellFormed

/-- The literals of a product, in order. -/
def Term.literals (t : Term) : List Str :=
  t.first :: t.rest.map fun p => p.2

/-- The literals of a sum, in order. -/
def Expr.literals (e : Expr) : List Str :=
  e.first.literals ++ e.rest.flatMap fun p => p.2.literals

/-- The results of a product as the evaluation goes from the left: the first
literal, then the value after each operator. -/
def Term.partials (t : Term) : List ℚ :=
  t.rest.scanl
    (fun acc p => match p.1 with
      | .times => acc * decimalValue p.2
      | .over => acc / decimalValue p.2)
    (decimalValue t.first)

/-- The results of a sum as the evaluation goes from the left: the first
product, then the value after each operator. -/
def Expr.partials (e : Expr) : List ℚ :=
  e.rest.scanl
    (fun acc p => match p.1 with
      | .plus => acc + p.2.value
      | .minus => acc - p.2.value)
    e.first.value

/-- Every literal and every intermediate result of the product is a finite
value of binary64, so that no step of its evaluation rounds or overflows. -/
def Term.Exact (t : Term) : Prop :=
  (∀ lit ∈ t.literals, Dbl.Representable (decimalValue lit)) ∧
  ∀ q ∈ t.partials, Dbl.Representable q

/-- Every product is exact and every intermediate result of the sum is a
finite value of binary64. -/
def Expr.Exact (e : Expr) : Prop :=
  e.first.Exact ∧ (∀ p ∈ e.rest, p.2.Exact) ∧ ∀ q ∈ e.partials, Dbl.Representable q

/-- The tokens of a product. -/
def Term.tokens (t : Term) : List Str :=
  t.first :: t.rest.flatMap fun p => [[p.1.char], p.2]

/-- The tokens of a sum. -/
def Expr.tokens (e : Expr) : List Str :=
  e.first.render :: e.rest.flatMap fun p => [[p.1.char], p.2.render]

/-- A grid of the first revision with `A1 = 10`, `B1 = 5` and an empty `C1`. -/
def Rev1.sheetA : Rev1.Spreadsheet :=
  Rev1.sheetOf [[(.int 10, [], []), (.int 5, [], []), (.monostate, [], [])]]

/-- A grid of the second revision with `A1 = 10`, `B1 = 5` and an empty `C1`. -/
def Rev2.sheetA : Rev2.Spreadsheet :=
  Rev2.sheetOf [[.IntValueCell 10, .IntValueCell 5, .StringValueCell []]]

/-- The formula `2+3*4`. -/
def exprA : Expr :=
  { first := { first := "2".toList, rest := [] },
    rest := [(.plus, { first := "3".toList, rest := [(.times, "4".toList)] })] }

/-- The formula `8/2/2`. -/
def exprB : Expr :=
  { first := { first := "8".toList, rest := [(.over, "2".toList), (.over, "2".toList)] },
    rest := [] }

/-- The formula `8/2*3`. -/
def exprC : Expr :=
  { first := { first := "8".toList, rest := [(.over, "2".toList), (.times, "3".toList)] },
    rest := [] }

/-- The literal `1` followed by 309 zeros: the number `10^309`, above the range
of `double`. -/
def hugeLiteral : Str := '1' :: List.replicate 309 '0'

/-- The formula that consists of the literal `hugeLiteral` alone. -/
def exprHuge : Expr := { first := { first := hugeLiteral, rest := [] }, rest := [] }

instance (t : Str) : Decidable (IsLiteral t) := by
  unfold IsLiteral; infer_instance

instance (t : Term) : Decidable t.WellFormed := by
  unfold Term.WellFormed; infer_instance

instance (e : Expr) : Decidable e.WellFormed := by
  unfold Expr.WellFormed; infer_instance

instance (t : Term) : Decidable t.Exact := by
  unfold Term.Exact; infer_instance

instance (e : Expr) : Decidable e.Exact := by
  unfold Expr.Exact; infer_instance

/-- A grid of the first revision in which C1 holds the formula `=A1+B1`. -/
def Rev1.sheetC : Rev1.Spreadsheet :=
  Rev1.sheetOf [[(.int 10, [], []), (.int 5, [], []),
    (.double (Dbl.fin 15), "=A1+B1".toList, [(0, 0), (0, 1)])]]

/-- A grid of the second revision in which C1 holds the formula `=A1+B1`. -/
def Rev2.sheetC : Rev2.Spreadsheet :=
  Rev2.sheetOf [[.IntValueCell 10, .IntValueCell 5,
    .FormulaCell "=A1+B1".toList (Dbl.fin 15) [(0, 0), (0, 1)]]]

/-- The grid of the first revision reached by entering `=B1` into A1 and then
`=A1` into B1: both hold 0 and each lists the other as its dependency. -/
def Rev1.sheetCyc : Rev1.Spreadsheet :=
  Rev1.sheetOf [[(.double (Dbl.fin 0), "=B1".toList, [(0, 1)]),
                 (.double (Dbl.fin 0), "=A1".toList, [(0, 0)])]]

/-! ## Absence of undefined behaviour, and the measure of the recalculation -/

/-- The computation returns or raises an exception: it neither runs into
undefined behaviour nor out of fuel. -/
def NoUB {α : Type} (x : Except Err α) : Prop :=
  ∀ e, x = .error e → e.isException = true

/-- The number of grid positions that are not in the in-progress set. -/
def notVisited (rows cols : Nat) (visited : Deps) : Nat :=
  ((gridIndices rows cols).filter fun p => decide (((p.1 : Int), (p.2 : Int)) ∉ visited)).length

namespace Rev2

/-- What termination needs of a grid: well formed, of the given size. -/
def Sized (rows cols : Nat) (g : Spreadsheet) : Prop :=
  g.WF ∧ g.getRowCount = rows ∧ g.getColCount = cols

end Rev2

/-- The grid of the second revision in which A1 holds `=B1` and B1 holds `=A1`,
each listing the other as its dependency. -/
def Rev2.sheetCyc : Rev2.Spreadsheet :=
  Rev2.sheetOf [[.FormulaCell "=B1".toList (Dbl.fin 0) [(0, 1)],
                 .FormulaCell "=A1".toList (Dbl.fin 0) [(0, 0)]]]

/-! ## The values a formula reads (second revision) -/

/-- The coordinate is a position of a grid of the given size. -/
def InGrid (rows cols : Nat) (p : Int × Int) : Prop :=
  0 ≤ p.1 ∧ p.1 < (rows : Int) ∧ 0 ≤ p.2 ∧ p.2 < (cols : Int)

namespace Rev2

/-- The number the evaluator reads from the cell at a coordinate (0 when there
is no such cell). -/
def Spreadsheet.valueAt (g : Spreadsheet) (p : Int × Int) : Dbl :=
  match g.getCell p.1 p.2 with
  | .ok cell => cell.getCellValueAsDouble
  | .error _ => Dbl.fin 0

/-- The two grids hold the same number at every coordinate of the list. -/
def AgreeOn (g g2 : Spreadsheet) (ds : Deps) : Prop :=
  ∀ d ∈ ds, g.valueAt d = g2.valueAt d

/-- The two grids have the same size. -/
def SameSize (g g2 : Spreadsheet) : Prop :=
  g.getRowCount = g2.getRowCount ∧ g.getColCount = g2.getColCount

end Rev2

/-- The dependencies after `spc::myset::insert` of every coordinate of a list. -/
def mysetInsertAll (idx : List (Int × Int)) (deps : Deps) : Deps :=
  idx.foldl (fun acc pos => mysetInsert pos acc) deps

namespace Rev2

/-- The population standard deviation of a list of values, as `STDDEV` computes
it. -/
def stddevOf (sqrt : Dbl → Dbl) (values : List Dbl) : Dbl :=
  if (values.length : Int) = 0 then Dbl.fin 0
  else
    let mean := (values.foldl Dbl.add (Dbl.fin 0)).div (Dbl.ofInt values.length)
    sqrt ((values.foldl (fun acc value => acc.add ((value.sub mean).mul (value.sub mean)))
      (Dbl.fin 0)).div (Dbl.ofInt values.length))

end Rev2

/-! ## Dependencies and consistency of a grid (second revision) -/

namespace Rev2

/-- The formula, value and dependency list of the formula cell at `(i, j)`, if
the cell there is a formula cell. -/
def Spreadsheet.formulaAt (g : Spreadsheet) (i j : Nat) : Option (Str × Dbl × Deps) :=
  match g.cellAt i j with
  | some cell =>
    match cell.body with
    | .FormulaCell formula value deps => some (formula, value, deps)
    | _ => none
  | none => none

/-- `q` depends on `p`: `q` is a formula cell whose stored dependency list
contains `p`. -/
def DependsOn (g : Spreadsheet) (p q : Int × Int) : Prop :=
  ∃ (i j : Nat) (f : Str) (v : Dbl) (d : Deps),
    q = ((i : Int), (j : Int)) ∧ g.formulaAt i j = some (f, v, d) ∧ p ∈ d

end Rev2

namespace Rev2

end Rev2

/-! ## The values a formula reads (first revision) -/

/-- The dependencies after `std::set::insert` of every coordinate of a list. -/
def stdSetInsertAll (idx : List (Int × Int)) (deps : Deps) : Deps :=
  idx.foldl (fun acc pos => stdSetInsert pos acc) deps

/-- The sum with one more cell: a cell without a number is skipped. -/
def addOpt (acc : Dbl) (o : Option Dbl) : Dbl :=
  match o with
  | some val => acc.add val
  | none => acc

/-- The count with one more cell: a cell without a number is skipped. -/
def countOpt (acc : Int) (o : Option Dbl) : Int :=
  match o with
  | some _ => acc + 1
  | none => acc

/-- The maximum with one more cell: a cell without a number is skipped. -/
def maxOpt (acc : Dbl) (o : Option Dbl) : Dbl :=
  match o with
  | some val => Dbl.max acc val
  | none => acc

/-- The minimum with one more cell: a cell without a number is skipped. -/
def minOpt (acc : Dbl) (o : Option Dbl) : Dbl :=
  match o with
  | some val => Dbl.min acc val
  | none => acc

namespace Rev1

/-- The number the evaluator reads from the cell at a coordinate, if the cell
holds one. -/
def Spreadsheet.numAt (g : Spreadsheet) (p : Int × Int) : Option Dbl :=
  match g.getCell p.1 p.2 with
  | .ok cell => cell.content.numeric?
  | .error _ => none

/-- The two grids hold the same number, or both none, at every coordinate of the
list. -/
def AgreeOn (g g2 : Spreadsheet) (ds : Deps) : Prop :=
  ∀ d ∈ ds, g.numAt d = g2.numAt d

/-- The two grids have the same size. -/
def SameSize (g g2 : Spreadsheet) : Prop :=
  g.getRowCount = g2.getRowCount ∧ g.getColCount = g2.getColCount

end Rev1

/-! ## Dependencies and consistency of a grid (first revision) -/

namespace Rev1

/-- The value of a non-empty formula and the cells it reads, as
`parseAndEvaluate` computes them before it updates the target cell. -/
def evalFormula (sqrt : Dbl → Dbl) (g : Spreadsheet) (formula : Str) : Except Err (Dbl × Deps) :=
  match parsePlusAndMinus (formula.drop 1) with
  | .error e => .error e
  | .ok tokens => parseAndEvaluateLoop (evaluateSingleToken sqrt g) tokens true (Dbl.fin 0) []

/-- The formula, content and dependency list of the cell at `(i, j)`, if the
cell there has a formula. -/
def Spreadsheet.formulaAt (g : Spreadsheet) (i j : Nat) : Option (Str × CellContent × Deps) :=
  match g.cellAt i j with
  | some cell =>
    if cell.formula = [] then none else some (cell.formula, cell.content, cell.dependentCells)
  | none => none

/-- `q` depends on `p`: `q` is a formula cell whose stored dependency list
contains `p`. -/
def DependsOn (g : Spreadsheet) (p q : Int × Int) : Prop :=
  ∃ (i j : Nat) (f : Str) (c : CellContent) (d : Deps),
    q = ((i : Int), (j : Int)) ∧ g.formulaAt i j = some (f, c, d) ∧ p ∈ d

/-- `q` reads `p`: `q` is a formula cell whose formula reads `p` when it is
evaluated. -/
def Reads (sqrt : Dbl → Dbl) (g : Spreadsheet) (p q : Int × Int) : Prop :=
  ∃ (i j : Nat) (f : Str) (c : CellContent) (d : Deps) (v : Dbl) (ds : Deps),
    q = ((i : Int), (j : Int)) ∧ g.formulaAt i j = some (f, c, d) ∧
    evalFormula sqrt g f = .ok (v, ds) ∧ p ∈ ds

end Rev1

/-! ## Sample grids for the aggregates -/

/-- A 2 x 3 grid of the first revision: A1 holds text, B1 = 1, C1 = 100, A2 = 2,
B2 = 3 and C2 is empty. -/
def Rev1.sheetW : Rev1.Spreadsheet :=
  Rev1.sheetOf [[(.string "x".toList, [], []), (.int 1, [], []), (.int 100, [], [])],
                [(.int 2, [], []), (.int 3, [], []), (.monostate, [], [])]]

/-- A 2 x 3 grid of the second revision: A1 holds text, B1 = 1, C1 = 100, A2 = 2,
B2 = 3 and C2 is empty. -/
def Rev2.sheetW : Rev2.Spreadsheet :=
  Rev2.sheetOf [[.StringValueCell "x".toList, .IntValueCell 1, .IntValueCell 100],
                [.IntValueCell 2, .IntValueCell 3, .StringValueCell []]]

/-- The grid `Rev2.sheetC` after 20 was entered into A1. -/
def Rev2.sheetC20 : Rev2.Spreadsheet :=
  Rev2.sheetOf [[.IntValueCell 20, .IntValueCell 5,
    .FormulaCell "=A1+B1".toList (Dbl.fin 15) [(0, 0), (0, 1)]]]

/-- The grid `Rev1.sheetC` after 20 was entered into A1. -/
def Rev1.sheetC20 : Rev1.Spreadsheet :=
  Rev1.sheetOf [[(.int 20, [], []), (.int 5, [], []),
    (.double (Dbl.fin 15), "=A1+B1".toList, [(0, 0), (0, 1)])]]

/-- The value returned by a call of `parseAndEvaluate` of the first revision
together with the dependency list it stored in the cell at `(i, j)`. -/
def Rev1.valueAndDeps (r : Except Err (Dbl × Rev1.Spreadsheet)) (i j : Nat) :
    Except Err (Dbl × Deps) :=
  r.map fun p => (p.1, ((p.2.cellAt i j).map fun cell => cell.dependentCells).getD [])

/-- The sum of a list of values divided by their number; `0.0` for no value. -/
def meanOf (values : List Dbl) : Dbl :=
  if values = [] then Dbl.fin 0
  else (values.foldl Dbl.add (Dbl.fin 0)).div (Dbl.ofInt values.length)

/-- A 1 x 3 grid of the first revision holding 4, 8 and a text. -/
def Rev1.sheetT : Rev1.Spreadsheet :=
  Rev1.sheetOf [[(.int 4, [], []), (.int 8, [], []), (.string "x".toList, [], [])]]

/-- A 1 x 3 grid of the second revision holding 4, 8 and a text. -/
def Rev2.sheetT : Rev2.Spreadsheet :=
  Rev2.sheetOf [[.IntValueCell 4, .IntValueCell 8, .StringValueCell "x".toList]]

/-- The 1 x 2 grid of the first revision as its constructor leaves it. -/
def Rev1.sheetFresh : Rev1.Spreadsheet :=
  Rev1.sheetOf [[(.monostate, [], []), (.monostate, [], [])]]

/-- The 1 x 2 grid of the second revision as its constructor leaves it. -/
def Rev2.sheetFresh : Rev2.Spreadsheet :=
  Rev2.sheetOf [[.StringValueCell [], .StringValueCell []]]

instance (rows cols : Nat) (p : Int × Int) : Decidable (InGrid rows cols p) := by
  unfold InGrid; infer_instance

/-! ## The evaluation of a formula as a transition of the state -/

namespace Rev1

/-- `FormulaParser::parseAndEvaluate` as a transition of the grid: the grid when
the call ends, by a return or by an exception, and the outcome.  The tokenizers
and the evaluators called before the last three statements only read the grid;
`getCell` can still throw, and `setFormula` and `setContent` are the writes. -/
def parseAndEvaluateRun (sqrt : Dbl → Dbl) (g : Spreadsheet) (formula : Str)
    (coordinates : Int × Int) : Spreadsheet × Except Err Dbl :=
  if formula = [] then (g, .ok (Dbl.fin 0))
  else
    match parsePlusAndMinus (formula.drop 1) with
    | .error e => (g, .error e)
    | .ok tokens =>
      if tokens = [] then (g, .ok (Dbl.fin 0))
      else
        match parseAndEvaluateLoop (evaluateSingleToken sqrt g) tokens true (Dbl.fin 0) [] with
        | .error e => (g, .error e)
        | .ok (result, uniqueDependents) =>
          match g.getCell coordinates.1 coordinates.2 with
          | .error e => (g, .error e)
          | .ok cell =>
            (g.assign coordinates.1.toNat coordinates.2.toNat
              { cell with formula := formula, dependentCells := uniqueDependents,
                          content := .double result }, .ok result)

end Rev1

namespace Rev2

/-- `FormulaParser::parseAndEvaluate` as a transition: the grid and the vector
`dependentCells` of the caller when the call ends, by a return or by an
exception, and the outcome.  Nothing writes to the grid; the vector is appended
to by the last loop, after the last statement that can throw. -/
def parseAndEvaluateRun (sqrt : Dbl → Dbl) (g : Spreadsheet) (formula : Str)
    (_coordinates : Int × Int) (dependentCells : Deps) :
    (Spreadsheet × Deps) × Except Err Dbl :=
  if formula = [] then ((g, dependentCells), .error .emptyFormulaInput)
  else
    match parsePlusAndMinus (formula.drop 1) with
    | .error e => ((g, dependentCells), .error e)
    | .ok tokens =>
      if tokens = [] then ((g, dependentCells), .error .emptyTokens)
      else
        match parseAndEvaluateLoop (evaluateSingleToken sqrt g) tokens true (Dbl.fin 0) [] with
        | .error e => ((g, dependentCells), .error e)
        | .ok (result, uniqueDependents) =>
          ((g, dependentCells ++ uniqueDependents), .ok result)

end Rev2

/-! ## The number a label denotes -/

/-- The column number a run of capital letters denotes, plus one: `A` is 1,
`Z` is 26, `AA` is 27; continues from `acc`. -/
def lettersValue (acc : Nat) : Str → Nat
  | [] => acc
  | c :: cs => lettersValue (acc * 26 + (c.toNat - 'A'.toNat + 1)) cs

/-! ## The set container `spc::myset` -/

namespace spc

/-- `spc::myset<T>`: the member `elements`, a `myvec<T>`, as the list of the
elements it holds, in the order of `begin()` to `end()`. -/
structure myset (α : Type) where
  elements : List α

end spc

namespace spc.myset

/-- `myset() = default`: the vector is empty. -/
def new {α : Type} : myset α := ⟨[]⟩

/-- `myset::insert`: `push_back` unless `std::find` finds the value. -/
def insert {α : Type} [DecidableEq α] (s : myset α) (value : α) : myset α :=
  if value ∈ s.elements then s else ⟨s.elements ++ [value]⟩

/-- `myset::find`. -/
def find {α : Type} [DecidableEq α] (s : myset α) (value : α) : Bool :=
  decide (value ∈ s.elements)

end spc.myset

namespace Rev2

/-- The cell `std::make_unique<StringValueCell>(i, j, "")` for indices that are
not negative. -/
def freshCell (i j : Nat) : Cell :=
  { letter_rep := cellLabel (i : Int) (j : Int), row := (i : Int), col := (j : Int),
    body := .StringValueCell [] }

/-- The rows after `expand(newRowCount, newColCount)` on a grid with at least one
column, in closed form: the old rows followed by new rows of the old width,
each then extended up to the new width. -/
def Spreadsheet.expandedCells (g : Spreadsheet) (newRowCount newColCount : Int) :
    List (List Cell) :=
  (g.cells ++ (List.range' g.getRowCount (newRowCount.toNat - g.getRowCount)).map
      fun (i : Nat) => (List.range g.getColCount).map (freshCell i)).enum.map
    fun p => p.2 ++ (List.range' g.getColCount (newColCount.toNat - g.getColCount)).map
      (freshCell p.1)

end Rev2

/-- The record of a recalculation: for each call of `parseAndEvaluate` made by
`autoCalculate`, in order, the cell it was made for and whether it returned.
The calls that failed are those reported on `std::cerr`. -/
abbrev Attempts := List ((Int × Int) × Bool)

namespace Rev2

/-- The loops of `autoCalculate` as in `autoCalculateLoop`, keeping the record
of the calls of `parseAndEvaluate`. -/
def autoCalculateLoopLog (sqrt : Dbl → Dbl)
    (recurse : Spreadsheet → Visited → Attempts → Int × Int →
      Except Err (Spreadsheet × Visited × Attempts))
    (coordinate : Int × Int) :
    List (Nat × Nat) → Spreadsheet × Visited × Attempts →
      Except Err (Spreadsheet × Visited × Attempts)
  | [], s => .ok s
  | (i, j) :: rest, (g, visited, log) =>
    match g.getCell i j with
    | .error e => .error e
    | .ok cell =>
      match cell.body with
      | .FormulaCell formula _ dependentCells =>
        if coordinate ∈ dependentCells ∧ formula ≠ [] ∧ formula.head? = some '=' then
          match parseAndEvaluate sqrt g formula ((i : Int), (j : Int)) [] with
          | .error e =>
            if e.isException then
              autoCalculateLoopLog sqrt recurse coordinate rest
                (g, visited, log ++ [(((i : Int), (j : Int)), false)])
            else .error e
          | .ok (newValue, newDependentCells) =>
            let g1 := g.assign i j
              { cell with body := .FormulaCell formula newValue (dependentCells ++ newDependentCells) }
            match recurse g1 visited (log ++ [(((i : Int), (j : Int)), true)])
                ((i : Int), (j : Int)) with
            | .error e => .error e
            | .ok s => autoCalculateLoopLog sqrt recurse coordinate rest s
        else autoCalculateLoopLog sqrt recurse coordinate rest (g, visited, log)
      | _ => autoCalculateLoopLog sqrt recurse coordinate rest (g, visited, log)

/-- `FormulaParser::autoCalculate` as in `autoCalculate`, keeping the record of
the calls of `parseAndEvaluate`. -/
def autoCalculateLog (sqrt : Dbl → Dbl) :
    Nat → Spreadsheet → Visited → Attempts → Int × Int →
      Except Err (Spreadsheet × Visited × Attempts)
  | 0, _, _, _, _ => .error .outOfFuel
  | fuel + 1, g, visited, log, coordinate =>
    if coordinate ∈ visited then .ok (g, visited, log)
    else
      match autoCalculateLoopLog sqrt (autoCalculateLog sqrt fuel) coordinate
          (gridIndices g.getRowCount g.getColCount) (g, stdSetInsert coordinate visited, log) with
      | .error e => .error e
      | .ok (g2, visited2, log2) => .ok (g2, stdSetErase coordinate visited2, log2)

/-- Forgetting the record. -/
def forgetLog (r : Except Err (Spreadsheet × Visited × Attempts)) :
    Except Err (Spreadsheet × Visited) :=
  r.map fun s => (s.1, s.2.1)

end Rev2

namespace Rev1

/-- The loops of `autoCalculate` as in `autoCalculateLoop`, keeping the record
of the calls of `parseAndEvaluate` . -/
def autoCalculateLoopLog (sqrt : Dbl → Dbl)
    (recurse : Spreadsheet → Attempts → Int × Int → Except Err (Spreadsheet × Attempts))
    (coordinate : Int × Int) :
    List (Nat × Nat) → Spreadsheet × Attempts → Except Err (Spreadsheet × Attempts)
  | [], s => .ok s
  | (i, j) :: rest, (g, log) =>
    match g.getCell i j with
    | .error e => .error e
    | .ok cell =>
      if coordinate ∈ cell.dependentCells ∧ cell.formula ≠ [] ∧ cell.formula.head? = some '=' then
        match parseAndEvaluate sqrt g cell.formula ((i : Int), (j : Int)) with
        | .error e =>
          if e.isException then
            autoCalculateLoopLog sqrt recurse coordinate rest
              (g, log ++ [(((i : Int), (j : Int)), false)])
          else .error e
        | .ok (newValue, g1) =>
          match recurse (g1.setContentPlain i j (.double newValue))
              (log ++ [(((i : Int), (j : Int)), true)]) ((i : Int), (j : Int)) with
          | .error e => .error e
          | .ok s => autoCalculateLoopLog sqrt recurse coordinate rest s
      else autoCalculateLoopLog sqrt recurse coordinate rest (g, log)

/-- `FormulaParser::autoCalculate` as in `autoCalculate`, keeping the record of
the calls of `parseAndEvaluate`. -/
def autoCalculateLog (sqrt : Dbl → Dbl) :
    Nat → Spreadsheet → Attempts → Int × Int → Except Err (Spreadsheet × Attempts)
  | 0, _, _, _ => .error .outOfFuel
  | fuel + 1, g, log, coordinate =>
    autoCalculateLoopLog sqrt (autoCalculateLog sqrt fuel) coordinate
      (gridIndices g.getRowCount g.getColCount) (g, log)

end Rev1

/-- The grid of the second revision with A1 = 20, B1 = `=A1` and C1 = `=B1`, the
two formulas holding the value 10 they had when A1 was 10. -/
def Rev2.sheetChain : Rev2.Spreadsheet :=
  Rev2.sheetOf [[.IntValueCell 20, .FormulaCell "=A1".toList (Dbl.fin 10) [(0, 0)],
    .FormulaCell "=B1".toList (Dbl.fin 10) [(0, 1)]]]

/-- The grid of the first revision with A1 = 20, B1 = `=A1` and C1 = `=B1`, the
two formulas holding the value 10 they had when A1 was 10. -/
def Rev1.sheetChain : Rev1.Spreadsheet :=
  Rev1.sheetOf [[(.int 20, [], []), (.double (Dbl.fin 10), "=A1".toList, [(0, 0)]),
    (.double (Dbl.fin 10), "=B1".toList, [(0, 1)])]]

namespace Rev2

/-- The invariant of a recalculation started on the well-formed grid `g0`, with
the record: the grid is well formed and of the size of `g0`; a cell that differs
from the cell of `g0` is recorded as recalculated; and a formula cell of `g0`
whose formula fails to evaluate is as in `g0`. -/
def Tracked (sqrt : Dbl → Dbl) (g0 g : Spreadsheet) (log : Attempts) : Prop :=
  g.WF ∧ SameSize g0 g ∧
  (∀ i j : Nat, g.cellAt i j = g0.cellAt i j ∨ (((i : Int), (j : Int)), true) ∈ log) ∧
  ∀ (i j : Nat) (f : Str) (v : Dbl) (d : Deps), g0.formulaAt i j = some (f, v, d) →
    (∃ e, parseAndEvaluate sqrt g0 f ((i : Int), (j : Int)) [] = .error e) →
    g.cellAt i j = g0.cellAt i j

end Rev2

namespace Rev1

/-- The invariant of a recalculation started on the well-formed grid `g0`, with
the record: the grid is well formed and of the size of `g0`; a cell that differs
from the cell of `g0` is recorded as recalculated; and a formula cell of `g0`
whose formula fails to evaluate is as in `g0`. -/
def Tracked (sqrt : Dbl → Dbl) (g0 g : Spreadsheet) (log : Attempts) : Prop :=
  g.WF ∧ SameSize g0 g ∧
  (∀ i j : Nat, g.cellAt i j = g0.cellAt i j ∨ (((i : Int), (j : Int)), true) ∈ log) ∧
  ∀ (i j : Nat) (f : Str) (c : CellContent) (d : Deps), g0.formulaAt i j = some (f, c, d) →
    (∃ e, parseAndEvaluate sqrt g0 f ((i : Int), (j : Int)) = .error e) →
    g.cellAt i j = g0.cellAt i j

end Rev1

namespace Rev1

/-- During a recalculation `q` may depend on `p`: `q` is a cell with a formula
whose stored dependency list contains `p`, or whose formula reads `p` when it is
evaluated (the list `parseAndEvaluate` stores for it). -/
def MayDepend (sqrt : Dbl → Dbl) (g : Spreadsheet) (p q : Int × Int) : Prop :=
  DependsOn g p q ∨ Reads sqrt g p q

/-- The state of a recalculation started on `g0`, as far as the dependency lists
go: the grid is well formed and of the size of `g0`, and each cell has the
formula it has in `g0` and either the dependency list it has in `g0` or the list
of the cells its formula reads. -/
def Within (sqrt : Dbl → Dbl) (g0 g : Spreadsheet) : Prop :=
  g.WF ∧ SameSize g0 g ∧
  ∀ (i j : Nat) (cell : Cell), g.cellAt i j = some cell →
    ∃ cell0, g0.cellAt i j = some cell0 ∧ cell.formula = cell0.formula ∧
      (cell.dependentCells = cell0.dependentCells ∨
        ∃ v, evalFormula sqrt g0 cell0.formula = .ok (v, cell.dependentCells))

/-- Every stored dependency of a cell with a formula, and every cell its formula
reads, precedes the cell in row-major order. -/
def forwardReadsB (sqrt : Dbl → Dbl) (g : Spreadsheet) : Bool :=
  (gridIndices g.getRowCount g.getColCount).all fun p =>
    match g.formulaAt p.1 p.2 with
    | none => true
    | some (f, _, d) =>
      (d.all fun x => decide (x.1 < (p.1 : Int) ∨ (x.1 = (p.1 : Int) ∧ x.2 < (p.2 : Int)))) &&
      match evalFormula sqrt g f with
      | .ok (_, ds) =>
        ds.all fun x => decide (x.1 < (p.1 : Int) ∨ (x.1 = (p.1 : Int) ∧ x.2 < (p.2 : Int)))
      | .error _ => true

end Rev1

/-- The grid of the second revision with A1 = 20, B1 = `=A1+` (a formula that
fails to evaluate) and C1 = `=A1`, both formula cells listing A1 and holding the
value 10. -/
def Rev2.sheetFail : Rev2.Spreadsheet :=
  Rev2.sheetOf [[.IntValueCell 20, .FormulaCell "=A1+".toList (Dbl.fin 10) [(0, 0)],
    .FormulaCell "=A1".toList (Dbl.fin 10) [(0, 0)]]]

/-- The grid of the first revision with A1 = 20, B1 = `=A1+` (a formula that
fails to evaluate) and C1 = `=A1`, both cells listing A1 and holding the
value 10. -/
def Rev1.sheetFail : Rev1.Spreadsheet :=
  Rev1.sheetOf [[(.int 20, [], []), (.double (Dbl.fin 10), "=A1+".toList, [(0, 0)]),
    (.double (Dbl.fin 10), "=A1".toList, [(0, 0)])]]

/-- The space-stripped text starts with an aggregate call `NAME(x..y)` whose
name is one of the five functions and whose `x` and `y` are labels of cells of
the grid. -/
def StartsWithCall (rows cols : Nat) (s : Str) : Prop :=
  ∃ (name rest : Str) (i1 j1 i2 j2 : Nat),
    name ∈ ["SUM".toList, "AVER".toList, "STDDEV".toList, "MAX".toList, "MIN".toList] ∧
    i1 < rows ∧ j1 < cols ∧ i2 < rows ∧ j2 < cols ∧
    s = name ++ '(' :: (cellLabel (i1 : Int) (j1 : Int) ++ '.' :: '.' ::
          cellLabel (i2 : Int) (j2 : Int)) ++ ')' :: rest

/-! ## Operands, column labels and reachable grids -/

/-- An operand of the additive level: no `+`, no `-` and no space. -/
def IsAddOperand (t : Str) : Prop := ∀ c ∈ t, c ≠ '+' ∧ c ≠ '-' ∧ c ≠ ' '

/-- An operand of the multiplicative level: no `*` and no `/`. -/
def IsMulOperand (t : Str) : Prop := ∀ c ∈ t, c ≠ '*' ∧ c ≠ '/'

/-- The `while (columnIndex > 0)` loop of `Spreadsheet::getColumnLabel` (the
same text in both revisions); `fuel` bounds the number of iterations. -/
def columnLabelLoop : Nat → Int → Str → Str
  | 0, _, label => label
  | fuel + 1, columnIndex, label =>
    if 0 < columnIndex then
      columnLabelLoop fuel ((columnIndex - 1) / 26)
        (Char.ofNat ('A'.toNat + ((columnIndex - 1) % 26).toNat) :: label)
    else label

/-- `Spreadsheet::getColumnLabel`: the letters of the header of column number
`columnIndex`, counted from 1. -/
def getColumnLabel (columnIndex : Int) : Str :=
  columnLabelLoop columnIndex.toNat columnIndex []

namespace Rev2

/-- The grid states reachable from the constructor `Spreadsheet(rows, cols)`
through `enterData` and `expand`. -/
inductive Reachable (sqrt : Dbl → Dbl) : Spreadsheet → Prop
  | new (rows cols : Int) (g : Spreadsheet) :
      Spreadsheet.new rows cols = .ok g → Reachable sqrt g
  | enterData (g g2 : Spreadsheet) (r c : Int) (input : Str) :
      Reachable sqrt g → g.enterData sqrt r c input = .ok g2 → Reachable sqrt g2
  | expand (g g2 : Spreadsheet) (r c : Int) :
      Reachable sqrt g → g.expand r c = .ok g2 → Reachable sqrt g2

end Rev2

/-! ## The vector container `spc::myvec` -/

namespace spc

/-- `spc::myvec<T>`: the slots of the array `data` points to (`none` is a slot
holding a default-initialised value; the empty list stands for `nullptr` and
for an array of length zero) and the fields `size` and `capacity`. -/
structure myvec (T : Type) where
  data : List (Option T)
  size : Int
  capacity : Int
  deriving DecidableEq

end spc

namespace spc.myvec

/-- `new T[n]`: `n` default-initialised slots; a negative `n` throws
`std::bad_array_new_length`. -/
def newArray (T : Type) (n : Int) : Except Err (List (Option T)) :=
  if n < 0 then .error .badArrayNewLength else .ok (List.replicate n.toNat none)

/-- `myvec(int cap)`: throws unless the capacity is positive. -/
def new (T : Type) (cap : Int) : Except Err (myvec T) :=
  if cap ≤ 0 then .error .capacityNotPositive
  else do
    let data ← newArray T cap
    pure { data := data, size := 0, capacity := cap }

/-- `myvec(const myvec &other)`: a new array of `other.capacity` slots whose
first `other.size` slots are copied from `other`; an access outside either
array is undefined behaviour. -/
def copy {T : Type} (other : myvec T) : Except Err (myvec T) := do
  let data ← newArray T other.capacity
  if other.size.toNat ≤ data.length ∧ other.size.toNat ≤ other.data.length then
    pure { data := other.data.take other.size.toNat ++ data.drop other.size.toNat,
           size := other.size, capacity := other.capacity }
  else throw .undefinedBehaviour

/-- `myvec(myvec &&other)`: the new vector takes the three fields; `other` is
left with `nullptr`, size 0 and capacity 0.  The pair is the new vector and
`other` afterwards. -/
def move {T : Type} (other : myvec T) : myvec T × myvec T :=
  (other, { data := [], size := 0, capacity := 0 })

/-- `resize()`: the capacity is doubled (overflow of the `int` is undefined
behaviour) and the first `size` slots are moved to a new array of that
length. -/
def resize {T : Type} (v : myvec T) : Except Err (myvec T) :=
  if v.capacity * 2 < -(2 : Int) ^ 31 ∨ (2 : Int) ^ 31 ≤ v.capacity * 2 then
    .error .undefinedBehaviour
  else do
    let new_data ← newArray T (v.capacity * 2)
    if v.size.toNat ≤ new_data.length ∧ v.size.toNat ≤ v.data.length then
      pure { data := v.data.take v.size.toNat ++ new_data.drop v.size.toNat,
             size := v.size, capacity := v.capacity * 2 }
    else throw .undefinedBehaviour

/-- `push_back(val)`: `resize()` when `size == capacity`, then
`data[size++] = val`; a write outside the array is undefined behaviour. -/
def push_back {T : Type} (v : myvec T) (val : T) : Except Err (myvec T) := do
  let v1 ← if v.size = v.capacity then resize v else pure v
  if 0 ≤ v1.size ∧ v1.size.toNat < v1.data.length ∧ v1.size + 1 < (2 : Int) ^ 31 then
    pure { data := v1.data.set v1.size.toNat (some val), size := v1.size + 1,
           capacity := v1.capacity }
  else throw .undefinedBehaviour

/-- `myvec(InputIterator first, InputIterator last)` on the range holding
`xs`: size and capacity are both the distance, converted to `int`. -/
def ofRange {T : Type} (xs : List T) : Except Err (myvec T) := do
  let size := sizeToInt xs.length
  let data ← newArray T size
  if xs.length ≤ data.length then
    pure { data := xs.map some ++ data.drop xs.length, size := size, capacity := size }
  else throw .undefinedBehaviour

/-- `clear()`: only the size is reset. -/
def clear {T : Type} (v : myvec T) : myvec T := { v with size := 0 }

/-- `get_size()`. -/
def get_size {T : Type} (v : myvec T) : Int := v.size

/-- `get_capacity()`. -/
def get_capacity {T : Type} (v : myvec T) : Int := v.capacity

/-- The bounds on the fields: `0 <= size <= capacity` and `capacity >= 1`. -/
def Inv {T : Type} (v : myvec T) : Prop := 0 ≤ v.size ∧ v.size ≤ v.capacity ∧ 1 ≤ v.capacity

instance {T : Type} (v : myvec T) : Decidable v.Inv := by
  unfold Inv; infer_instance

/-- The array `data` points to has `capacity` slots. -/
def Allocated {T : Type} (v : myvec T) : Prop := v.data.length = v.capacity.toNat

instance {T : Type} (v : myvec T) : Decidable v.Allocated := by
  unfold Allocated; infer_instance

end spc.myvec

/-! ## Corresponding grids of the two revisions -/

/-- The content of a cell of the first revision and the body of a cell of the
second hold the same integer, the same real or the same text, or both are
empty (an empty cell of the second revision is the empty text).  The real of a
formula cell of the second revision is its calculated value, whatever its
formula and dependency list. -/
def Corresponds : Rev1.CellContent → Rev2.CellBody → Prop
  | .int a, .IntValueCell b => a = b
  | .double a, .DoubleValueCell b => a = b
  | .double a, .FormulaCell _ b _ => a = b
  | .string a, .StringValueCell b => a = b
  | .monostate, .StringValueCell b => b = []
  | _, _ => False

instance (a : Rev1.CellContent) (b : Rev2.CellBody) : Decidable (Corresponds a b) := by
  cases a <;> cases b <;> unfold Corresponds <;> infer_instance

/-- Corresponding grid states: the same dimensions, and at every position
cells with corresponding content. -/
def CorrespondingGrids (g1 : Rev1.Spreadsheet) (g2 : Rev2.Spreadsheet) : Prop :=
  g1.getRowCount = g2.getRowCount ∧ g1.getColCount = g2.getColCount ∧
  ∀ i < g1.getRowCount, ∀ j < g1.getColCount,
    ∃ c1 ∈ g1.cellAt i j, ∃ c2 ∈ g2.cellAt i j, Corresponds c1.content c2.body

instance (g1 : Rev1.Spreadsheet) (g2 : Rev2.Spreadsheet) : Decidable (CorrespondingGrids g1 g2) := by
  unfold CorrespondingGrids; infer_instance

/-- The two results are failures with the same error, or the same value with
dependency lists that hold the same coordinates. -/
def SameOutcome (r1 r2 : Except Err (Dbl × Deps)) : Prop :=
  match r1, r2 with
  | .ok (v1, d1), .ok (v2, d2) => v1 = v2 ∧ ∀ p, p ∈ d1 ↔ p ∈ d2
  | .error e1, .error e2 => e1 = e2
  | _, _ => False

/-- The operands of a formula: the sub-tokens `parseMultpAndDiv` returns for
each token `parsePlusAndMinus` returns for the text after the first
character. -/
def operandsOf (formula : Str) : List Str :=
  match parsePlusAndMinus (formula.drop 1) with
  | .ok tokens => tokens.flatMap fun token =>
      match parseMultpAndDiv token with
      | .ok subTokens => subTokens
      | .error _ => []
  | .error _ => []

/-- The coordinates a successful evaluation recorded. -/
def readCells (r : Except Err (Dbl × Deps)) : Deps :=
  match r with
  | .ok (_, deps) => deps
  | .error _ => []

/-- When the operand is a call of `AVER`, `MAX` or `MIN`, every cell the call
reads holds a number. -/
def CountsOnlyNumbers (sqrt : Dbl → Dbl) (g1 : Rev1.Spreadsheet) (t : Str) : Prop :=
  (Rev1.getFunctionType g1 t = .ok .AVER ∨ Rev1.getFunctionType g1 t = .ok .MAX ∨
    Rev1.getFunctionType g1 t = .ok .MIN) →
  ∀ p ∈ readCells (Rev1.evaluateSingleToken sqrt g1 t []), (g1.numAt p).isSome = true

instance (sqrt : Dbl → Dbl) (g1 : Rev1.Spreadsheet) (t : Str) :
    Decidable (CountsOnlyNumbers sqrt g1 t) := by
  unfold CountsOnlyNumbers; infer_instance

/-! # Theorems -/

/-! ## The additive tokenizer -/

theorem removeSpaces_cons_space (cs : Str) : removeSpaces (' ' :: cs) = removeSpaces cs := by
  simp [removeSpaces]

theorem removeSpaces_cons_of_ne (c : Char) (cs : Str) (h : c ≠ ' ') :
    removeSpaces (c :: cs) = c :: removeSpaces cs := by
  simp [removeSpaces, h]

theorem endsWithPlusMinus_append_cons (t : Str) (c : Char) (r : Str)
    (hc : c = '+' ∨ c = '-') :
    endsWithPlusMinus (t ++ c :: r) ↔ endsWithPlusMinus r := by
  unfold endsWithPlusMinus
  cases r with
  | nil =>
    rcases hc with rfl | rfl <;> simp
  | cons d ds =>
    have h1 : (t ++ c :: d :: ds).getLast? = (d :: ds).getLast? := by
      rw [show t ++ c :: d :: ds = (t ++ [c]) ++ (d :: ds) by simp]
      rw [List.getLast?_append]
      simp [List.getLast?_cons_cons]
      cases h : (d :: ds).getLast? with
      | none => simp at h
      | some x => simp
    rw [h1]
    simp

theorem parsePlusAndMinusLoop_snd_nil_iff (cs : Str) :
    ∀ (tokens : List Str) (token : Str),
      (∀ ch ∈ token, ch ≠ '+' ∧ ch ≠ '-') →
      ((parsePlusAndMinusLoop cs tokens token).2 = [] ↔
        endsWithPlusMinus (token ++ removeSpaces cs)) := by
  induction cs with
  | nil =>
    intro tokens token htok
    simp only [parsePlusAndMinusLoop, removeSpaces, List.filter_nil, List.append_nil]
    unfold endsWithPlusMinus
    constructor
    · intro h; exact Or.inl h
    · rintro (h | h | h)
      · exact h
      · exact absurd rfl (htok _ (List.mem_of_getLast?_eq_some h)).1
      · exact absurd rfl (htok _ (List.mem_of_getLast?_eq_some h)).2
  | cons c cs ih =>
    intro tokens token htok
    by_cases hop : c = '+' ∨ c = '-'
    · have hsp : c ≠ ' ' := by rcases hop with rfl | rfl <;> decide
      rw [parsePlusAndMinusLoop, if_pos hop, removeSpaces_cons_of_ne c cs hsp,
        endsWithPlusMinus_append_cons token c _ hop]
      simpa using ih _ [] (by simp)
    · by_cases hsp : c = ' '
      · subst hsp
        rw [parsePlusAndMinusLoop, if_neg hop, if_pos rfl, removeSpaces_cons_space]
        exact ih tokens token htok
      · rw [parsePlusAndMinusLoop, if_neg hop, if_neg hsp, removeSpaces_cons_of_ne c cs hsp]
        have := ih tokens (token ++ [c]) (by
          intro ch hch
          rcases List.mem_append.1 hch with h | h
          · exact htok ch h
          · simp at h; subst h; exact ⟨fun h => hop (Or.inl h), fun h => hop (Or.inr h)⟩)
        simpa using this

/-- C7: `parsePlusAndMinus` fails, with the malformed-formula error, exactly
when the text without its spaces is empty or ends with `+` or `-`; on every
other text it returns a token list. -/
theorem C7_parsePlusAndMinus_fails_iff (formula : Str) :
    (parsePlusAndMinus formula = .error .plusMinusAtEnd ↔
        (removeSpaces formula = [] ∨ (removeSpaces formula).getLast? = some '+' ∨
          (removeSpaces formula).getLast? = some '-')) ∧
    ((∃ e, parsePlusAndMinus formula = .error e) ↔
        (removeSpaces formula = [] ∨ (removeSpaces formula).getLast? = some '+' ∨
          (removeSpaces formula).getLast? = some '-')) ∧
    (¬ (removeSpaces formula = [] ∨ (removeSpaces formula).getLast? = some '+' ∨
          (removeSpaces formula).getLast? = some '-') →
        ∃ tokens, parsePlusAndMinus formula = .ok tokens) := by
  have key := parsePlusAndMinusLoop_snd_nil_iff formula [] [] (by simp)
  simp only [List.nil_append] at key
  unfold endsWithPlusMinus at key
  unfold parsePlusAndMinus
  by_cases h : (parsePlusAndMinusLoop formula [] []).2 = []
  · have hc := key.1 h
    simp [h, hc]
  · have hc : ¬ _ := fun hh => h (key.2 hh)
    simp [h, hc]

/-! ## The multiplicative tokenizer -/

theorem parseMultpAndDiv_ok_of_ne_nil (token : Str) (h : token ≠ []) :
    ∃ tokens, parseMultpAndDiv token = .ok tokens := by
  unfold parseMultpAndDiv
  simp [h]

/-- C8: on the non-empty operand `2*`, whose last character is `*`,
`parseMultpAndDiv` does not fail: it returns the tokens `2`, `*` and an empty
operand (the test is on the whole operand, not on the last sub-token). -/
theorem C8_parseMultpAndDiv_trailing_operator_returns :
    parseMultpAndDiv "2*".toList = .ok ["2".toList, "*".toList, []] := by
  decide

/-! ## The empty formula -/

/-- C9 (counterexample): the cell input `=` does not evaluate to `0.0`; in both
revisions it fails with the malformed-formula error. -/
theorem C9_counterexample :
    Rev1.parseAndEvaluate id (Rev1.sheetOf [[(.monostate, [], [])]]) "=".toList (0, 0)
        = .error .plusMinusAtEnd ∧
    Rev2.parseAndEvaluate id (Rev2.sheetOf [[.StringValueCell []]]) "=".toList (0, 0) []
        = .error .plusMinusAtEnd := by
  decide

/-- C9 (amended): in revision 1 the empty formula text evaluates to `0.0` and
leaves the grid as it is, while in revision 2 it fails with the empty-formula
error; the input `=` fails with the malformed-formula error in both. -/
theorem C9_empty_formula (sqrt : Dbl → Dbl) (g1 : Rev1.Spreadsheet) (g2 : Rev2.Spreadsheet)
    (coordinates : Int × Int) (dependentCells : Deps) :
    Rev1.parseAndEvaluate sqrt g1 [] coordinates = .ok (Dbl.fin 0, g1) ∧
    Rev2.parseAndEvaluate sqrt g2 [] coordinates dependentCells = .error .emptyFormulaInput ∧
    Rev1.parseAndEvaluate sqrt g1 ['='] coordinates = .error .plusMinusAtEnd ∧
    Rev2.parseAndEvaluate sqrt g2 ['='] coordinates dependentCells = .error .plusMinusAtEnd := by
  refine ⟨?_, ?_, ?_, ?_⟩
  · simp [Rev1.parseAndEvaluate]
  · simp [Rev2.parseAndEvaluate]
  · simp [Rev1.parseAndEvaluate, parsePlusAndMinus, parsePlusAndMinusLoop]
  · simp [Rev2.parseAndEvaluate, parsePlusAndMinus, parsePlusAndMinusLoop]

/-! ## Labels -/

theorem letterChar_isCapital (c : Int) :
    isCapital (Char.ofNat ('A'.toNat + (c % 26).toNat)) := by
  have h1 : (c % 26).toNat < 26 := by
    have := Int.emod_lt_of_pos c (show (0 : Int) < 26 by norm_num)
    have := Int.emod_nonneg c (show (26 : Int) ≠ 0 by norm_num)
    omega
  generalize (c % 26).toNat = k at h1
  unfold isCapital
  interval_cases k <;> decide

theorem letterLoop_head (fuel : Nat) : ∀ (c : Int) (letter : Str),
    (∀ x ∈ letter.head?, isCapital x) → (letter = [] → 0 ≤ c ∧ 0 < fuel) →
    ∃ x xs, letterLoop fuel c letter = x :: xs ∧ isCapital x := by
  induction fuel with
  | zero =>
    intro c letter h1 h2
    cases letter with
    | nil => exact absurd (h2 rfl).2 (by simp)
    | cons x xs => exact ⟨x, xs, rfl, h1 x (by simp)⟩
  | succ n ih =>
    intro c letter h1 h2
    unfold letterLoop
    by_cases hc : 0 ≤ c
    · rw [if_pos hc]
      apply ih
      · intro x hx
        simp at hx
        subst hx
        exact letterChar_isCapital c
      · intro h; simp at h
    · rw [if_neg hc]
      cases letter with
      | nil => exact absurd (h2 rfl).1 hc
      | cons x xs => exact ⟨x, xs, rfl, h1 x (by simp)⟩

theorem cellLabel_head (i j : Nat) :
    ∃ x xs, cellLabel (i : Int) (j : Int) = x :: xs ∧ isCapital x := by
  obtain ⟨x, xs, h, hx⟩ := letterLoop_head ((j : Int).toNat + 1) (j : Int) []
    (by simp) (by intro _; exact ⟨by omega, by omega⟩)
  refine ⟨x, xs ++ to_string ((i : Int) + 1), ?_, hx⟩
  simp only [cellLabel, getLetterTransformation, h, List.cons_append]

theorem mem_gridIndices (rows cols i j : Nat) :
    (i, j) ∈ gridIndices rows cols ↔ i < rows ∧ j < cols := by
  simp [gridIndices, List.mem_flatMap]

theorem labelLookupIn_of_no_capital (str : Str) (h : ∀ x ∈ str.head?, ¬ isCapital x)
    (l : List (Nat × Nat)) : labelLookupIn str l = (-1, -1) := by
  induction l with
  | nil => rfl
  | cons p rest ih =>
    obtain ⟨i, j⟩ := p
    unfold labelLookupIn
    rw [if_neg, ih]
    intro heq
    obtain ⟨x, xs, hl, hx⟩ := cellLabel_head i j
    rw [hl] at heq
    subst heq
    exact h x (by simp) hx

theorem labelLookupIn_nil (l : List (Nat × Nat)) : labelLookupIn [] l = (-1, -1) := by
  induction l with
  | nil => rfl
  | cons p rest ih =>
    obtain ⟨i, j⟩ := p
    unfold labelLookupIn
    rw [if_neg, ih]
    intro heq
    obtain ⟨x, xs, hl, hx⟩ := cellLabel_head i j
    rw [hl] at heq
    exact absurd heq (by simp)

theorem labelLookupIn_cases (str : Str) (l : List (Nat × Nat)) :
    labelLookupIn str l = (-1, -1) ∨
    ∃ i j, (i, j) ∈ l ∧ labelLookupIn str l = ((i : Int), (j : Int)) ∧
      str = cellLabel (i : Int) (j : Int) := by
  induction l with
  | nil => exact Or.inl rfl
  | cons p rest ih =>
    obtain ⟨i, j⟩ := p
    unfold labelLookupIn
    by_cases h : str = cellLabel (i : Int) (j : Int)
    · rw [if_pos h]
      exact Or.inr ⟨i, j, by simp, rfl, h⟩
    · rw [if_neg h]
      rcases ih with h1 | ⟨i', j', hm, h1, h2⟩
      · exact Or.inl h1
      · exact Or.inr ⟨i', j', List.mem_cons_of_mem _ hm, h1, h2⟩

theorem labelLookup_cases (rows cols : Nat) (str : Str) :
    labelLookup rows cols str = (-1, -1) ∨
    ∃ i j, i < rows ∧ j < cols ∧ labelLookup rows cols str = ((i : Int), (j : Int)) ∧
      str = cellLabel (i : Int) (j : Int) := by
  rcases labelLookupIn_cases str (gridIndices rows cols) with h | ⟨i, j, hm, h1, h2⟩
  · exact Or.inl h
  · rw [mem_gridIndices] at hm
    exact Or.inr ⟨i, j, hm.1, hm.2, h1, h2⟩

namespace Rev2

theorem Spreadsheet.WF.cellAt_r2 {g : Spreadsheet} (h : g.WF) {i j : Nat}
    (hi : i < g.getRowCount) (hj : j < g.getColCount) :
    ∃ cell, g.cellAt i j = some cell ∧ cell.WFAt i j := by
  obtain ⟨cell, hc, hw⟩ := h.2.2.2 i hi j hj
  exact ⟨cell, hc, hw⟩

theorem Spreadsheet.getCell_eq_r2 {g : Spreadsheet} {i j : Nat} {cell : Cell}
    (hi : i < g.getRowCount) (hj : j < g.getColCount) (hc : g.cellAt i j = some cell) :
    g.getCell (i : Int) (j : Int) = .ok cell := by
  unfold Spreadsheet.getCell
  have h1 : ¬ ((g.getRowCount : Int) ≤ (i : Int) ∨ (g.getColCount : Int) ≤ (j : Int)) := by omega
  have h2 : ¬ ((i : Int) < 0 ∨ (j : Int) < 0) := by omega
  rw [if_neg h1, if_neg h2]
  simp [hc]

theorem getCellReferenceLoop_eq_r2 {g : Spreadsheet} (h : g.WF) (str : Str) :
    ∀ l : List (Nat × Nat), (∀ p ∈ l, p.1 < g.getRowCount ∧ p.2 < g.getColCount) →
      getCellReferenceLoop g str l = .ok (labelLookupIn str l) := by
  intro l
  induction l with
  | nil => intro _; rfl
  | cons p rest ih =>
    intro hl
    obtain ⟨i, j⟩ := p
    have hp := hl (i, j) (by simp)
    obtain ⟨cell, hc, hw⟩ := h.cellAt_r2 hp.1 hp.2
    unfold getCellReferenceLoop labelLookupIn
    rw [Spreadsheet.getCell_eq_r2 hp.1 hp.2 hc]
    simp only [hw.2.2]
    split
    · rfl
    · exact ih (fun p hp => hl p (List.mem_cons_of_mem _ hp))

theorem getCellReference_eq_r2 {g : Spreadsheet} (h : g.WF) (token : Str) :
    getCellReference g token
      = .ok (labelLookup g.getRowCount g.getColCount (removeSpaces token)) := by
  unfold getCellReference labelLookup
  apply getCellReferenceLoop_eq_r2 h
  intro p hp
  exact (mem_gridIndices _ _ p.1 p.2).1 hp

end Rev2

theorem Dbl.zero_add (a : Dbl) : (Dbl.fin 0).add a = a := by
  cases a <;> simp [Dbl.add]

theorem gridIndices_two_cols (r c : Nat) :
    ∃ rest, gridIndices (r + 1) (c + 2) = (0, 0) :: (0, 1) :: rest := by
  simp [gridIndices, List.range_succ_eq_map]

theorem labelLookup_A1_B1 (rows cols : Nat) (hr : 0 < rows) (hc : 2 ≤ cols) :
    labelLookup rows cols "A1".toList = (0, 0) ∧ labelLookup rows cols "B1".toList = (0, 1) := by
  obtain ⟨r, rfl⟩ : ∃ r, rows = r + 1 := ⟨rows - 1, by omega⟩
  obtain ⟨c, rfl⟩ : ∃ c, cols = c + 2 := ⟨cols - 2, by omega⟩
  obtain ⟨rest, h⟩ := gridIndices_two_cols r c
  unfold labelLookup
  rw [h]
  constructor
  · have h1 : "A1".toList = cellLabel ((0 : Nat) : Int) ((0 : Nat) : Int) := by decide
    rw [labelLookupIn, if_pos h1]
    rfl
  · have h0 : ¬ ("B1".toList = cellLabel ((0 : Nat) : Int) ((0 : Nat) : Int)) := by decide
    have h1 : "B1".toList = cellLabel ((0 : Nat) : Int) ((1 : Nat) : Int) := by decide
    rw [labelLookupIn, if_neg h0, labelLookupIn, if_pos h1]
    rfl

namespace Rev2

theorem evaluateSingleToken_ref_r2 (sqrt : Dbl → Dbl) {g : Spreadsheet} (h : g.WF) (token : Str)
    (deps : Deps) {i j : Nat} {cell : Cell}
    (hl : labelLookup g.getRowCount g.getColCount (removeSpaces token) = ((i : Int), (j : Int)))
    (hi : i < g.getRowCount) (hj : j < g.getColCount) (hc : g.cellAt i j = some cell) :
    evaluateSingleToken sqrt g token deps
      = .ok (cell.getCellValueAsDouble, mysetInsert ((i : Int), (j : Int)) deps) := by
  obtain ⟨cell', hc', hw⟩ := h.cellAt_r2 hi hj
  rw [hc] at hc'
  cases hc'
  have hne : ((i : Int), (j : Int)) ≠ ((-1 : Int), (-1 : Int)) := by
    intro heq
    have := congrArg Prod.fst heq
    simp only at this
    omega
  unfold evaluateSingleToken
  rw [getCellReference_eq_r2 h, hl]
  simp only [bind, Except.bind, hne, ne_eq, not_false_eq_true, if_true,
    Spreadsheet.getCell_eq_r2 hi hj hc, pure, Except.pure, hw.1, hw.2.1]

/-- C1 for the second revision. -/
theorem parseAndEvaluate_A1_plus_B1_r2 (sqrt : Dbl → Dbl) {g : Spreadsheet} (h : g.WF)
    (hcols : 2 ≤ g.getColCount) {cellA cellB : Cell}
    (hA : g.cellAt 0 0 = some cellA) (hB : g.cellAt 0 1 = some cellB)
    (coordinates : Int × Int) (dependentCells : Deps) :
    parseAndEvaluate sqrt g "=A1+B1".toList coordinates dependentCells
      = .ok (cellA.getCellValueAsDouble.add cellB.getCellValueAsDouble,
             dependentCells ++ [(0, 0), (0, 1)]) := by
  obtain ⟨hlA, hlB⟩ := labelLookup_A1_B1 g.getRowCount g.getColCount h.1 hcols
  have eA := fun deps => evaluateSingleToken_ref_r2 sqrt h "A1".toList deps (i := 0) (j := 0)
    (by simpa [removeSpaces] using hlA) h.1 (by omega) hA
  have eB := fun deps => evaluateSingleToken_ref_r2 sqrt h "B1".toList deps (i := 0) (j := 1)
    (by simpa [removeSpaces] using hlB) h.1 (by omega) hB
  have hp : parsePlusAndMinus ("=A1+B1".toList.drop 1)
      = .ok ["A1".toList, "+".toList, "B1".toList] := by decide
  have hmA : parseMultpAndDiv "A1".toList = .ok ["A1".toList] := by decide
  have hmB : parseMultpAndDiv "B1".toList = .ok ["B1".toList] := by decide
  unfold parseAndEvaluate
  rw [if_neg (by decide), hp]
  simp only [String.toList] at *
  simp [parseAndEvaluateLoop, evaluateMultpAndDivToken, evaluateMultpAndDivLoop, hmA, hmB, eA, eB,
    mysetInsert, Dbl.zero_add]

end Rev2

namespace Rev1

theorem Spreadsheet.WF.cellAt_r1 {g : Spreadsheet} (h : g.WF) {i j : Nat}
    (hi : i < g.getRowCount) (hj : j < g.getColCount) :
    ∃ cell, g.cellAt i j = some cell ∧ cell.WFAt i j := by
  obtain ⟨cell, hc, hw⟩ := h.2.2.2 i hi j hj
  exact ⟨cell, hc, hw⟩

theorem Spreadsheet.getCell_eq_r1 {g : Spreadsheet} {i j : Nat} {cell : Cell}
    (hi : i < g.getRowCount) (hj : j < g.getColCount) (hc : g.cellAt i j = some cell) :
    g.getCell (i : Int) (j : Int) = .ok cell := by
  unfold Spreadsheet.getCell
  have h1 : 0 ≤ (i : Int) ∧ (i : Int) < (g.getRowCount : Int) ∧ 0 ≤ (j : Int) ∧
      (j : Int) < (g.getColCount : Int) := by omega
  rw [if_pos h1]
  simp [hc]

theorem getCellReferenceLoop_eq_r1 {g : Spreadsheet} (h : g.WF) (str : Str) :
    ∀ l : List (Nat × Nat), (∀ p ∈ l, p.1 < g.getRowCount ∧ p.2 < g.getColCount) →
      getCellReferenceLoop g str l = .ok (labelLookupIn str l) := by
  intro l
  induction l with
  | nil => intro _; rfl
  | cons p rest ih =>
    intro hl
    obtain ⟨i, j⟩ := p
    have hp := hl (i, j) (by simp)
    obtain ⟨cell, hc, hw⟩ := h.cellAt_r1 hp.1 hp.2
    unfold getCellReferenceLoop labelLookupIn
    rw [hc]
    simp only [hw.2.2]
    split
    · rfl
    · exact ih (fun p hp => hl p (List.mem_cons_of_mem _ hp))

theorem getCellReference_eq_r1 {g : Spreadsheet} (h : g.WF) (token : Str) :
    getCellReference g token
      = .ok (labelLookup g.getRowCount g.getColCount (removeSpaces token)) := by
  unfold getCellReference labelLookup
  apply getCellReferenceLoop_eq_r1 h
  intro p hp
  exact (mem_gridIndices _ _ p.1 p.2).1 hp

theorem evaluateSingleToken_ref_r1 (sqrt : Dbl → Dbl) {g : Spreadsheet} (h : g.WF) (token : Str)
    (deps : Deps) {i j : Nat} {cell : Cell}
    (hl : labelLookup g.getRowCount g.getColCount (removeSpaces token) = ((i : Int), (j : Int)))
    (hi : i < g.getRowCount) (hj : j < g.getColCount) (hc : g.cellAt i j = some cell) :
    evaluateSingleToken sqrt g token deps
      = .ok ((cell.content.numeric?).getD (Dbl.fin 0),
             stdSetInsert ((i : Int), (j : Int)) deps) := by
  obtain ⟨cell', hc', hw⟩ := h.cellAt_r1 hi hj
  rw [hc] at hc'
  cases hc'
  have hne : ((i : Int), (j : Int)) ≠ ((-1 : Int), (-1 : Int)) := by
    intro heq
    have := congrArg Prod.fst heq
    simp only at this
    omega
  unfold evaluateSingleToken
  rw [getCellReference_eq_r1 h, hl]
  simp only [bind, Except.bind, hne, ne_eq, not_false_eq_true, if_true,
    Spreadsheet.getCell_eq_r1 hi hj hc, pure, Except.pure, hw.1, hw.2.1]

/-- C1 for the first revision. -/
theorem parseAndEvaluate_A1_plus_B1_r1 (sqrt : Dbl → Dbl) {g : Spreadsheet} (h : g.WF)
    (hcols : 2 ≤ g.getColCount) {cellA cellB : Cell}
    (hA : g.cellAt 0 0 = some cellA) (hB : g.cellAt 0 1 = some cellB)
    {r c : Nat} {target : Cell} (hr : r < g.getRowCount) (hc : c < g.getColCount)
    (ht : g.cellAt r c = some target) :
    parseAndEvaluate sqrt g "=A1+B1".toList ((r : Int), (c : Int))
      = .ok (((cellA.content.numeric?).getD (Dbl.fin 0)).add
                ((cellB.content.numeric?).getD (Dbl.fin 0)),
             g.assign r c { target with
               formula := "=A1+B1".toList, dependentCells := [(0, 0), (0, 1)],
               content := .double (((cellA.content.numeric?).getD (Dbl.fin 0)).add
                ((cellB.content.numeric?).getD (Dbl.fin 0))) }) := by
  obtain ⟨hlA, hlB⟩ := labelLookup_A1_B1 g.getRowCount g.getColCount h.1 hcols
  have eA := fun deps => evaluateSingleToken_ref_r1 sqrt h "A1".toList deps (i := 0) (j := 0)
    (by simpa [removeSpaces] using hlA) h.1 (by omega) hA
  have eB := fun deps => evaluateSingleToken_ref_r1 sqrt h "B1".toList deps (i := 0) (j := 1)
    (by simpa [removeSpaces] using hlB) h.1 (by omega) hB
  have hp : parsePlusAndMinus ("=A1+B1".toList.drop 1)
      = .ok ["A1".toList, "+".toList, "B1".toList] := by decide
  have hmA : parseMultpAndDiv "A1".toList = .ok ["A1".toList] := by decide
  have hmB : parseMultpAndDiv "B1".toList = .ok ["B1".toList] := by decide
  have hs : stdSetInsert (((1 : Nat) : Int), ((1:Nat) : Int)) [] = [(1,1)] := by decide
  unfold parseAndEvaluate
  rw [if_neg (by decide), hp]
  simp only [String.toList] at *
  simp [parseAndEvaluateLoop, evaluateMultpAndDivToken, evaluateMultpAndDivLoop, hmA, hmB, eA, eB,
    stdSetInsert, pairLt, Dbl.zero_add, Spreadsheet.getCell_eq_r1 hr hc ht]

end Rev1

/-! ## Numeric literals -/

theorem isdigit_cases (c : Char) (h : isdigit c = true) :
    c = '0' ∨ c = '1' ∨ c = '2' ∨ c = '3' ∨ c = '4' ∨ c = '5' ∨ c = '6' ∨ c = '7' ∨
      c = '8' ∨ c = '9' := by
  have hc : c = Char.ofNat c.toNat := (Char.ofNat_toNat c).symm
  simp only [isdigit, decide_eq_true_eq] at h
  obtain ⟨h1, h2⟩ := h
  have h1' : 48 ≤ c.toNat := h1
  have h2' : c.toNat ≤ 57 := h2
  generalize c.toNat = n at hc h1' h2'
  subst hc
  interval_cases n <;> decide

theorem isLitChar_cases (c : Char) (h : isLitChar c) :
    c = '0' ∨ c = '1' ∨ c = '2' ∨ c = '3' ∨ c = '4' ∨ c = '5' ∨ c = '6' ∨ c = '7' ∨
      c = '8' ∨ c = '9' ∨ c = '.' := by
  rcases h with h | h
  · rcases isdigit_cases c h with h | h | h | h | h | h | h | h | h | h <;> simp [h]
  · simp [h]

theorem isValueLoop_true_all (t : Str) (h : isValueLoop t true = true) :
    ∀ c ∈ t, isdigit c = true := by
  induction t with
  | nil => simp
  | cons c cs ih =>
    unfold isValueLoop at h
    by_cases hd : isdigit c = true
    · simp [hd] at h
      intro x hx
      rcases List.mem_cons.1 hx with rfl | hx
      · exact hd
      · exact ih h x hx
    · simp [hd] at h

theorem isValueLoop_false_decomp (t : Str) (h : isValueLoop t false = true) :
    t.dropWhile isdigit = [] ∨
      ∃ fp, t.dropWhile isdigit = '.' :: fp ∧ ∀ c ∈ fp, isdigit c = true := by
  induction t with
  | nil => simp
  | cons c cs ih =>
    unfold isValueLoop at h
    by_cases hd : isdigit c = true
    · simp [hd] at h
      simpa [List.dropWhile_cons, hd] using ih h
    · simp [hd] at h
      right
      refine ⟨cs, ?_, isValueLoop_true_all cs h.2⟩
      obtain ⟨rfl, _⟩ := h
      simp [List.dropWhile_cons, hd]

theorem isValue_mem_isLitChar (t : Str) (h : isValue t = true) : ∀ c ∈ t, isLitChar c := by
  unfold isValue at h
  split at h
  · simp at h
  · rcases isValueLoop_false_decomp t h with h1 | ⟨fp, h1, h2⟩
    · intro c hc
      left
      have := List.takeWhile_append_dropWhile isdigit t
      rw [h1, List.append_nil] at this
      rw [← this] at hc
      exact (List.mem_takeWhile_imp hc)
    · intro c hc
      have := List.takeWhile_append_dropWhile isdigit t
      rw [h1] at this
      rw [← this] at hc
      rcases List.mem_append.1 hc with hc | hc
      · exact Or.inl (List.mem_takeWhile_imp hc)
      · rcases List.mem_cons.1 hc with rfl | hc
        · exact Or.inr rfl
        · exact Or.inl (h2 c hc)

theorem digitsValue_cons (acc : Nat) (c : Char) (cs : Str) :
    digitsValue acc (c :: cs) = digitsValue (acc * 10 + digitVal c) cs := rfl

theorem digitsValue_nil (acc : Nat) : digitsValue acc [] = acc := rfl

theorem digitsValue_append (a b : Str) (acc : Nat) :
    digitsValue acc (a ++ b) = digitsValue (digitsValue acc a) b := by
  induction a generalizing acc with
  | nil => rfl
  | cons c cs ih => exact ih (acc * 10 + digitVal c)

theorem digitsValue_acc (b : Str) (acc : Nat) :
    digitsValue acc b = acc * (10 : Nat) ^ (b.length : Nat) + digitsValue 0 b := by
  induction b generalizing acc with
  | nil => rw [digitsValue_nil, digitsValue_nil]; simp
  | cons c cs ih =>
    rw [digitsValue_cons, digitsValue_cons, ih, ih (0 * 10 + digitVal c), List.length_cons]
    ring

theorem isspace_of_isLitChar (c : Char) (h : isLitChar c) : isspace c = false := by
  rcases isLitChar_cases c h with h | h | h | h | h | h | h | h | h | h | h <;> subst h <;> decide

theorem takeSign_of_isLitChar (c : Char) (cs : Str) (h : isLitChar c) :
    takeSign (c :: cs) = (false, c :: cs, 0) := by
  rcases isLitChar_cases c h with h | h | h | h | h | h | h | h | h | h | h <;> subst h <;> rfl

theorem stodSpecial_of_isLitChar (c : Char) (cs : Str) (h : isLitChar c) :
    stodSpecial (c :: cs) = none := by
  rcases isLitChar_cases c h with h | h | h | h | h | h | h | h | h | h | h <;> subst h <;>
    simp [stodSpecial, startsWithNoCase, List.isPrefixOf]

theorem stodHex_of_isLitChar (t : Str) (h : ∀ c ∈ t, isLitChar c) : stodHex t = none := by
  unfold stodHex
  split
  · rename_i x r
    have hx := h x (by simp)
    have h1 : ¬ (x = 'x' ∨ x = 'X') := by
      rcases isLitChar_cases x hx with h | h | h | h | h | h | h | h | h | h | h <;> subst h <;>
        decide
    simp [h1]
  · rfl

theorem takeWhile_eq_self_of_all {α : Type} (p : α → Bool) (l : List α) (h : ∀ x ∈ l, p x = true) :
    l.takeWhile p = l := by
  exact List.takeWhile_eq_self_iff.2 h

theorem stodDecimal_literal (t : Str) (h : IsLiteral t) :
    stodDecimal t = some (decimalValue t, t.length) := by
  obtain ⟨hv, c, hc, hcd⟩ := h
  have hne : t ≠ [] := by intro h; subst h; simp at hc
  have hloop : isValueLoop t false = true := by
    unfold isValue at hv
    simpa [hne] using hv
  have hsplit := List.takeWhile_append_dropWhile isdigit t
  rcases isValueLoop_false_decomp t hloop with h1 | ⟨fp, h1, h2⟩
  · -- no point
    have hip : t.takeWhile isdigit = t := by rw [h1, List.append_nil] at hsplit; exact hsplit
    unfold stodDecimal decimalValue
    simp only [h1, hip, hne, List.drop_nil, List.length_nil, pow_zero, div_one, false_and,
      if_false, List.append_nil, Nat.add_zero, List.drop_length, stodExponent, zpow_zero, mul_one,
      digitsValue_nil, Nat.cast_zero, add_zero]
  · have hfp : fp.takeWhile isdigit = fp := takeWhile_eq_self_of_all _ _ h2
    have hlen : (t.takeWhile isdigit).length + 1 + fp.length = t.length := by
      conv_rhs => rw [← hsplit, h1]
      simp
      omega
    have hnn : ¬ (t.takeWhile isdigit = [] ∧ fp = []) := by
      rintro ⟨ha, hb⟩
      rw [h1, ha, hb] at hsplit
      rw [← hsplit] at hc
      simp at hc
      subst hc
      exact absurd hcd (by decide)
    unfold stodDecimal decimalValue
    simp only [h1, hfp, hnn, if_false, hlen, List.drop_length, stodExponent, zpow_zero, mul_one,
      Nat.add_zero, List.drop_succ_cons, List.drop_zero]
    congr 2
    rw [digitsValue_append, digitsValue_acc fp]
    have : (10 : ℚ) ^ fp.length ≠ 0 := by positivity
    push_cast
    field_simp

theorem stod_literal (t : Str) (h : IsLiteral t) :
    stod t = if stodRangeError (decimalValue t) then .error .stodOutOfRange
      else .ok (Dbl.fin (decimalValue t), t.length) := by
  have hlit := isValue_mem_isLitChar t h.1
  obtain ⟨c, hc, _⟩ := h.2
  obtain ⟨c0, cs, rfl⟩ : ∃ c0 cs, t = c0 :: cs := by
    cases t with
    | nil => simp at hc
    | cons c0 cs => exact ⟨c0, cs, rfl⟩
  have h0 := hlit c0 (by simp)
  have hsp := isspace_of_isLitChar c0 h0
  unfold stod
  simp only [List.takeWhile_cons, List.dropWhile_cons, hsp, Bool.false_eq_true, if_false,
    takeSign_of_isLitChar c0 cs h0, stodSpecial_of_isLitChar c0 cs h0,
    stodHex_of_isLitChar _ hlit, stodDecimal_literal _ h, List.length_nil, Nat.zero_add]

theorem decimalValue_nonneg (t : Str) : 0 ≤ decimalValue t := by
  unfold decimalValue
  positivity

theorem not_stodRangeError_of_representable (q : ℚ) (h : Dbl.Representable q) :
    ¬ stodRangeError q := by
  obtain ⟨hden, hmax, _⟩ := h
  rintro (hov | ⟨_, _, hne⟩)
  · unfold Dbl.overflowBound at hov
    have hlt : (2 ^ 1024 - 2 ^ 971 : Nat) < (2 ^ 1024 - 2 ^ 970 : Nat) := by decide!
    generalize (2 ^ 1024 - 2 ^ 971 : Nat) = M at hmax hlt
    generalize (2 ^ 1024 - 2 ^ 970 : Nat) = B at hov hlt
    have hd : (0 : ℚ) < (q.den : ℚ) := by exact_mod_cast q.den_pos
    have hnum : (q.num : ℚ) ≤ ((M * q.den : Nat) : ℚ) := by
      have h1 : q.num ≤ ((q.num.natAbs : Nat) : Int) := Int.le_natAbs
      have h2 : ((q.num.natAbs : Nat) : Int) ≤ ((M * q.den : Nat) : Int) := by
        exact_mod_cast hmax
      exact_mod_cast le_trans h1 h2
    have hq : (q.num : ℚ) = q * (q.den : ℚ) := (Rat.mul_den_eq_num q).symm
    rw [hq] at hnum
    have hB : (B : ℚ) * (q.den : ℚ) ≤ q * (q.den : ℚ) :=
      mul_le_mul_of_nonneg_right hov hd.le
    have hM : (M : ℚ) < (B : ℚ) := by exact_mod_cast hlt
    have hfin : (B : ℚ) * (q.den : ℚ) ≤ (M : ℚ) * (q.den : ℚ) := by
      calc (B : ℚ) * (q.den : ℚ) ≤ q * (q.den : ℚ) := hB
        _ ≤ ((M * q.den : Nat) : ℚ) := hnum
        _ = (M : ℚ) * (q.den : ℚ) := by push_cast; ring
    have := (mul_le_mul_right hd).1 hfin
    exact absurd hM (not_lt.2 this)
  · exact hne hden

theorem isLitChar_not_capital (c : Char) (h : isLitChar c) : ¬ isCapital c := by
  rcases isLitChar_cases c h with h | h | h | h | h | h | h | h | h | h | h <;> subst h <;>
    (unfold isCapital; decide)

theorem removeSpaces_eq_self (t : Str) (h : ∀ c ∈ t, c ≠ ' ') : removeSpaces t = t := by
  unfold removeSpaces
  rw [List.filter_eq_self]
  intro c hc
  simpa using h c hc

theorem isLitChar_ne_space (c : Char) (h : isLitChar c) : c ≠ ' ' := by
  rcases isLitChar_cases c h with h | h | h | h | h | h | h | h | h | h | h <;> subst h <;> decide

theorem isLitChar_ne_paren (c : Char) (h : isLitChar c) : c ≠ '(' := by
  rcases isLitChar_cases c h with h | h | h | h | h | h | h | h | h | h | h <;> subst h <;> decide

theorem findChar_of_not_mem (s : Str) (c : Char) (h : c ∉ s) : findChar s c = npos := by
  unfold findChar
  rw [if_neg]
  rw [List.indexOf_lt_length]
  exact h

theorem labelLookup_literal (rows cols : Nat) (t : Str) (h : ∀ c ∈ t, isLitChar c) :
    labelLookup rows cols (removeSpaces t) = (-1, -1) := by
  rw [removeSpaces_eq_self t (fun c hc => isLitChar_ne_space c (h c hc))]
  apply labelLookupIn_of_no_capital
  intro x hx
  exact isLitChar_not_capital x (h x (List.mem_of_mem_head? hx))

namespace Rev2

theorem getFunctionType_of_no_paren_r2 (g : Spreadsheet) (t : Str) (h : '(' ∉ removeSpaces t) :
    getFunctionType g t = .ok .INVALID := by
  unfold getFunctionType
  simp [findChar_of_not_mem _ _ h]

theorem evaluateSingleToken_literal_stod_r2 (sqrt : Dbl → Dbl) {g : Spreadsheet} (h : g.WF)
    (t : Str) (ht : IsLiteral t) (deps : Deps) :
    evaluateSingleToken sqrt g t deps
      = if stodRangeError (decimalValue t) then .error .stodOutOfRange
        else .ok (Dbl.fin (decimalValue t), deps) := by
  have hlit := isValue_mem_isLitChar t ht.1
  have hp : '(' ∉ removeSpaces t := by
    rw [removeSpaces_eq_self t (fun c hc => isLitChar_ne_space c (hlit c hc))]
    intro hm
    exact isLitChar_ne_paren _ (hlit _ hm) rfl
  unfold evaluateSingleToken
  rw [getCellReference_eq_r2 h, labelLookup_literal _ _ t hlit, getFunctionType_of_no_paren_r2 g t hp]
  by_cases hr : stodRangeError (decimalValue t)
  · simp [bind, Except.bind, ht.1, stod_literal t ht, pure, Except.pure, hr, throw, throwThe,
      MonadExceptOf.throw, Err.isInvalidArgument]
  · simp [bind, Except.bind, ht.1, stod_literal t ht, pure, Except.pure, hr]

theorem evaluateSingleToken_literal_r2 (sqrt : Dbl → Dbl) {g : Spreadsheet} (h : g.WF) (t : Str)
    (ht : IsLiteral t) (hr : ¬ stodRangeError (decimalValue t)) (deps : Deps) :
    evaluateSingleToken sqrt g t deps = .ok (Dbl.fin (decimalValue t), deps) := by
  rw [evaluateSingleToken_literal_stod_r2 sqrt h t ht deps, if_neg hr]

end Rev2

namespace Rev1

theorem getFunctionType_of_no_paren_r1 (g : Spreadsheet) (t : Str) (h : '(' ∉ removeSpaces t) :
    getFunctionType g t = .ok .INVALID := by
  unfold getFunctionType
  simp [findChar_of_not_mem _ _ h]

theorem evaluateSingleToken_literal_stod_r1 (sqrt : Dbl → Dbl) {g : Spreadsheet} (h : g.WF)
    (t : Str) (ht : IsLiteral t) (deps : Deps) :
    evaluateSingleToken sqrt g t deps
      = if stodRangeError (decimalValue t) then .error .stodOutOfRange
        else .ok (Dbl.fin (decimalValue t), deps) := by
  have hlit := isValue_mem_isLitChar t ht.1
  have hp : '(' ∉ removeSpaces t := by
    rw [removeSpaces_eq_self t (fun c hc => isLitChar_ne_space c (hlit c hc))]
    intro hm
    exact isLitChar_ne_paren _ (hlit _ hm) rfl
  unfold evaluateSingleToken
  rw [getCellReference_eq_r1 h, labelLookup_literal _ _ t hlit, getFunctionType_of_no_paren_r1 g t hp]
  by_cases hr : stodRangeError (decimalValue t)
  · simp [bind, Except.bind, ht.1, stod_literal t ht, pure, Except.pure, hr, throw, throwThe,
      MonadExceptOf.throw, Err.isInvalidArgument]
  · simp [bind, Except.bind, ht.1, stod_literal t ht, pure, Except.pure, hr]

theorem evaluateSingleToken_literal_r1 (sqrt : Dbl → Dbl) {g : Spreadsheet} (h : g.WF) (t : Str)
    (ht : IsLiteral t) (hr : ¬ stodRangeError (decimalValue t)) (deps : Deps) :
    evaluateSingleToken sqrt g t deps = .ok (Dbl.fin (decimalValue t), deps) := by
  rw [evaluateSingleToken_literal_stod_r1 sqrt h t ht deps, if_neg hr]

end Rev1

/-! ## Formulas of literals: syntax and ordinary value -/

theorem parseMultpAndDivLoop_append (s : Str) (hs : ∀ c ∈ s, c ≠ '/' ∧ c ≠ '*') :
    ∀ (rest : Str) (tokens : List Str) (sub : Str),
      parseMultpAndDivLoop (s ++ rest) tokens sub = parseMultpAndDivLoop rest tokens (sub ++ s) := by
  induction s with
  | nil => intro rest tokens sub; simp
  | cons c cs ih =>
    intro rest tokens sub
    have hc := hs c (by simp)
    have hn : ¬ (c = '/' ∨ c = '*') := by
      rintro (h | h)
      · exact hc.1 h
      · exact hc.2 h
    rw [List.cons_append, parseMultpAndDivLoop, if_neg hn,
      ih (fun x hx => hs x (List.mem_cons_of_mem _ hx))]
    simp

theorem parseMultpAndDivLoop_op (op : MulOp) (rest : Str) (tokens : List Str) (sub : Str)
    (hsub : sub ≠ []) :
    parseMultpAndDivLoop (op.char :: rest) tokens sub
      = parseMultpAndDivLoop rest (tokens ++ [sub] ++ [[op.char]]) [] := by
  have hop : op.char = '/' ∨ op.char = '*' := by cases op <;> simp [MulOp.char]
  rw [parseMultpAndDivLoop, if_pos hop]
  simp [hsub]

theorem isLitChar_not_mulop (c : Char) (h : isLitChar c) : c ≠ '/' ∧ c ≠ '*' := by
  rcases isLitChar_cases c h with h | h | h | h | h | h | h | h | h | h | h <;> subst h <;> decide

theorem IsLiteral.ne_nil {t : Str} (h : IsLiteral t) : t ≠ [] := by
  obtain ⟨_, c, hc, _⟩ := h
  intro h0
  subst h0
  simp at hc

theorem IsLiteral.chars {t : Str} (h : IsLiteral t) : ∀ c ∈ t, isLitChar c :=
  isValue_mem_isLitChar t h.1

theorem parseMultpAndDivLoop_rest (rest : List (MulOp × Str))
    (hrest : ∀ p ∈ rest, IsLiteral p.2) :
    ∀ (tokens : List Str) (lit : Str), lit ≠ [] →
      (parseMultpAndDivLoop (rest.flatMap fun p => p.1.char :: p.2) tokens lit).1
          ++ [(parseMultpAndDivLoop (rest.flatMap fun p => p.1.char :: p.2) tokens lit).2]
        = tokens ++ lit :: rest.flatMap fun p => [[p.1.char], p.2] := by
  induction rest with
  | nil => intro tokens lit _; simp [parseMultpAndDivLoop]
  | cons p rest ih =>
    intro tokens lit hlit
    obtain ⟨op, l⟩ := p
    have hl : IsLiteral l := hrest (op, l) (by simp)
    simp only [List.flatMap_cons, List.cons_append]
    rw [parseMultpAndDivLoop_op op _ tokens lit hlit,
      parseMultpAndDivLoop_append l (fun c hc => isLitChar_not_mulop c (hl.chars c hc))]
    rw [List.nil_append, ih (fun q hq => hrest q (List.mem_cons_of_mem _ hq)) _ l hl.ne_nil]
    simp

theorem parseMultpAndDiv_render (t : Term) (h : t.WellFormed) :
    parseMultpAndDiv t.render = .ok t.tokens := by
  have hne : t.render ≠ [] := by
    unfold Term.render
    intro h0
    exact h.1.ne_nil (List.append_eq_nil.1 h0).1
  unfold parseMultpAndDiv
  simp only [hne, if_false]
  unfold Term.render Term.tokens
  rw [parseMultpAndDivLoop_append t.first
    (fun c hc => isLitChar_not_mulop c (h.1.chars c hc))]
  have := parseMultpAndDivLoop_rest t.rest (fun p hp => (h.2 p hp).1) [] ([] ++ t.first)
    (by simpa using h.1.ne_nil)
  simpa using this

theorem parsePlusAndMinusLoop_append (s : Str)
    (hs : ∀ c ∈ s, c ≠ '+' ∧ c ≠ '-' ∧ c ≠ ' ') :
    ∀ (rest : Str) (tokens : List Str) (token : Str),
      parsePlusAndMinusLoop (s ++ rest) tokens token
        = parsePlusAndMinusLoop rest tokens (token ++ s) := by
  induction s with
  | nil => intro rest tokens token; simp
  | cons c cs ih =>
    intro rest tokens token
    have hc := hs c (by simp)
    have hn : ¬ (c = '+' ∨ c = '-') := by
      rintro (h | h)
      · exact hc.1 h
      · exact hc.2.1 h
    rw [List.cons_append, parsePlusAndMinusLoop, if_neg hn, if_neg hc.2.2,
      ih (fun x hx => hs x (List.mem_cons_of_mem _ hx))]
    simp

theorem parsePlusAndMinusLoop_op (op : AddOp) (rest : Str) (tokens : List Str) (token : Str)
    (htoken : token ≠ []) :
    parsePlusAndMinusLoop (op.char :: rest) tokens token
      = parsePlusAndMinusLoop rest (tokens ++ [token] ++ [[op.char]]) [] := by
  have hop : op.char = '+' ∨ op.char = '-' := by cases op <;> simp [AddOp.char]
  rw [parsePlusAndMinusLoop, if_pos hop]
  simp [htoken]

theorem isLitChar_not_addop (c : Char) (h : isLitChar c) : c ≠ '+' ∧ c ≠ '-' ∧ c ≠ ' ' := by
  rcases isLitChar_cases c h with h | h | h | h | h | h | h | h | h | h | h <;> subst h <;> decide

theorem Term.render_chars (t : Term) (h : t.WellFormed) :
    ∀ c ∈ t.render, isLitChar c ∨ c = '*' ∨ c = '/' := by
  intro c hc
  unfold Term.render at hc
  rcases List.mem_append.1 hc with hc | hc
  · exact Or.inl (h.1.chars c hc)
  · rw [List.mem_flatMap] at hc
    obtain ⟨p, hp, hc⟩ := hc
    rcases List.mem_cons.1 hc with rfl | hc
    · right
      cases p.1 <;> simp [MulOp.char]
    · exact Or.inl ((h.2 p hp).1.chars c hc)

theorem Term.render_not_addop (t : Term) (h : t.WellFormed) :
    ∀ c ∈ t.render, c ≠ '+' ∧ c ≠ '-' ∧ c ≠ ' ' := by
  intro c hc
  rcases t.render_chars h c hc with h1 | rfl | rfl
  · exact isLitChar_not_addop c h1
  · decide
  · decide

theorem Term.render_head (t : Term) (h : t.WellFormed) :
    ∃ c cs, t.render = c :: cs ∧ isLitChar c := by
  obtain ⟨c, cs, hf⟩ : ∃ c cs, t.first = c :: cs := by
    cases hf : t.first with
    | nil => exact absurd hf h.1.ne_nil
    | cons c cs => exact ⟨c, cs, rfl⟩
  refine ⟨c, cs ++ t.rest.flatMap fun p => p.1.char :: p.2, ?_, ?_⟩
  · simp [Term.render, hf]
  · exact h.1.chars c (by simp [hf])

theorem Term.render_ne_nil (t : Term) (h : t.WellFormed) : t.render ≠ [] := by
  obtain ⟨c, cs, hr, _⟩ := t.render_head h
  simp [hr]

theorem parsePlusAndMinusLoop_rest (rest : List (AddOp × Term))
    (hrest : ∀ p ∈ rest, p.2.WellFormed) :
    ∀ (tokens : List Str) (tok : Str), tok ≠ [] →
      (parsePlusAndMinusLoop (rest.flatMap fun p => p.1.char :: p.2.render) tokens tok).1
          ++ [(parsePlusAndMinusLoop (rest.flatMap fun p => p.1.char :: p.2.render) tokens tok).2]
        = tokens ++ tok :: rest.flatMap fun p => [[p.1.char], p.2.render] := by
  induction rest with
  | nil => intro tokens tok _; simp [parsePlusAndMinusLoop]
  | cons p rest ih =>
    intro tokens tok htok
    obtain ⟨op, t⟩ := p
    have ht : t.WellFormed := hrest (op, t) (by simp)
    simp only [List.flatMap_cons, List.cons_append]
    rw [parsePlusAndMinusLoop_op op _ tokens tok htok,
      parsePlusAndMinusLoop_append t.render (t.render_not_addop ht)]
    rw [List.nil_append, ih (fun q hq => hrest q (List.mem_cons_of_mem _ hq)) _ t.render
      (t.render_ne_nil ht)]
    simp

theorem parsePlusAndMinusLoop_snd_ne_nil (rest : List (AddOp × Term))
    (hrest : ∀ p ∈ rest, p.2.WellFormed) :
    ∀ (tokens : List Str) (tok : Str), tok ≠ [] →
      (parsePlusAndMinusLoop (rest.flatMap fun p => p.1.char :: p.2.render) tokens tok).2 ≠ [] := by
  induction rest with
  | nil => intro tokens tok h; simpa [parsePlusAndMinusLoop] using h
  | cons p rest ih =>
    intro tokens tok htok
    obtain ⟨op, t⟩ := p
    have ht : t.WellFormed := hrest (op, t) (by simp)
    simp only [List.flatMap_cons, List.cons_append]
    rw [parsePlusAndMinusLoop_op op _ tokens tok htok,
      parsePlusAndMinusLoop_append t.render (t.render_not_addop ht), List.nil_append]
    exact ih (fun q hq => hrest q (List.mem_cons_of_mem _ hq)) _ t.render (t.render_ne_nil ht)

theorem parsePlusAndMinus_render (e : Expr) (h : e.WellFormed) :
    parsePlusAndMinus e.render = .ok e.tokens := by
  unfold parsePlusAndMinus Expr.render Expr.tokens
  rw [parsePlusAndMinusLoop_append e.first.render (e.first.render_not_addop h.1)]
  have h1 := parsePlusAndMinusLoop_rest e.rest h.2 [] ([] ++ e.first.render)
    (by simpa using e.first.render_ne_nil h.1)
  have h2 := parsePlusAndMinusLoop_snd_ne_nil e.rest h.2 [] ([] ++ e.first.render)
    (by simpa using e.first.render_ne_nil h.1)
  simp only [h2, if_false]
  simpa using h1

theorem IsLiteral.ne_op {t : Str} (h : IsLiteral t) (c : Char)
    (hc : ¬ isLitChar c) : t ≠ [c] := by
  intro h0
  subst h0
  exact hc (h.chars c (by simp))

theorem not_isLitChar_ops :
    ¬ isLitChar '*' ∧ ¬ isLitChar '/' ∧ ¬ isLitChar '+' ∧ ¬ isLitChar '-' := by
  refine ⟨?_, ?_, ?_, ?_⟩ <;> (unfold isLitChar; decide)

theorem evaluateMultpAndDivLoop_rest (ev : Str → Deps → Except Err (Dbl × Deps))
    (Q : Str → Prop)
    (hev : ∀ lit, IsLiteral lit → Q lit →
      ∀ deps, ev lit deps = .ok (Dbl.fin (decimalValue lit), deps))
    (rest : List (MulOp × Str))
    (hrest : ∀ p ∈ rest, IsLiteral p.2 ∧ (p.1 = .over → decimalValue p.2 ≠ 0))
    (hq : ∀ p ∈ rest, Q p.2) :
    ∀ (r : ℚ) (isMultp : Bool) (deps : Deps),
      evaluateMultpAndDivLoop ev (rest.flatMap fun p => [[p.1.char], p.2]) (Dbl.fin r) isMultp deps
        = .ok (Dbl.fin (rest.foldl
            (fun acc p => match p.1 with
              | .times => acc * decimalValue p.2
              | .over => acc / decimalValue p.2) r), deps) := by
  induction rest with
  | nil => intro r isMultp deps; simp [evaluateMultpAndDivLoop]
  | cons p rest ih =>
    intro r isMultp deps
    obtain ⟨op, l⟩ := p
    obtain ⟨hl, hz⟩ := hrest (op, l) (by simp)
    have hql : Q l := hq (op, l) (by simp)
    have ih' := ih (fun q hq => hrest q (List.mem_cons_of_mem _ hq))
      (fun q hq2 => hq q (List.mem_cons_of_mem _ hq2))
    have h1 : l ≠ ['*'] := hl.ne_op '*' not_isLitChar_ops.1
    have h2 : l ≠ ['/'] := hl.ne_op '/' not_isLitChar_ops.2.1
    simp only [List.flatMap_cons, List.cons_append, List.nil_append, List.foldl_cons]
    cases op with
    | times =>
      rw [evaluateMultpAndDivLoop, if_pos (by rfl), evaluateMultpAndDivLoop, if_neg h1, if_neg h2,
        hev l hl hql]
      simp only [Bool.true_eq_false, and_false, if_false, if_true, Dbl.mul]
      exact ih' _ _ _
    | over =>
      have hz' : decimalValue l ≠ 0 := hz rfl
      rw [evaluateMultpAndDivLoop, if_neg (by decide), if_pos (by rfl), evaluateMultpAndDivLoop,
        if_neg h1, if_neg h2, hev l hl hql]
      have hnz : (Dbl.fin (decimalValue l)).isZero = false := by
        simp [Dbl.isZero, hz']
      simp only [hnz, Bool.false_eq_true, false_and, if_false, Dbl.div, hz']
      exact ih' _ _ _

theorem evaluateMultpAndDivToken_render (ev : Str → Deps → Except Err (Dbl × Deps))
    (Q : Str → Prop)
    (hev : ∀ lit, IsLiteral lit → Q lit →
      ∀ deps, ev lit deps = .ok (Dbl.fin (decimalValue lit), deps))
    (t : Term) (h : t.WellFormed) (hq : ∀ lit ∈ t.literals, Q lit) (deps : Deps) :
    evaluateMultpAndDivToken ev t.render deps = .ok (Dbl.fin t.value, deps) := by
  unfold evaluateMultpAndDivToken
  rw [parseMultpAndDiv_render t h]
  simp only [Term.tokens, hev t.first h.1 (hq t.first (List.mem_cons_self _ _))]
  exact evaluateMultpAndDivLoop_rest ev Q hev t.rest h.2
    (fun p hp => hq p.2 (List.mem_cons_of_mem _ (List.mem_map.2 ⟨p, hp, rfl⟩))) _ _ _

theorem Term.render_ne_op (t : Term) (h : t.WellFormed) (c : Char) (hc : ¬ isLitChar c) :
    t.render ≠ [c] := by
  obtain ⟨x, xs, hr, hx⟩ := t.render_head h
  rw [hr]
  intro h0
  simp at h0
  exact hc (h0.1 ▸ hx)

theorem parseAndEvaluateLoop_rest (ev : Str → Deps → Except Err (Dbl × Deps))
    (Q : Str → Prop)
    (hev : ∀ lit, IsLiteral lit → Q lit →
      ∀ deps, ev lit deps = .ok (Dbl.fin (decimalValue lit), deps))
    (rest : List (AddOp × Term)) (hrest : ∀ p ∈ rest, p.2.WellFormed)
    (hq : ∀ p ∈ rest, ∀ lit ∈ p.2.literals, Q lit) :
    ∀ (r : ℚ) (isAddition : Bool) (deps : Deps),
      parseAndEvaluateLoop ev (rest.flatMap fun p => [[p.1.char], p.2.render]) isAddition
          (Dbl.fin r) deps
        = .ok (Dbl.fin (rest.foldl
            (fun acc p => match p.1 with
              | .plus => acc + p.2.value
              | .minus => acc - p.2.value) r), deps) := by
  induction rest with
  | nil => intro r isAddition deps; simp [parseAndEvaluateLoop]
  | cons p rest ih =>
    intro r isAddition deps
    obtain ⟨op, t⟩ := p
    have ht : t.WellFormed := hrest (op, t) (by simp)
    have hqt : ∀ lit ∈ t.literals, Q lit := hq (op, t) (by simp)
    have ih' := ih (fun q hq => hrest q (List.mem_cons_of_mem _ hq))
      (fun q hq2 => hq q (List.mem_cons_of_mem _ hq2))
    have h1 : t.render ≠ ['+'] := t.render_ne_op ht '+' not_isLitChar_ops.2.2.1
    have h2 : t.render ≠ ['-'] := t.render_ne_op ht '-' not_isLitChar_ops.2.2.2
    simp only [List.flatMap_cons, List.cons_append, List.nil_append, List.foldl_cons]
    cases op with
    | plus =>
      rw [parseAndEvaluateLoop, if_pos (by rfl), parseAndEvaluateLoop, if_neg h1, if_neg h2,
        evaluateMultpAndDivToken_render ev Q hev t ht hqt]
      simp only [if_true, Dbl.add]
      exact ih' _ _ _
    | minus =>
      rw [parseAndEvaluateLoop, if_neg (by decide), if_pos (by rfl), parseAndEvaluateLoop,
        if_neg h1, if_neg h2, evaluateMultpAndDivToken_render ev Q hev t ht hqt]
      simp only [Bool.false_eq_true, if_false, Dbl.sub, Dbl.neg, Dbl.add]
      rw [← sub_eq_add_neg]
      exact ih' _ _ _

theorem parseAndEvaluateLoop_render (ev : Str → Deps → Except Err (Dbl × Deps))
    (Q : Str → Prop)
    (hev : ∀ lit, IsLiteral lit → Q lit →
      ∀ deps, ev lit deps = .ok (Dbl.fin (decimalValue lit), deps))
    (e : Expr) (h : e.WellFormed) (hq : ∀ lit ∈ e.literals, Q lit) (deps : Deps) :
    parseAndEvaluateLoop ev e.tokens true (Dbl.fin 0) deps = .ok (Dbl.fin e.value, deps) := by
  have h1 : e.first.render ≠ ['+'] := e.first.render_ne_op h.1 '+' not_isLitChar_ops.2.2.1
  have h2 : e.first.render ≠ ['-'] := e.first.render_ne_op h.1 '-' not_isLitChar_ops.2.2.2
  unfold Expr.tokens
  rw [parseAndEvaluateLoop, if_neg h1, if_neg h2,
    evaluateMultpAndDivToken_render ev Q hev e.first h.1
      (fun lit hl => hq lit (List.mem_append_left _ hl))]
  simp only [if_true, Dbl.add, zero_add]
  exact parseAndEvaluateLoop_rest ev Q hev e.rest h.2
    (fun p hp lit hl => hq lit (List.mem_append_right _
      (List.mem_flatMap.2 ⟨p, hp, hl⟩))) _ _ _

/-! ## C1, C5, C6: evaluation of formulas -/

/-- C1: in a well-formed grid whose cells A1 and B1 hold the numeric values `a`
and `b`, `parseAndEvaluate` on `=A1+B1` succeeds with `a + b`; the dependencies
recorded are A1 and B1, each once (in revision 1 on the target cell, which is
also given the formula and the value; in revision 2 appended to the vector of
the caller). -/
theorem C1_parseAndEvaluate_A1_plus_B1 (sqrt : Dbl → Dbl)
    (g1 : Rev1.Spreadsheet) (g2 : Rev2.Spreadsheet) (a b : Dbl)
    (cellA1 cellB1 target : Rev1.Cell) (cellA2 cellB2 : Rev2.Cell) (r c : Nat)
    (coordinates : Int × Int) (dependentCells : Deps)
    (hw1 : g1.WF) (hw2 : g2.WF) (hc1 : 2 ≤ g1.getColCount) (hc2 : 2 ≤ g2.getColCount)
    (hA1 : g1.cellAt 0 0 = some cellA1) (hB1 : g1.cellAt 0 1 = some cellB1)
    (ha1 : cellA1.content.numeric? = some a) (hb1 : cellB1.content.numeric? = some b)
    (hA2 : g2.cellAt 0 0 = some cellA2) (hB2 : g2.cellAt 0 1 = some cellB2)
    (ha2 : cellA2.getCellValueAsDouble = a) (hb2 : cellB2.getCellValueAsDouble = b)
    (hr : r < g1.getRowCount) (hc : c < g1.getColCount) (ht : g1.cellAt r c = some target) :
    Rev1.parseAndEvaluate sqrt g1 "=A1+B1".toList ((r : Int), (c : Int))
      = .ok (a.add b, g1.assign r c { target with
          formula := "=A1+B1".toList, dependentCells := [(0, 0), (0, 1)],
          content := .double (a.add b) }) ∧
    Rev2.parseAndEvaluate sqrt g2 "=A1+B1".toList coordinates dependentCells
      = .ok (a.add b, dependentCells ++ [(0, 0), (0, 1)]) := by
  constructor
  · have := Rev1.parseAndEvaluate_A1_plus_B1_r1 sqrt hw1 hc1 hA1 hB1 hr hc ht
    simpa [ha1, hb1] using this
  · have := Rev2.parseAndEvaluate_A1_plus_B1_r2 sqrt hw2 hc2 hA2 hB2 coordinates dependentCells
    simpa [ha2, hb2] using this

/-- C1 (witness): with A1 = 10 and B1 = 5 the result is 15. -/
theorem C1_witness :
    (Dbl.ofInt 10).add (Dbl.ofInt 5) = Dbl.fin 15 ∧
    Rev1.parseAndEvaluate id Rev1.sheetA "=A1+B1".toList (0, 2)
      = .ok ((Dbl.ofInt 10).add (Dbl.ofInt 5),
          Rev1.sheetOf [[(.int 10, [], []), (.int 5, [], []),
            (.double ((Dbl.ofInt 10).add (Dbl.ofInt 5)), "=A1+B1".toList, [(0, 0), (0, 1)])]]) ∧
    Rev2.parseAndEvaluate id Rev2.sheetA "=A1+B1".toList (0, 2) []
      = .ok ((Dbl.ofInt 10).add (Dbl.ofInt 5), [(0, 0), (0, 1)]) := by
  have h := C1_parseAndEvaluate_A1_plus_B1 id Rev1.sheetA Rev2.sheetA (Dbl.ofInt 10) (Dbl.ofInt 5)
    ⟨.int 10, [], "A1".toList, 0, 0, []⟩ ⟨.int 5, [], "B1".toList, 0, 1, []⟩
    ⟨.monostate, [], "C1".toList, 0, 2, []⟩
    ⟨"A1".toList, 0, 0, .IntValueCell 10⟩ ⟨"B1".toList, 0, 1, .IntValueCell 5⟩ 0 2 (0, 2) []
    (by decide) (by decide) (by decide) (by decide) (by decide) (by decide) (by rfl) (by rfl)
    (by decide) (by decide) (by rfl) (by rfl) (by decide) (by decide) (by decide)
  refine ⟨?_, ?_, ?_⟩
  · simp [Dbl.ofInt, Dbl.add]; norm_num
  · exact h.1
  · exact h.2

theorem Expr.Exact.literals {e : Expr} (h : e.Exact) :
    ∀ lit ∈ e.literals, Dbl.Representable (decimalValue lit) := by
  intro lit hl
  unfold Expr.literals at hl
  rcases List.mem_append.1 hl with h1 | h2
  · exact h.1.1 lit h1
  · obtain ⟨p, hp, hlp⟩ := List.mem_flatMap.1 h2
    exact (h.2.1 p hp).1 lit hlp

/-- C5 (counterexample): the formula of the single literal `1` followed by 309
zeros is well formed and denotes `10^309`; its evaluation fails in both
revisions with the `out_of_range` of `std::stod`, which the `catch` for
`invalid_argument` in `evaluateSingleToken` lets through. -/
theorem C5_counterexample :
    (exprHuge.WellFormed ∧ exprHuge.render = hugeLiteral ∧ exprHuge.value = 10 ^ 309) ∧
    Rev1.parseAndEvaluate id Rev1.sheetA ('=' :: exprHuge.render) (0, 2)
      = .error .stodOutOfRange ∧
    Rev2.parseAndEvaluate id Rev2.sheetA ('=' :: exprHuge.render) (0, 2) []
      = .error .stodOutOfRange :=
  ⟨⟨by decide!, by decide!, by decide!⟩, by decide!, by decide!⟩

/-- C5 (amended): for every well-formed formula of numeric literals joined by
single operators, without a zero divisor, in which every literal and every
intermediate result is a finite value of binary64 (so that no step rounds or
overflows), `parseAndEvaluate` returns the ordinary value of the expression,
`*` and `/` binding tighter than `+` and `-` and operators of one level
associating to the left; no dependency is recorded. -/
theorem C5_literal_formula_value (sqrt : Dbl → Dbl)
    (g1 : Rev1.Spreadsheet) (g2 : Rev2.Spreadsheet) (e : Expr) (target : Rev1.Cell) (r c : Nat)
    (coordinates : Int × Int) (dependentCells : Deps)
    (hw1 : g1.WF) (hw2 : g2.WF) (he : e.WellFormed) (hx : e.Exact)
    (hr : r < g1.getRowCount) (hc : c < g1.getColCount) (ht : g1.cellAt r c = some target) :
    Rev1.parseAndEvaluate sqrt g1 ('=' :: e.render) ((r : Int), (c : Int))
      = .ok (Dbl.fin e.value, g1.assign r c { target with
          formula := '=' :: e.render, dependentCells := [],
          content := .double (Dbl.fin e.value) }) ∧
    Rev2.parseAndEvaluate sqrt g2 ('=' :: e.render) coordinates dependentCells
      = .ok (Dbl.fin e.value, dependentCells) := by
  have hne : e.tokens ≠ [] := by simp [Expr.tokens]
  constructor
  · unfold Rev1.parseAndEvaluate
    rw [if_neg (by simp), List.drop_one, List.tail_cons, parsePlusAndMinus_render e he]
    simp only [hne, if_false]
    rw [parseAndEvaluateLoop_render _ (fun lit => Dbl.Representable (decimalValue lit))
      (fun lit hl hq deps => Rev1.evaluateSingleToken_literal_r1 sqrt hw1 lit hl
        (not_stodRangeError_of_representable _ hq) deps) e he hx.literals]
    simp [Rev1.Spreadsheet.getCell_eq_r1 hr hc ht]
  · unfold Rev2.parseAndEvaluate
    rw [if_neg (by simp), List.drop_one, List.tail_cons, parsePlusAndMinus_render e he]
    simp only [hne, if_false]
    rw [parseAndEvaluateLoop_render _ (fun lit => Dbl.Representable (decimalValue lit))
      (fun lit hl hq deps => Rev2.evaluateSingleToken_literal_r2 sqrt hw2 lit hl
        (not_stodRangeError_of_representable _ hq) deps) e he hx.literals]
    simp

/-- C5 (witness): `=2+3*4` is 14, `=8/2/2` is 2 and `=8/2*3` is 12; every
literal and every intermediate result of the three formulas is a small
integer. -/
theorem C5_witness :
    (exprA.render = "2+3*4".toList ∧ exprA.value = 14 ∧
     exprB.render = "8/2/2".toList ∧ exprB.value = 2 ∧
     exprC.render = "8/2*3".toList ∧ exprC.value = 12) ∧
    (exprA.WellFormed ∧ exprA.Exact ∧ exprB.WellFormed ∧ exprB.Exact ∧
     exprC.WellFormed ∧ exprC.Exact) ∧
    (Rev2.parseAndEvaluate id Rev2.sheetA ('=' :: exprA.render) (0, 2) []
        = .ok (Dbl.fin exprA.value, []) ∧
     Rev2.parseAndEvaluate id Rev2.sheetA ('=' :: exprB.render) (0, 2) []
        = .ok (Dbl.fin exprB.value, []) ∧
     Rev2.parseAndEvaluate id Rev2.sheetA ('=' :: exprC.render) (0, 2) []
        = .ok (Dbl.fin exprC.value, [])) ∧
    (Rev1.parseAndEvaluate id Rev1.sheetA ('=' :: exprA.render) (0, 2)
        = .ok (Dbl.fin exprA.value, Rev1.sheetA.assign 0 2
            { content := .double (Dbl.fin exprA.value), formula := '=' :: exprA.render,
              letterRepresentation := "C1".toList, row := 0, col := 2, dependentCells := [] })) :=
  ⟨by decide!,
   ⟨by decide!, by decide!, by decide!, by decide!, by decide!, by decide!⟩,
   ⟨(C5_literal_formula_value id Rev1.sheetA Rev2.sheetA exprA
        ⟨.monostate, [], "C1".toList, 0, 2, []⟩ 0 2 (0, 2) []
        (by decide) (by decide) (by decide!) (by decide!) (by decide) (by decide)
        (by decide)).2,
    (C5_literal_formula_value id Rev1.sheetA Rev2.sheetA exprB
        ⟨.monostate, [], "C1".toList, 0, 2, []⟩ 0 2 (0, 2) []
        (by decide) (by decide) (by decide!) (by decide!) (by decide) (by decide)
        (by decide)).2,
    (C5_literal_formula_value id Rev1.sheetA Rev2.sheetA exprC
        ⟨.monostate, [], "C1".toList, 0, 2, []⟩ 0 2 (0, 2) []
        (by decide) (by decide) (by decide!) (by decide!) (by decide) (by decide)
        (by decide)).2⟩,
   (C5_literal_formula_value id Rev1.sheetA Rev2.sheetA exprA
        ⟨.monostate, [], "C1".toList, 0, 2, []⟩ 0 2 (0, 2) []
        (by decide) (by decide) (by decide!) (by decide!) (by decide) (by decide)
        (by decide)).1⟩

theorem Dbl.div_one (a : Dbl) : a.div (Dbl.fin 1) = a := by
  cases a <;> simp [Dbl.div]

/-- C6: when the operand after a `/` evaluates to exactly `0.0` the division is
by 1, so the running product is unchanged and nothing fails (for any evaluator
of operands, so for a literal, a reference or an aggregate alike); and in every
well-formed grid `=10/0` evaluates to 10 in both revisions. -/
theorem C6_zero_divisor_replaced_by_one (sqrt : Dbl → Dbl)
    (ev : Str → Deps → Except Err (Dbl × Deps)) (t : Str) (ts : List Str) (result : Dbl)
    (isMultp : Bool) (deps deps2 : Deps)
    (g1 : Rev1.Spreadsheet) (g2 : Rev2.Spreadsheet) (target : Rev1.Cell) (r c : Nat)
    (coordinates : Int × Int) (dependentCells : Deps)
    (h1 : t ≠ ['*']) (h2 : t ≠ ['/']) (hev : ev t deps = .ok (Dbl.fin 0, deps2))
    (hw1 : g1.WF) (hw2 : g2.WF)
    (hr : r < g1.getRowCount) (hc : c < g1.getColCount) (ht : g1.cellAt r c = some target) :
    evaluateMultpAndDivLoop ev (['/'] :: t :: ts) result isMultp deps
      = evaluateMultpAndDivLoop ev ts result false deps2 ∧
    Rev1.parseAndEvaluate sqrt g1 "=10/0".toList ((r : Int), (c : Int))
      = .ok (Dbl.fin 10, g1.assign r c { target with
          formula := "=10/0".toList, dependentCells := [],
          content := .double (Dbl.fin 10) }) ∧
    Rev2.parseAndEvaluate sqrt g2 "=10/0".toList coordinates dependentCells
      = .ok (Dbl.fin 10, dependentCells) := by
  have hten : IsLiteral "10".toList := by decide
  have hzero : IsLiteral "0".toList := by decide
  have rten : ¬ stodRangeError (decimalValue "10".toList) := by decide!
  have rzero : ¬ stodRangeError (decimalValue "0".toList) := by decide!
  have vten : decimalValue "10".toList = 10 := by
    simp [decimalValue, isdigit, digitsValue_cons, digitsValue_nil, digitVal]
  have vzero : decimalValue "0".toList = 0 := by
    simp [decimalValue, isdigit, digitsValue_cons, digitsValue_nil, digitVal]
  have hp : parsePlusAndMinus ("=10/0".toList.drop 1) = .ok ["10/0".toList] := by decide
  have hm : parseMultpAndDiv "10/0".toList = .ok ["10".toList, "/".toList, "0".toList] := by
    decide
  refine ⟨?_, ?_, ?_⟩
  · rw [evaluateMultpAndDivLoop, if_neg (by decide), if_pos rfl, evaluateMultpAndDivLoop,
      if_neg h1, if_neg h2, hev]
    simp [Dbl.isZero, Dbl.div_one]
  · have e10 := fun deps => Rev1.evaluateSingleToken_literal_r1 sqrt hw1 _ hten rten deps
    have e0 := fun deps => Rev1.evaluateSingleToken_literal_r1 sqrt hw1 _ hzero rzero deps
    unfold Rev1.parseAndEvaluate
    rw [if_neg (by decide), hp]
    simp only [String.toList] at *
    simp [parseAndEvaluateLoop, evaluateMultpAndDivToken, evaluateMultpAndDivLoop, hm, e10, e0,
      vten, vzero, Dbl.isZero, Dbl.div_one, Dbl.zero_add, Rev1.Spreadsheet.getCell_eq_r1 hr hc ht]
  · have e10 := fun deps => Rev2.evaluateSingleToken_literal_r2 sqrt hw2 _ hten rten deps
    have e0 := fun deps => Rev2.evaluateSingleToken_literal_r2 sqrt hw2 _ hzero rzero deps
    unfold Rev2.parseAndEvaluate
    rw [if_neg (by decide), hp]
    simp only [String.toList] at *
    simp [parseAndEvaluateLoop, evaluateMultpAndDivToken, evaluateMultpAndDivLoop, hm, e10, e0,
      vten, vzero, Dbl.isZero, Dbl.div_one, Dbl.zero_add]

/-- C6 (witness): dividing 7 by the empty text cell C1, whose value is 0, leaves
7; `=10/0` is 10. -/
theorem C6_witness :
    Rev2.evaluateSingleToken id Rev2.sheetA "C1".toList [] = .ok (Dbl.fin 0, [(0, 2)]) ∧
    (evaluateMultpAndDivLoop (Rev2.evaluateSingleToken id Rev2.sheetA)
        [['/'], "C1".toList] (Dbl.fin 7) true []
      = evaluateMultpAndDivLoop (Rev2.evaluateSingleToken id Rev2.sheetA) [] (Dbl.fin 7) false
          [(0, 2)] ∧
    Rev1.parseAndEvaluate id Rev1.sheetA "=10/0".toList (0, 2)
      = .ok (Dbl.fin 10, Rev1.sheetA.assign 0 2
          { content := .double (Dbl.fin 10), formula := "=10/0".toList,
            letterRepresentation := "C1".toList, row := 0, col := 2, dependentCells := [] }) ∧
    Rev2.parseAndEvaluate id Rev2.sheetA "=10/0".toList (0, 2) [] = .ok (Dbl.fin 10, [])) :=
  ⟨by decide!,
   C6_zero_divisor_replaced_by_one id (Rev2.evaluateSingleToken id Rev2.sheetA) "C1".toList []
     (Dbl.fin 7) true [] [(0, 2)] Rev1.sheetA Rev2.sheetA
     ⟨.monostate, [], "C1".toList, 0, 2, []⟩ 0 2 (0, 2) []
     (by decide) (by decide) (by decide!) (by decide) (by decide) (by decide) (by decide)
     (by decide)⟩

/-! ## C10: a formula that fails to evaluate -/

namespace Rev2

theorem Spreadsheet.setCell_eq {g : Spreadsheet} {i j : Nat} {old : Cell}
    (hi : i < g.getRowCount) (hj : j < g.getColCount) (hc : g.cellAt i j = some old)
    (cell : Cell) :
    g.setCell (i : Int) (j : Int) cell = .ok (g.assign i j cell) := by
  unfold Spreadsheet.setCell
  have h1 : ¬ ((g.getRowCount : Int) ≤ (i : Int) ∨ (g.getColCount : Int) ≤ (j : Int)) := by omega
  have h2 : ¬ ((i : Int) < 0 ∨ (j : Int) < 0) := by omega
  rw [if_neg h1, if_neg h2]
  simp [hc]

end Rev2

namespace Rev1

theorem Spreadsheet.cellAt_assign_same {g : Spreadsheet} {i j : Nat} {old : Cell}
    (hc : g.cellAt i j = some old) (cell : Cell) :
    (g.assign i j cell).cellAt i j = some cell := by
  unfold Spreadsheet.cellAt at hc ⊢
  unfold Spreadsheet.assign
  cases hrow : g.cells[i]? with
  | none => simp [hrow] at hc
  | some row =>
    simp only [hrow] at hc
    have hi : i < g.cells.length := by
      rcases Nat.lt_or_ge i g.cells.length with h | h
      · exact h
      · rw [List.getElem?_eq_none h] at hrow; cases hrow
    have hj : j < row.length := by
      rcases Nat.lt_or_ge j row.length with h | h
      · exact h
      · rw [List.getElem?_eq_none h] at hc; cases hc
    simp [List.getElem?_modify, hrow, hj]

theorem Spreadsheet.assign_assign {g : Spreadsheet} {i j : Nat} (a b : Cell) :
    (g.assign i j a).assign i j b = g.assign i j b := by
  unfold Spreadsheet.assign
  simp only [Spreadsheet.mk.injEq]
  apply List.ext_getElem?
  intro n
  simp only [List.getElem?_modify]
  by_cases h : i = n
  · subst h
    cases g.cells[i]? <;> simp
  · simp [h]

end Rev1

/-- C10 (counterexample): entering `=A1+` into C1, which held `=A1+B1` with the
value 15, replaces the value by the text `=A1+` in both revisions; revision 2
also drops the dependency list with the formula cell. -/
theorem C10_counterexample :
    Rev1.sheetC.cellAt 0 2
      = some ⟨.double (Dbl.fin 15), "=A1+B1".toList, "C1".toList, 0, 2, [(0, 0), (0, 1)]⟩ ∧
    (Rev1.sheetC.setContent id 0 2 "=A1+".toList (0, 2)).map (fun g => g.cellAt 0 2)
      = .ok (some ⟨.string "=A1+".toList, "=A1+".toList, "C1".toList, 0, 2, [(0, 0), (0, 1)]⟩) ∧
    Rev2.sheetC.cellAt 0 2
      = some ⟨"C1".toList, 0, 2, .FormulaCell "=A1+B1".toList (Dbl.fin 15) [(0, 0), (0, 1)]⟩ ∧
    (Rev2.sheetC.enterData id 0 2 "=A1+".toList).map (fun g => g.cellAt 0 2)
      = .ok (some ⟨"C1".toList, 0, 2, .StringValueCell "=A1+".toList⟩) := by
  decide!

/-- C10 (amended): when a formula entered into a cell fails to evaluate, the
entry operation stores the formula text itself as the content of the cell in
place of the previous value.  In revision 1 the dependency list of the cell is
left as it was and the formula field holds the failed text; in revision 2 the
cell becomes a plain text cell, which has no dependency list.  No other cell
changes. -/
theorem C10_failed_formula_stored_as_text (sqrt : Dbl → Dbl)
    (g1 : Rev1.Spreadsheet) (g2 : Rev2.Spreadsheet) (r c : Nat) (input : Str)
    (old1 : Rev1.Cell) (old2 : Rev2.Cell) (cellCoords : Int × Int) (e1 e2 : Err)
    (hin : input ≠ [] ∧ input.head? = some '=')
    (h1 : g1.cellAt r c = some old1)
    (hf1 : Rev1.parseAndEvaluate sqrt (g1.assign r c { old1 with formula := input }) input
      cellCoords = .error e1)
    (hx1 : e1.isException = true)
    (hr2 : r < g2.getRowCount) (hc2 : c < g2.getColCount) (h2 : g2.cellAt r c = some old2)
    (hf2 : Rev2.parseAndEvaluate sqrt g2 input ((r : Int), (c : Int)) [] = .error e2)
    (hx2 : e2.isException = true) :
    g1.setContent sqrt r c input cellCoords
      = .ok (g1.assign r c { old1 with formula := input, content := .string input }) ∧
    g2.enterData sqrt (r : Int) (c : Int) input
      = .ok (g2.assign r c
          { letter_rep := cellLabel (r : Int) (c : Int), row := (r : Int), col := (c : Int),
            body := .StringValueCell input }) := by
  constructor
  · unfold Rev1.Spreadsheet.setContent
    simp only [h1, hin, ne_eq, not_false_eq_true, and_self, if_true, hf1, hx1]
    unfold Rev1.Spreadsheet.setContentPlain
    rw [Rev1.Spreadsheet.cellAt_assign_same h1]
    simp only [Rev1.Spreadsheet.assign_assign]
  · unfold Rev2.Spreadsheet.enterData
    have hneg : ¬ ((r : Int) < 0 ∨ (c : Int) < 0) := by omega
    simp only [hin, ne_eq, not_false_eq_true, and_self, if_true, hf2, hx2, bind, Except.bind,
      Rev2.Cell.new, hneg, if_false, Rev2.Spreadsheet.setCell_eq hr2 hc2 h2]

/-- C10 (witness): entering `=A1+` into C1 of the sample grids. -/
theorem C10_witness :
    (Rev1.parseAndEvaluate id
        (Rev1.sheetC.assign 0 2
          { (⟨.double (Dbl.fin 15), "=A1+B1".toList, "C1".toList, 0, 2, [(0, 0), (0, 1)]⟩ :
              Rev1.Cell) with formula := "=A1+".toList })
        "=A1+".toList (0, 2) = .error .plusMinusAtEnd ∧
     Rev2.parseAndEvaluate id Rev2.sheetC "=A1+".toList (((0 : Nat) : Int), ((2 : Nat) : Int)) []
        = .error .plusMinusAtEnd) ∧
    (Rev1.sheetC.setContent id 0 2 "=A1+".toList (0, 2)
      = .ok (Rev1.sheetC.assign 0 2
          { (⟨.double (Dbl.fin 15), "=A1+B1".toList, "C1".toList, 0, 2, [(0, 0), (0, 1)]⟩ :
              Rev1.Cell) with formula := "=A1+".toList, content := .string "=A1+".toList }) ∧
     Rev2.sheetC.enterData id ((0 : Nat) : Int) ((2 : Nat) : Int) "=A1+".toList
      = .ok (Rev2.sheetC.assign 0 2
          { letter_rep := cellLabel ((0 : Nat) : Int) ((2 : Nat) : Int), row := ((0 : Nat) : Int),
            col := ((2 : Nat) : Int), body := .StringValueCell "=A1+".toList })) :=
  ⟨by decide,
   C10_failed_formula_stored_as_text id Rev1.sheetC Rev2.sheetC 0 2 "=A1+".toList
     ⟨.double (Dbl.fin 15), "=A1+B1".toList, "C1".toList, 0, 2, [(0, 0), (0, 1)]⟩
     ⟨"C1".toList, 0, 2, .FormulaCell "=A1+B1".toList (Dbl.fin 15) [(0, 0), (0, 1)]⟩
     (0, 2) .plusMinusAtEnd .plusMinusAtEnd
     (by decide) (by decide) (by decide) (by decide) (by decide) (by decide) (by decide)
     (by decide) (by decide)⟩

/-! ## C4: recalculation in the first revision on a cyclic grid -/

theorem Rev1.sheetCyc_reached :
    (do
      let g ← Rev1.Spreadsheet.new 1 2
      let g ← g.setContent id 0 0 "=B1".toList (0, 0)
      let g ← Rev1.autoCalculate id 1 g (0, 0)
      g.setContent id 0 1 "=A1".toList (0, 1)) = .ok Rev1.sheetCyc := by
  decide!

theorem Rev1.autoCalculateLoop_sheetCyc_A1
    (recurse : Rev1.Spreadsheet → Int × Int → Except Err Rev1.Spreadsheet) :
    Rev1.autoCalculateLoop id recurse (0, 0) [(0, 0), (0, 1)] Rev1.sheetCyc
      = match recurse Rev1.sheetCyc (0, 1) with
        | .error e => .error e
        | .ok g2 => .ok g2 := by
  have hA : Rev1.sheetCyc.getCell ((0 : Nat) : Int) ((0 : Nat) : Int)
      = .ok ⟨.double (Dbl.fin 0), "=B1".toList, "A1".toList, 0, 0, [(0, 1)]⟩ := by decide
  have hB : Rev1.sheetCyc.getCell ((0 : Nat) : Int) ((1 : Nat) : Int)
      = .ok ⟨.double (Dbl.fin 0), "=A1".toList, "B1".toList, 0, 1, [(0, 0)]⟩ := by decide
  have hp : Rev1.parseAndEvaluate id Rev1.sheetCyc "=A1".toList
      (((0 : Nat) : Int), ((1 : Nat) : Int)) = .ok (Dbl.fin 0, Rev1.sheetCyc) := by decide!
  have hs : Rev1.sheetCyc.setContentPlain 0 1 (.double (Dbl.fin 0)) = Rev1.sheetCyc := by decide
  rw [Rev1.autoCalculateLoop, hA]
  simp only
  rw [if_neg (by decide), Rev1.autoCalculateLoop, hB]
  simp only
  rw [if_pos (by decide), hp]
  simp only [hs]
  cases recurse Rev1.sheetCyc (((0 : Nat) : Int), ((1 : Nat) : Int)) with
  | error e => rfl
  | ok g2 => rfl

theorem Rev1.autoCalculateLoop_sheetCyc_B1
    (recurse : Rev1.Spreadsheet → Int × Int → Except Err Rev1.Spreadsheet) :
    Rev1.autoCalculateLoop id recurse (0, 1) [(0, 0), (0, 1)] Rev1.sheetCyc
      = match recurse Rev1.sheetCyc (0, 0) with
        | .error e => .error e
        | .ok g2 => Rev1.autoCalculateLoop id recurse (0, 1) [(0, 1)] g2 := by
  have hA : Rev1.sheetCyc.getCell ((0 : Nat) : Int) ((0 : Nat) : Int)
      = .ok ⟨.double (Dbl.fin 0), "=B1".toList, "A1".toList, 0, 0, [(0, 1)]⟩ := by decide
  have hp : Rev1.parseAndEvaluate id Rev1.sheetCyc "=B1".toList
      (((0 : Nat) : Int), ((0 : Nat) : Int)) = .ok (Dbl.fin 0, Rev1.sheetCyc) := by decide!
  have hs : Rev1.sheetCyc.setContentPlain 0 0 (.double (Dbl.fin 0)) = Rev1.sheetCyc := by decide
  rw [Rev1.autoCalculateLoop, hA]
  simp only
  rw [if_pos (by decide), hp]
  simp only [hs]
  rfl

/-- C4: in the first revision, recalculation does not terminate on the grid
reached by entering `=B1` into A1 and `=A1` into B1: whatever the depth allowed,
`autoCalculate` for either cell is still recursing when the depth is used up. -/
theorem C4_rev1_autoCalculate_diverges_on_cycle (fuel : Nat) :
    Rev1.autoCalculate id fuel Rev1.sheetCyc (0, 0) = .error .outOfFuel ∧
    Rev1.autoCalculate id fuel Rev1.sheetCyc (0, 1) = .error .outOfFuel := by
  have hidx : gridIndices Rev1.sheetCyc.getRowCount Rev1.sheetCyc.getColCount
      = [(0, 0), (0, 1)] := by decide
  induction fuel with
  | zero => exact ⟨rfl, rfl⟩
  | succ n ih =>
    constructor
    · rw [Rev1.autoCalculate, hidx, Rev1.autoCalculateLoop_sheetCyc_A1, ih.2]
    · rw [Rev1.autoCalculate, hidx, Rev1.autoCalculateLoop_sheetCyc_B1, ih.1]

/-! ## Assignment to a cell: frame lemmas -/

namespace Rev2

theorem Spreadsheet.getRowCount_assign (g : Spreadsheet) (i j : Nat) (cell : Cell) :
    (g.assign i j cell).getRowCount = g.getRowCount := by
  simp [Spreadsheet.assign, Spreadsheet.getRowCount]

theorem Spreadsheet.getColCount_assign (g : Spreadsheet) (i j : Nat) (cell : Cell) :
    (g.assign i j cell).getColCount = g.getColCount := by
  unfold Spreadsheet.assign Spreadsheet.getColCount
  cases hg : g.cells with
  | nil => simp
  | cons row rows =>
    cases i with
    | zero => simp [List.modify]
    | succ n => simp [List.modify]

theorem Spreadsheet.cellAt_assign (g : Spreadsheet) (i j i2 j2 : Nat) (cell : Cell) :
    (g.assign i j cell).cellAt i2 j2
      = if i2 = i ∧ j2 = j ∧ (g.cellAt i j).isSome then some cell else g.cellAt i2 j2 := by
  unfold Spreadsheet.cellAt Spreadsheet.assign
  simp only [List.getElem?_modify]
  by_cases hi : i = i2
  · subst hi
    cases hrow : g.cells[i]? with
    | none => simp
    | some row =>
      simp only [if_true, Option.map_some', true_and]
      by_cases hj : j2 = j
      · subst hj
        by_cases hlt : j2 < row.length
        · simp [List.getElem?_set, hlt]
        · have hnone : row[j2]? = none := List.getElem?_eq_none (by omega)
          simp [List.getElem?_set, hlt, hnone]
      · have : ¬ j = j2 := fun h => hj h.symm
        simp [List.getElem?_set, hj, this]
  · have : ¬ i2 = i := fun h => hi h.symm
    simp [hi, this]

theorem Spreadsheet.WF.assign {g : Spreadsheet} (h : g.WF) {i j : Nat} {cell : Cell}
    (hc : cell.WFAt i j) : (g.assign i j cell).WF := by
  obtain ⟨h1, h2, h3, h4⟩ := h
  refine ⟨?_, ?_, ?_, ?_⟩
  · rw [Spreadsheet.getRowCount_assign]; exact h1
  · rw [Spreadsheet.getColCount_assign]; exact h2
  · intro row hrow
    rw [Spreadsheet.getColCount_assign]
    unfold Spreadsheet.assign at hrow
    rw [List.mem_iff_getElem?] at hrow
    obtain ⟨n, hn⟩ := hrow
    rw [List.getElem?_modify] at hn
    cases hr : g.cells[n]? with
    | none => simp [hr] at hn
    | some row0 =>
      have hmem : row0 ∈ g.cells := List.mem_iff_getElem?.2 ⟨n, hr⟩
      rw [hr] at hn
      simp at hn
      rw [← hn]
      split
      · simpa using h3 row0 hmem
      · exact h3 row0 hmem
  · intro i2 hi2 j2 hj2
    rw [Spreadsheet.getRowCount_assign] at hi2
    rw [Spreadsheet.getColCount_assign] at hj2
    rw [Spreadsheet.cellAt_assign]
    split
    · rename_i hh
      obtain ⟨rfl, rfl, _⟩ := hh
      exact ⟨cell, rfl, hc⟩
    · exact h4 i2 hi2 j2 hj2

end Rev2

/-! ## The evaluator makes no unchecked access on a well-formed grid -/

theorem noUB_ok {α : Type} (a : α) : NoUB (Except.ok a : Except Err α) := by
  intro e h; cases h

theorem noUB_pure {α : Type} (a : α) : NoUB (pure a : Except Err α) := by
  intro e h; cases h

theorem noUB_error {α : Type} {e : Err} (h : e.isException = true) :
    NoUB (Except.error e : Except Err α) := by
  intro e2 h2; cases h2; exact h

theorem noUB_throw {α : Type} {e : Err} (h : e.isException = true) :
    NoUB (throw e : Except Err α) := by
  intro e2 h2; cases h2; exact h

theorem noUB_bind {α β : Type} {x : Except Err α} {f : α → Except Err β}
    (hx : NoUB x) (hf : ∀ a, x = .ok a → NoUB (f a)) : NoUB (x >>= f) := by
  cases x with
  | error e =>
    intro e2 h2
    have h3 : (Except.error e : Except Err β) = Except.error e2 := h2
    cases h3
    exact hx e rfl
  | ok a => exact hf a rfl

theorem noUB_substr (s : Str) (pos len : Nat) : NoUB (substr s pos len) := by
  unfold substr
  split
  · exact noUB_error rfl
  · exact noUB_ok _

theorem parseMultpAndDiv_ne_nil (token : Str) : parseMultpAndDiv token ≠ .ok [] := by
  unfold parseMultpAndDiv
  cases parseMultpAndDivLoop token [] [] with
  | mk tokens subToken =>
    simp only
    split <;> simp

theorem noUB_parseMultpAndDiv (token : Str) : NoUB (parseMultpAndDiv token) := by
  unfold parseMultpAndDiv
  cases parseMultpAndDivLoop token [] [] with
  | mk tokens subToken =>
    simp only
    split
    · exact noUB_error rfl
    · exact noUB_ok _

theorem noUB_parsePlusAndMinus (formula : Str) : NoUB (parsePlusAndMinus formula) := by
  unfold parsePlusAndMinus
  cases parsePlusAndMinusLoop formula [] [] with
  | mk tokens token =>
    simp only
    split
    · exact noUB_error rfl
    · exact noUB_ok _

theorem noUB_evaluateMultpAndDivLoop (ev : Str → Deps → Except Err (Dbl × Deps))
    (hev : ∀ t deps, NoUB (ev t deps)) (ts : List Str) :
    ∀ result isMultp deps, NoUB (evaluateMultpAndDivLoop ev ts result isMultp deps) := by
  induction ts with
  | nil => intro result isMultp deps; exact noUB_ok _
  | cons t ts ih =>
    intro result isMultp deps
    unfold evaluateMultpAndDivLoop
    split
    · exact ih _ _ _
    · split
      · exact ih _ _ _
      · split
        · rename_i e he
          exact noUB_error (hev t deps e he)
        · exact ih _ _ _

theorem noUB_evaluateMultpAndDivToken (ev : Str → Deps → Except Err (Dbl × Deps))
    (hev : ∀ t deps, NoUB (ev t deps)) (token : Str) (deps : Deps) :
    NoUB (evaluateMultpAndDivToken ev token deps) := by
  unfold evaluateMultpAndDivToken
  split
  · rename_i e he
    exact noUB_error (noUB_parseMultpAndDiv token e he)
  · rename_i he
    exact absurd he (parseMultpAndDiv_ne_nil token)
  · split
    · rename_i e he
      exact noUB_error (hev _ _ e he)
    · exact noUB_evaluateMultpAndDivLoop ev hev _ _ _ _

theorem noUB_parseAndEvaluateLoop (ev : Str → Deps → Except Err (Dbl × Deps))
    (hev : ∀ t deps, NoUB (ev t deps)) (tokens : List Str) :
    ∀ isAddition result deps, NoUB (parseAndEvaluateLoop ev tokens isAddition result deps) := by
  induction tokens with
  | nil => intro isAddition result deps; exact noUB_ok _
  | cons t ts ih =>
    intro isAddition result deps
    unfold parseAndEvaluateLoop
    split
    · exact ih _ _ _
    · split
      · exact ih _ _ _
      · split
        · rename_i e he
          exact noUB_error (noUB_evaluateMultpAndDivToken ev hev t deps e he)
        · exact ih _ _ _

theorem mem_intRange (lo hi x : Int) : x ∈ intRange lo hi ↔ lo ≤ x ∧ x ≤ hi := by
  unfold intRange
  rw [List.mem_map]
  constructor
  · rintro ⟨k, hk, rfl⟩
    rw [List.mem_range] at hk
    constructor <;> omega
  · rintro ⟨h1, h2⟩
    refine ⟨(x - lo).toNat, ?_, ?_⟩
    · rw [List.mem_range]
      omega
    · omega

theorem rectIndices_nonneg (startPos endPos : Int × Int)
    (h1 : 0 ≤ startPos.1) (h2 : 0 ≤ startPos.2) :
    ∀ p ∈ rectIndices startPos endPos, 0 ≤ p.1 ∧ 0 ≤ p.2 := by
  intro p hp
  unfold rectIndices at hp
  simp only [List.mem_flatMap, List.mem_map, mem_intRange] at hp
  obtain ⟨row, hrow, col, hcol, rfl⟩ := hp
  exact ⟨by omega, by omega⟩

namespace Rev2

theorem noUB_getCell {g : Spreadsheet} (h : g.WF) (r c : Int) (hr : 0 ≤ r) (hc : 0 ≤ c) :
    NoUB (g.getCell r c) := by
  unfold Spreadsheet.getCell
  split
  · exact noUB_error rfl
  · rename_i hlt
    have hneg : ¬ (r < 0 ∨ c < 0) := by omega
    rw [if_neg hneg]
    obtain ⟨cell, hcell, _⟩ := h.cellAt_r2 (i := r.toNat) (j := c.toNat) (by omega) (by omega)
    rw [hcell]
    exact noUB_ok _

theorem noUB_getCells {g : Spreadsheet} (h : g.WF) (idx : List (Int × Int))
    (hidx : ∀ p ∈ idx, 0 ≤ p.1 ∧ 0 ≤ p.2) : NoUB (g.getCells idx) := by
  induction idx with
  | nil => exact noUB_ok _
  | cons p rest ih =>
    obtain ⟨i, j⟩ := p
    have hp := hidx (i, j) (by simp)
    have ih' := ih (fun q hq => hidx q (List.mem_cons_of_mem _ hq))
    unfold Spreadsheet.getCells
    split
    · rename_i e he
      exact noUB_error (noUB_getCell h i j hp.1 hp.2 e he)
    · split
      · rename_i e he
        exact noUB_error (ih' e he)
      · exact noUB_ok _

theorem rangeIndices_nonneg (colCount : Nat) (startPos endPos : Int × Int)
    (h1 : 0 ≤ startPos.1) (h2 : 0 ≤ startPos.2) (h3 : 0 ≤ endPos.1) (h4 : 0 ≤ endPos.2) :
    ∀ p ∈ Spreadsheet.rangeIndices colCount startPos endPos, 0 ≤ p.1 ∧ 0 ≤ p.2 := by
  intro p hp
  unfold Spreadsheet.rangeIndices at hp
  simp only [List.mem_flatMap, List.mem_map, mem_intRange] at hp
  obtain ⟨row, hrow, col, hcol, rfl⟩ := hp
  refine ⟨?_, ?_⟩
  · simp only
    split at hrow <;> omega
  · simp only
    obtain ⟨hc1, _⟩ := hcol
    split at hc1
    · split at hc1 <;> omega
    · omega

theorem noUB_SUM {g : Spreadsheet} (h : g.WF) (startPos endPos : Int × Int) (deps : Deps)
    (h1 : 0 ≤ startPos.1) (h2 : 0 ≤ startPos.2) (h3 : 0 ≤ endPos.1) (h4 : 0 ≤ endPos.2) :
    NoUB (SUM g startPos endPos deps) := by
  unfold SUM
  split
  · rename_i e he
    exact noUB_error (noUB_getCells h _ (rangeIndices_nonneg _ _ _ h1 h2 h3 h4) e he)
  · exact noUB_ok _

theorem noUB_AVER {g : Spreadsheet} (h : g.WF) (startPos endPos : Int × Int) (deps : Deps)
    (h1 : 0 ≤ startPos.1) (h2 : 0 ≤ startPos.2) (h3 : 0 ≤ endPos.1) (h4 : 0 ≤ endPos.2) :
    NoUB (AVER g startPos endPos deps) := by
  unfold AVER
  split
  · rename_i e he
    exact noUB_error (noUB_getCells h _ (rangeIndices_nonneg _ _ _ h1 h2 h3 h4) e he)
  · split
    · exact noUB_ok _
    · simp only
      split <;> exact noUB_ok _

theorem noUB_STDDEV (sqrt : Dbl → Dbl) {g : Spreadsheet} (h : g.WF) (startPos endPos : Int × Int)
    (deps : Deps) (h1 : 0 ≤ startPos.1) (h2 : 0 ≤ startPos.2) :
    NoUB (STDDEV sqrt g startPos endPos deps) := by
  unfold STDDEV
  simp only
  split
  · rename_i e he
    exact noUB_error (noUB_getCells h _ (rectIndices_nonneg _ _ h1 h2) e he)
  · split <;> exact noUB_ok _

theorem noUB_MAX {g : Spreadsheet} (h : g.WF) (startPos endPos : Int × Int)
    (deps : Deps) (h1 : 0 ≤ startPos.1) (h2 : 0 ≤ startPos.2) :
    NoUB (MAX g startPos endPos deps) := by
  unfold MAX
  simp only
  split
  · rename_i e he
    exact noUB_error (noUB_getCells h _ (rectIndices_nonneg _ _ h1 h2) e he)
  · exact noUB_ok _

theorem noUB_MIN {g : Spreadsheet} (h : g.WF) (startPos endPos : Int × Int)
    (deps : Deps) (h1 : 0 ≤ startPos.1) (h2 : 0 ≤ startPos.2) :
    NoUB (MIN g startPos endPos deps) := by
  unfold MIN
  simp only
  split
  · rename_i e he
    exact noUB_error (noUB_getCells h _ (rectIndices_nonneg _ _ h1 h2) e he)
  · exact noUB_ok _

end Rev2

theorem labelLookup_nonneg (rows cols : Nat) (str : Str)
    (h : labelLookup rows cols str ≠ (-1, -1)) :
    0 ≤ (labelLookup rows cols str).1 ∧ 0 ≤ (labelLookup rows cols str).2 := by
  rcases labelLookup_cases rows cols str with h1 | ⟨i, j, _, _, h1, _⟩
  · exact absurd h1 h
  · rw [h1]
    exact ⟨by simp, by simp⟩

theorem noUB_stod (s : Str) : NoUB (stod s) := by
  unfold stod
  simp only
  repeat' split
  all_goals first
    | exact noUB_ok _
    | exact noUB_error rfl

namespace Rev2

theorem noUB_getCellReference {g : Spreadsheet} (h : g.WF) (token : Str) :
    NoUB (getCellReference g token) := by
  rw [getCellReference_eq_r2 h]
  exact noUB_ok _

theorem noUB_isValidRange {g : Spreadsheet} (h : g.WF) (range : Str) :
    NoUB (isValidRange g range) := by
  unfold isValidRange
  simp only
  split
  · exact noUB_ok _
  · refine noUB_bind (noUB_substr _ _ _) (fun startCell _ => ?_)
    refine noUB_bind (noUB_substr _ _ _) (fun endCell _ => ?_)
    refine noUB_bind (noUB_getCellReference h _) (fun s _ => ?_)
    split
    · exact noUB_bind (noUB_getCellReference h _) (fun e _ => noUB_pure _)
    · exact noUB_pure _

theorem noUB_getFunctionType {g : Spreadsheet} (h : g.WF) (token : Str) :
    NoUB (getFunctionType g token) := by
  unfold getFunctionType
  simp only
  split
  · refine noUB_bind (noUB_substr _ _ _) (fun range _ => ?_)
    refine noUB_bind (noUB_isValidRange h _) (fun b _ => ?_)
    split
    · refine noUB_bind (noUB_substr _ _ _) (fun funcName _ => ?_)
      repeat' split
      all_goals exact noUB_pure _
    · exact noUB_pure _
  · exact noUB_ok _

theorem noUB_evaluateSingleToken (sqrt : Dbl → Dbl) {g : Spreadsheet} (h : g.WF)
    (singleToken : Str) (deps : Deps) : NoUB (evaluateSingleToken sqrt g singleToken deps) := by
  unfold evaluateSingleToken
  rw [getCellReference_eq_r2 h]
  simp only [bind, Except.bind]
  split
  · rename_i hne
    have hnn := labelLookup_nonneg _ _ _ hne
    have := noUB_getCell h _ _ hnn.1 hnn.2
    cases hc : g.getCell (labelLookup g.getRowCount g.getColCount (removeSpaces singleToken)).1
        (labelLookup g.getRowCount g.getColCount (removeSpaces singleToken)).2 with
    | error e => exact noUB_error (this e hc)
    | ok cell => exact noUB_pure _
  · cases hf : getFunctionType g singleToken with
    | error e => exact noUB_error (noUB_getFunctionType h singleToken e hf)
    | ok func =>
      simp only
      split
      · cases hs1 : substr singleToken ((findChar singleToken '(' + 1) % 2 ^ 64)
            ((findChar singleToken ')' + 2 ^ 64 - findChar singleToken '(' + 2 ^ 64 - 1) % 2 ^ 64)
          with
        | error e => exact noUB_error (noUB_substr _ _ _ e hs1)
        | ok range =>
          simp only
          cases hs2 : substr range 0 (intToSize (sizeToInt (findStr range "..".toList))) with
          | error e => exact noUB_error (noUB_substr _ _ _ e hs2)
          | ok startCell =>
            simp only
            cases hs3 : substr range (intToSize (sizeToInt (findStr range "..".toList) + 2)) npos
              with
            | error e => exact noUB_error (noUB_substr _ _ _ e hs3)
            | ok endCell =>
              simp only
              rw [getCellReference_eq_r2 h, getCellReference_eq_r2 h]
              simp only
              split
              · exact noUB_throw rfl
              · rename_i hpos
                have hpos' := not_or.1 hpos
                have hs := labelLookup_nonneg _ _ _ hpos'.1
                have he := labelLookup_nonneg _ _ _ hpos'.2
                split
                · exact noUB_SUM h _ _ _ hs.1 hs.2 he.1 he.2
                · exact noUB_AVER h _ _ _ hs.1 hs.2 he.1 he.2
                · exact noUB_STDDEV sqrt h _ _ _ hs.1 hs.2
                · exact noUB_MAX h _ _ _ hs.1 hs.2
                · exact noUB_MIN h _ _ _ hs.1 hs.2
                · exact noUB_throw rfl
      · split
        · split
          · exact noUB_pure _
          · split
            · exact noUB_throw rfl
            · rename_i hst hni
              exact noUB_throw (noUB_stod _ _ hst)
        · exact noUB_throw rfl

theorem noUB_parseAndEvaluate (sqrt : Dbl → Dbl) {g : Spreadsheet} (h : g.WF)
    (formula : Str) (coordinates : Int × Int) (dependentCells : Deps) :
    NoUB (parseAndEvaluate sqrt g formula coordinates dependentCells) := by
  unfold parseAndEvaluate
  split
  · exact noUB_error rfl
  · split
    · rename_i e he
      exact noUB_error (noUB_parsePlusAndMinus _ e he)
    · split
      · exact noUB_error rfl
      · split
        · rename_i e he
          exact noUB_error (noUB_parseAndEvaluateLoop _
            (fun t deps => noUB_evaluateSingleToken sqrt h t deps) _ _ _ _ e he)
        · exact noUB_ok _

end Rev2

/-! ## C3: recalculation in the second revision terminates -/

theorem mem_stdSetInsert (c x : Int × Int) (s : Deps) :
    x ∈ stdSetInsert c s ↔ x = c ∨ x ∈ s := by
  induction s with
  | nil => simp [stdSetInsert]
  | cons y ys ih =>
    unfold stdSetInsert
    split
    · rename_i h
      subst h
      simp
    · split
      · simp
      · simp only [List.mem_cons, ih]
        tauto

theorem stdSetErase_stdSetInsert (c : Int × Int) (s : Deps) (h : c ∉ s) :
    stdSetErase c (stdSetInsert c s) = s := by
  unfold stdSetErase
  induction s with
  | nil => simp [stdSetInsert]
  | cons y ys ih =>
    have hne : c ≠ y := fun hh => h (by simp [hh])
    have hne' : y ≠ c := fun hh => hne hh.symm
    have hys : c ∉ ys := fun hh => h (List.mem_cons_of_mem _ hh)
    unfold stdSetInsert
    rw [if_neg hne]
    split
    · simp
    · rw [List.erase_cons_tail (by simpa using hne'), ih hys]

theorem length_filter_lt_of_imp {α : Type} (p q : α → Bool) (l : List α)
    (hpq : ∀ x ∈ l, p x = true → q x = true) (x : α) (hx : x ∈ l) (hqx : q x = true)
    (hpx : p x = false) : (l.filter p).length < (l.filter q).length := by
  induction l with
  | nil => simp at hx
  | cons y ys ih =>
    have hle : (ys.filter p).length ≤ (ys.filter q).length := by
      rw [← List.countP_eq_length_filter, ← List.countP_eq_length_filter]
      exact List.countP_mono_left (fun z hz => hpq z (List.mem_cons_of_mem _ hz))
    rcases List.mem_cons.1 hx with rfl | hx
    · simp [List.filter_cons, hqx, hpx]
      omega
    · have ih' := ih (fun z hz => hpq z (List.mem_cons_of_mem _ hz)) hx
      have hy := hpq y (by simp)
      simp only [List.filter_cons]
      cases hp : p y
      · cases hq : q y <;> simp <;> omega
      · simp [hy hp]
        omega

theorem notVisited_insert_le (rows cols : Nat) (c : Int × Int) (visited : Deps) :
    notVisited rows cols (stdSetInsert c visited) ≤ notVisited rows cols visited := by
  unfold notVisited
  rw [← List.countP_eq_length_filter, ← List.countP_eq_length_filter]
  apply List.countP_mono_left
  intro p _ hp
  simp only [decide_eq_true_eq, mem_stdSetInsert, not_or] at hp ⊢
  exact hp.2

theorem notVisited_insert_lt (rows cols i j : Nat) (visited : Deps) (hi : i < rows)
    (hj : j < cols) (hc : ((i : Int), (j : Int)) ∉ visited) :
    notVisited rows cols (stdSetInsert ((i : Int), (j : Int)) visited)
      < notVisited rows cols visited := by
  unfold notVisited
  apply length_filter_lt_of_imp _ _ _ _ (i, j) ((mem_gridIndices _ _ _ _).2 ⟨hi, hj⟩)
  · simpa using hc
  · simp [mem_stdSetInsert]
  · intro p _ hp
    simp only [decide_eq_true_eq, mem_stdSetInsert, not_or] at hp ⊢
    exact hp.2

namespace Rev2

theorem Sized.sized_assign {rows cols : Nat} {g : Spreadsheet} (h : Sized rows cols g) {i j : Nat}
    {cell : Cell} (hc : cell.WFAt i j) : Sized rows cols (g.assign i j cell) :=
  ⟨h.1.assign hc, by rw [Spreadsheet.getRowCount_assign]; exact h.2.1,
    by rw [Spreadsheet.getColCount_assign]; exact h.2.2⟩

theorem autoCalculateLoop_returns (sqrt : Dbl → Dbl)
    (recurse : Spreadsheet → Visited → Int × Int → Except Err (Spreadsheet × Visited))
    (coordinate : Int × Int) (v1 : Visited) (rows cols : Nat)
    (hrec : ∀ g i j, Sized rows cols g → i < rows → j < cols →
      ∃ g2, recurse g v1 ((i : Int), (j : Int)) = .ok (g2, v1) ∧ Sized rows cols g2) :
    ∀ (l : List (Nat × Nat)), (∀ p ∈ l, p.1 < rows ∧ p.2 < cols) →
      ∀ g, Sized rows cols g →
        ∃ g2, autoCalculateLoop sqrt recurse coordinate l (g, v1) = .ok (g2, v1) ∧
          Sized rows cols g2 := by
  intro l
  induction l with
  | nil =>
    intro _ g hg
    exact ⟨g, rfl, hg⟩
  | cons p rest ih =>
    intro hl g hg
    obtain ⟨i, j⟩ := p
    have hp := hl (i, j) (by simp)
    have ih' := ih (fun q hq => hl q (List.mem_cons_of_mem _ hq))
    obtain ⟨cell, hcell, hw⟩ := hg.1.cellAt_r2 (i := i) (j := j)
      (by rw [hg.2.1]; exact hp.1) (by rw [hg.2.2]; exact hp.2)
    have hget : g.getCell (i : Int) (j : Int) = .ok cell :=
      Spreadsheet.getCell_eq_r2 (by rw [hg.2.1]; exact hp.1) (by rw [hg.2.2]; exact hp.2) hcell
    unfold autoCalculateLoop
    rw [hget]
    simp only
    split
    · rename_i formula value dependentCells hbody
      split
      · split
        · rename_i e he
          rw [if_pos (noUB_parseAndEvaluate sqrt hg.1 _ _ _ e he)]
          exact ih' g hg
        · rename_i newValue newDeps he
          have hg1 : Sized rows cols (g.assign i j
              { cell with body := .FormulaCell formula newValue (dependentCells ++ newDeps) }) :=
            hg.sized_assign ⟨hw.1, hw.2.1, hw.2.2⟩
          obtain ⟨g2, hr, hg2⟩ := hrec _ i j hg1 hp.1 hp.2
          rw [hr]
          exact ih' g2 hg2
      · exact ih' g hg
    · exact ih' g hg

theorem autoCalculate_returns (sqrt : Dbl → Dbl) (rows cols : Nat) :
    ∀ (fuel : Nat) (g : Spreadsheet) (visited : Visited) (coordinate : Int × Int),
      Sized rows cols g →
      (notVisited rows cols visited + 2 ≤ fuel ∨
        (notVisited rows cols visited + 1 ≤ fuel ∧
          ∃ i j, i < rows ∧ j < cols ∧ coordinate = ((i : Int), (j : Int)))) →
      ∃ g2, autoCalculate sqrt fuel g visited coordinate = .ok (g2, visited) ∧
        Sized rows cols g2 := by
  intro fuel
  induction fuel with
  | zero =>
    intro g visited coordinate _ hfuel
    omega
  | succ n ih =>
    intro g visited coordinate hg hfuel
    unfold autoCalculate
    by_cases hv : coordinate ∈ visited
    · rw [if_pos hv]
      exact ⟨g, rfl, hg⟩
    · rw [if_neg hv]
      have hn : notVisited rows cols (stdSetInsert coordinate visited) + 1 ≤ n := by
        rcases hfuel with h | ⟨h, i, j, hi, hj, rfl⟩
        · have := notVisited_insert_le rows cols coordinate visited
          omega
        · have := notVisited_insert_lt rows cols i j visited hi hj hv
          omega
      have hrec : ∀ g i j, Sized rows cols g → i < rows → j < cols →
          ∃ g2, autoCalculate sqrt n g (stdSetInsert coordinate visited) ((i : Int), (j : Int))
            = .ok (g2, stdSetInsert coordinate visited) ∧ Sized rows cols g2 := by
        intro g' i j hg' hi hj
        exact ih g' _ _ hg' (Or.inr ⟨hn, i, j, hi, hj, rfl⟩)
      obtain ⟨g2, hloop, hg2⟩ := autoCalculateLoop_returns sqrt (autoCalculate sqrt n) coordinate
        (stdSetInsert coordinate visited) rows cols hrec
        (gridIndices g.getRowCount g.getColCount)
        (by
          intro p hp
          rw [hg.2.1, hg.2.2] at hp
          exact (mem_gridIndices _ _ _ _).1 hp)
        g hg
      rw [hloop]
      simp only
      rw [stdSetErase_stdSetInsert _ _ hv]
      exact ⟨g2, rfl, hg2⟩

theorem notVisited_le (rows cols : Nat) (visited : Deps) :
    notVisited rows cols visited ≤ rows * cols := by
  unfold notVisited
  refine le_trans (List.length_filter_le _ _) ?_
  simp [gridIndices, List.length_flatMap, Function.comp_def]

end Rev2

/-- C3: in the second revision `autoCalculate(c)` returns for every well-formed
grid, every coordinate `c` and every content of the in-progress set, cyclic
dependencies included: a recursion depth of the number of cells plus two is
always enough (each nested call that passes the guard adds a cell that was not
in the set), the grid keeps its size and the set is as before. -/
theorem C3_rev2_autoCalculate_terminates (sqrt : Dbl → Dbl) (g : Rev2.Spreadsheet)
    (visited : Rev2.Visited) (coordinate : Int × Int) (fuel : Nat)
    (hw : g.WF) (hfuel : g.getRowCount * g.getColCount + 2 ≤ fuel) :
    ∃ g2, Rev2.autoCalculate sqrt fuel g visited coordinate = .ok (g2, visited) ∧
      g2.WF ∧ g2.getRowCount = g.getRowCount ∧ g2.getColCount = g.getColCount := by
  have hn := Rev2.notVisited_le g.getRowCount g.getColCount visited
  obtain ⟨g2, h1, h2⟩ := Rev2.autoCalculate_returns sqrt g.getRowCount g.getColCount fuel g visited
    coordinate ⟨hw, rfl, rfl⟩ (Or.inl (by omega))
  exact ⟨g2, h1, h2⟩

/-- C3 (witness): on the cyclic grid A1 = `=B1`, B1 = `=A1`, recalculation for
B1 returns within depth 4. -/
theorem C3_witness :
    (Rev2.sheetCyc.WF ∧ Rev2.sheetCyc.getRowCount * Rev2.sheetCyc.getColCount + 2 ≤ 4) ∧
    ∃ g2, Rev2.autoCalculate id 4 Rev2.sheetCyc [] (0, 1) = .ok (g2, []) ∧
      g2.WF ∧ g2.getRowCount = Rev2.sheetCyc.getRowCount ∧
      g2.getColCount = Rev2.sheetCyc.getColCount :=
  ⟨by decide,
   C3_rev2_autoCalculate_terminates id Rev2.sheetCyc [] (0, 1) 4 (by decide) (by decide)⟩

/-! ## Values read by the evaluator -/

namespace Rev2

theorem getCell_inGrid {g : Spreadsheet} (h : g.WF) {p : Int × Int}
    (hp : InGrid g.getRowCount g.getColCount p) :
    ∃ cell, g.getCell p.1 p.2 = .ok cell ∧ cell.row = p.1 ∧ cell.col = p.2 ∧
      cell.letter_rep = cellLabel p.1 p.2 ∧
      g.cellAt p.1.toNat p.2.toNat = some cell ∧ cell.getCellValueAsDouble = g.valueAt p := by
  obtain ⟨h1, h2, h3, h4⟩ := hp
  obtain ⟨cell, hc, hw⟩ := h.cellAt_r2 (i := p.1.toNat) (j := p.2.toNat) (by omega) (by omega)
  have hget := Spreadsheet.getCell_eq_r2 (by omega) (by omega) hc
  have e1 : ((p.1.toNat : Nat) : Int) = p.1 := Int.toNat_of_nonneg h1
  have e2 : ((p.2.toNat : Nat) : Int) = p.2 := Int.toNat_of_nonneg h3
  rw [e1, e2] at hget
  refine ⟨cell, hget, ?_, ?_, ?_, hc, ?_⟩
  · rw [hw.1, e1]
  · rw [hw.2.1, e2]
  · rw [hw.2.2, e1, e2]
  · unfold Spreadsheet.valueAt
    rw [hget]

theorem getCells_inGrid {g : Spreadsheet} (h : g.WF) (idx : List (Int × Int))
    (hidx : ∀ p ∈ idx, InGrid g.getRowCount g.getColCount p) :
    ∃ cells, g.getCells idx = .ok cells ∧
      List.Forall₂ (fun p cell => cell.row = p.1 ∧ cell.col = p.2 ∧
        cell.getCellValueAsDouble = g.valueAt p) idx cells := by
  induction idx with
  | nil => exact ⟨[], rfl, List.Forall₂.nil⟩
  | cons p rest ih =>
    obtain ⟨cells, hcells, hall⟩ := ih (fun q hq => hidx q (List.mem_cons_of_mem _ hq))
    obtain ⟨cell, hget, hr, hc, _, _, hv⟩ := getCell_inGrid h (hidx p (by simp))
    refine ⟨cell :: cells, ?_, List.Forall₂.cons ⟨hr, hc, hv⟩ hall⟩
    obtain ⟨i, j⟩ := p
    unfold Spreadsheet.getCells
    simp only at hget
    rw [hget, hcells]

theorem foldl_forall₂ {α β γ : Type} (R : α → β → Prop) (F : γ → β → γ) (G : γ → α → γ)
    (hFG : ∀ acc a b, R a b → F acc b = G acc a) :
    ∀ (l : List α) (m : List β), List.Forall₂ R l m → ∀ init, m.foldl F init = l.foldl G init := by
  intro l m h
  induction h with
  | nil => intro init; rfl
  | cons hab _ ih =>
    intro init
    simp only [List.foldl_cons]
    rw [hFG _ _ _ hab]
    exact ih _

theorem map_forall₂ {α β γ : Type} (R : α → β → Prop) (F : β → γ) (G : α → γ)
    (hFG : ∀ a b, R a b → F b = G a) :
    ∀ (l : List α) (m : List β), List.Forall₂ R l m → m.map F = l.map G := by
  intro l m h
  induction h with
  | nil => rfl
  | cons hab _ ih =>
    simp only [List.map_cons]
    rw [hFG _ _ hab, ih]

end Rev2

theorem rectIndices_inGrid (rows cols : Nat) (startPos endPos : Int × Int)
    (hs : InGrid rows cols startPos) (he : InGrid rows cols endPos) :
    ∀ p ∈ rectIndices startPos endPos, InGrid rows cols p := by
  intro p hp
  unfold rectIndices at hp
  simp only [List.mem_flatMap, List.mem_map, mem_intRange] at hp
  obtain ⟨row, hrow, col, hcol, rfl⟩ := hp
  unfold InGrid at *
  simp only
  omega

namespace Rev2

theorem rangeIndices_inGrid (rows cols : Nat) (startPos endPos : Int × Int)
    (hs : InGrid rows cols startPos) (he : InGrid rows cols endPos) :
    ∀ p ∈ Spreadsheet.rangeIndices cols startPos endPos, InGrid rows cols p := by
  intro p hp
  unfold Spreadsheet.rangeIndices at hp
  simp only [List.mem_flatMap, List.mem_map, mem_intRange] at hp
  obtain ⟨row, hrow, col, hcol, rfl⟩ := hp
  unfold InGrid at *
  simp only
  obtain ⟨hr1, hr2⟩ := hrow
  obtain ⟨hc1, hc2⟩ := hcol
  refine ⟨?_, ?_, ?_, ?_⟩
  · split at hr1 <;> omega
  · split at hr2 <;> omega
  · split at hc1
    · split at hc1 <;> omega
    · omega
  · split at hc2
    · split at hc2 <;> omega
    · omega

end Rev2

theorem mem_mysetInsert (c x : Int × Int) (s : Deps) :
    x ∈ mysetInsert c s ↔ x = c ∨ x ∈ s := by
  unfold mysetInsert
  split
  · rename_i h
    constructor
    · exact Or.inr
    · rintro (rfl | h2)
      · exact h
      · exact h2
  · simp only [List.mem_append, List.mem_singleton]
    tauto

theorem mem_mysetInsertAll (idx : List (Int × Int)) (x : Int × Int) :
    ∀ deps : Deps, x ∈ mysetInsertAll idx deps ↔ x ∈ idx ∨ x ∈ deps := by
  induction idx with
  | nil => intro deps; simp [mysetInsertAll]
  | cons p rest ih =>
    intro deps
    unfold mysetInsertAll at ih ⊢
    rw [List.foldl_cons, ih, mem_mysetInsert, List.mem_cons]
    tauto

theorem foldl_pair {α β γ : Type} (f : α → γ → α) (h : β → γ → β) (l : List γ) :
    ∀ (a : α) (b : β),
      l.foldl (fun (acc : α × β) p => (f acc.1 p, h acc.2 p)) (a, b)
        = (l.foldl f a, l.foldl h b) := by
  induction l with
  | nil => intro a b; rfl
  | cons x xs ih => intro a b; simp only [List.foldl_cons]; exact ih _ _

theorem foldl_triple {α β δ γ : Type} (f : α → γ → α) (k : β → γ → β) (h : δ → γ → δ)
    (l : List γ) :
    ∀ (a : α) (b : β) (d : δ),
      l.foldl (fun (acc : α × β × δ) p => (f acc.1 p, k acc.2.1 p, h acc.2.2 p)) (a, b, d)
        = (l.foldl f a, l.foldl k b, l.foldl h d) := by
  induction l with
  | nil => intro a b d; rfl
  | cons x xs ih => intro a b d; simp only [List.foldl_cons]; exact ih _ _ _

theorem foldl_count {γ : Type} (l : List γ) :
    ∀ n : Int, l.foldl (fun (acc : Int) (_ : γ) => acc + 1) n = n + l.length := by
  induction l with
  | nil => intro n; simp
  | cons x xs ih =>
    intro n
    simp only [List.foldl_cons, List.length_cons, ih]
    push_cast
    ring

namespace Rev2

theorem SUM_eq {g : Spreadsheet} (h : g.WF) (startPos endPos : Int × Int) (deps : Deps)
    (hs : InGrid g.getRowCount g.getColCount startPos)
    (he : InGrid g.getRowCount g.getColCount endPos) :
    SUM g startPos endPos deps
      = .ok (((Spreadsheet.rangeIndices g.getColCount startPos endPos).map g.valueAt).foldl
                Dbl.add (Dbl.fin 0),
             mysetInsertAll (Spreadsheet.rangeIndices g.getColCount startPos endPos) deps) := by
  obtain ⟨cells, hcells, hall⟩ := getCells_inGrid h _ (rangeIndices_inGrid _ _ _ _ hs he)
  unfold SUM Spreadsheet.getCellsInRange
  rw [hcells]
  simp only
  rw [foldl_forall₂ _ _
    (fun (acc : Dbl × Deps) (p : Int × Int) => (acc.1.add (g.valueAt p), mysetInsert p acc.2))
    (by
      intro acc a b hab
      obtain ⟨h1, h2, h3⟩ := hab
      rw [h1, h2, h3]) _ _ hall]
  rw [foldl_pair (fun a p => Dbl.add a (g.valueAt p)) (fun d p => mysetInsert p d)]
  rw [List.foldl_map]
  rfl

theorem AVER_eq {g : Spreadsheet} (h : g.WF) (startPos endPos : Int × Int) (deps : Deps)
    (hs : InGrid g.getRowCount g.getColCount startPos)
    (he : InGrid g.getRowCount g.getColCount endPos) :
    AVER g startPos endPos deps
      = if Spreadsheet.rangeIndices g.getColCount startPos endPos = [] then
          .ok (Dbl.fin 0, deps)
        else
          .ok ((((Spreadsheet.rangeIndices g.getColCount startPos endPos).map g.valueAt).foldl
                  Dbl.add (Dbl.fin 0)).div
                (Dbl.ofInt (Spreadsheet.rangeIndices g.getColCount startPos endPos).length),
               mysetInsertAll (Spreadsheet.rangeIndices g.getColCount startPos endPos) deps) := by
  obtain ⟨cells, hcells, hall⟩ := getCells_inGrid h _ (rangeIndices_inGrid _ _ _ _ hs he)
  unfold AVER Spreadsheet.getCellsInRange
  rw [hcells]
  simp only
  have hlen := hall.length_eq
  by_cases hnil : Spreadsheet.rangeIndices g.getColCount startPos endPos = []
  · have : cells = [] := by
      rw [hnil] at hlen
      exact List.length_eq_zero.1 hlen.symm
    rw [if_pos this, if_pos hnil]
  · have hc : cells ≠ [] := by
      intro hc
      rw [hc] at hlen
      exact hnil (List.length_eq_zero.1 hlen)
    rw [if_neg hc, if_neg hnil]
    rw [foldl_forall₂ _ _
      (fun (acc : Dbl × Int × Deps) (p : Int × Int) =>
        (acc.1.add (g.valueAt p), acc.2.1 + 1, mysetInsert p acc.2.2))
      (by
        intro acc a b hab
        obtain ⟨h1, h2, h3⟩ := hab
        rw [h1, h2, h3]) _ _ hall]
    rw [foldl_triple (fun a p => Dbl.add a (g.valueAt p)) (fun (n : Int) _ => n + 1)
      (fun d p => mysetInsert p d)]
    simp only [foldl_count, zero_add]
    have hpos : ((Spreadsheet.rangeIndices g.getColCount startPos endPos).length : Int) ≠ 0 := by
      have := List.length_pos.2 hnil
      omega
    rw [if_neg hpos, List.foldl_map]
    rfl

theorem getCells_values {g : Spreadsheet} (h : g.WF) (idx : List (Int × Int))
    (hidx : ∀ p ∈ idx, InGrid g.getRowCount g.getColCount p) :
    ∃ cells, g.getCells idx = .ok cells ∧
      cells.map Cell.getCellValueAsDouble = idx.map g.valueAt := by
  obtain ⟨cells, hcells, hall⟩ := getCells_inGrid h idx hidx
  exact ⟨cells, hcells, map_forall₂ _ _ _ (fun a b hab => hab.2.2) _ _ hall⟩

theorem foldl_max_map (cells : List Cell) (init : Dbl) :
    cells.foldl (fun maxValue cell => Dbl.max maxValue cell.getCellValueAsDouble) init
      = (cells.map Cell.getCellValueAsDouble).foldl Dbl.max init := by
  rw [List.foldl_map]

theorem foldl_min_map (cells : List Cell) (init : Dbl) :
    cells.foldl (fun minValue cell => Dbl.min minValue cell.getCellValueAsDouble) init
      = (cells.map Cell.getCellValueAsDouble).foldl Dbl.min init := by
  rw [List.foldl_map]

theorem STDDEV_eq (sqrt : Dbl → Dbl) {g : Spreadsheet} (h : g.WF) (startPos endPos : Int × Int)
    (deps : Deps) (hs : InGrid g.getRowCount g.getColCount startPos)
    (he : InGrid g.getRowCount g.getColCount endPos) :
    STDDEV sqrt g startPos endPos deps
      = .ok (stddevOf sqrt ((rectIndices startPos endPos).map g.valueAt),
             mysetInsertAll (rectIndices startPos endPos) deps) := by
  obtain ⟨cells, hcells, hvals⟩ := getCells_values h _ (rectIndices_inGrid _ _ _ _ hs he)
  unfold STDDEV stddevOf
  simp only [hcells, hvals]
  split <;> rfl

theorem MAX_eq {g : Spreadsheet} (h : g.WF) (startPos endPos : Int × Int)
    (deps : Deps) (hs : InGrid g.getRowCount g.getColCount startPos)
    (he : InGrid g.getRowCount g.getColCount endPos) :
    MAX g startPos endPos deps
      = .ok (((rectIndices startPos endPos).map g.valueAt).foldl Dbl.max Dbl.ninf,
             mysetInsertAll (rectIndices startPos endPos) deps) := by
  obtain ⟨cells, hcells, hvals⟩ := getCells_values h _ (rectIndices_inGrid _ _ _ _ hs he)
  unfold MAX
  simp only [hcells, foldl_max_map, hvals]
  rfl

theorem MIN_eq {g : Spreadsheet} (h : g.WF) (startPos endPos : Int × Int)
    (deps : Deps) (hs : InGrid g.getRowCount g.getColCount startPos)
    (he : InGrid g.getRowCount g.getColCount endPos) :
    MIN g startPos endPos deps
      = .ok (((rectIndices startPos endPos).map g.valueAt).foldl Dbl.min Dbl.pinf,
             mysetInsertAll (rectIndices startPos endPos) deps) := by
  obtain ⟨cells, hcells, hvals⟩ := getCells_values h _ (rectIndices_inGrid _ _ _ _ hs he)
  unfold MIN
  simp only [hcells, foldl_min_map, hvals]
  rfl

end Rev2

theorem labelLookup_inGrid (rows cols : Nat) (str : Str)
    (h : labelLookup rows cols str ≠ (-1, -1)) : InGrid rows cols (labelLookup rows cols str) := by
  rcases labelLookup_cases rows cols str with h1 | ⟨i, j, hi, hj, h1, _⟩
  · exact absurd h1 h
  · rw [h1]
    unfold InGrid
    simp only
    omega

namespace Rev2

theorem getFunctionType_congr {g g2 : Spreadsheet} (h : g.WF) (h2 : g2.WF)
    (hs : SameSize g g2) (token : Str) : getFunctionType g2 token = getFunctionType g token := by
  unfold getFunctionType isValidRange
  simp only [getCellReference_eq_r2 h, getCellReference_eq_r2 h2, hs.1, hs.2]

theorem AgreeOn.map_eq {g g2 : Spreadsheet} {idx : List (Int × Int)} {deps : Deps}
    (ha : AgreeOn g g2 (mysetInsertAll idx deps)) : idx.map g.valueAt = idx.map g2.valueAt := by
  apply List.map_congr_left
  intro p hp
  exact ha p ((mem_mysetInsertAll idx p deps).2 (Or.inl hp))

theorem evaluateSingleToken_mono (sqrt : Dbl → Dbl) {g : Spreadsheet} (h : g.WF)
    (t : Str) (deps : Deps) (v : Dbl) (d2 : Deps)
    (he : evaluateSingleToken sqrt g t deps = .ok (v, d2)) : ∀ x ∈ deps, x ∈ d2 := by
  unfold evaluateSingleToken at he
  rw [getCellReference_eq_r2 h] at he
  simp only [bind, Except.bind] at he
  split at he
  · rename_i hne
    obtain ⟨cell, hget, hr, hc, _⟩ := getCell_inGrid h (labelLookup_inGrid _ _ _ hne)
    rw [hget] at he
    simp only [pure, Except.pure, Except.ok.injEq, Prod.mk.injEq] at he
    intro x hx
    rw [← he.2, mem_mysetInsert]
    exact Or.inr hx
  · cases hf : getFunctionType g t with
    | error e => rw [hf] at he; cases he
    | ok func =>
      rw [hf] at he
      simp only at he
      split at he
      · cases hs1 : substr t ((findChar t '(' + 1) % 2 ^ 64)
            ((findChar t ')' + 2 ^ 64 - findChar t '(' + 2 ^ 64 - 1) % 2 ^ 64) with
        | error e => rw [hs1] at he; cases he
        | ok range =>
          rw [hs1] at he
          simp only at he
          cases hs2 : substr range 0 (intToSize (sizeToInt (findStr range "..".toList))) with
          | error e => rw [hs2] at he; cases he
          | ok startCell =>
            rw [hs2] at he
            simp only at he
            cases hs3 : substr range (intToSize (sizeToInt (findStr range "..".toList) + 2)) npos
              with
            | error e => rw [hs3] at he; cases he
            | ok endCell =>
              rw [hs3] at he
              simp only at he
              rw [getCellReference_eq_r2 h, getCellReference_eq_r2 h] at he
              simp only at he
              split at he
              · cases he
              · rename_i hpos
                have hpos' := not_or.1 hpos
                have hs := labelLookup_inGrid _ _ _ hpos'.1
                have hen := labelLookup_inGrid _ _ _ hpos'.2
                have key : ∀ idx : List (Int × Int), ∀ x ∈ deps, x ∈ mysetInsertAll idx deps :=
                  fun idx x hx => (mem_mysetInsertAll idx x deps).2 (Or.inr hx)
                split at he
                · rw [SUM_eq h _ _ _ hs hen] at he
                  cases he
                  exact key _
                · rw [AVER_eq h _ _ _ hs hen] at he
                  split at he
                  · cases he
                    exact fun x hx => hx
                  · cases he
                    exact key _
                · rw [STDDEV_eq sqrt h _ _ _ hs hen] at he
                  cases he
                  exact key _
                · rw [MAX_eq h _ _ _ hs hen] at he
                  cases he
                  exact key _
                · rw [MIN_eq h _ _ _ hs hen] at he
                  cases he
                  exact key _
                · cases he
      · split at he
        · split at he
          · simp only [pure, Except.pure, Except.ok.injEq, Prod.mk.injEq] at he
            rw [← he.2]
            exact fun x hx => hx
          · split at he <;> cases he
        · cases he

theorem evaluateSingleToken_frame (sqrt : Dbl → Dbl) {g g2 : Spreadsheet} (h : g.WF)
    (h2 : g2.WF) (hsz : SameSize g g2) (t : Str) (deps : Deps) (v : Dbl) (d2 : Deps)
    (he : evaluateSingleToken sqrt g t deps = .ok (v, d2)) (ha : AgreeOn g g2 d2) :
    evaluateSingleToken sqrt g2 t deps = .ok (v, d2) := by
  unfold evaluateSingleToken at he ⊢
  rw [getCellReference_eq_r2 h] at he
  rw [getCellReference_eq_r2 h2, ← hsz.1, ← hsz.2]
  simp only [bind, Except.bind] at he ⊢
  split at he
  · rename_i hne
    rw [if_pos hne]
    have hin := labelLookup_inGrid _ _ _ hne
    obtain ⟨cell, hget, hr, hc, _, _, hv⟩ := getCell_inGrid h hin
    obtain ⟨cell2, hget2, hr2, hc2, _, _, hv2⟩ := getCell_inGrid h2
      (by rw [← hsz.1, ← hsz.2]; exact hin)
    rw [hget] at he
    rw [hget2]
    simp only [pure, Except.pure, Except.ok.injEq, Prod.mk.injEq] at he ⊢
    obtain ⟨he1, he2⟩ := he
    rw [hr, hc] at he2
    rw [hr2, hc2, he2, hv2, ← he1, hv]
    refine ⟨(ha _ ?_).symm, rfl⟩
    rw [← he2, mem_mysetInsert]
    exact Or.inl rfl
  · rename_i hne
    rw [if_neg hne, getFunctionType_congr h h2 hsz]
    cases hf : getFunctionType g t with
    | error e => rw [hf] at he; cases he
    | ok func =>
      rw [hf] at he
      simp only at he ⊢
      split at he
      · rename_i hfunc
        rw [if_pos hfunc]
        cases hs1 : substr t ((findChar t '(' + 1) % 2 ^ 64)
            ((findChar t ')' + 2 ^ 64 - findChar t '(' + 2 ^ 64 - 1) % 2 ^ 64) with
        | error e => rw [hs1] at he; cases he
        | ok range =>
          rw [hs1] at he
          simp only at he ⊢
          cases hs2 : substr range 0 (intToSize (sizeToInt (findStr range "..".toList))) with
          | error e => rw [hs2] at he; cases he
          | ok startCell =>
            rw [hs2] at he
            simp only at he ⊢
            cases hs3 : substr range (intToSize (sizeToInt (findStr range "..".toList) + 2)) npos
              with
            | error e => rw [hs3] at he; cases he
            | ok endCell =>
              rw [hs3] at he
              simp only at he ⊢
              rw [getCellReference_eq_r2 h, getCellReference_eq_r2 h] at he
              rw [getCellReference_eq_r2 h2, getCellReference_eq_r2 h2, ← hsz.1, ← hsz.2]
              simp only at he ⊢
              split at he
              · cases he
              · rename_i hpos
                rw [if_neg hpos]
                have hpos' := not_or.1 hpos
                have hs := labelLookup_inGrid _ _ _ hpos'.1
                have hen := labelLookup_inGrid _ _ _ hpos'.2
                have hs' : InGrid g2.getRowCount g2.getColCount
                    (labelLookup g.getRowCount g.getColCount (removeSpaces startCell)) := by
                  rw [← hsz.1, ← hsz.2]; exact hs
                have hen' : InGrid g2.getRowCount g2.getColCount
                    (labelLookup g.getRowCount g.getColCount (removeSpaces endCell)) := by
                  rw [← hsz.1, ← hsz.2]; exact hen
                split at he
                · rw [SUM_eq h _ _ _ hs hen] at he
                  rw [SUM_eq h2 _ _ _ hs' hen', ← hsz.2]
                  cases he
                  rw [AgreeOn.map_eq ha]
                · rw [AVER_eq h _ _ _ hs hen] at he
                  rw [AVER_eq h2 _ _ _ hs' hen', ← hsz.2]
                  split at he
                  · rename_i hnil
                    rw [if_pos hnil]
                    exact he
                  · rename_i hnil
                    rw [if_neg hnil]
                    cases he
                    rw [AgreeOn.map_eq ha]
                · rw [STDDEV_eq sqrt h _ _ _ hs hen] at he
                  rw [STDDEV_eq sqrt h2 _ _ _ hs' hen']
                  cases he
                  rw [AgreeOn.map_eq ha]
                · rw [MAX_eq h _ _ _ hs hen] at he
                  rw [MAX_eq h2 _ _ _ hs' hen']
                  cases he
                  rw [AgreeOn.map_eq ha]
                · rw [MIN_eq h _ _ _ hs hen] at he
                  rw [MIN_eq h2 _ _ _ hs' hen']
                  cases he
                  rw [AgreeOn.map_eq ha]
                · cases he
      · rename_i hfunc
        rw [if_neg hfunc]
        exact he

end Rev2

theorem evaluateMultpAndDivLoop_mono (ev : Str → Deps → Except Err (Dbl × Deps))
    (hmono : ∀ t d v d2, ev t d = .ok (v, d2) → ∀ x ∈ d, x ∈ d2) (ts : List Str) :
    ∀ result isMultp deps v d2,
      evaluateMultpAndDivLoop ev ts result isMultp deps = .ok (v, d2) → ∀ x ∈ deps, x ∈ d2 := by
  induction ts with
  | nil =>
    intro result isMultp deps v d2 he
    simp only [evaluateMultpAndDivLoop, Except.ok.injEq, Prod.mk.injEq] at he
    rw [← he.2]
    exact fun x hx => hx
  | cons t ts ih =>
    intro result isMultp deps v d2 he
    unfold evaluateMultpAndDivLoop at he
    split at he
    · exact ih _ _ _ _ _ he
    · split at he
      · exact ih _ _ _ _ _ he
      · split at he
        · cases he
        · rename_i nv dmid hev
          intro x hx
          exact ih _ _ _ _ _ he x (hmono _ _ _ _ hev x hx)

theorem evaluateMultpAndDivLoop_frame (ev ev2 : Str → Deps → Except Err (Dbl × Deps))
    (P : Deps → Prop) (hP : ∀ a b : Deps, (∀ x ∈ a, x ∈ b) → P b → P a)
    (hmono : ∀ t d v d2, ev t d = .ok (v, d2) → ∀ x ∈ d, x ∈ d2)
    (hframe : ∀ t d v d2, ev t d = .ok (v, d2) → P d2 → ev2 t d = .ok (v, d2))
    (ts : List Str) :
    ∀ result isMultp deps v d2,
      evaluateMultpAndDivLoop ev ts result isMultp deps = .ok (v, d2) → P d2 →
      evaluateMultpAndDivLoop ev2 ts result isMultp deps = .ok (v, d2) := by
  induction ts with
  | nil =>
    intro result isMultp deps v d2 he _
    simpa [evaluateMultpAndDivLoop] using he
  | cons t ts ih =>
    intro result isMultp deps v d2 he hp
    unfold evaluateMultpAndDivLoop at he ⊢
    split at he
    · rename_i h1
      rw [if_pos h1]
      exact ih _ _ _ _ _ he hp
    · rename_i h1
      rw [if_neg h1]
      split at he
      · rename_i h2
        rw [if_pos h2]
        exact ih _ _ _ _ _ he hp
      · rename_i h2
        rw [if_neg h2]
        split at he
        · cases he
        · rename_i nv dmid hev
          have hsub := evaluateMultpAndDivLoop_mono ev hmono ts _ _ _ _ _ he
          rw [hframe _ _ _ _ hev (hP _ _ hsub hp)]
          exact ih _ _ _ _ _ he hp

theorem evaluateMultpAndDivToken_mono (ev : Str → Deps → Except Err (Dbl × Deps))
    (hmono : ∀ t d v d2, ev t d = .ok (v, d2) → ∀ x ∈ d, x ∈ d2)
    (token : Str) (deps : Deps) (v : Dbl) (d2 : Deps)
    (he : evaluateMultpAndDivToken ev token deps = .ok (v, d2)) : ∀ x ∈ deps, x ∈ d2 := by
  unfold evaluateMultpAndDivToken at he
  split at he
  · cases he
  · cases he
  · split at he
    · cases he
    · rename_i r dmid hev
      intro x hx
      exact evaluateMultpAndDivLoop_mono ev hmono _ _ _ _ _ _ he x (hmono _ _ _ _ hev x hx)

theorem evaluateMultpAndDivToken_frame (ev ev2 : Str → Deps → Except Err (Dbl × Deps))
    (P : Deps → Prop) (hP : ∀ a b : Deps, (∀ x ∈ a, x ∈ b) → P b → P a)
    (hmono : ∀ t d v d2, ev t d = .ok (v, d2) → ∀ x ∈ d, x ∈ d2)
    (hframe : ∀ t d v d2, ev t d = .ok (v, d2) → P d2 → ev2 t d = .ok (v, d2))
    (token : Str) (deps : Deps) (v : Dbl) (d2 : Deps)
    (he : evaluateMultpAndDivToken ev token deps = .ok (v, d2)) (hp : P d2) :
    evaluateMultpAndDivToken ev2 token deps = .ok (v, d2) := by
  unfold evaluateMultpAndDivToken at he ⊢
  split at he
  · cases he
  · cases he
  · rename_i t0 ts hparse
    split at he
    · cases he
    · rename_i r dmid hev
      have hsub := evaluateMultpAndDivLoop_mono ev hmono _ _ _ _ _ _ he
      rw [hframe _ _ _ _ hev (hP _ _ hsub hp)]
      exact evaluateMultpAndDivLoop_frame ev ev2 P hP hmono hframe _ _ _ _ _ _ he hp

theorem parseAndEvaluateLoop_mono (ev : Str → Deps → Except Err (Dbl × Deps))
    (hmono : ∀ t d v d2, ev t d = .ok (v, d2) → ∀ x ∈ d, x ∈ d2) (tokens : List Str) :
    ∀ isAddition result deps v d2,
      parseAndEvaluateLoop ev tokens isAddition result deps = .ok (v, d2) →
      ∀ x ∈ deps, x ∈ d2 := by
  induction tokens with
  | nil =>
    intro isAddition result deps v d2 he
    simp only [parseAndEvaluateLoop, Except.ok.injEq, Prod.mk.injEq] at he
    rw [← he.2]
    exact fun x hx => hx
  | cons t ts ih =>
    intro isAddition result deps v d2 he
    unfold parseAndEvaluateLoop at he
    split at he
    · exact ih _ _ _ _ _ he
    · split at he
      · exact ih _ _ _ _ _ he
      · split at he
        · cases he
        · rename_i nv dmid hev
          intro x hx
          exact ih _ _ _ _ _ he x (evaluateMultpAndDivToken_mono ev hmono _ _ _ _ hev x hx)

theorem parseAndEvaluateLoop_frame (ev ev2 : Str → Deps → Except Err (Dbl × Deps))
    (P : Deps → Prop) (hP : ∀ a b : Deps, (∀ x ∈ a, x ∈ b) → P b → P a)
    (hmono : ∀ t d v d2, ev t d = .ok (v, d2) → ∀ x ∈ d, x ∈ d2)
    (hframe : ∀ t d v d2, ev t d = .ok (v, d2) → P d2 → ev2 t d = .ok (v, d2))
    (tokens : List Str) :
    ∀ isAddition result deps v d2,
      parseAndEvaluateLoop ev tokens isAddition result deps = .ok (v, d2) → P d2 →
      parseAndEvaluateLoop ev2 tokens isAddition result deps = .ok (v, d2) := by
  induction tokens with
  | nil =>
    intro isAddition result deps v d2 he _
    simpa [parseAndEvaluateLoop] using he
  | cons t ts ih =>
    intro isAddition result deps v d2 he hp
    unfold parseAndEvaluateLoop at he ⊢
    split at he
    · rename_i h1
      rw [if_pos h1]
      exact ih _ _ _ _ _ he hp
    · rename_i h1
      rw [if_neg h1]
      split at he
      · rename_i h2
        rw [if_pos h2]
        exact ih _ _ _ _ _ he hp
      · rename_i h2
        rw [if_neg h2]
        split at he
        · cases he
        · rename_i nv dmid hev
          have hsub := parseAndEvaluateLoop_mono ev hmono ts _ _ _ _ _ he
          rw [evaluateMultpAndDivToken_frame ev ev2 P hP hmono hframe _ _ _ _ hev
            (hP _ _ hsub hp)]
          exact ih _ _ _ _ _ he hp

namespace Rev2

theorem AgreeOn.subset {g g2 : Spreadsheet} (a b : Deps) (hab : ∀ x ∈ a, x ∈ b)
    (h : AgreeOn g g2 b) : AgreeOn g g2 a :=
  fun d hd => h d (hab d hd)

theorem parseAndEvaluate_frame (sqrt : Dbl → Dbl) {g g2 : Spreadsheet} (h : g.WF)
    (h2 : g2.WF) (hsz : SameSize g g2) (formula : Str) (c1 c2 : Int × Int) (v : Dbl) (ds : Deps)
    (he : parseAndEvaluate sqrt g formula c1 [] = .ok (v, ds)) (ha : AgreeOn g g2 ds) :
    parseAndEvaluate sqrt g2 formula c2 [] = .ok (v, ds) := by
  unfold parseAndEvaluate at he ⊢
  split at he
  · cases he
  · rename_i hne
    rw [if_neg hne]
    split at he
    · cases he
    · rename_i tokens hparse
      split at he
      · cases he
      · rename_i htok
        rw [if_neg htok]
        split at he
        · cases he
        · rename_i r du hloop
          simp only [List.nil_append, Except.ok.injEq, Prod.mk.injEq] at he
          obtain ⟨rfl, rfl⟩ := he
          rw [parseAndEvaluateLoop_frame (evaluateSingleToken sqrt g) (evaluateSingleToken sqrt g2)
            (AgreeOn g g2) AgreeOn.subset
            (fun t d v d2 => evaluateSingleToken_mono sqrt h t d v d2)
            (fun t d v d2 => evaluateSingleToken_frame sqrt h h2 hsz t d v d2)
            _ _ _ _ _ _ hloop ha]
          simp

end Rev2

/-! ## The cells read do not depend on the values -/

namespace Rev2

theorem evaluateSingleToken_shape (sqrt : Dbl → Dbl) {g g2 : Spreadsheet} (h : g.WF)
    (h2 : g2.WF) (hsz : SameSize g g2) (t : Str) (deps : Deps) (v : Dbl) (d2 : Deps)
    (he : evaluateSingleToken sqrt g t deps = .ok (v, d2)) :
    ∃ v2, evaluateSingleToken sqrt g2 t deps = .ok (v2, d2) := by
  unfold evaluateSingleToken at he ⊢
  rw [getCellReference_eq_r2 h] at he
  rw [getCellReference_eq_r2 h2, ← hsz.1, ← hsz.2]
  simp only [bind, Except.bind] at he ⊢
  split at he
  · rename_i hne
    rw [if_pos hne]
    have hin := labelLookup_inGrid _ _ _ hne
    obtain ⟨cell, hget, hr, hc, _, _, hv⟩ := getCell_inGrid h hin
    obtain ⟨cell2, hget2, hr2, hc2, _, _, hv2⟩ := getCell_inGrid h2
      (by rw [← hsz.1, ← hsz.2]; exact hin)
    rw [hget] at he
    rw [hget2]
    simp only [pure, Except.pure, Except.ok.injEq, Prod.mk.injEq] at he ⊢
    obtain ⟨he1, he2⟩ := he
    rw [hr, hc] at he2
    rw [hr2, hc2, he2]
    exact ⟨_, rfl, rfl⟩
  · rename_i hne
    rw [if_neg hne, getFunctionType_congr h h2 hsz]
    cases hf : getFunctionType g t with
    | error e => rw [hf] at he; cases he
    | ok func =>
      rw [hf] at he
      simp only at he ⊢
      split at he
      · rename_i hfunc
        rw [if_pos hfunc]
        cases hs1 : substr t ((findChar t '(' + 1) % 2 ^ 64)
            ((findChar t ')' + 2 ^ 64 - findChar t '(' + 2 ^ 64 - 1) % 2 ^ 64) with
        | error e => rw [hs1] at he; cases he
        | ok range =>
          rw [hs1] at he
          simp only at he ⊢
          cases hs2 : substr range 0 (intToSize (sizeToInt (findStr range "..".toList))) with
          | error e => rw [hs2] at he; cases he
          | ok startCell =>
            rw [hs2] at he
            simp only at he ⊢
            cases hs3 : substr range (intToSize (sizeToInt (findStr range "..".toList) + 2)) npos
              with
            | error e => rw [hs3] at he; cases he
            | ok endCell =>
              rw [hs3] at he
              simp only at he ⊢
              rw [getCellReference_eq_r2 h, getCellReference_eq_r2 h] at he
              rw [getCellReference_eq_r2 h2, getCellReference_eq_r2 h2, ← hsz.1, ← hsz.2]
              simp only at he ⊢
              split at he
              · cases he
              · rename_i hpos
                rw [if_neg hpos]
                have hpos' := not_or.1 hpos
                have hs := labelLookup_inGrid _ _ _ hpos'.1
                have hen := labelLookup_inGrid _ _ _ hpos'.2
                have hs' : InGrid g2.getRowCount g2.getColCount
                    (labelLookup g.getRowCount g.getColCount (removeSpaces startCell)) := by
                  rw [← hsz.1, ← hsz.2]; exact hs
                have hen' : InGrid g2.getRowCount g2.getColCount
                    (labelLookup g.getRowCount g.getColCount (removeSpaces endCell)) := by
                  rw [← hsz.1, ← hsz.2]; exact hen
                split at he
                · rw [SUM_eq h _ _ _ hs hen] at he
                  rw [SUM_eq h2 _ _ _ hs' hen', ← hsz.2]
                  cases he
                  exact ⟨_, rfl⟩
                · rw [AVER_eq h _ _ _ hs hen] at he
                  rw [AVER_eq h2 _ _ _ hs' hen', ← hsz.2]
                  split at he
                  · rename_i hnil
                    rw [if_pos hnil]
                    cases he
                    exact ⟨_, rfl⟩
                  · rename_i hnil
                    rw [if_neg hnil]
                    cases he
                    exact ⟨_, rfl⟩
                · rw [STDDEV_eq sqrt h _ _ _ hs hen] at he
                  rw [STDDEV_eq sqrt h2 _ _ _ hs' hen']
                  cases he
                  exact ⟨_, rfl⟩
                · rw [MAX_eq h _ _ _ hs hen] at he
                  rw [MAX_eq h2 _ _ _ hs' hen']
                  cases he
                  exact ⟨_, rfl⟩
                · rw [MIN_eq h _ _ _ hs hen] at he
                  rw [MIN_eq h2 _ _ _ hs' hen']
                  cases he
                  exact ⟨_, rfl⟩
                · cases he
      · rename_i hfunc
        rw [if_neg hfunc]
        exact ⟨v, he⟩

end Rev2

theorem evaluateMultpAndDivLoop_shape (ev ev2 : Str → Deps → Except Err (Dbl × Deps))
    (hshape : ∀ t d v d2, ev t d = .ok (v, d2) → ∃ v2, ev2 t d = .ok (v2, d2))
    (ts : List Str) :
    ∀ result result2 isMultp deps v d2,
      evaluateMultpAndDivLoop ev ts result isMultp deps = .ok (v, d2) →
      ∃ v2, evaluateMultpAndDivLoop ev2 ts result2 isMultp deps = .ok (v2, d2) := by
  induction ts with
  | nil =>
    intro result result2 isMultp deps v d2 he
    simp only [evaluateMultpAndDivLoop, Except.ok.injEq, Prod.mk.injEq] at he ⊢
    exact ⟨result2, rfl, he.2⟩
  | cons t ts ih =>
    intro result result2 isMultp deps v d2 he
    unfold evaluateMultpAndDivLoop at he ⊢
    split at he
    · rename_i h1
      rw [if_pos h1]
      exact ih _ _ _ _ _ _ he
    · rename_i h1
      rw [if_neg h1]
      split at he
      · rename_i h2
        rw [if_pos h2]
        exact ih _ _ _ _ _ _ he
      · rename_i h2
        rw [if_neg h2]
        split at he
        · cases he
        · rename_i nv dmid hev
          obtain ⟨nv2, hev2⟩ := hshape _ _ _ _ hev
          rw [hev2]
          exact ih _ _ _ _ _ _ he

theorem evaluateMultpAndDivToken_shape (ev ev2 : Str → Deps → Except Err (Dbl × Deps))
    (hshape : ∀ t d v d2, ev t d = .ok (v, d2) → ∃ v2, ev2 t d = .ok (v2, d2))
    (token : Str) (deps : Deps) (v : Dbl) (d2 : Deps)
    (he : evaluateMultpAndDivToken ev token deps = .ok (v, d2)) :
    ∃ v2, evaluateMultpAndDivToken ev2 token deps = .ok (v2, d2) := by
  unfold evaluateMultpAndDivToken at he ⊢
  split at he
  · cases he
  · cases he
  · rename_i t0 ts hparse
    split at he
    · cases he
    · rename_i r dmid hev
      obtain ⟨r2, hev2⟩ := hshape _ _ _ _ hev
      rw [hev2]
      exact evaluateMultpAndDivLoop_shape ev ev2 hshape _ _ _ _ _ _ _ he

theorem parseAndEvaluateLoop_shape (ev ev2 : Str → Deps → Except Err (Dbl × Deps))
    (hshape : ∀ t d v d2, ev t d = .ok (v, d2) → ∃ v2, ev2 t d = .ok (v2, d2))
    (tokens : List Str) :
    ∀ isAddition result result2 deps v d2,
      parseAndEvaluateLoop ev tokens isAddition result deps = .ok (v, d2) →
      ∃ v2, parseAndEvaluateLoop ev2 tokens isAddition result2 deps = .ok (v2, d2) := by
  induction tokens with
  | nil =>
    intro isAddition result result2 deps v d2 he
    simp only [parseAndEvaluateLoop, Except.ok.injEq, Prod.mk.injEq] at he ⊢
    exact ⟨result2, rfl, he.2⟩
  | cons t ts ih =>
    intro isAddition result result2 deps v d2 he
    unfold parseAndEvaluateLoop at he ⊢
    split at he
    · rename_i h1
      rw [if_pos h1]
      exact ih _ _ _ _ _ _ he
    · rename_i h1
      rw [if_neg h1]
      split at he
      · rename_i h2
        rw [if_pos h2]
        exact ih _ _ _ _ _ _ he
      · rename_i h2
        rw [if_neg h2]
        split at he
        · cases he
        · rename_i nv dmid hev
          obtain ⟨nv2, hev2⟩ := evaluateMultpAndDivToken_shape ev ev2 hshape _ _ _ _ hev
          rw [hev2]
          exact ih _ _ _ _ _ _ he

namespace Rev2

theorem parseAndEvaluate_shape (sqrt : Dbl → Dbl) {g g2 : Spreadsheet} (h : g.WF)
    (h2 : g2.WF) (hsz : SameSize g g2) (formula : Str) (c1 c2 : Int × Int) (v : Dbl) (ds : Deps)
    (he : parseAndEvaluate sqrt g formula c1 [] = .ok (v, ds)) :
    ∃ v2, parseAndEvaluate sqrt g2 formula c2 [] = .ok (v2, ds) := by
  unfold parseAndEvaluate at he ⊢
  split at he
  · cases he
  · rename_i hne
    rw [if_neg hne]
    split at he
    · cases he
    · rename_i tokens hparse
      split at he
      · cases he
      · rename_i htok
        rw [if_neg htok]
        split at he
        · cases he
        · rename_i r du hloop
          simp only [List.nil_append, Except.ok.injEq, Prod.mk.injEq] at he
          obtain ⟨rfl, rfl⟩ := he
          obtain ⟨v2, hv2⟩ := parseAndEvaluateLoop_shape (evaluateSingleToken sqrt g)
            (evaluateSingleToken sqrt g2)
            (fun t d v d2 => evaluateSingleToken_shape sqrt h h2 hsz t d v d2)
            _ _ _ (Dbl.fin 0) _ _ _ hloop
          rw [hv2]
          exact ⟨v2, by simp⟩

end Rev2

/-! ## Dependency structure of a grid (second revision) -/

namespace Rev2

theorem Spreadsheet.formulaAt_some_lt {g : Spreadsheet} (h : g.WF) {i j : Nat}
    {x : Str × Dbl × Deps} (hf : g.formulaAt i j = some x) :
    i < g.getRowCount ∧ j < g.getColCount := by
  unfold Spreadsheet.formulaAt at hf
  cases hc : g.cellAt i j with
  | none => rw [hc] at hf; cases hf
  | some cell =>
    unfold Spreadsheet.cellAt at hc
    cases hrow : g.cells[i]? with
    | none => rw [hrow] at hc; cases hc
    | some row =>
      rw [hrow] at hc
      simp only at hc
      have hi : i < g.cells.length := by
        rcases Nat.lt_or_ge i g.cells.length with h1 | h1
        · exact h1
        · rw [List.getElem?_eq_none h1] at hrow; cases hrow
      have hj : j < row.length := by
        rcases Nat.lt_or_ge j row.length with h1 | h1
        · exact h1
        · rw [List.getElem?_eq_none h1] at hc; cases hc
      have hmem : row ∈ g.cells := List.mem_iff_getElem?.2 ⟨i, hrow⟩
      rw [h.2.2.1 row hmem] at hj
      exact ⟨hi, hj⟩

end Rev2

/-! ## C2: recalculation after a literal was entered (second revision) -/

namespace Rev2

theorem Spreadsheet.formulaAt_of_body {g : Spreadsheet} {i j : Nat} {cell : Cell}
    (hc : g.cellAt i j = some cell) :
    g.formulaAt i j = (match cell.body with
      | .FormulaCell formula value deps => some (formula, value, deps)
      | _ => none) := by
  unfold Spreadsheet.formulaAt
  simp only [hc]

end Rev2

namespace Rev1

theorem Spreadsheet.getRowCount_assign_r1 (g : Spreadsheet) (i j : Nat) (cell : Cell) :
    (g.assign i j cell).getRowCount = g.getRowCount := by
  simp [Spreadsheet.assign, Spreadsheet.getRowCount]

theorem Spreadsheet.getColCount_assign_r1 (g : Spreadsheet) (i j : Nat) (cell : Cell) :
    (g.assign i j cell).getColCount = g.getColCount := by
  unfold Spreadsheet.assign Spreadsheet.getColCount
  cases hg : g.cells with
  | nil => simp
  | cons row rows =>
    cases i with
    | zero => simp [List.modify]
    | succ n => simp [List.modify]

theorem Spreadsheet.cellAt_assign_r1 (g : Spreadsheet) (i j i2 j2 : Nat) (cell : Cell) :
    (g.assign i j cell).cellAt i2 j2
      = if i2 = i ∧ j2 = j ∧ (g.cellAt i j).isSome then some cell else g.cellAt i2 j2 := by
  unfold Spreadsheet.cellAt Spreadsheet.assign
  simp only [List.getElem?_modify]
  by_cases hi : i = i2
  · subst hi
    cases hrow : g.cells[i]? with
    | none => simp
    | some row =>
      simp only [if_true, Option.map_some', true_and]
      by_cases hj : j2 = j
      · subst hj
        by_cases hlt : j2 < row.length
        · simp [List.getElem?_set, hlt]
        · have hnone : row[j2]? = none := List.getElem?_eq_none (by omega)
          simp [List.getElem?_set, hlt, hnone]
      · have : ¬ j = j2 := fun h => hj h.symm
        simp [List.getElem?_set, hj, this]
  · have : ¬ i2 = i := fun h => hi h.symm
    simp [hi, this]

theorem Spreadsheet.WF.assign_r1 {g : Spreadsheet} (h : g.WF) {i j : Nat} {cell : Cell}
    (hc : cell.WFAt i j) : (g.assign i j cell).WF := by
  obtain ⟨h1, h2, h3, h4⟩ := h
  refine ⟨?_, ?_, ?_, ?_⟩
  · rw [Spreadsheet.getRowCount_assign_r1]; exact h1
  · rw [Spreadsheet.getColCount_assign_r1]; exact h2
  · intro row hrow
    rw [Spreadsheet.getColCount_assign_r1]
    unfold Spreadsheet.assign at hrow
    rw [List.mem_iff_getElem?] at hrow
    obtain ⟨n, hn⟩ := hrow
    rw [List.getElem?_modify] at hn
    cases hr : g.cells[n]? with
    | none => simp [hr] at hn
    | some row0 =>
      have hmem : row0 ∈ g.cells := List.mem_iff_getElem?.2 ⟨n, hr⟩
      rw [hr] at hn
      simp at hn
      rw [← hn]
      split
      · simpa using h3 row0 hmem
      · exact h3 row0 hmem
  · intro i2 hi2 j2 hj2
    rw [Spreadsheet.getRowCount_assign_r1] at hi2
    rw [Spreadsheet.getColCount_assign_r1] at hj2
    rw [Spreadsheet.cellAt_assign_r1]
    split
    · rename_i hh
      obtain ⟨rfl, rfl, _⟩ := hh
      exact ⟨cell, rfl, hc⟩
    · exact h4 i2 hi2 j2 hj2

theorem getCell_inGrid_r1 {g : Spreadsheet} (h : g.WF) {p : Int × Int}
    (hp : InGrid g.getRowCount g.getColCount p) :
    ∃ cell, g.getCell p.1 p.2 = .ok cell ∧ cell.row = p.1 ∧ cell.col = p.2 ∧
      g.cellAt p.1.toNat p.2.toNat = some cell ∧ cell.content.numeric? = g.numAt p := by
  obtain ⟨h1, h2, h3, h4⟩ := hp
  obtain ⟨cell, hc, hw⟩ := h.cellAt_r1 (i := p.1.toNat) (j := p.2.toNat) (by omega) (by omega)
  have hget := Spreadsheet.getCell_eq_r1 (by omega) (by omega) hc
  have e1 : ((p.1.toNat : Nat) : Int) = p.1 := Int.toNat_of_nonneg h1
  have e2 : ((p.2.toNat : Nat) : Int) = p.2 := Int.toNat_of_nonneg h3
  rw [e1, e2] at hget
  refine ⟨cell, hget, ?_, ?_, hc, ?_⟩
  · rw [hw.1, e1]
  · rw [hw.2.1, e2]
  · unfold Spreadsheet.numAt
    rw [hget]

theorem getCells_inGrid_r1 {g : Spreadsheet} (h : g.WF) (idx : List (Int × Int))
    (hidx : ∀ p ∈ idx, InGrid g.getRowCount g.getColCount p) :
    ∃ cells, g.getCells idx = .ok cells ∧
      List.Forall₂ (fun p cell => cell.row = p.1 ∧ cell.col = p.2 ∧
        cell.content.numeric? = g.numAt p) idx cells := by
  induction idx with
  | nil => exact ⟨[], rfl, List.Forall₂.nil⟩
  | cons p rest ih =>
    obtain ⟨cells, hcells, hall⟩ := ih (fun q hq => hidx q (List.mem_cons_of_mem _ hq))
    obtain ⟨cell, hget, hr, hc, _, hv⟩ := getCell_inGrid_r1 h (hidx p (by simp))
    refine ⟨cell :: cells, ?_, List.Forall₂.cons ⟨hr, hc, hv⟩ hall⟩
    obtain ⟨i, j⟩ := p
    unfold Spreadsheet.getCells
    simp only at hget
    rw [hget, hcells]

theorem rangeIndices_eq_r1 (cols : Nat) (startPos endPos : Int × Int) :
    Spreadsheet.rangeIndices cols startPos endPos
      = Rev2.Spreadsheet.rangeIndices cols startPos endPos := rfl

end Rev1

theorem mem_stdSetInsertAll (idx : List (Int × Int)) (x : Int × Int) :
    ∀ deps : Deps, x ∈ stdSetInsertAll idx deps ↔ x ∈ idx ∨ x ∈ deps := by
  induction idx with
  | nil => intro deps; simp [stdSetInsertAll]
  | cons p rest ih =>
    intro deps
    unfold stdSetInsertAll at ih ⊢
    rw [List.foldl_cons, ih, mem_stdSetInsert, List.mem_cons]
    tauto

namespace Rev1

theorem rangeIndices_inGrid_r1 (rows cols : Nat) (startPos endPos : Int × Int)
    (hs : InGrid rows cols startPos) (he : InGrid rows cols endPos) :
    ∀ p ∈ Spreadsheet.rangeIndices cols startPos endPos, InGrid rows cols p := by
  rw [rangeIndices_eq_r1]
  exact Rev2.rangeIndices_inGrid rows cols startPos endPos hs he

theorem SUM_eq_r1 {g : Spreadsheet} (h : g.WF) (startPos endPos : Int × Int) (deps : Deps)
    (hs : InGrid g.getRowCount g.getColCount startPos)
    (he : InGrid g.getRowCount g.getColCount endPos) :
    SUM g startPos endPos deps
      = .ok (((Spreadsheet.rangeIndices g.getColCount startPos endPos).map g.numAt).foldl
                addOpt (Dbl.fin 0),
             stdSetInsertAll (Spreadsheet.rangeIndices g.getColCount startPos endPos) deps) := by
  obtain ⟨cells, hcells, hall⟩ := getCells_inGrid_r1 h _ (rangeIndices_inGrid_r1 _ _ _ _ hs he)
  unfold SUM Spreadsheet.getCellsInRange
  rw [hcells]
  simp only
  rw [Rev2.foldl_forall₂ _ _
    (fun (acc : Dbl × Deps) (p : Int × Int) => (addOpt acc.1 (g.numAt p), stdSetInsert p acc.2))
    (by
      intro acc a b hab
      obtain ⟨h1, h2, h3⟩ := hab
      rw [h1, h2]
      show _ = (addOpt acc.1 (g.numAt a), stdSetInsert a acc.2)
      rw [← h3]
      rfl) _ _ hall]
  rw [foldl_pair (fun a p => addOpt a (g.numAt p)) (fun d p => stdSetInsert p d)]
  rw [List.foldl_map]
  rfl

theorem AVER_eq_r1 {g : Spreadsheet} (h : g.WF) (startPos endPos : Int × Int) (deps : Deps)
    (hs : InGrid g.getRowCount g.getColCount startPos)
    (he : InGrid g.getRowCount g.getColCount endPos) :
    AVER g startPos endPos deps
      = if Spreadsheet.rangeIndices g.getColCount startPos endPos = [] then
          .ok (Dbl.fin 0, deps)
        else if ((Spreadsheet.rangeIndices g.getColCount startPos endPos).map g.numAt).foldl
            countOpt 0 = 0 then
          .ok (Dbl.fin 0,
            stdSetInsertAll (Spreadsheet.rangeIndices g.getColCount startPos endPos) deps)
        else
          .ok ((((Spreadsheet.rangeIndices g.getColCount startPos endPos).map g.numAt).foldl
                  addOpt (Dbl.fin 0)).div
                (Dbl.ofInt (((Spreadsheet.rangeIndices g.getColCount startPos endPos).map
                  g.numAt).foldl countOpt 0)),
               stdSetInsertAll (Spreadsheet.rangeIndices g.getColCount startPos endPos) deps) := by
  obtain ⟨cells, hcells, hall⟩ := getCells_inGrid_r1 h _ (rangeIndices_inGrid_r1 _ _ _ _ hs he)
  unfold AVER Spreadsheet.getCellsInRange
  rw [hcells]
  simp only
  have hlen := hall.length_eq
  by_cases hnil : Spreadsheet.rangeIndices g.getColCount startPos endPos = []
  · have : cells = [] := by
      rw [hnil] at hlen
      exact List.length_eq_zero.1 hlen.symm
    rw [if_pos this, if_pos hnil]
  · have hc : cells ≠ [] := by
      intro hc
      rw [hc] at hlen
      exact hnil (List.length_eq_zero.1 hlen)
    rw [if_neg hc, if_neg hnil]
    rw [Rev2.foldl_forall₂ _ _
      (fun (acc : Dbl × Int × Deps) (p : Int × Int) =>
        (addOpt acc.1 (g.numAt p), countOpt acc.2.1 (g.numAt p), stdSetInsert p acc.2.2))
      (by
        intro acc a b hab
        obtain ⟨h1, h2, h3⟩ := hab
        rw [h1, h2]
        show _ = (addOpt acc.1 (g.numAt a), countOpt acc.2.1 (g.numAt a), stdSetInsert a acc.2.2)
        rw [← h3]
        rfl) _ _ hall]
    rw [foldl_triple (fun a p => addOpt a (g.numAt p)) (fun (n : Int) p => countOpt n (g.numAt p))
      (fun d p => stdSetInsert p d)]
    simp only [List.foldl_map]
    rfl

theorem getCells_values_r1 {g : Spreadsheet} (h : g.WF) (idx : List (Int × Int))
    (hidx : ∀ p ∈ idx, InGrid g.getRowCount g.getColCount p) :
    ∃ cells, g.getCells idx = .ok cells ∧
      cells.map (fun cell => cell.content.numeric?) = idx.map g.numAt := by
  obtain ⟨cells, hcells, hall⟩ := getCells_inGrid_r1 h idx hidx
  exact ⟨cells, hcells, Rev2.map_forall₂ _ _ _ (fun a b hab => hab.2.2) _ _ hall⟩

theorem STDDEV_eq_r1 (sqrt : Dbl → Dbl) {g : Spreadsheet} (h : g.WF)
    (startPos endPos : Int × Int)
    (deps : Deps) (hs : InGrid g.getRowCount g.getColCount startPos)
    (he : InGrid g.getRowCount g.getColCount endPos) :
    STDDEV sqrt g startPos endPos deps
      = .ok (Rev2.stddevOf sqrt (((rectIndices startPos endPos).map g.numAt).map
                fun o => o.getD (Dbl.fin 0)),
             stdSetInsertAll (rectIndices startPos endPos) deps) := by
  obtain ⟨cells, hcells, hvals⟩ := getCells_values_r1 h _ (rectIndices_inGrid _ _ _ _ hs he)
  have hv : cells.map (fun cell => (cell.content.numeric?).getD (Dbl.fin 0))
      = ((rectIndices startPos endPos).map g.numAt).map fun o => o.getD (Dbl.fin 0) := by
    rw [← hvals, List.map_map]
    rfl
  unfold STDDEV Rev2.stddevOf
  simp only [hcells, hv]
  split <;> rfl

theorem MAX_eq_r1 {g : Spreadsheet} (h : g.WF) (startPos endPos : Int × Int)
    (deps : Deps) (hs : InGrid g.getRowCount g.getColCount startPos)
    (he : InGrid g.getRowCount g.getColCount endPos) :
    MAX g startPos endPos deps
      = .ok (((rectIndices startPos endPos).map g.numAt).foldl maxOpt Dbl.ninf,
             stdSetInsertAll (rectIndices startPos endPos) deps) := by
  obtain ⟨cells, hcells, hvals⟩ := getCells_values_r1 h _ (rectIndices_inGrid _ _ _ _ hs he)
  unfold MAX
  simp only [hcells]
  rw [← hvals, List.foldl_map]
  rfl

theorem MIN_eq_r1 {g : Spreadsheet} (h : g.WF) (startPos endPos : Int × Int)
    (deps : Deps) (hs : InGrid g.getRowCount g.getColCount startPos)
    (he : InGrid g.getRowCount g.getColCount endPos) :
    MIN g startPos endPos deps
      = .ok (((rectIndices startPos endPos).map g.numAt).foldl minOpt Dbl.pinf,
             stdSetInsertAll (rectIndices startPos endPos) deps) := by
  obtain ⟨cells, hcells, hvals⟩ := getCells_values_r1 h _ (rectIndices_inGrid _ _ _ _ hs he)
  unfold MIN
  simp only [hcells]
  rw [← hvals, List.foldl_map]
  rfl

theorem getFunctionType_congr_r1 {g g2 : Spreadsheet} (h : g.WF) (h2 : g2.WF)
    (hs : SameSize g g2) (token : Str) : getFunctionType g2 token = getFunctionType g token := by
  unfold getFunctionType isValidRange
  simp only [getCellReference_eq_r1 h, getCellReference_eq_r1 h2, hs.1, hs.2]

theorem AgreeOn.map_eq_r1 {g g2 : Spreadsheet} {idx : List (Int × Int)} {deps : Deps}
    (ha : AgreeOn g g2 (stdSetInsertAll idx deps)) : idx.map g.numAt = idx.map g2.numAt := by
  apply List.map_congr_left
  intro p hp
  exact ha p ((mem_stdSetInsertAll idx p deps).2 (Or.inl hp))

theorem AgreeOn.subset_r1 {g g2 : Spreadsheet} (a b : Deps) (hab : ∀ x ∈ a, x ∈ b)
    (h : AgreeOn g g2 b) : AgreeOn g g2 a :=
  fun d hd => h d (hab d hd)

/-- The evaluation of one operand on a second grid of the same size: it reads
the same cells, and returns the same value when the two grids agree on them. -/
theorem evaluateSingleToken_transfer_r1 (sqrt : Dbl → Dbl) {g g2 : Spreadsheet} (h : g.WF)
    (h2 : g2.WF) (hsz : SameSize g g2) (t : Str) (deps : Deps) (v : Dbl) (d2 : Deps)
    (he : evaluateSingleToken sqrt g t deps = .ok (v, d2)) :
    (∀ x ∈ deps, x ∈ d2) ∧
    (∃ v2, evaluateSingleToken sqrt g2 t deps = .ok (v2, d2)) ∧
    (AgreeOn g g2 d2 → evaluateSingleToken sqrt g2 t deps = .ok (v, d2)) := by
  unfold evaluateSingleToken at he ⊢
  rw [getCellReference_eq_r1 h] at he
  rw [getCellReference_eq_r1 h2, ← hsz.1, ← hsz.2]
  simp only [bind, Except.bind] at he ⊢
  split at he
  · rename_i hne
    rw [if_pos hne]
    have hin := labelLookup_inGrid _ _ _ hne
    obtain ⟨cell, hget, hr, hc, _, hv⟩ := getCell_inGrid_r1 h hin
    obtain ⟨cell2, hget2, hr2, hc2, _, hv2⟩ := getCell_inGrid_r1 h2
      (by rw [← hsz.1, ← hsz.2]; exact hin)
    rw [hget] at he
    rw [hget2]
    simp only [pure, Except.pure, Except.ok.injEq, Prod.mk.injEq] at he ⊢
    obtain ⟨he1, he2⟩ := he
    rw [hr, hc] at he2
    rw [hr2, hc2, he2, hv2, ← he1, hv]
    refine ⟨?_, ⟨_, rfl, rfl⟩, ?_⟩
    · intro x hx
      rw [← he2, mem_stdSetInsert]
      exact Or.inr hx
    · intro ha
      refine ⟨?_, rfl⟩
      rw [ha _ ?_]
      rw [← he2, mem_stdSetInsert]
      exact Or.inl rfl
  · rename_i hne
    rw [if_neg hne, getFunctionType_congr_r1 h h2 hsz]
    cases hf : getFunctionType g t with
    | error e => rw [hf] at he; cases he
    | ok func =>
      rw [hf] at he
      simp only at he ⊢
      split at he
      · rename_i hfunc
        rw [if_pos hfunc]
        cases hs1 : substr t ((findChar t '(' + 1) % 2 ^ 64)
            ((findChar t ')' + 2 ^ 64 - findChar t '(' + 2 ^ 64 - 1) % 2 ^ 64) with
        | error e => rw [hs1] at he; cases he
        | ok range =>
          rw [hs1] at he
          simp only at he ⊢
          cases hs2 : substr range 0 (intToSize (sizeToInt (findStr range "..".toList))) with
          | error e => rw [hs2] at he; cases he
          | ok startCell =>
            rw [hs2] at he
            simp only at he ⊢
            cases hs3 : substr range (intToSize (sizeToInt (findStr range "..".toList) + 2)) npos
              with
            | error e => rw [hs3] at he; cases he
            | ok endCell =>
              rw [hs3] at he
              simp only at he ⊢
              rw [getCellReference_eq_r1 h, getCellReference_eq_r1 h] at he
              rw [getCellReference_eq_r1 h2, getCellReference_eq_r1 h2, ← hsz.1, ← hsz.2]
              simp only at he ⊢
              split at he
              · cases he
              · rename_i hpos
                rw [if_neg hpos]
                have hpos' := not_or.1 hpos
                have hs := labelLookup_inGrid _ _ _ hpos'.1
                have hen := labelLookup_inGrid _ _ _ hpos'.2
                have hs' : InGrid g2.getRowCount g2.getColCount
                    (labelLookup g.getRowCount g.getColCount (removeSpaces startCell)) := by
                  rw [← hsz.1, ← hsz.2]; exact hs
                have hen' : InGrid g2.getRowCount g2.getColCount
                    (labelLookup g.getRowCount g.getColCount (removeSpaces endCell)) := by
                  rw [← hsz.1, ← hsz.2]; exact hen
                have key : ∀ idx : List (Int × Int), ∀ x ∈ deps, x ∈ stdSetInsertAll idx deps :=
                  fun idx x hx => (mem_stdSetInsertAll idx x deps).2 (Or.inr hx)
                split at he
                · rw [SUM_eq_r1 h _ _ _ hs hen] at he
                  rw [SUM_eq_r1 h2 _ _ _ hs' hen', ← hsz.2]
                  cases he
                  refine ⟨key _, ⟨_, rfl⟩, ?_⟩
                  intro ha
                  rw [AgreeOn.map_eq_r1 ha]
                · rw [AVER_eq_r1 h _ _ _ hs hen] at he
                  rw [AVER_eq_r1 h2 _ _ _ hs' hen', ← hsz.2]
                  split at he
                  · rename_i hnil
                    rw [if_pos hnil]
                    cases he
                    exact ⟨fun x hx => hx, ⟨_, rfl⟩, fun _ => rfl⟩
                  · rename_i hnil
                    rw [if_neg hnil]
                    split at he
                    · rename_i hcount
                      cases he
                      refine ⟨key _, ?_, ?_⟩
                      · split
                        · exact ⟨_, rfl⟩
                        · exact ⟨_, rfl⟩
                      · intro ha
                        rw [← AgreeOn.map_eq_r1 ha, if_pos hcount]
                    · rename_i hcount
                      cases he
                      refine ⟨key _, ?_, ?_⟩
                      · split
                        · exact ⟨_, rfl⟩
                        · exact ⟨_, rfl⟩
                      · intro ha
                        rw [← AgreeOn.map_eq_r1 ha, if_neg hcount]
                · rw [STDDEV_eq_r1 sqrt h _ _ _ hs hen] at he
                  rw [STDDEV_eq_r1 sqrt h2 _ _ _ hs' hen']
                  cases he
                  refine ⟨key _, ⟨_, rfl⟩, ?_⟩
                  intro ha
                  rw [AgreeOn.map_eq_r1 ha]
                · rw [MAX_eq_r1 h _ _ _ hs hen] at he
                  rw [MAX_eq_r1 h2 _ _ _ hs' hen']
                  cases he
                  refine ⟨key _, ⟨_, rfl⟩, ?_⟩
                  intro ha
                  rw [AgreeOn.map_eq_r1 ha]
                · rw [MIN_eq_r1 h _ _ _ hs hen] at he
                  rw [MIN_eq_r1 h2 _ _ _ hs' hen']
                  cases he
                  refine ⟨key _, ⟨_, rfl⟩, ?_⟩
                  intro ha
                  rw [AgreeOn.map_eq_r1 ha]
                · simp only [pure, Except.pure, Except.ok.injEq, Prod.mk.injEq] at he
                  obtain ⟨rfl, rfl⟩ := he
                  exact ⟨fun x hx => hx, ⟨_, rfl⟩, fun _ => rfl⟩
      · rename_i hfunc
        rw [if_neg hfunc]
        refine ⟨?_, ⟨v, he⟩, fun _ => he⟩
        split at he
        · split at he
          · simp only [pure, Except.pure, Except.ok.injEq, Prod.mk.injEq] at he
            rw [← he.2]
            exact fun x hx => hx
          · split at he <;> cases he
        · cases he

end Rev1

/-! ## C2: recalculation after a literal was entered (first revision) -/

namespace Rev1

theorem parsePlusAndMinus_ne_nil (s : Str) : parsePlusAndMinus s ≠ .ok [] := by
  unfold parsePlusAndMinus
  cases parsePlusAndMinusLoop s [] [] with
  | mk tokens token =>
    simp only
    split
    · intro h; cases h
    · intro h
      simp only [Except.ok.injEq] at h
      exact absurd h (by simp)

theorem parseAndEvaluate_eq_r1 (sqrt : Dbl → Dbl) (g : Spreadsheet) (formula : Str)
    (c : Int × Int) (hf : formula ≠ []) :
    parseAndEvaluate sqrt g formula c
      = match evalFormula sqrt g formula with
        | .error e => .error e
        | .ok (result, ds) =>
          match g.getCell c.1 c.2 with
          | .error e => .error e
          | .ok cell =>
            .ok (result, g.assign c.1.toNat c.2.toNat
              { cell with formula := formula, dependentCells := ds, content := .double result }) := by
  unfold parseAndEvaluate evalFormula
  rw [if_neg hf]
  cases hp : parsePlusAndMinus (formula.drop 1) with
  | error e => rfl
  | ok tokens =>
    have hne : tokens ≠ [] := by
      intro h
      rw [h] at hp
      exact parsePlusAndMinus_ne_nil _ hp
    simp only [if_neg hne]

theorem evalFormula_transfer (sqrt : Dbl → Dbl) {g g2 : Spreadsheet} (h : g.WF)
    (h2 : g2.WF) (hsz : SameSize g g2) (formula : Str) (v : Dbl) (ds : Deps)
    (he : evalFormula sqrt g formula = .ok (v, ds)) :
    (∃ v2, evalFormula sqrt g2 formula = .ok (v2, ds)) ∧
    (AgreeOn g g2 ds → evalFormula sqrt g2 formula = .ok (v, ds)) := by
  unfold evalFormula at he ⊢
  split at he
  · cases he
  · rename_i tokens hparse
    constructor
    · exact parseAndEvaluateLoop_shape (evaluateSingleToken sqrt g) (evaluateSingleToken sqrt g2)
        (fun t d v d2 hev => (evaluateSingleToken_transfer_r1 sqrt h h2 hsz t d v d2 hev).2.1)
        _ _ _ (Dbl.fin 0) _ _ _ he
    · intro ha
      exact parseAndEvaluateLoop_frame (evaluateSingleToken sqrt g) (evaluateSingleToken sqrt g2)
        (AgreeOn g g2) AgreeOn.subset_r1
        (fun t d v d2 hev => (evaluateSingleToken_transfer_r1 sqrt h h2 hsz t d v d2 hev).1)
        (fun t d v d2 hev => (evaluateSingleToken_transfer_r1 sqrt h h2 hsz t d v d2 hev).2.2)
        _ _ _ _ _ _ he ha

theorem Spreadsheet.formulaAt_of_cell_r1 {g : Spreadsheet} {i j : Nat} {cell : Cell}
    (hc : g.cellAt i j = some cell) :
    g.formulaAt i j
      = if cell.formula = [] then none
        else some (cell.formula, cell.content, cell.dependentCells) := by
  unfold Spreadsheet.formulaAt
  simp only [hc]

theorem Spreadsheet.formulaAt_some_r1 {g : Spreadsheet} (h : g.WF) {i j : Nat}
    {f : Str} {c : CellContent} {d : Deps} (hf : g.formulaAt i j = some (f, c, d)) :
    i < g.getRowCount ∧ j < g.getColCount ∧
    ∃ cell, g.cellAt i j = some cell ∧ cell.WFAt i j ∧ cell.formula = f ∧ f ≠ [] ∧
      cell.content = c ∧ cell.dependentCells = d := by
  unfold Spreadsheet.formulaAt at hf
  cases hc : g.cellAt i j with
  | none => rw [hc] at hf; cases hf
  | some cell =>
    rw [hc] at hf
    simp only at hf
    split at hf
    · cases hf
    · rename_i hne
      simp only [Option.some.injEq, Prod.mk.injEq] at hf
      obtain ⟨rfl, rfl, rfl⟩ := hf
      have hlt : i < g.getRowCount ∧ j < g.getColCount := by
        unfold Spreadsheet.cellAt at hc
        cases hrow : g.cells[i]? with
        | none => rw [hrow] at hc; cases hc
        | some row =>
          rw [hrow] at hc
          simp only at hc
          have hi : i < g.cells.length := by
            rcases Nat.lt_or_ge i g.cells.length with h1 | h1
            · exact h1
            · rw [List.getElem?_eq_none h1] at hrow; cases hrow
          have hj : j < row.length := by
            rcases Nat.lt_or_ge j row.length with h1 | h1
            · exact h1
            · rw [List.getElem?_eq_none h1] at hc; cases hc
          have hmem : row ∈ g.cells := List.mem_iff_getElem?.2 ⟨i, hrow⟩
          have := h.2.2.1 row hmem
          exact ⟨hi, by omega⟩
      obtain ⟨cell2, hc2, hw⟩ := h.cellAt_r1 hlt.1 hlt.2
      rw [hc] at hc2
      cases hc2
      exact ⟨hlt.1, hlt.2, cell, rfl, hw, rfl, hne, rfl, rfl⟩

theorem parseAndEvaluate_cell_r1 (sqrt : Dbl → Dbl) {g : Spreadsheet} {i j : Nat} {cell : Cell}
    (hi : i < g.getRowCount) (hj : j < g.getColCount) (hc : g.cellAt i j = some cell)
    {f : Str} (hf : f ≠ []) :
    parseAndEvaluate sqrt g f ((i : Int), (j : Int))
      = match evalFormula sqrt g f with
        | .error e => .error e
        | .ok (v, ds) =>
          .ok (v, g.assign i j
            { cell with formula := f, dependentCells := ds, content := .double v }) := by
  rw [parseAndEvaluate_eq_r1 sqrt g f _ hf]
  simp only [Spreadsheet.getCell_eq_r1 hi hj hc, Int.toNat_ofNat]

theorem Spreadsheet.getCell_assign_ne_r1 (g : Spreadsheet) (i j : Nat) (cell : Cell)
    (p : Int × Int) (hp : p ≠ ((i : Int), (j : Int))) :
    (g.assign i j cell).getCell p.1 p.2 = g.getCell p.1 p.2 := by
  unfold Spreadsheet.getCell
  rw [Spreadsheet.getRowCount_assign_r1, Spreadsheet.getColCount_assign_r1]
  split
  · rename_i hin
    rw [Spreadsheet.cellAt_assign_r1]
    have hcond : ¬ (p.1.toNat = i ∧ p.2.toNat = j ∧ (g.cellAt i j).isSome = true) := by
      rintro ⟨h1, h2, _⟩
      apply hp
      obtain ⟨p1, p2⟩ := p
      simp only [Prod.mk.injEq]
      simp only at hin h1 h2
      omega
    rw [if_neg hcond]
  · rfl

theorem Spreadsheet.numAt_assign_ne_r1 (g : Spreadsheet) (i j : Nat) (cell : Cell)
    (p : Int × Int) (hp : p ≠ ((i : Int), (j : Int))) :
    (g.assign i j cell).numAt p = g.numAt p := by
  unfold Spreadsheet.numAt
  rw [Spreadsheet.getCell_assign_ne_r1 g i j cell p hp]

theorem sameSize_assign_r1 (g : Spreadsheet) (i j : Nat) (cell : Cell) :
    SameSize g (g.assign i j cell) :=
  ⟨(Spreadsheet.getRowCount_assign_r1 _ _ _ _).symm,
    (Spreadsheet.getColCount_assign_r1 _ _ _ _).symm⟩

theorem agreeOn_assign_r1 (g : Spreadsheet) (i j : Nat) (cell : Cell) (ds : Deps)
    (h : ((i : Int), (j : Int)) ∉ ds) : AgreeOn g (g.assign i j cell) ds := by
  intro x hx
  have hne : x ≠ ((i : Int), (j : Int)) := fun hh => h (hh ▸ hx)
  exact (Spreadsheet.numAt_assign_ne_r1 g i j cell x hne).symm

theorem dependsOn_iff_r1 {g : Spreadsheet} {p : Int × Int} {i j : Nat} :
    DependsOn g p ((i : Int), (j : Int)) ↔ ∃ f c d, g.formulaAt i j = some (f, c, d) ∧ p ∈ d := by
  constructor
  · rintro ⟨i2, j2, f, c, d, hq, hf, hp⟩
    simp only [Prod.mk.injEq, Nat.cast_inj] at hq
    obtain ⟨rfl, rfl⟩ := hq
    exact ⟨f, c, d, hf, hp⟩
  · rintro ⟨f, c, d, hf, hp⟩
    exact ⟨i, j, f, c, d, rfl, hf, hp⟩

theorem reads_iff_r1 {sqrt : Dbl → Dbl} {g : Spreadsheet} {p : Int × Int} {i j : Nat} :
    Reads sqrt g p ((i : Int), (j : Int)) ↔
      ∃ f c d v ds, g.formulaAt i j = some (f, c, d) ∧ evalFormula sqrt g f = .ok (v, ds) ∧
        p ∈ ds := by
  constructor
  · rintro ⟨i2, j2, f, c, d, v, ds, hq, hf, he, hp⟩
    simp only [Prod.mk.injEq, Nat.cast_inj] at hq
    obtain ⟨rfl, rfl⟩ := hq
    exact ⟨f, c, d, v, ds, hf, he, hp⟩
  · rintro ⟨f, c, d, v, ds, hf, he, hp⟩
    exact ⟨i, j, f, c, d, v, ds, rfl, hf, he, hp⟩

theorem setContent_literal_r1 {sqrt : Dbl → Dbl} {g G : Spreadsheet} {r c : Nat} {input : Str}
    {cellCoords : Int × Int}
    (hlit : ¬ (input ≠ [] ∧ input.head? = some '='))
    (h : g.setContent sqrt r c input cellCoords = .ok G) :
    ∃ cell content, g.cellAt r c = some cell ∧
      G = g.assign r c { cell with formula := [], content := content } := by
  unfold Spreadsheet.setContent at h
  cases hc : g.cellAt r c with
  | none => rw [hc] at h; cases h
  | some cell =>
    rw [hc] at h
    simp only [if_neg hlit] at h
    split at h
    · split at h
      · simp only [Except.ok.injEq] at h
        exact ⟨cell, _, rfl, h.symm⟩
      · split at h
        · simp only [Except.ok.injEq] at h
          exact ⟨cell, _, rfl, h.symm⟩
        · simp only [Except.ok.injEq] at h
          exact ⟨cell, _, rfl, h.symm⟩
    · split at h
      · simp only [Except.ok.injEq] at h
        exact ⟨cell, _, rfl, h.symm⟩
      · simp only [Except.ok.injEq] at h
        exact ⟨cell, _, rfl, h.symm⟩

theorem Spreadsheet.cellAt_some_wf_r1 {g : Spreadsheet} (h : g.WF) {i j : Nat} {cell : Cell}
    (hc : g.cellAt i j = some cell) : cell.WFAt i j := by
  have hlt : i < g.getRowCount ∧ j < g.getColCount := by
    unfold Spreadsheet.cellAt at hc
    cases hrow : g.cells[i]? with
    | none => rw [hrow] at hc; cases hc
    | some row =>
      rw [hrow] at hc
      simp only at hc
      have hi : i < g.cells.length := by
        rcases Nat.lt_or_ge i g.cells.length with h1 | h1
        · exact h1
        · rw [List.getElem?_eq_none h1] at hrow; cases hrow
      have hj : j < row.length := by
        rcases Nat.lt_or_ge j row.length with h1 | h1
        · exact h1
        · rw [List.getElem?_eq_none h1] at hc; cases hc
      have hmem : row ∈ g.cells := List.mem_iff_getElem?.2 ⟨i, hrow⟩
      have := h.2.2.1 row hmem
      exact ⟨hi, by omega⟩
  obtain ⟨cell2, hc2, hw⟩ := h.cellAt_r1 hlt.1 hlt.2
  rw [hc] at hc2
  cases hc2
  exact hw

end Rev1

/-! ## C2: the statement for both revisions -/

theorem Rev2.sheetW_reached :
    (do
      let g ← Rev2.Spreadsheet.new 2 3
      let g ← g.enterData id 0 0 "x".toList
      let g ← g.enterData id 0 1 "1".toList
      let g ← g.enterData id 0 2 "100".toList
      let g ← g.enterData id 1 0 "2".toList
      g.enterData id 1 1 "3".toList) = .ok Rev2.sheetW := by
  decide!

theorem Rev1.sheetW_reached_r1 :
    (do
      let g ← Rev1.Spreadsheet.new 2 3
      let g ← g.setContent id 0 0 "x".toList (0, 0)
      let g ← g.setContent id 0 1 "1".toList (0, 1)
      let g ← g.setContent id 0 2 "100".toList (0, 2)
      let g ← g.setContent id 1 0 "2".toList (1, 0)
      g.setContent id 1 1 "3".toList (1, 1)) = .ok Rev1.sheetW := by
  decide!

theorem Rev2.sheetC_reached :
    (do
      let g ← Rev2.Spreadsheet.new 1 3
      let g ← g.enterData id 0 0 "10".toList
      let g ← g.enterData id 0 1 "5".toList
      g.enterData id 0 2 "=A1+B1".toList) = .ok Rev2.sheetC := by
  decide!

theorem Rev1.sheetC_reached_r1 :
    (do
      let g ← Rev1.Spreadsheet.new 1 3
      let g ← g.setContent id 0 0 "10".toList (0, 0)
      let g ← g.setContent id 0 1 "5".toList (0, 1)
      g.setContent id 0 2 "=A1+B1".toList (0, 2)) = .ok Rev1.sheetC := by
  decide!

theorem Rev2.sheetT_reached :
    (do
      let g ← Rev2.Spreadsheet.new 1 3
      let g ← g.enterData id 0 0 "4".toList
      let g ← g.enterData id 0 1 "8".toList
      g.enterData id 0 2 "x".toList) = .ok Rev2.sheetT := by
  decide!

theorem Rev1.sheetT_reached_r1 :
    (do
      let g ← Rev1.Spreadsheet.new 1 3
      let g ← g.setContent id 0 0 "4".toList (0, 0)
      let g ← g.setContent id 0 1 "8".toList (0, 1)
      g.setContent id 0 2 "x".toList (0, 2)) = .ok Rev1.sheetT := by
  decide!

/-- C12 (failing input): C1 holds `=A1+B1` with the dependency list `[A1, B1]`;
20 is entered into A1 and `autoCalculate` runs for A1.  The re-evaluation of C1
reads `[A1, B1]`.  Revision 1 stores exactly that list.  Revision 2 keeps the
old entries alongside the new ones: the list is `[A1, B1, A1, B1]`, and after a
second recalculation of the unchanged formula it has six entries. -/
theorem C12_rev2_autoCalculate_keeps_old_dependencies :
    Rev2.sheetC.enterData id 0 0 "20".toList = .ok Rev2.sheetC20 ∧
    Rev2.parseAndEvaluate id Rev2.sheetC20 "=A1+B1".toList (0, 2) []
      = .ok (Dbl.fin 25, [(0, 0), (0, 1)]) ∧
    (Rev2.autoCalculate id 5 Rev2.sheetC20 [] (0, 0)).map (fun s => s.1.formulaAt 0 2)
      = .ok (some ("=A1+B1".toList, Dbl.fin 25, [(0, 0), (0, 1), (0, 0), (0, 1)])) ∧
    ((Rev2.autoCalculate id 5 Rev2.sheetC20 [] (0, 0)).bind
        (fun s => Rev2.autoCalculate id 5 s.1 [] (0, 0))).map (fun s => s.1.formulaAt 0 2)
      = .ok (some ("=A1+B1".toList, Dbl.fin 25,
          [(0, 0), (0, 1), (0, 0), (0, 1), (0, 0), (0, 1)])) ∧
    Rev1.sheetC.setContent id 0 0 "20".toList (0, 0) = .ok Rev1.sheetC20 ∧
    ((Rev1.autoCalculate id 5 Rev1.sheetC20 (0, 0)).bind
        (fun g => Rev1.autoCalculate id 5 g (0, 0))).map (fun g => g.formulaAt 0 2)
      = .ok (some ("=A1+B1".toList, .double (Dbl.fin 25), [(0, 0), (0, 1)])) :=
  ⟨by decide, by decide!, by decide!, by decide!, by decide, by decide!⟩

/-- C13 (failing input): on a grid with three columns `getCellsInRange` from A1
to B2 (in either order of the corners) returns A1, B1, C1, A2, B2 in both
revisions: the first row runs on to the last column, so C1, which is outside the
rectangle, is returned. -/
theorem C13_getCellsInRange_wraps_rows :
    (Rev1.sheetW.getCellsInRange (0, 0) (1, 1)).map (List.map fun c => (c.row, c.col))
      = .ok [(0, 0), (0, 1), (0, 2), (1, 0), (1, 1)] ∧
    (Rev1.sheetW.getCellsInRange (1, 1) (0, 0)).map (List.map fun c => (c.row, c.col))
      = .ok [(0, 0), (0, 1), (0, 2), (1, 0), (1, 1)] ∧
    (Rev2.sheetW.getCellsInRange (0, 0) (1, 1)).map (List.map fun c => (c.row, c.col))
      = .ok [(0, 0), (0, 1), (0, 2), (1, 0), (1, 1)] ∧
    (Rev2.sheetW.getCellsInRange (1, 1) (0, 0)).map (List.map fun c => (c.row, c.col))
      = .ok [(0, 0), (0, 1), (0, 2), (1, 0), (1, 1)] := by
  decide

/-- C14 (failing input): with A1 = 10 and B1 = 5, `SUM` and `AVER` give the same
value and dependencies for `A1..B1` and `B1..A1`, but `MAX`, `MIN` and `STDDEV`
of `B1..A1` visit no cell: they return minus infinity, plus infinity and 0 with
no dependency, in both revisions (the target C1 of revision 1 is given the empty
list). -/
theorem C14_reversed_corners_visit_nothing :
    Rev2.parseAndEvaluate id Rev2.sheetA "=SUM(B1..A1)".toList (0, 2) []
      = Rev2.parseAndEvaluate id Rev2.sheetA "=SUM(A1..B1)".toList (0, 2) [] ∧
    Rev2.parseAndEvaluate id Rev2.sheetA "=AVER(B1..A1)".toList (0, 2) []
      = Rev2.parseAndEvaluate id Rev2.sheetA "=AVER(A1..B1)".toList (0, 2) [] ∧
    Rev2.parseAndEvaluate id Rev2.sheetA "=MAX(A1..B1)".toList (0, 2) []
      = .ok (Dbl.fin 10, [(0, 0), (0, 1)]) ∧
    Rev2.parseAndEvaluate id Rev2.sheetA "=MAX(B1..A1)".toList (0, 2) [] = .ok (Dbl.ninf, []) ∧
    Rev2.parseAndEvaluate id Rev2.sheetA "=MIN(A1..B1)".toList (0, 2) []
      = .ok (Dbl.fin 5, [(0, 0), (0, 1)]) ∧
    Rev2.parseAndEvaluate id Rev2.sheetA "=MIN(B1..A1)".toList (0, 2) [] = .ok (Dbl.pinf, []) ∧
    Rev2.parseAndEvaluate id Rev2.sheetA "=STDDEV(A1..B1)".toList (0, 2) []
      = .ok (Dbl.fin (25 / 4), [(0, 0), (0, 1)]) ∧
    Rev2.parseAndEvaluate id Rev2.sheetA "=STDDEV(B1..A1)".toList (0, 2) []
      = .ok (Dbl.fin 0, []) ∧
    Rev1.valueAndDeps (Rev1.parseAndEvaluate id Rev1.sheetA "=MAX(A1..B1)".toList (0, 2)) 0 2
      = .ok (Dbl.fin 10, [(0, 0), (0, 1)]) ∧
    Rev1.valueAndDeps (Rev1.parseAndEvaluate id Rev1.sheetA "=MAX(B1..A1)".toList (0, 2)) 0 2
      = .ok (Dbl.ninf, []) ∧
    Rev1.valueAndDeps (Rev1.parseAndEvaluate id Rev1.sheetA "=MIN(B1..A1)".toList (0, 2)) 0 2
      = .ok (Dbl.pinf, []) ∧
    Rev1.valueAndDeps (Rev1.parseAndEvaluate id Rev1.sheetA "=STDDEV(B1..A1)".toList (0, 2)) 0 2
      = .ok (Dbl.fin 0, []) :=
  ⟨by decide!, by decide!, by decide!, by decide!, by decide!, by decide!, by decide!, by decide!,
    by decide!, by decide!, by decide!, by decide!⟩

/-- C15 (failing input): on a grid with three columns where A1 holds text,
B1 = 1, A2 = 2, B2 = 3 and C1 = 100, `=SUM(A1..B2)` evaluates to 106 and records
five coordinates, C1 among them, in both revisions. -/
theorem C15_sum_reads_outside_the_rectangle :
    Rev2.parseAndEvaluate id Rev2.sheetW "=SUM(A1..B2)".toList (1, 2) []
      = .ok (Dbl.fin 106, [(0, 0), (0, 1), (0, 2), (1, 0), (1, 1)]) ∧
    Rev1.valueAndDeps (Rev1.parseAndEvaluate id Rev1.sheetW "=SUM(A1..B2)".toList (1, 2)) 1 2
      = .ok (Dbl.fin 106, [(0, 0), (0, 1), (0, 2), (1, 0), (1, 1)]) :=
  ⟨by decide!, by decide!⟩

/-! ## C16: the average -/

theorem foldl_addOpt (l : List (Option Dbl)) :
    ∀ a : Dbl, l.foldl addOpt a = (l.filterMap id).foldl Dbl.add a := by
  induction l with
  | nil => intro a; rfl
  | cons x xs ih =>
    intro a
    cases x with
    | none => simpa [addOpt] using ih a
    | some v => simpa [addOpt] using ih (a.add v)

theorem foldl_countOpt (l : List (Option Dbl)) :
    ∀ n : Int, l.foldl countOpt n = n + (l.filterMap id).length := by
  induction l with
  | nil => intro n; simp
  | cons x xs ih =>
    intro n
    cases x with
    | none => simpa [countOpt] using ih n
    | some v =>
      show xs.foldl countOpt (n + 1) = _
      rw [ih]
      simp only [List.filterMap_cons, id, List.length_cons]
      push_cast
      ring

theorem Rev2.AVER_of_cells {g : Rev2.Spreadsheet} {s e : Int × Int} {cells : List Rev2.Cell}
    (h : g.getCellsInRange s e = .ok cells) (deps : Deps) :
    (Rev2.AVER g s e deps).map Prod.fst
      = .ok (meanOf (cells.map Rev2.Cell.getCellValueAsDouble)) := by
  unfold Rev2.AVER meanOf
  rw [h]
  simp only
  by_cases hnil : cells = []
  · subst hnil
    rfl
  · rw [if_neg hnil]
    have hmap : ¬ cells.map Rev2.Cell.getCellValueAsDouble = [] := by simpa using hnil
    rw [if_neg hmap]
    rw [foldl_triple (fun a (c : Rev2.Cell) => Dbl.add a c.getCellValueAsDouble)
      (fun (n : Int) _ => n + 1) (fun d (c : Rev2.Cell) => mysetInsert (c.row, c.col) d)]
    simp only [foldl_count, zero_add]
    have hpos : ((cells.length : Nat) : Int) ≠ 0 := by
      have := List.length_pos.2 hnil
      omega
    rw [if_neg hpos, List.foldl_map, List.length_map]
    rfl

theorem Rev1.AVER_normal (g : Rev1.Spreadsheet) (s e : Int × Int) (deps : Deps) :
    Rev1.AVER g s e deps
      = match g.getCellsInRange s e with
        | .error err => .error err
        | .ok cells =>
          if cells = [] then .ok (Dbl.fin 0, deps)
          else
            if (cells.foldl
                (fun (acc : Dbl × Int × Deps) (cell : Rev1.Cell) =>
                  (addOpt acc.1 cell.content.numeric?, countOpt acc.2.1 cell.content.numeric?,
                    stdSetInsert (cell.row, cell.col) acc.2.2))
                (Dbl.fin 0, 0, deps)).2.1 = 0 then
              .ok (Dbl.fin 0, (cells.foldl
                (fun (acc : Dbl × Int × Deps) (cell : Rev1.Cell) =>
                  (addOpt acc.1 cell.content.numeric?, countOpt acc.2.1 cell.content.numeric?,
                    stdSetInsert (cell.row, cell.col) acc.2.2))
                (Dbl.fin 0, 0, deps)).2.2)
            else
              .ok ((cells.foldl
                (fun (acc : Dbl × Int × Deps) (cell : Rev1.Cell) =>
                  (addOpt acc.1 cell.content.numeric?, countOpt acc.2.1 cell.content.numeric?,
                    stdSetInsert (cell.row, cell.col) acc.2.2))
                (Dbl.fin 0, 0, deps)).1.div (Dbl.ofInt (cells.foldl
                (fun (acc : Dbl × Int × Deps) (cell : Rev1.Cell) =>
                  (addOpt acc.1 cell.content.numeric?, countOpt acc.2.1 cell.content.numeric?,
                    stdSetInsert (cell.row, cell.col) acc.2.2))
                (Dbl.fin 0, 0, deps)).2.1), (cells.foldl
                (fun (acc : Dbl × Int × Deps) (cell : Rev1.Cell) =>
                  (addOpt acc.1 cell.content.numeric?, countOpt acc.2.1 cell.content.numeric?,
                    stdSetInsert (cell.row, cell.col) acc.2.2))
                (Dbl.fin 0, 0, deps)).2.2) := by
  unfold Rev1.AVER
  rfl

theorem Rev1.AVER_of_cells_r1 {g : Rev1.Spreadsheet} {s e : Int × Int} {cells : List Rev1.Cell}
    (h : g.getCellsInRange s e = .ok cells) (deps : Deps) :
    (Rev1.AVER g s e deps).map Prod.fst
      = .ok (meanOf (cells.filterMap fun c => c.content.numeric?)) := by
  have hfm : (cells.filterMap fun c => c.content.numeric?)
      = (cells.map fun c => c.content.numeric?).filterMap id := by
    rw [List.filterMap_map]
    rfl
  rw [Rev1.AVER_normal, h]
  unfold meanOf
  simp only
  by_cases hnil : cells = []
  · subst hnil
    rfl
  · rw [if_neg hnil]
    rw [foldl_triple (fun a (c : Rev1.Cell) => addOpt a c.content.numeric?)
        (fun (n : Int) (c : Rev1.Cell) => countOpt n c.content.numeric?)
        (fun d (c : Rev1.Cell) => stdSetInsert (c.row, c.col) d) cells]
    simp only
    have e1 : cells.foldl (fun a (c : Rev1.Cell) => addOpt a c.content.numeric?) (Dbl.fin 0)
        = (cells.filterMap fun c => c.content.numeric?).foldl Dbl.add (Dbl.fin 0) := by
      rw [hfm, ← foldl_addOpt, List.foldl_map]
    have e2 : cells.foldl (fun (n : Int) (c : Rev1.Cell) => countOpt n c.content.numeric?) 0
        = ((cells.filterMap fun c => c.content.numeric?).length : Int) := by
      rw [hfm, ← zero_add (((List.filterMap id _).length : Nat) : Int), ← foldl_countOpt,
        List.foldl_map]
    rw [e1, e2]
    by_cases hnum : (cells.filterMap fun c => c.content.numeric?) = []
    · rw [if_pos hnum]
      simp [hnum]
      rfl
    · rw [if_neg hnum]
      have hpos : (((cells.filterMap fun c => c.content.numeric?).length : Nat) : Int) ≠ 0 := by
        have := List.length_pos.2 hnum
        omega
      rw [if_neg hpos]
      rfl

/-- C16 (counterexample): over a range holding 4, 8 and one text cell revision 1
averages to 6, not 4: the text cell is left out of the count.  Revision 2
averages to 4. -/
theorem C16_counterexample :
    Rev1.valueAndDeps (Rev1.parseAndEvaluate id Rev1.sheetT "=AVER(A1..C1)".toList (0, 0)) 0 0
      = .ok (Dbl.fin 6, [(0, 0), (0, 1), (0, 2)]) ∧
    Rev2.parseAndEvaluate id Rev2.sheetT "=AVER(A1..C1)".toList (0, 0) []
      = .ok (Dbl.fin 4, [(0, 0), (0, 1), (0, 2)]) :=
  ⟨by decide!, by decide!⟩

/-- C16 (amended): `AVER` over a range returns a sum divided by a count (`0.0`
when nothing is counted).  In revision 2 every cell visited counts and
contributes its value as a number, a text cell `0.0`.  In revision 1 only the
cells visited that hold a number count and contribute; text and empty cells are
left out of the sum and of the count. -/
theorem C16_AVER_sum_over_count (g1 : Rev1.Spreadsheet) (g2 : Rev2.Spreadsheet)
    (s e : Int × Int) (deps : Deps) (cells1 : List Rev1.Cell) (cells2 : List Rev2.Cell)
    (h1 : g1.getCellsInRange s e = .ok cells1) (h2 : g2.getCellsInRange s e = .ok cells2) :
    (Rev2.AVER g2 s e deps).map Prod.fst
      = .ok (meanOf (cells2.map Rev2.Cell.getCellValueAsDouble)) ∧
    (∀ cell : Rev2.Cell, ∀ text, cell.body = .StringValueCell text →
      cell.getCellValueAsDouble = Dbl.fin 0) ∧
    (Rev1.AVER g1 s e deps).map Prod.fst
      = .ok (meanOf (cells1.filterMap fun c => c.content.numeric?)) ∧
    (∀ text, (Rev1.CellContent.string text).numeric? = none) ∧
    Rev1.CellContent.monostate.numeric? = none :=
  ⟨Rev2.AVER_of_cells h2 deps,
   fun cell text hb => by unfold Rev2.Cell.getCellValueAsDouble; rw [hb],
   Rev1.AVER_of_cells_r1 h1 deps, fun _ => rfl, rfl⟩

/-- C16 (witness): the range A1..C1 of the grids holding 4, 8 and a text. -/
theorem C16_witness :
    (Rev1.sheetT.getCellsInRange (0, 0) (0, 2)
        = .ok [⟨.int 4, [], "A1".toList, 0, 0, []⟩, ⟨.int 8, [], "B1".toList, 0, 1, []⟩,
            ⟨.string "x".toList, [], "C1".toList, 0, 2, []⟩] ∧
      Rev2.sheetT.getCellsInRange (0, 0) (0, 2)
        = .ok [⟨"A1".toList, 0, 0, .IntValueCell 4⟩, ⟨"B1".toList, 0, 1, .IntValueCell 8⟩,
            ⟨"C1".toList, 0, 2, .StringValueCell "x".toList⟩]) ∧
    ((Rev2.AVER Rev2.sheetT (0, 0) (0, 2) []).map Prod.fst
      = .ok (meanOf (([⟨"A1".toList, 0, 0, .IntValueCell 4⟩, ⟨"B1".toList, 0, 1, .IntValueCell 8⟩,
            ⟨"C1".toList, 0, 2, .StringValueCell "x".toList⟩] : List Rev2.Cell).map
              Rev2.Cell.getCellValueAsDouble)) ∧
    (∀ cell : Rev2.Cell, ∀ text, cell.body = .StringValueCell text →
      cell.getCellValueAsDouble = Dbl.fin 0) ∧
    (Rev1.AVER Rev1.sheetT (0, 0) (0, 2) []).map Prod.fst
      = .ok (meanOf (([⟨.int 4, [], "A1".toList, 0, 0, []⟩, ⟨.int 8, [], "B1".toList, 0, 1, []⟩,
            ⟨.string "x".toList, [], "C1".toList, 0, 2, []⟩] : List Rev1.Cell).filterMap
              fun c => c.content.numeric?)) ∧
    (∀ text, (Rev1.CellContent.string text).numeric? = none) ∧
    Rev1.CellContent.monostate.numeric? = none) :=
  ⟨⟨by decide, by decide⟩,
   C16_AVER_sum_over_count Rev1.sheetT Rev2.sheetT (0, 0) (0, 2) [] _ _ (by decide) (by decide)⟩

/-! ## C17: the maximum and the minimum of empty cells -/

theorem foldl_maxOpt_none (l : List (Option Dbl)) (h : ∀ o ∈ l, o = none) (a : Dbl) :
    l.foldl maxOpt a = a := by
  induction l with
  | nil => rfl
  | cons x xs ih =>
    have hx : x = none := h x (by simp)
    subst hx
    exact ih (fun o ho => h o (List.mem_cons_of_mem _ ho))

theorem foldl_minOpt_none (l : List (Option Dbl)) (h : ∀ o ∈ l, o = none) (a : Dbl) :
    l.foldl minOpt a = a := by
  induction l with
  | nil => rfl
  | cons x xs ih =>
    have hx : x = none := h x (by simp)
    subst hx
    exact ih (fun o ho => h o (List.mem_cons_of_mem _ ho))

theorem foldl_max_zero (l : List Dbl) (h : ∀ x ∈ l, x = Dbl.fin 0) :
    l.foldl Dbl.max (Dbl.fin 0) = Dbl.fin 0 := by
  induction l with
  | nil => rfl
  | cons x xs ih =>
    have hx : x = Dbl.fin 0 := h x (by simp)
    subst hx
    exact ih (fun o ho => h o (List.mem_cons_of_mem _ ho))

theorem foldl_min_zero (l : List Dbl) (h : ∀ x ∈ l, x = Dbl.fin 0) :
    l.foldl Dbl.min (Dbl.fin 0) = Dbl.fin 0 := by
  induction l with
  | nil => rfl
  | cons x xs ih =>
    have hx : x = Dbl.fin 0 := h x (by simp)
    subst hx
    exact ih (fun o ho => h o (List.mem_cons_of_mem _ ho))

theorem rectIndices_ne_nil (s e : Int × Int) (h1 : s.1 ≤ e.1) (h2 : s.2 ≤ e.2) :
    rectIndices s e ≠ [] := by
  have hmem : (s.1, s.2) ∈ rectIndices s e := by
    unfold rectIndices
    simp only [List.mem_flatMap, List.mem_map, mem_intRange]
    exact ⟨s.1, ⟨le_refl _, h1⟩, s.2, ⟨le_refl _, h2⟩, rfl⟩
  intro hnil
  rw [hnil] at hmem
  cases hmem

/-- C17 (counterexample): on the grid of the second revision as the constructor
leaves it, `MAX` and `MIN` over A1..B1 are both 0. -/
theorem C17_counterexample :
    Rev2.Spreadsheet.new 1 2 = .ok Rev2.sheetFresh ∧
    Rev2.MAX Rev2.sheetFresh (0, 0) (0, 1) [] = .ok (Dbl.fin 0, [(0, 0), (0, 1)]) ∧
    Rev2.MIN Rev2.sheetFresh (0, 0) (0, 1) [] = .ok (Dbl.fin 0, [(0, 0), (0, 1)]) ∧
    Rev2.parseAndEvaluate id Rev2.sheetFresh "=MAX(A1..B1)".toList (0, 0) []
      = .ok (Dbl.fin 0, [(0, 0), (0, 1)]) :=
  ⟨by decide, by decide!, by decide!, by decide!⟩

/-- C17 (amended): in revision 1, over every range inside the grid all of whose
cells are empty, in whatever order the corners are given, `MAX` returns minus
infinity and `MIN` plus infinity: both start from the infinities and an empty
cell takes no part in the comparison.  In revision 2 a cell that was never
assigned is an empty text cell, which reads as `0.0` and is compared: over a
range of such cells whose first corner is not after the second, `MAX` and `MIN`
both return `0.0`. -/
theorem C17_MAX_MIN_of_empty_cells :
    (∀ (g1 : Rev1.Spreadsheet) (s e : Int × Int) (deps : Deps),
      g1.WF → InGrid g1.getRowCount g1.getColCount s →
      InGrid g1.getRowCount g1.getColCount e →
      (∀ p ∈ rectIndices s e,
        (g1.getCell p.1 p.2).map (fun cell => cell.content) = .ok .monostate) →
      (Rev1.MAX g1 s e deps).map Prod.fst = .ok Dbl.ninf ∧
      (Rev1.MIN g1 s e deps).map Prod.fst = .ok Dbl.pinf) ∧
    (∀ (g2 : Rev2.Spreadsheet) (s e : Int × Int) (deps : Deps),
      g2.WF → InGrid g2.getRowCount g2.getColCount s →
      InGrid g2.getRowCount g2.getColCount e →
      s.1 ≤ e.1 ∧ s.2 ≤ e.2 →
      (∀ p ∈ rectIndices s e,
        (g2.getCell p.1 p.2).map (fun cell => cell.body) = .ok (.StringValueCell [])) →
      (Rev2.MAX g2 s e deps).map Prod.fst = .ok (Dbl.fin 0) ∧
      (Rev2.MIN g2 s e deps).map Prod.fst = .ok (Dbl.fin 0)) := by
  constructor
  · intro g1 s e deps h1 hs1 he1 hempty1
    have hnone : ∀ o ∈ (rectIndices s e).map g1.numAt, o = none := by
      intro o ho
      obtain ⟨p, hp, rfl⟩ := List.mem_map.1 ho
      obtain ⟨cell, hget, _, _, _, hnum⟩ :=
        Rev1.getCell_inGrid_r1 h1 (rectIndices_inGrid _ _ _ _ hs1 he1 p hp)
      have hc := hempty1 p hp
      rw [hget] at hc
      simp only [Except.map, Except.ok.injEq] at hc
      rw [← hnum, hc]
      rfl
    constructor
    · rw [Rev1.MAX_eq_r1 h1 s e deps hs1 he1, foldl_maxOpt_none _ hnone]
      rfl
    · rw [Rev1.MIN_eq_r1 h1 s e deps hs1 he1, foldl_minOpt_none _ hnone]
      rfl
  intro g2 s e deps h2 hs2 he2 hle hempty2
  have hzero : ∀ x ∈ (rectIndices s e).map g2.valueAt, x = Dbl.fin 0 := by
    intro x hx
    obtain ⟨p, hp, rfl⟩ := List.mem_map.1 hx
    obtain ⟨cell, hget, _, _, _, _, hval⟩ :=
      Rev2.getCell_inGrid h2 (rectIndices_inGrid _ _ _ _ hs2 he2 p hp)
    have hc := hempty2 p hp
    rw [hget] at hc
    simp only [Except.map, Except.ok.injEq] at hc
    rw [← hval]
    unfold Rev2.Cell.getCellValueAsDouble
    rw [hc]
  have hne : (rectIndices s e).map g2.valueAt ≠ [] := by
    intro hnil
    exact rectIndices_ne_nil s e hle.1 hle.2 (List.map_eq_nil_iff.1 hnil)
  have hmax : ((rectIndices s e).map g2.valueAt).foldl Dbl.max Dbl.ninf = Dbl.fin 0 := by
    cases hl : (rectIndices s e).map g2.valueAt with
    | nil => exact absurd hl hne
    | cons x xs =>
      rw [hl] at hzero
      have hx : x = Dbl.fin 0 := hzero x (by simp)
      subst hx
      exact foldl_max_zero xs (fun y hy => hzero y (List.mem_cons_of_mem _ hy))
  have hmin : ((rectIndices s e).map g2.valueAt).foldl Dbl.min Dbl.pinf = Dbl.fin 0 := by
    cases hl : (rectIndices s e).map g2.valueAt with
    | nil => exact absurd hl hne
    | cons x xs =>
      rw [hl] at hzero
      have hx : x = Dbl.fin 0 := hzero x (by simp)
      subst hx
      exact foldl_min_zero xs (fun y hy => hzero y (List.mem_cons_of_mem _ hy))
  refine ⟨?_, ?_⟩
  · rw [Rev2.MAX_eq h2 s e deps hs2 he2, hmax]
    rfl
  · rw [Rev2.MIN_eq h2 s e deps hs2 he2, hmin]
    rfl

/-- C17 (witness): the range A1..B1 of the grids as the constructors leave
them, and in revision 1 also the range B1..A1 with the corners reversed. -/
theorem C17_witness :
    (Rev1.sheetFresh.WF ∧
      InGrid Rev1.sheetFresh.getRowCount Rev1.sheetFresh.getColCount (0, 0) ∧
      InGrid Rev1.sheetFresh.getRowCount Rev1.sheetFresh.getColCount (0, 1) ∧
      (∀ p ∈ rectIndices (0, 0) (0, 1),
        (Rev1.sheetFresh.getCell p.1 p.2).map (fun cell => cell.content) = .ok .monostate) ∧
      (∀ p ∈ rectIndices (0, 1) (0, 0),
        (Rev1.sheetFresh.getCell p.1 p.2).map (fun cell => cell.content) = .ok .monostate) ∧
      Rev2.sheetFresh.WF ∧
      InGrid Rev2.sheetFresh.getRowCount Rev2.sheetFresh.getColCount (0, 0) ∧
      InGrid Rev2.sheetFresh.getRowCount Rev2.sheetFresh.getColCount (0, 1) ∧
      ((0 : Int) ≤ 0 ∧ (0 : Int) ≤ 1) ∧
      (∀ p ∈ rectIndices (0, 0) (0, 1),
        (Rev2.sheetFresh.getCell p.1 p.2).map (fun cell => cell.body)
          = .ok (.StringValueCell []))) ∧
    ((Rev1.MAX Rev1.sheetFresh (0, 0) (0, 1) []).map Prod.fst = .ok Dbl.ninf ∧
     (Rev1.MIN Rev1.sheetFresh (0, 0) (0, 1) []).map Prod.fst = .ok Dbl.pinf) ∧
    ((Rev1.MAX Rev1.sheetFresh (0, 1) (0, 0) []).map Prod.fst = .ok Dbl.ninf ∧
     (Rev1.MIN Rev1.sheetFresh (0, 1) (0, 0) []).map Prod.fst = .ok Dbl.pinf) ∧
    ((Rev2.MAX Rev2.sheetFresh (0, 0) (0, 1) []).map Prod.fst = .ok (Dbl.fin 0) ∧
     (Rev2.MIN Rev2.sheetFresh (0, 0) (0, 1) []).map Prod.fst = .ok (Dbl.fin 0)) :=
  ⟨⟨by decide, by decide, by decide, by decide, by decide, by decide, by decide, by decide,
      by decide, by decide⟩,
   C17_MAX_MIN_of_empty_cells.1 Rev1.sheetFresh (0, 0) (0, 1) [] (by decide)
     (by decide) (by decide) (by decide),
   C17_MAX_MIN_of_empty_cells.1 Rev1.sheetFresh (0, 1) (0, 0) [] (by decide)
     (by decide) (by decide) (by decide),
   C17_MAX_MIN_of_empty_cells.2 Rev2.sheetFresh (0, 0) (0, 1) [] (by decide)
     (by decide) (by decide) (by decide) (by decide)⟩

/-! ## C11: a failed evaluation changes nothing -/

namespace Rev1

/-- `parseAndEvaluate` is the transition read as a result: the value with the
final grid on a return, the exception otherwise. -/
theorem parseAndEvaluate_eq_run (sqrt : Dbl → Dbl) (g : Spreadsheet) (formula : Str)
    (coordinates : Int × Int) :
    parseAndEvaluate sqrt g formula coordinates
      = match (parseAndEvaluateRun sqrt g formula coordinates).2 with
        | .ok v => .ok (v, (parseAndEvaluateRun sqrt g formula coordinates).1)
        | .error e => .error e := by
  unfold parseAndEvaluate parseAndEvaluateRun
  by_cases hf : formula = []
  · rw [if_pos hf, if_pos hf]
  · rw [if_neg hf, if_neg hf]
    cases parsePlusAndMinus (formula.drop 1) with
    | error e => rfl
    | ok tokens =>
      by_cases ht : tokens = []
      · simp only [if_pos ht]
      · simp only [if_neg ht]
        cases parseAndEvaluateLoop (evaluateSingleToken sqrt g) tokens true (Dbl.fin 0) [] with
        | error e => rfl
        | ok r =>
          cases g.getCell coordinates.1 coordinates.2 with
          | error e => rfl
          | ok cell => rfl

theorem parseAndEvaluateRun_error (sqrt : Dbl → Dbl) (g : Spreadsheet) (formula : Str)
    (coordinates : Int × Int) (e : Err)
    (h : (parseAndEvaluateRun sqrt g formula coordinates).2 = .error e) :
    (parseAndEvaluateRun sqrt g formula coordinates).1 = g := by
  unfold parseAndEvaluateRun at h ⊢
  by_cases hf : formula = []
  · rw [if_pos hf]
  · rw [if_neg hf] at h ⊢
    cases hp : parsePlusAndMinus (formula.drop 1) with
    | error e2 => rfl
    | ok tokens =>
      rw [hp] at h
      by_cases ht : tokens = []
      · simp only [if_pos ht]
      · simp only [if_neg ht] at h ⊢
        cases hl : parseAndEvaluateLoop (evaluateSingleToken sqrt g) tokens true (Dbl.fin 0) []
          with
        | error e2 => rfl
        | ok r =>
          rw [hl] at h
          cases hg : g.getCell coordinates.1 coordinates.2 with
          | error e2 => rfl
          | ok cell =>
            rw [hg] at h
            cases h

end Rev1

namespace Rev2

/-- `parseAndEvaluate` is the transition read as a result: the value with the
final vector on a return, the exception otherwise. -/
theorem parseAndEvaluate_eq_run_r2 (sqrt : Dbl → Dbl) (g : Spreadsheet) (formula : Str)
    (coordinates : Int × Int) (dependentCells : Deps) :
    parseAndEvaluate sqrt g formula coordinates dependentCells
      = match (parseAndEvaluateRun sqrt g formula coordinates dependentCells).2 with
        | .ok v => .ok (v, (parseAndEvaluateRun sqrt g formula coordinates dependentCells).1.2)
        | .error e => .error e := by
  unfold parseAndEvaluate parseAndEvaluateRun
  by_cases hf : formula = []
  · rw [if_pos hf, if_pos hf]
  · rw [if_neg hf, if_neg hf]
    cases parsePlusAndMinus (formula.drop 1) with
    | error e => rfl
    | ok tokens =>
      by_cases ht : tokens = []
      · simp only [if_pos ht]
      · simp only [if_neg ht]
        cases parseAndEvaluateLoop (evaluateSingleToken sqrt g) tokens true (Dbl.fin 0) [] with
        | error e => rfl
        | ok r => rfl

theorem parseAndEvaluateRun_error_r2 (sqrt : Dbl → Dbl) (g : Spreadsheet) (formula : Str)
    (coordinates : Int × Int) (dependentCells : Deps) (e : Err)
    (h : (parseAndEvaluateRun sqrt g formula coordinates dependentCells).2 = .error e) :
    (parseAndEvaluateRun sqrt g formula coordinates dependentCells).1 = (g, dependentCells) := by
  unfold parseAndEvaluateRun at h ⊢
  by_cases hf : formula = []
  · rw [if_pos hf]
  · rw [if_neg hf] at h ⊢
    cases hp : parsePlusAndMinus (formula.drop 1) with
    | error e2 => rfl
    | ok tokens =>
      rw [hp] at h
      by_cases ht : tokens = []
      · simp only [if_pos ht]
      · simp only [if_neg ht] at h ⊢
        cases hl : parseAndEvaluateLoop (evaluateSingleToken sqrt g) tokens true (Dbl.fin 0) []
          with
        | error e2 => rfl
        | ok r =>
          rw [hl] at h
          cases h

end Rev2

/-- C11: when `parseAndEvaluate` ends by an exception, the grid is the grid
before the call, so no value, formula or dependency list of any cell differs,
and in revision 2 the vector `dependentCells` of the caller is as it was. -/
theorem C11_failed_parseAndEvaluate_commits_nothing (sqrt : Dbl → Dbl)
    (g1 : Rev1.Spreadsheet) (g2 : Rev2.Spreadsheet) (formula1 formula2 : Str)
    (coordinates1 coordinates2 : Int × Int) (dependentCells : Deps) (e1 e2 : Err)
    (h1 : (Rev1.parseAndEvaluateRun sqrt g1 formula1 coordinates1).2 = .error e1)
    (h2 : (Rev2.parseAndEvaluateRun sqrt g2 formula2 coordinates2 dependentCells).2
      = .error e2) :
    (Rev1.parseAndEvaluateRun sqrt g1 formula1 coordinates1).1 = g1 ∧
    (Rev2.parseAndEvaluateRun sqrt g2 formula2 coordinates2 dependentCells).1
      = (g2, dependentCells) :=
  ⟨Rev1.parseAndEvaluateRun_error sqrt g1 formula1 coordinates1 e1 h1,
   Rev2.parseAndEvaluateRun_error_r2 sqrt g2 formula2 coordinates2 dependentCells e2 h2⟩

/-- C11 (witness): `=A1+` for C1 of the sample grids fails and leaves the grid,
and the vector `[(5, 5)]` of the caller, as they were. -/
theorem C11_witness :
    ((Rev1.parseAndEvaluateRun id Rev1.sheetC "=A1+".toList (0, 2)).2 = .error .plusMinusAtEnd ∧
     (Rev2.parseAndEvaluateRun id Rev2.sheetC "=A1+".toList (0, 2) [(5, 5)]).2
        = .error .plusMinusAtEnd) ∧
    ((Rev1.parseAndEvaluateRun id Rev1.sheetC "=A1+".toList (0, 2)).1 = Rev1.sheetC ∧
     (Rev2.parseAndEvaluateRun id Rev2.sheetC "=A1+".toList (0, 2) [(5, 5)]).1
        = (Rev2.sheetC, [(5, 5)])) :=
  ⟨⟨by decide, by decide⟩,
   C11_failed_parseAndEvaluate_commits_nothing id Rev1.sheetC Rev2.sheetC "=A1+".toList
     "=A1+".toList (0, 2) (0, 2) [(5, 5)] .plusMinusAtEnd .plusMinusAtEnd (by decide)
     (by decide)⟩

/-! ## C18: aggregates of a single cell -/

namespace Rev2

end Rev2

namespace Rev1

end Rev1

theorem lettersValue_append (acc : Nat) (xs ys : Str) :
    lettersValue acc (xs ++ ys) = lettersValue (lettersValue acc xs) ys := by
  induction xs generalizing acc with
  | nil => rfl
  | cons x xs ih => exact ih _

theorem letterLoop_append (fuel : Nat) : ∀ (c : Int) (letter : Str),
    letterLoop fuel c letter = letterLoop fuel c [] ++ letter := by
  induction fuel with
  | zero => intro c letter; rfl
  | succ n ih =>
    intro c letter
    unfold letterLoop
    by_cases hc : 0 ≤ c
    · rw [if_pos hc, if_pos hc, ih _ (_ :: letter), ih _ [_]]
      simp only [List.append_assoc, List.singleton_append]
    · rw [if_neg hc, if_neg hc]; rfl

theorem letterChar_toNat (c : Int) :
    (Char.ofNat ('A'.toNat + (c % 26).toNat)).toNat - 'A'.toNat + 1 = (c % 26).toNat + 1 := by
  have h1 : (c % 26).toNat < 26 := by
    have := Int.emod_lt_of_pos c (show (0 : Int) < 26 by norm_num)
    have := Int.emod_nonneg c (show (26 : Int) ≠ 0 by norm_num)
    omega
  generalize (c % 26).toNat = k at h1
  interval_cases k <;> decide

theorem lettersValue_letterLoop (fuel : Nat) : ∀ (c : Int), -1 ≤ c → c + 1 ≤ (fuel : Int) →
    (lettersValue 0 (letterLoop fuel c []) : Int) = c + 1 := by
  induction fuel with
  | zero =>
    intro c h1 h2
    have : c = -1 := by omega
    subst this
    rfl
  | succ n ih =>
    intro c h1 h2
    unfold letterLoop
    by_cases hc : 0 ≤ c
    · rw [if_pos hc, letterLoop_append, lettersValue_append]
      have hih := ih (c / 26 - 1) (by omega) (by omega)
      simp only [lettersValue]
      rw [letterChar_toNat]
      push_cast
      rw [hih]
      have : ((c % 26).toNat : Int) = c % 26 := Int.toNat_of_nonneg (by omega)
      rw [this]
      omega
    · rw [if_neg hc]
      have : c = -1 := by omega
      subst this
      rfl

theorem getLetterTransformation_value (j : Nat) :
    lettersValue 0 (getLetterTransformation (j : Int)) = j + 1 := by
  have h := lettersValue_letterLoop ((j : Int).toNat + 1) (j : Int) (by omega)
    (by simp)
  unfold getLetterTransformation
  exact_mod_cast h

theorem letterLoop_capital (fuel : Nat) : ∀ (c : Int) (letter : Str),
    (∀ x ∈ letter, isCapital x) → ∀ x ∈ letterLoop fuel c letter, isCapital x := by
  induction fuel with
  | zero => intro c letter h; exact h
  | succ n ih =>
    intro c letter h
    unfold letterLoop
    by_cases hc : 0 ≤ c
    · rw [if_pos hc]
      apply ih
      intro x hx
      rcases List.mem_cons.1 hx with hx | hx
      · subst hx; exact letterChar_isCapital c
      · exact h x hx
    · rw [if_neg hc]; exact h

theorem getLetterTransformation_capital (col : Int) :
    ∀ x ∈ getLetterTransformation col, isCapital x :=
  letterLoop_capital _ _ [] (by intro x hx; cases hx)

theorem digitChar_isdigit (k : Nat) (h : k < 10) :
    isdigit (Nat.digitChar k) = true ∧ digitVal (Nat.digitChar k) = k := by
  interval_cases k <;> exact ⟨by decide, by decide⟩

theorem toDigitsCore_succ (f n : Nat) (ds : Str) :
    Nat.toDigitsCore 10 (f + 1) n ds
      = if n / 10 = 0 then Nat.digitChar (n % 10) :: ds
        else Nat.toDigitsCore 10 f (n / 10) (Nat.digitChar (n % 10) :: ds) := rfl

theorem toDigitsCore_append (fuel : Nat) : ∀ (n : Nat) (ds : Str),
    Nat.toDigitsCore 10 fuel n ds = Nat.toDigitsCore 10 fuel n [] ++ ds := by
  induction fuel with
  | zero => intro n ds; rfl
  | succ f ih =>
    intro n ds
    rw [toDigitsCore_succ, toDigitsCore_succ]
    by_cases h : n / 10 = 0
    · rw [if_pos h, if_pos h]; rfl
    · rw [if_neg h, if_neg h, ih _ (_ :: ds), ih _ [_]]
      simp only [List.append_assoc, List.singleton_append]

theorem toDigitsCore_value (fuel : Nat) : ∀ (n : Nat), n < fuel →
    digitsValue 0 (Nat.toDigitsCore 10 fuel n []) = n ∧
    ∀ x ∈ Nat.toDigitsCore 10 fuel n [], isdigit x = true := by
  induction fuel with
  | zero => intro n h; omega
  | succ f ih =>
    intro n h
    have hd := digitChar_isdigit (n % 10) (Nat.mod_lt _ (by norm_num))
    rw [toDigitsCore_succ]
    by_cases h0 : n / 10 = 0
    · rw [if_pos h0]
      refine ⟨?_, ?_⟩
      · show 0 * 10 + digitVal (Nat.digitChar (n % 10)) = n
        rw [hd.2]
        omega
      · intro x hx
        rcases List.mem_singleton.1 hx with rfl
        exact hd.1
    · rw [if_neg h0, toDigitsCore_append]
      obtain ⟨hv, hdig⟩ := ih (n / 10) (by omega)
      refine ⟨?_, ?_⟩
      · rw [digitsValue_append, hv]
        show n / 10 * 10 + digitVal (Nat.digitChar (n % 10)) = n
        rw [hd.2]
        omega
      · intro x hx
        rcases List.mem_append.1 hx with hx | hx
        · exact hdig x hx
        · rcases List.mem_singleton.1 hx with rfl
          exact hd.1

theorem to_string_value (i : Nat) :
    digitsValue 0 (to_string ((i : Int) + 1)) = i + 1 ∧
    ∀ x ∈ to_string ((i : Int) + 1), isdigit x = true := by
  have h : to_string ((i : Int) + 1) = Nat.toDigitsCore 10 (i + 1 + 1) (i + 1) [] := by
    unfold to_string
    rw [if_neg (by omega)]
    have : ((i : Int) + 1).natAbs = i + 1 := by omega
    rw [this]
    rfl
  rw [h]
  exact toDigitsCore_value _ _ (by omega)

theorem isdigit_not_capital (x : Char) (h : isdigit x = true) : ¬ isCapital x := by
  unfold isdigit at h
  unfold isCapital
  have h1 := of_decide_eq_true h
  have : '9'.toNat < 'A'.toNat := by decide
  omega

/-- A run of capital letters followed by a run without capital letters splits
in one way only. -/
theorem capital_prefix_unique : ∀ (a a' b b' : Str),
    (∀ x ∈ a, isCapital x) → (∀ x ∈ a', isCapital x) →
    (∀ x ∈ b, ¬ isCapital x) → (∀ x ∈ b', ¬ isCapital x) →
    a ++ b = a' ++ b' → a = a' ∧ b = b'
  | [], [], _, _, _, _, _, _, h => ⟨rfl, h⟩
  | [], y :: ys, b, b', _, ha', hb, _, h => by
    simp only [List.nil_append] at h
    subst h
    exact absurd (ha' y (List.mem_cons_self _ _)) (hb y (by simp))
  | x :: xs, [], b, b', ha, _, _, hb', h => by
    simp only [List.nil_append] at h
    subst h
    exact absurd (ha x (List.mem_cons_self _ _)) (hb' x (by simp))
  | x :: xs, y :: ys, b, b', ha, ha', hb, hb', h => by
    simp only [List.cons_append, List.cons.injEq] at h
    obtain ⟨h1, h2⟩ := capital_prefix_unique xs ys b b'
      (fun z hz => ha z (List.mem_cons_of_mem _ hz))
      (fun z hz => ha' z (List.mem_cons_of_mem _ hz)) hb hb' h.2
    exact ⟨by rw [h.1, h1], h2⟩

/-- Two cells with the same label are the same cell. -/
theorem cellLabel_injective (i j i' j' : Nat)
    (h : cellLabel (i : Int) (j : Int) = cellLabel (i' : Int) (j' : Int)) : i = i' ∧ j = j' := by
  unfold cellLabel at h
  obtain ⟨h1, h2⟩ := capital_prefix_unique _ _ _ _
    (getLetterTransformation_capital _) (getLetterTransformation_capital _)
    (fun x hx => isdigit_not_capital x ((to_string_value i).2 x hx))
    (fun x hx => isdigit_not_capital x ((to_string_value i').2 x hx)) h
  have e1 := getLetterTransformation_value j
  have e2 := (to_string_value i).1
  rw [h1, getLetterTransformation_value] at e1
  rw [h2, (to_string_value i').1] at e2
  omega

theorem labelLookupIn_cellLabel (i j : Nat) (l : List (Nat × Nat)) (h : (i, j) ∈ l) :
    labelLookupIn (cellLabel (i : Int) (j : Int)) l = ((i : Int), (j : Int)) := by
  induction l with
  | nil => cases h
  | cons p rest ih =>
    obtain ⟨a, b⟩ := p
    unfold labelLookupIn
    by_cases hp : cellLabel (i : Int) (j : Int) = cellLabel (a : Int) (b : Int)
    · rw [if_pos hp]
      obtain ⟨h1, h2⟩ := cellLabel_injective i j a b hp
      rw [h1, h2]
    · rw [if_neg hp]
      rcases List.mem_cons.1 h with h | h
      · cases h
        exact absurd rfl hp
      · exact ih h

/-- The label of a cell of the grid names that cell. -/
theorem labelLookup_cellLabel (rows cols i j : Nat) (hi : i < rows) (hj : j < cols) :
    labelLookup rows cols (cellLabel (i : Int) (j : Int)) = ((i : Int), (j : Int)) :=
  labelLookupIn_cellLabel i j _ ((mem_gridIndices rows cols i j).2 ⟨hi, hj⟩)

theorem removeSpaces_cellLabel (i j : Nat) :
    removeSpaces (cellLabel (i : Int) (j : Int)) = cellLabel (i : Int) (j : Int) := by
  unfold removeSpaces
  rw [List.filter_eq_self]
  intro x hx
  unfold cellLabel at hx
  have hne : x ≠ ' ' := by
    rcases List.mem_append.1 hx with hx | hx
    · have := getLetterTransformation_capital _ x hx
      intro hs
      subst hs
      unfold isCapital at this
      revert this
      decide
    · have := (to_string_value i).2 x hx
      intro hs
      subst hs
      revert this
      decide
  simpa using hne

namespace Rev2

theorem evaluateSingleToken_label_r2 (sqrt : Dbl → Dbl) {g : Spreadsheet} (h : g.WF)
    (deps : Deps) {i j : Nat} {cell : Cell}
    (hi : i < g.getRowCount) (hj : j < g.getColCount) (hc : g.cellAt i j = some cell) :
    evaluateSingleToken sqrt g cell.letter_rep deps
      = .ok (cell.getCellValueAsDouble, mysetInsert ((i : Int), (j : Int)) deps) := by
  obtain ⟨cell', hc', hw⟩ := h.cellAt_r2 hi hj
  rw [hc] at hc'
  cases hc'
  apply evaluateSingleToken_ref_r2 sqrt h _ deps _ hi hj hc
  rw [hw.2.2, removeSpaces_cellLabel]
  exact labelLookup_cellLabel _ _ i j hi hj

end Rev2

namespace Rev1

theorem evaluateSingleToken_label_r1 (sqrt : Dbl → Dbl) {g : Spreadsheet} (h : g.WF)
    (deps : Deps) {i j : Nat} {cell : Cell}
    (hi : i < g.getRowCount) (hj : j < g.getColCount) (hc : g.cellAt i j = some cell) :
    evaluateSingleToken sqrt g cell.letterRepresentation deps
      = .ok ((cell.content.numeric?).getD (Dbl.fin 0),
             stdSetInsert ((i : Int), (j : Int)) deps) := by
  obtain ⟨cell', hc', hw⟩ := h.cellAt_r1 hi hj
  rw [hc] at hc'
  cases hc'
  apply evaluateSingleToken_ref_r1 sqrt h _ deps _ hi hj hc
  rw [hw.2.2, removeSpaces_cellLabel]
  exact labelLookup_cellLabel _ _ i j hi hj

end Rev1

/-- C20: on a well-formed grid, for the cell at `(i, j)` and the token equal to
its label, `evaluateSingleToken` returns by its first branch, the cell
reference: the dependency set gets the coordinate `(i, j)` inserted and the
value is the number of the cell, an `int` or a `double` as that number, a text
and an empty cell as 0, and in the second revision a formula cell as its
calculated value.  The label of the cell is `cellLabel i j`, and the set after
the insertion has `(i, j)` and the members it had. -/
theorem C20_evaluateSingleToken_cell_reference (sqrt : Dbl → Dbl)
    (g1 : Rev1.Spreadsheet) (g2 : Rev2.Spreadsheet) (i j : Nat) (deps : Deps)
    (cell1 : Rev1.Cell) (cell2 : Rev2.Cell)
    (h1 : g1.WF) (hi1 : i < g1.getRowCount) (hj1 : j < g1.getColCount)
    (hc1 : g1.cellAt i j = some cell1)
    (h2 : g2.WF) (hi2 : i < g2.getRowCount) (hj2 : j < g2.getColCount)
    (hc2 : g2.cellAt i j = some cell2) :
    (cell1.letterRepresentation = cellLabel (i : Int) (j : Int) ∧
     Rev1.evaluateSingleToken sqrt g1 cell1.letterRepresentation deps
      = .ok (match cell1.content with
             | .int val => Dbl.ofInt val
             | .double val => val
             | .string _ => Dbl.fin 0
             | .monostate => Dbl.fin 0,
             stdSetInsert ((i : Int), (j : Int)) deps) ∧
     ∀ x, x ∈ stdSetInsert ((i : Int), (j : Int)) deps ↔ x = ((i : Int), (j : Int)) ∨ x ∈ deps) ∧
    (cell2.letter_rep = cellLabel (i : Int) (j : Int) ∧
     Rev2.evaluateSingleToken sqrt g2 cell2.letter_rep deps
      = .ok (match cell2.body with
             | .IntValueCell val => Dbl.ofInt val
             | .DoubleValueCell val => val
             | .StringValueCell _ => Dbl.fin 0
             | .FormulaCell _ calculatedValue _ => calculatedValue,
             mysetInsert ((i : Int), (j : Int)) deps) ∧
     ∀ x, x ∈ mysetInsert ((i : Int), (j : Int)) deps ↔ x = ((i : Int), (j : Int)) ∨ x ∈ deps) := by
  refine ⟨⟨?_, ?_, ?_⟩, ⟨?_, ?_, ?_⟩⟩
  · obtain ⟨cell', hc', hw⟩ := h1.cellAt_r1 hi1 hj1
    rw [hc1] at hc'
    cases hc'
    exact hw.2.2
  · rw [Rev1.evaluateSingleToken_label_r1 sqrt h1 deps hi1 hj1 hc1]
    cases cell1.content <;> rfl
  · exact fun x => mem_stdSetInsert _ x deps
  · obtain ⟨cell', hc', hw⟩ := h2.cellAt_r2 hi2 hj2
    rw [hc2] at hc'
    cases hc'
    exact hw.2.2
  · rw [Rev2.evaluateSingleToken_label_r2 sqrt h2 deps hi2 hj2 hc2]
    unfold Rev2.Cell.getCellValueAsDouble
    cases cell2.body <;> rfl
  · exact fun x => mem_mysetInsert _ x deps

/-- C20 (witness): the token `C1` on the sample grids with the formula `=A1+B1`
in C1, with the dependency set `[(0, 0)]` so far. -/
theorem C20_witness :
    (Rev1.sheetC.WF ∧ 0 < Rev1.sheetC.getRowCount ∧ 2 < Rev1.sheetC.getColCount ∧
      Rev1.sheetC.cellAt 0 2
        = some ⟨.double (Dbl.fin 15), "=A1+B1".toList, "C1".toList, 0, 2, [(0, 0), (0, 1)]⟩ ∧
      Rev2.sheetC.WF ∧ 0 < Rev2.sheetC.getRowCount ∧ 2 < Rev2.sheetC.getColCount ∧
      Rev2.sheetC.cellAt 0 2
        = some ⟨"C1".toList, 0, 2, .FormulaCell "=A1+B1".toList (Dbl.fin 15) [(0, 0), (0, 1)]⟩) ∧
    Rev1.evaluateSingleToken id Rev1.sheetC "C1".toList [(0, 0)]
      = .ok (Dbl.fin 15, [(0, 0), (0, 2)]) ∧
    Rev2.evaluateSingleToken id Rev2.sheetC "C1".toList [(0, 0)]
      = .ok (Dbl.fin 15, [(0, 0), (0, 2)]) :=
  have h := C20_evaluateSingleToken_cell_reference id Rev1.sheetC Rev2.sheetC 0 2 [(0, 0)]
    ⟨.double (Dbl.fin 15), "=A1+B1".toList, "C1".toList, 0, 2, [(0, 0), (0, 1)]⟩
    ⟨"C1".toList, 0, 2, .FormulaCell "=A1+B1".toList (Dbl.fin 15) [(0, 0), (0, 1)]⟩
    (by decide) (by decide) (by decide) (by decide!)
    (by decide) (by decide) (by decide) (by decide!)
  ⟨⟨by decide, by decide, by decide, by decide!, by decide, by decide, by decide, by decide!⟩,
   h.1.2.1, h.2.2.1⟩

/-! ## C30: the set container holds each value once -/

namespace spc.myset

theorem mem_insert_elements {α : Type} [DecidableEq α] (s : myset α) (value x : α) :
    x ∈ (s.insert value).elements ↔ x = value ∨ x ∈ s.elements := by
  unfold insert
  by_cases h : value ∈ s.elements
  · rw [if_pos h]
    constructor
    · exact Or.inr
    · rintro (rfl | hx)
      · exact h
      · exact hx
  · rw [if_neg h]
    simp only [List.mem_append, List.mem_singleton]
    tauto

theorem nodup_insert_elements {α : Type} [DecidableEq α] (s : myset α) (value : α)
    (h : s.elements.Nodup) : (s.insert value).elements.Nodup := by
  unfold insert
  by_cases hv : value ∈ s.elements
  · rw [if_pos hv]; exact h
  · rw [if_neg hv]
    apply List.Nodup.append h (List.nodup_singleton _)
    intro x hx hx2
    rcases List.mem_singleton.1 hx2 with rfl
    exact hv hx

theorem insert_eq_of_mem {α : Type} [DecidableEq α] (s : myset α) (value : α)
    (h : value ∈ s.elements) : s.insert value = s := by
  unfold insert
  rw [if_pos h]

theorem foldl_insert_elements {α : Type} [DecidableEq α] (values : List α) :
    ∀ s : myset α, s.elements.Nodup →
      (values.foldl insert s).elements.Nodup ∧
      ∀ x, x ∈ (values.foldl insert s).elements ↔ x ∈ s.elements ∨ x ∈ values := by
  induction values with
  | nil => intro s h; exact ⟨h, fun x => by simp⟩
  | cons v vs ih =>
    intro s h
    obtain ⟨h1, h2⟩ := ih (s.insert v) (nodup_insert_elements s v h)
    refine ⟨h1, fun x => ?_⟩
    rw [List.foldl_cons, h2, mem_insert_elements, List.mem_cons]
    tauto

end spc.myset

/-- The insertion into the dependency set of the evaluator is `myset::insert`
at the element type `std::pair<int, int>`. -/
theorem mysetInsert_eq_insert (value : Int × Int) (elements : Deps) :
    mysetInsert value elements = (spc.myset.insert ⟨elements⟩ value).elements := by
  unfold mysetInsert spc.myset.insert
  by_cases h : value ∈ elements
  · simp only [if_pos h]
  · simp only [if_neg h]

/-- C30: a set built from the empty set by any sequence of `insert` calls holds
every value inserted and nothing else, each once; the number of elements stored
is the number of distinct values inserted; inserting a value that is present
leaves the set unchanged; and `find(v)` is true after `insert(v)`, and is true
exactly for the values inserted. -/
theorem C30_myset_holds_each_value_once {α : Type} [DecidableEq α] (values : List α) (v : α) :
    (values.foldl spc.myset.insert spc.myset.new).elements.Nodup ∧
    (∀ x, x ∈ (values.foldl spc.myset.insert spc.myset.new).elements ↔ x ∈ values) ∧
    (values.foldl spc.myset.insert spc.myset.new).elements.length = values.toFinset.card ∧
    (v ∈ values →
      (values.foldl spc.myset.insert spc.myset.new).insert v
        = values.foldl spc.myset.insert spc.myset.new) ∧
    ((values.foldl spc.myset.insert spc.myset.new).insert v).find v = true ∧
    ((values.foldl spc.myset.insert spc.myset.new).find v = true ↔ v ∈ values) := by
  obtain ⟨h1, h2⟩ := spc.myset.foldl_insert_elements values spc.myset.new List.nodup_nil
  have h3 : ∀ x, x ∈ (values.foldl spc.myset.insert spc.myset.new).elements ↔ x ∈ values := by
    intro x
    rw [h2]
    simp [spc.myset.new]
  refine ⟨h1, h3, ?_, ?_, ?_, ?_⟩
  · rw [← List.toFinset_card_of_nodup h1]
    congr 1
    ext x
    simp only [List.mem_toFinset]
    exact h3 x
  · intro hv
    exact spc.myset.insert_eq_of_mem _ _ ((h3 v).2 hv)
  · unfold spc.myset.find
    rw [decide_eq_true_eq, spc.myset.mem_insert_elements]
    exact Or.inl rfl
  · unfold spc.myset.find
    rw [decide_eq_true_eq]
    exact h3 v

/-! ## C24: `getCellReference` and the labels of the cells -/

theorem removeSpaces_idem (str : Str) : removeSpaces (removeSpaces str) = removeSpaces str := by
  unfold removeSpaces
  rw [List.filter_filter]
  congr 1
  funext c
  simp

theorem labelLookup_of_no_label (rows cols : Nat) (str : Str)
    (h : ∀ i j : Nat, i < rows → j < cols → str ≠ cellLabel (i : Int) (j : Int)) :
    labelLookup rows cols str = (-1, -1) := by
  rcases labelLookup_cases rows cols str with h1 | ⟨i, j, hi, hj, _, h2⟩
  · exact h1
  · exact absurd h2 (h i j hi hj)

/-- C24 (counterexample): `A 1`, with a space, is the label of no cell of the
grid with the cells A1, B1, C1, and `getCellReference` returns the cell A1 for
it, in both revisions. -/
theorem C24_counterexample :
    "A 1".toList ∉ (gridIndices Rev2.sheetA.getRowCount Rev2.sheetA.getColCount).map
      (fun p => cellLabel (p.1 : Int) (p.2 : Int)) ∧
    Rev2.getCellReference Rev2.sheetA "A 1".toList = .ok (0, 0) ∧
    "A 1".toList ∉ (gridIndices Rev1.sheetA.getRowCount Rev1.sheetA.getColCount).map
      (fun p => cellLabel (p.1 : Int) (p.2 : Int)) ∧
    Rev1.getCellReference Rev1.sheetA "A 1".toList = .ok (0, 0) := by
  decide

/-- C24 (amended): on a well-formed grid `getCellReference` looks up its
argument with the spaces removed.  Labels of distinct positions are distinct,
for any number of columns; the label of a cell inside the grid gives the
position of that cell; and a string that, without its spaces, is the label of
no cell of the grid gives `(-1, -1)`. -/
theorem C24_getCellReference_inverts_cellLabel (g1 : Rev1.Spreadsheet) (g2 : Rev2.Spreadsheet)
    (h1 : g1.WF) (h2 : g2.WF) :
    (∀ i j i2 j2 : Nat,
      cellLabel (i : Int) (j : Int) = cellLabel (i2 : Int) (j2 : Int) → i = i2 ∧ j = j2) ∧
    (∀ i j : Nat, i < g1.getRowCount → j < g1.getColCount →
      (g1.getCell i j).map (fun cell => cell.letterRepresentation)
        = .ok (cellLabel (i : Int) (j : Int)) ∧
      Rev1.getCellReference g1 (cellLabel (i : Int) (j : Int)) = .ok ((i : Int), (j : Int))) ∧
    (∀ str : Str,
      (∀ i j : Nat, i < g1.getRowCount → j < g1.getColCount →
        removeSpaces str ≠ cellLabel (i : Int) (j : Int)) →
      Rev1.getCellReference g1 str = .ok (-1, -1)) ∧
    (∀ str : Str, Rev1.getCellReference g1 str = Rev1.getCellReference g1 (removeSpaces str)) ∧
    (∀ i j : Nat, i < g2.getRowCount → j < g2.getColCount →
      (g2.getCell i j).map (fun cell => cell.letter_rep) = .ok (cellLabel (i : Int) (j : Int)) ∧
      Rev2.getCellReference g2 (cellLabel (i : Int) (j : Int)) = .ok ((i : Int), (j : Int))) ∧
    (∀ str : Str,
      (∀ i j : Nat, i < g2.getRowCount → j < g2.getColCount →
        removeSpaces str ≠ cellLabel (i : Int) (j : Int)) →
      Rev2.getCellReference g2 str = .ok (-1, -1)) ∧
    (∀ str : Str, Rev2.getCellReference g2 str = Rev2.getCellReference g2 (removeSpaces str)) := by
  refine ⟨cellLabel_injective, ?_, ?_, ?_, ?_, ?_, ?_⟩
  · intro i j hi hj
    obtain ⟨cell, hc, hw⟩ := h1.cellAt_r1 hi hj
    refine ⟨?_, ?_⟩
    · rw [Rev1.Spreadsheet.getCell_eq_r1 hi hj hc]
      exact congrArg Except.ok hw.2.2
    · rw [Rev1.getCellReference_eq_r1 h1, removeSpaces_cellLabel,
        labelLookup_cellLabel _ _ i j hi hj]
  · intro str hno
    rw [Rev1.getCellReference_eq_r1 h1, labelLookup_of_no_label _ _ _ hno]
  · intro str
    rw [Rev1.getCellReference_eq_r1 h1, Rev1.getCellReference_eq_r1 h1, removeSpaces_idem]
  · intro i j hi hj
    obtain ⟨cell, hc, hw⟩ := h2.cellAt_r2 hi hj
    refine ⟨?_, ?_⟩
    · rw [Rev2.Spreadsheet.getCell_eq_r2 hi hj hc]
      exact congrArg Except.ok hw.2.2
    · rw [Rev2.getCellReference_eq_r2 h2, removeSpaces_cellLabel,
        labelLookup_cellLabel _ _ i j hi hj]
  · intro str hno
    rw [Rev2.getCellReference_eq_r2 h2, labelLookup_of_no_label _ _ _ hno]
  · intro str
    rw [Rev2.getCellReference_eq_r2 h2, Rev2.getCellReference_eq_r2 h2, removeSpaces_idem]

/-- C24 (witness): the grids with A1 = 10, B1 = 5 and an empty C1; column 27 has
the two-letter label `AB`. -/
theorem C24_witness :
    (Rev1.sheetA.WF ∧ Rev2.sheetA.WF) ∧
    Rev1.getCellReference Rev1.sheetA "B1".toList = .ok (0, 1) ∧
    Rev2.getCellReference Rev2.sheetA "B1".toList = .ok (0, 1) ∧
    Rev2.getCellReference Rev2.sheetA "D1".toList = .ok (-1, -1) ∧
    cellLabel 2 27 = "AB3".toList :=
  have h := C24_getCellReference_inverts_cellLabel Rev1.sheetA Rev2.sheetA (by decide) (by decide)
  ⟨⟨by decide, by decide⟩, (h.2.1 0 1 (by decide) (by decide)).2,
    (h.2.2.2.2.1 0 1 (by decide) (by decide)).2, by decide, by decide⟩

/-! ## C27: spaces in a formula -/

theorem parsePlusAndMinusLoop_removeSpaces (cs : Str) :
    ∀ (tokens : List Str) (token : Str),
      parsePlusAndMinusLoop cs tokens token
        = parsePlusAndMinusLoop (removeSpaces cs) tokens token := by
  induction cs with
  | nil => intro tokens token; rfl
  | cons c cs ih =>
    intro tokens token
    by_cases hsp : c = ' '
    · subst hsp
      rw [removeSpaces_cons_space, ← ih]
      rfl
    · rw [removeSpaces_cons_of_ne c cs hsp]
      by_cases hop : c = '+' ∨ c = '-'
      · rw [parsePlusAndMinusLoop, if_pos hop, parsePlusAndMinusLoop, if_pos hop, ih]
      · rw [parsePlusAndMinusLoop, if_neg hop, if_neg hsp, parsePlusAndMinusLoop, if_neg hop,
          if_neg hsp, ih]

theorem parsePlusAndMinus_removeSpaces (formula : Str) :
    parsePlusAndMinus formula = parsePlusAndMinus (removeSpaces formula) := by
  unfold parsePlusAndMinus
  rw [parsePlusAndMinusLoop_removeSpaces]

theorem parsePlusAndMinus_congr (f1 f2 : Str) (h : removeSpaces f1 = removeSpaces f2) :
    parsePlusAndMinus f1 = parsePlusAndMinus f2 := by
  rw [parsePlusAndMinus_removeSpaces f1, parsePlusAndMinus_removeSpaces f2, h]

namespace Rev2

theorem parseAndEvaluate_spaces_r2 (sqrt : Dbl → Dbl) (g : Spreadsheet) (c1 c2 : Char)
    (f1 f2 : Str) (h : removeSpaces f1 = removeSpaces f2) (coordinates : Int × Int)
    (dependentCells : Deps) :
    parseAndEvaluate sqrt g (c1 :: f1) coordinates dependentCells
      = parseAndEvaluate sqrt g (c2 :: f2) coordinates dependentCells := by
  unfold parseAndEvaluate
  rw [if_neg (List.cons_ne_nil _ _), if_neg (List.cons_ne_nil _ _)]
  simp only [List.drop_succ_cons, List.drop_zero]
  rw [parsePlusAndMinus_congr f1 f2 h]

end Rev2

namespace Rev1

theorem evalFormula_spaces (sqrt : Dbl → Dbl) (g : Spreadsheet) (c1 c2 : Char)
    (f1 f2 : Str) (h : removeSpaces f1 = removeSpaces f2) :
    evalFormula sqrt g (c1 :: f1) = evalFormula sqrt g (c2 :: f2) := by
  unfold evalFormula
  simp only [List.drop_succ_cons, List.drop_zero]
  rw [parsePlusAndMinus_congr f1 f2 h]

theorem parseAndEvaluate_spaces_r1 (sqrt : Dbl → Dbl) (g : Spreadsheet) (c1 c2 : Char)
    (f1 f2 : Str) (h : removeSpaces f1 = removeSpaces f2) (coordinates : Int × Int) :
    (∀ e, parseAndEvaluate sqrt g (c1 :: f1) coordinates = .error e →
      parseAndEvaluate sqrt g (c2 :: f2) coordinates = .error e) ∧
    (∀ v g1, parseAndEvaluate sqrt g (c1 :: f1) coordinates = .ok (v, g1) →
      ∃ cell ds, g.getCell coordinates.1 coordinates.2 = .ok cell ∧
        g1 = g.assign coordinates.1.toNat coordinates.2.toNat
          { cell with formula := c1 :: f1, dependentCells := ds, content := .double v } ∧
        parseAndEvaluate sqrt g (c2 :: f2) coordinates
          = .ok (v, g.assign coordinates.1.toNat coordinates.2.toNat
              { cell with formula := c2 :: f2, dependentCells := ds, content := .double v })) := by
  rw [parseAndEvaluate_eq_r1 sqrt g (c1 :: f1) coordinates (List.cons_ne_nil _ _),
    parseAndEvaluate_eq_r1 sqrt g (c2 :: f2) coordinates (List.cons_ne_nil _ _),
    evalFormula_spaces sqrt g c1 c2 f1 f2 h]
  cases evalFormula sqrt g (c2 :: f2) with
  | error e0 =>
    exact ⟨fun e he => he, fun v g1 he => by cases he⟩
  | ok r =>
    obtain ⟨result, ds⟩ := r
    cases hg : g.getCell coordinates.1 coordinates.2 with
    | error e0 => exact ⟨fun e he => he, fun v g1 he => by cases he⟩
    | ok cell =>
      refine ⟨fun e he => (by cases he), fun v g1 he => ?_⟩
      simp only [Except.ok.injEq, Prod.mk.injEq] at he
      obtain ⟨rfl, rfl⟩ := he
      exact ⟨cell, ds, rfl, rfl, rfl⟩

end Rev1

/-- C27 (counterexample): a tab is not discarded.  `A1<tab>+B1` is split into
`A1<tab>`, `+`, `B1`, and `=A1<tab>+B1` fails where `=A1+B1` evaluates to 15, in
both revisions.  A space put before the `=` makes the evaluation fail too,
because the first character is dropped whatever it is. -/
theorem C27_counterexample :
    parsePlusAndMinus "A1\t+B1".toList = .ok ["A1\t".toList, "+".toList, "B1".toList] ∧
    parsePlusAndMinus "A1+B1".toList = .ok ["A1".toList, "+".toList, "B1".toList] ∧
    Rev2.parseAndEvaluate id Rev2.sheetA "=A1+B1".toList (0, 2) []
      = .ok (Dbl.fin 15, [(0, 0), (0, 1)]) ∧
    Rev2.parseAndEvaluate id Rev2.sheetA "=A1\t+B1".toList (0, 2) [] = .error .tokenInvalid ∧
    Rev2.parseAndEvaluate id Rev2.sheetA " =A1+B1".toList (0, 2) [] = .error .tokenInvalid ∧
    (Rev1.parseAndEvaluate id Rev1.sheetA "=A1+B1".toList (0, 2)).map Prod.fst
      = .ok (Dbl.fin 15) ∧
    Rev1.parseAndEvaluate id Rev1.sheetA "=A1\t+B1".toList (0, 2) = .error .tokenInvalid ∧
    Rev1.parseAndEvaluate id Rev1.sheetA " =A1+B1".toList (0, 2) = .error .tokenInvalid :=
  ⟨by decide, by decide, by decide!, by decide, by decide, by decide!, by decide, by decide⟩

/-- C27 (amended): the space character is discarded at the additive level.  Two
texts that are equal once their spaces are removed are split into the same token
list by `parsePlusAndMinus` (which splits a text as it splits the text without
its spaces), and two formulas that differ only by spaces after their first
character have the same result of `parseAndEvaluate`: the same error, or the
same value with the same dependencies; the first revision stores the text as it
was given. -/
theorem C27_spaces_are_discarded (sqrt : Dbl → Dbl) (g1 : Rev1.Spreadsheet)
    (g2 : Rev2.Spreadsheet) (c : Char) (f1 f2 : Str) (coordinates : Int × Int)
    (dependentCells : Deps) (h : removeSpaces f1 = removeSpaces f2) :
    parsePlusAndMinus f1 = parsePlusAndMinus (removeSpaces f1) ∧
    parsePlusAndMinus f1 = parsePlusAndMinus f2 ∧
    Rev2.parseAndEvaluate sqrt g2 (c :: f1) coordinates dependentCells
      = Rev2.parseAndEvaluate sqrt g2 (c :: f2) coordinates dependentCells ∧
    (∀ e, Rev1.parseAndEvaluate sqrt g1 (c :: f1) coordinates = .error e →
      Rev1.parseAndEvaluate sqrt g1 (c :: f2) coordinates = .error e) ∧
    (∀ v g, Rev1.parseAndEvaluate sqrt g1 (c :: f1) coordinates = .ok (v, g) →
      ∃ cell ds, g1.getCell coordinates.1 coordinates.2 = .ok cell ∧
        g = g1.assign coordinates.1.toNat coordinates.2.toNat
          { cell with formula := c :: f1, dependentCells := ds, content := .double v } ∧
        Rev1.parseAndEvaluate sqrt g1 (c :: f2) coordinates
          = .ok (v, g1.assign coordinates.1.toNat coordinates.2.toNat
              { cell with formula := c :: f2, dependentCells := ds, content := .double v })) :=
  ⟨parsePlusAndMinus_removeSpaces f1, parsePlusAndMinus_congr f1 f2 h,
    Rev2.parseAndEvaluate_spaces_r2 sqrt g2 c c f1 f2 h coordinates dependentCells,
    (Rev1.parseAndEvaluate_spaces_r1 sqrt g1 c c f1 f2 h coordinates).1,
    (Rev1.parseAndEvaluate_spaces_r1 sqrt g1 c c f1 f2 h coordinates).2⟩

/-- C27 (witness): `=A1 + B1` and `=A1+B1` on the sample grids. -/
theorem C27_witness :
    removeSpaces "A1 + B1".toList = removeSpaces "A1+B1".toList ∧
    parsePlusAndMinus "A1 + B1".toList = parsePlusAndMinus "A1+B1".toList ∧
    Rev2.parseAndEvaluate id Rev2.sheetA "=A1 + B1".toList (0, 2) []
      = Rev2.parseAndEvaluate id Rev2.sheetA "=A1+B1".toList (0, 2) [] :=
  have h := C27_spaces_are_discarded id Rev1.sheetA Rev2.sheetA '=' "A1 + B1".toList
    "A1+B1".toList (0, 2) [] (by decide)
  ⟨by decide, h.2.1, h.2.2.1⟩

/-! ## C29: `expand` -/

theorem mapM_ok_of_forall {α β : Type} (f : α → Except Err β) (h : α → β) (l : List α)
    (hf : ∀ x ∈ l, f x = .ok (h x)) : l.mapM f = .ok (l.map h) := by
  induction l with
  | nil => rfl
  | cons x xs ih =>
    rw [List.mapM_cons, hf x (List.mem_cons_self _ _),
      ih (fun y hy => hf y (List.mem_cons_of_mem _ hy))]
    rfl

namespace Rev2

theorem freshCells_eq (i : Nat) (cols : List Nat) :
    freshCells (i : Int) cols = .ok (cols.map (freshCell i)) := by
  unfold freshCells
  apply mapM_ok_of_forall
  intro j _
  unfold Cell.new
  rw [if_neg (by omega)]
  rfl

theorem Spreadsheet.expand_eq (g : Spreadsheet) (hc : 0 < g.getColCount)
    (newRowCount newColCount : Int) :
    g.expand newRowCount newColCount
      = .ok { cells := g.expandedCells newRowCount newColCount } := by
  unfold Spreadsheet.expand Spreadsheet.expandedCells
  have h1 : (List.range' g.getRowCount (newRowCount.toNat - g.getRowCount)).mapM
      (fun (i : Nat) =>
        if (g.getColCount : Int) ≤ 0 then (.error .capacityNotPositive : Except Err (List Cell))
        else freshCells (i : Int) (List.range g.getColCount))
      = .ok ((List.range' g.getRowCount (newRowCount.toNat - g.getRowCount)).map
          fun (i : Nat) => (List.range g.getColCount).map (freshCell i)) := by
    apply mapM_ok_of_forall
    intro i _
    rw [if_neg (by omega), freshCells_eq]
  simp only [h1, bind, Except.bind, pure, Except.pure]
  rw [mapM_ok_of_forall _ (fun p => p.2 ++
    (List.range' g.getColCount (newColCount.toNat - g.getColCount)).map (freshCell p.1))]
  intro p _
  rw [freshCells_eq]

theorem Spreadsheet.expandedCells_getElem? (g : Spreadsheet) (r c : Int) (k : Nat) :
    (g.expandedCells r c)[k]?
      = ((g.cells ++ (List.range' g.getRowCount (r.toNat - g.getRowCount)).map
            fun (i : Nat) => (List.range g.getColCount).map (freshCell i))[k]?).map
          fun row => row ++ (List.range' g.getColCount (c.toNat - g.getColCount)).map
            (freshCell k) := by
  unfold Spreadsheet.expandedCells
  rw [List.getElem?_map, List.getElem?_enum, Option.map_map]
  rfl

theorem Spreadsheet.expandedCells_length (g : Spreadsheet) (r c : Int) :
    (g.expandedCells r c).length = g.getRowCount + (r.toNat - g.getRowCount) := by
  unfold Spreadsheet.expandedCells
  rw [List.length_map, List.enum_length, List.length_append, List.length_map,
    List.length_range']
  rfl

theorem Spreadsheet.expandedCells_old_row (g : Spreadsheet) (r c : Int) (k : Nat)
    (hk : k < g.getRowCount) :
    (g.expandedCells r c)[k]?
      = (g.cells[k]?).map fun row =>
          row ++ (List.range' g.getColCount (c.toNat - g.getColCount)).map (freshCell k) := by
  rw [Spreadsheet.expandedCells_getElem?, List.getElem?_append_left hk]

theorem Spreadsheet.expandedCells_new_row (g : Spreadsheet) (r c : Int) (k : Nat)
    (hk : g.getRowCount ≤ k) (hk2 : k < g.getRowCount + (r.toNat - g.getRowCount)) :
    (g.expandedCells r c)[k]?
      = some ((List.range g.getColCount).map (freshCell k)
          ++ (List.range' g.getColCount (c.toNat - g.getColCount)).map (freshCell k)) := by
  rw [Spreadsheet.expandedCells_getElem?, List.getElem?_append_right hk, List.getElem?_map,
    List.getElem?_range' _ _ (by unfold Spreadsheet.getRowCount at *; omega)]
  have : g.getRowCount + 1 * (k - g.cells.length) = k := by
    unfold Spreadsheet.getRowCount at *; omega
  simp only [Option.map_some', this]

theorem extra_getElem? (k cc n j : Nat) (row : List Cell) (hrow : row.length = cc)
    (hj : cc ≤ j) (hj2 : j < cc + n) :
    (row ++ (List.range' cc n).map (freshCell k))[j]? = some (freshCell k j) := by
  rw [List.getElem?_append_right (by omega), List.getElem?_map,
    List.getElem?_range' _ _ (by omega)]
  have : cc + 1 * (j - row.length) = j := by omega
  simp only [Option.map_some', this]

theorem Spreadsheet.row_length_of_getElem? {g : Spreadsheet} (h : g.WF) {k : Nat}
    {row : List Cell} (hrow : g.cells[k]? = some row) : row.length = g.getColCount :=
  h.2.2.1 row (List.mem_iff_getElem?.2 ⟨k, hrow⟩)

theorem Spreadsheet.expandedCells_row (g : Spreadsheet) (h : g.WF) (r c : Int) (k : Nat)
    (hk : k < g.getRowCount + (r.toNat - g.getRowCount)) :
    ∃ row : List Cell, row.length = g.getColCount ∧
      (g.expandedCells r c)[k]?
        = some (row ++ (List.range' g.getColCount (c.toNat - g.getColCount)).map (freshCell k)) ∧
      (k < g.getRowCount → g.cells[k]? = some row) ∧
      (g.getRowCount ≤ k → row = (List.range g.getColCount).map (freshCell k)) := by
  by_cases hold : k < g.getRowCount
  · have hlt : k < g.cells.length := hold
    refine ⟨g.cells[k], ?_, ?_, fun _ => List.getElem?_eq_getElem hlt, fun hge => by omega⟩
    · exact Spreadsheet.row_length_of_getElem? h (List.getElem?_eq_getElem hlt)
    · rw [Spreadsheet.expandedCells_old_row g r c k hold, List.getElem?_eq_getElem hlt]
      rfl
  · refine ⟨(List.range g.getColCount).map (freshCell k), ?_, ?_, fun hlt => absurd hlt hold,
      fun _ => rfl⟩
    · rw [List.length_map, List.length_range]
    · exact Spreadsheet.expandedCells_new_row g r c k (by omega) hk

theorem Spreadsheet.expanded_cellAt (g : Spreadsheet) (h : g.WF) (r c : Int) (i j : Nat)
    (hi : i < g.getRowCount + (r.toNat - g.getRowCount))
    (hj : j < g.getColCount + (c.toNat - g.getColCount)) :
    Spreadsheet.cellAt { cells := g.expandedCells r c } i j
      = if i < g.getRowCount ∧ j < g.getColCount then g.cellAt i j
        else some (freshCell i j) := by
  obtain ⟨row, hlen, hrow, hold, hnew⟩ := Spreadsheet.expandedCells_row g h r c i hi
  unfold Spreadsheet.cellAt
  simp only [hrow]
  by_cases hjc : j < g.getColCount
  · rw [List.getElem?_append_left (by omega)]
    by_cases hir : i < g.getRowCount
    · rw [if_pos ⟨hir, hjc⟩, hold hir]
    · rw [if_neg (fun hh => hir hh.1), hnew (by omega), List.getElem?_map,
        List.getElem?_range hjc]
      rfl
  · rw [if_neg (fun hh => hjc hh.2)]
    exact extra_getElem? i g.getColCount _ j row hlen (by omega) hj

theorem Spreadsheet.expanded_getColCount (g : Spreadsheet) (h : g.WF) (r c : Int) :
    Spreadsheet.getColCount { cells := g.expandedCells r c }
      = g.getColCount + (c.toNat - g.getColCount) := by
  obtain ⟨row, hlen, hrow, _, _⟩ := Spreadsheet.expandedCells_row g h r c 0
    (by have := h.1; omega)
  unfold Spreadsheet.getColCount
  rw [List.headD_eq_head?_getD, List.head?_eq_getElem?]
  simp only [hrow, Option.getD_some, List.length_append, List.length_map, List.length_range']
  rw [hlen]
  rfl

theorem Spreadsheet.expanded_WF (g : Spreadsheet) (h : g.WF) (r c : Int) :
    Spreadsheet.WF { cells := g.expandedCells r c } := by
  have hrows : Spreadsheet.getRowCount { cells := g.expandedCells r c }
      = g.getRowCount + (r.toNat - g.getRowCount) := Spreadsheet.expandedCells_length g r c
  have hcols := Spreadsheet.expanded_getColCount g h r c
  refine ⟨?_, ?_, ?_, ?_⟩
  · rw [hrows]; have := h.1; omega
  · rw [hcols]; have := h.2.1; omega
  · intro row hmem
    obtain ⟨k, hk⟩ := List.mem_iff_getElem?.1 hmem
    have hlt : k < g.getRowCount + (r.toNat - g.getRowCount) := by
      rw [← Spreadsheet.expandedCells_length g r c]
      by_contra hge
      have hnone : (g.expandedCells r c)[k]? = none := List.getElem?_eq_none (by omega)
      have hk2 : (g.expandedCells r c)[k]? = some row := hk
      rw [hnone] at hk2
      cases hk2
    obtain ⟨row2, hlen, hrow, _, _⟩ := Spreadsheet.expandedCells_row g h r c k hlt
    have hk2 : (g.expandedCells r c)[k]? = some row := hk
    rw [hrow] at hk2
    cases hk2
    rw [hcols, List.length_append, List.length_map, List.length_range', hlen]
  · intro i hi j hj
    rw [hrows] at hi
    rw [hcols] at hj
    rw [Spreadsheet.expanded_cellAt g h r c i j hi hj]
    by_cases hold : i < g.getRowCount ∧ j < g.getColCount
    · rw [if_pos hold]
      exact h.2.2.2 i hold.1 j hold.2
    · rw [if_neg hold]
      exact ⟨freshCell i j, rfl, rfl, rfl, rfl⟩

end Rev2

/-- C29 (counterexample): the constructor accepts zero rows and leaves a grid
without cells, which reports zero columns.  On that grid `expand(2, 2)` fails
with `Capacity must be positive`, and `expand(0, 5)` returns a grid that still
has no row and no column. -/
theorem C29_counterexample :
    Rev2.Spreadsheet.new 0 3 = .ok { cells := [] } ∧
    ¬ ({ cells := [] } : Rev2.Spreadsheet).WF ∧
    (({ cells := [] } : Rev2.Spreadsheet).getRowCount = 0 ∧
      ({ cells := [] } : Rev2.Spreadsheet).getColCount = 0) ∧
    ({ cells := [] } : Rev2.Spreadsheet).expand 2 2 = .error .capacityNotPositive ∧
    (({ cells := [] } : Rev2.Spreadsheet).expand 0 5).map
        (fun g => (g.getRowCount, g.getColCount)) = .ok (0, 0) :=
  ⟨by decide, by decide, ⟨by decide, by decide⟩, by decide, by decide⟩

/-- C29 (amended): on a well-formed grid (at least one row and one column, all
rows of one width, every cell at its own position) `expand(r, c)` returns; the
row count becomes the larger of the old row count and `r`, the column count the
larger of the old column count and `c`; every row has as many cells as the
column count; every cell of the old grid is at its place unchanged; every other
cell of the new grid is an empty text cell with the row, column and label of
its position; and the new grid is well formed. -/
theorem C29_expand_grows_and_stays_rectangular (g : Rev2.Spreadsheet) (r c : Int)
    (h : g.WF) :
    ∃ g2 : Rev2.Spreadsheet, g.expand r c = .ok g2 ∧
      (g2.getRowCount : Int) = max (g.getRowCount : Int) r ∧
      (g2.getColCount : Int) = max (g.getColCount : Int) c ∧
      (∀ row ∈ g2.cells, row.length = g2.getColCount) ∧
      (∀ i j : Nat, i < g.getRowCount → j < g.getColCount → g2.cellAt i j = g.cellAt i j) ∧
      (∀ i j : Nat, i < g2.getRowCount → j < g2.getColCount →
        ¬ (i < g.getRowCount ∧ j < g.getColCount) →
        g2.cellAt i j
          = some { letter_rep := cellLabel (i : Int) (j : Int), row := (i : Int),
                   col := (j : Int), body := .StringValueCell [] }) ∧
      g2.WF := by
  have hrows : Rev2.Spreadsheet.getRowCount { cells := g.expandedCells r c }
      = g.getRowCount + (r.toNat - g.getRowCount) :=
    Rev2.Spreadsheet.expandedCells_length g r c
  have hcols := Rev2.Spreadsheet.expanded_getColCount g h r c
  have hwf := Rev2.Spreadsheet.expanded_WF g h r c
  refine ⟨{ cells := g.expandedCells r c }, Rev2.Spreadsheet.expand_eq g h.2.1 r c, ?_, ?_,
    hwf.2.2.1, ?_, ?_, hwf⟩
  · rw [hrows]; omega
  · rw [hcols]; omega
  · intro i j hi hj
    rw [Rev2.Spreadsheet.expanded_cellAt g h r c i j (by omega) (by omega), if_pos ⟨hi, hj⟩]
  · intro i j hi hj hnew
    rw [hrows] at hi
    rw [hcols] at hj
    rw [Rev2.Spreadsheet.expanded_cellAt g h r c i j hi hj, if_neg hnew]
    rfl

/-- C29 (witness): the 1 x 3 grid with A1 = 10, B1 = 5 expanded to 2 rows and 4
columns, and `expand(0, 2)`, which changes nothing. -/
theorem C29_witness :
    Rev2.sheetA.WF ∧
    (∃ g2 : Rev2.Spreadsheet, Rev2.sheetA.expand 2 4 = .ok g2 ∧
      (g2.getRowCount : Int) = max (Rev2.sheetA.getRowCount : Int) 2 ∧
      (g2.getColCount : Int) = max (Rev2.sheetA.getColCount : Int) 4 ∧ g2.WF) ∧
    Rev2.sheetA.expand 2 4 = .ok (Rev2.sheetOf
      [[.IntValueCell 10, .IntValueCell 5, .StringValueCell [], .StringValueCell []],
       [.StringValueCell [], .StringValueCell [], .StringValueCell [], .StringValueCell []]]) ∧
    Rev2.sheetA.expand 0 2 = .ok Rev2.sheetA :=
  have h := C29_expand_grows_and_stays_rectangular Rev2.sheetA 2 4 (by decide)
  ⟨by decide,
   h.elim fun g2 hg => ⟨g2, hg.1, hg.2.1, hg.2.2.1, hg.2.2.2.2.2.2⟩,
   by decide, by decide⟩

/-! ## C21: the value of a formula depends on the recorded cells only -/

namespace Rev2

theorem parseAndEvaluate_init (sqrt : Dbl → Dbl) (g : Spreadsheet) (formula : Str)
    (c : Int × Int) (dependentCells : Deps) :
    parseAndEvaluate sqrt g formula c dependentCells
      = (parseAndEvaluate sqrt g formula c []).map fun p => (p.1, dependentCells ++ p.2) := by
  unfold parseAndEvaluate
  by_cases hf : formula = []
  · rw [if_pos hf, if_pos hf]; rfl
  · rw [if_neg hf, if_neg hf]
    cases parsePlusAndMinus (formula.drop 1) with
    | error e => rfl
    | ok tokens =>
      by_cases ht : tokens = []
      · simp only [if_pos ht]; rfl
      · simp only [if_neg ht]
        cases parseAndEvaluateLoop (evaluateSingleToken sqrt g) tokens true (Dbl.fin 0) [] with
        | error e => rfl
        | ok r => rfl

theorem parseAndEvaluate_ok_init (sqrt : Dbl → Dbl) {g : Spreadsheet} {formula : Str}
    {c : Int × Int} {dependentCells : Deps} {v : Dbl} {ds : Deps}
    (he : parseAndEvaluate sqrt g formula c dependentCells = .ok (v, ds)) :
    ∃ ud, ds = dependentCells ++ ud ∧ parseAndEvaluate sqrt g formula c [] = .ok (v, ud) := by
  rw [parseAndEvaluate_init] at he
  cases hr : parseAndEvaluate sqrt g formula c [] with
  | error e => rw [hr] at he; cases he
  | ok r =>
    rw [hr] at he
    obtain ⟨v0, ud⟩ := r
    simp only [Except.map, Except.ok.injEq, Prod.mk.injEq] at he
    exact ⟨ud, he.2.symm, by rw [he.1]⟩

theorem parseAndEvaluate_frame_init (sqrt : Dbl → Dbl) {g g2 : Spreadsheet} (h : g.WF)
    (h2 : g2.WF) (hsz : SameSize g g2) (formula : Str) (c1 c2 : Int × Int)
    (dependentCells : Deps) (v : Dbl) (ds : Deps)
    (he : parseAndEvaluate sqrt g formula c1 dependentCells = .ok (v, ds))
    (ha : AgreeOn g g2 ds) :
    parseAndEvaluate sqrt g2 formula c2 dependentCells = .ok (v, ds) := by
  obtain ⟨ud, rfl, he0⟩ := parseAndEvaluate_ok_init sqrt he
  have ha0 : AgreeOn g g2 ud := fun d hd => ha d (List.mem_append_right _ hd)
  rw [parseAndEvaluate_init, parseAndEvaluate_frame sqrt h h2 hsz formula c1 c2 v ud he0 ha0]
  rfl

end Rev2

/-- C21: in the second revision, let `parseAndEvaluate` of a formula return the
value `v` and the dependency list `ds` on a well-formed grid.  On every
well-formed grid of the same size that holds, in each cell of `ds`, a cell with
the same numeric value, `parseAndEvaluate` of the formula returns `v` and `ds`
too, for any target coordinate, whatever the cells outside `ds` hold. -/
theorem C21_value_depends_on_recorded_cells_only (sqrt : Dbl → Dbl)
    (g g2 : Rev2.Spreadsheet) (formula : Str) (c1 c2 : Int × Int) (dependentCells : Deps)
    (v : Dbl) (ds : Deps) (h : g.WF) (h2 : g2.WF)
    (hrows : g.getRowCount = g2.getRowCount) (hcols : g.getColCount = g2.getColCount)
    (he : Rev2.parseAndEvaluate sqrt g formula c1 dependentCells = .ok (v, ds))
    (ha : ∀ d ∈ ds,
      (g.getCell d.1 d.2).map Rev2.Cell.getCellValueAsDouble
        = (g2.getCell d.1 d.2).map Rev2.Cell.getCellValueAsDouble) :
    Rev2.parseAndEvaluate sqrt g2 formula c2 dependentCells = .ok (v, ds) := by
  apply Rev2.parseAndEvaluate_frame_init sqrt h h2 ⟨hrows, hcols⟩ formula c1 c2 dependentCells
    v ds he
  intro d hd
  have hd2 := ha d hd
  unfold Rev2.Spreadsheet.valueAt
  cases h1 : g.getCell d.1 d.2 with
  | error e1 =>
    cases h3 : g2.getCell d.1 d.2 with
    | error e2 => rfl
    | ok cell2 => rw [h1, h3] at hd2; cases hd2
  | ok cell1 =>
    cases h3 : g2.getCell d.1 d.2 with
    | error e2 => rw [h1, h3] at hd2; cases hd2
    | ok cell2 =>
      rw [h1, h3] at hd2
      simp only [Except.map, Except.ok.injEq] at hd2
      exact hd2

/-- C21 (witness): `=A1+B1` on the grid with A1 = 10, B1 = 5 and an empty C1, and
on the grid where A1 holds the real 10 and C1 holds 99. -/
theorem C21_witness :
    (Rev2.sheetA.WF ∧
      (Rev2.sheetOf [[.DoubleValueCell (Dbl.fin 10), .IntValueCell 5, .IntValueCell 99]]).WF ∧
      Rev2.parseAndEvaluate id Rev2.sheetA "=A1+B1".toList (0, 2) []
        = .ok (Dbl.fin 15, [(0, 0), (0, 1)])) ∧
    Rev2.parseAndEvaluate id
        (Rev2.sheetOf [[.DoubleValueCell (Dbl.fin 10), .IntValueCell 5, .IntValueCell 99]])
        "=A1+B1".toList (0, 2) []
      = .ok (Dbl.fin 15, [(0, 0), (0, 1)]) :=
  ⟨⟨by decide, by decide, by decide!⟩,
   C21_value_depends_on_recorded_cells_only id Rev2.sheetA
     (Rev2.sheetOf [[.DoubleValueCell (Dbl.fin 10), .IntValueCell 5, .IntValueCell 99]])
     "=A1+B1".toList (0, 2) (0, 2) [] (Dbl.fin 15) [(0, 0), (0, 1)]
     (by decide) (by decide) (by decide) (by decide) (by decide!) (by decide!)⟩

/-! ## C22: evaluating a formula again -/

namespace Rev1

theorem Spreadsheet.getCell_ok_inGrid {g : Spreadsheet} {c : Int × Int} {cell : Cell}
    (hg : g.getCell c.1 c.2 = .ok cell) :
    InGrid g.getRowCount g.getColCount c ∧ g.cellAt c.1.toNat c.2.toNat = some cell := by
  unfold Spreadsheet.getCell at hg
  split at hg
  · rename_i hin
    refine ⟨hin, ?_⟩
    cases hc : g.cellAt c.1.toNat c.2.toNat with
    | none => rw [hc] at hg; cases hg
    | some cell2 => rw [hc] at hg; cases hg; rfl
  · cases hg

theorem parseAndEvaluate_again_cell (sqrt : Dbl → Dbl) {g : Spreadsheet} (h : g.WF)
    (formula : Str) (hf : formula ≠ []) (i j : Nat) (cell : Cell) (v0 : Dbl) (ds : Deps)
    (hi : i < g.getRowCount) (hj : j < g.getColCount) (hc : g.cellAt i j = some cell)
    (hev : evalFormula sqrt g formula = .ok (v0, ds))
    (hnot : ((i : Int), (j : Int)) ∉ ds) :
    parseAndEvaluate sqrt
        (g.assign i j
          { cell with formula := formula, dependentCells := ds, content := .double v0 })
        formula ((i : Int), (j : Int))
      = .ok (v0, g.assign i j
          { cell with formula := formula, dependentCells := ds, content := .double v0 }) := by
  have hw : Cell.WFAt
      { cell with formula := formula, dependentCells := ds, content := .double v0 } i j :=
    (Spreadsheet.cellAt_some_wf_r1 h hc : cell.WFAt i j)
  have hwf := Spreadsheet.WF.assign_r1 h hw
  have hnew := Spreadsheet.cellAt_assign_same hc
    { cell with formula := formula, dependentCells := ds, content := .double v0 }
  have hev2 := (evalFormula_transfer sqrt h hwf (sameSize_assign_r1 g _ _ _) formula v0 ds
    hev).2 (agreeOn_assign_r1 g _ _ _ ds hnot)
  rw [parseAndEvaluate_cell_r1 sqrt (by rw [Spreadsheet.getRowCount_assign_r1]; exact hi)
    (by rw [Spreadsheet.getColCount_assign_r1]; exact hj) hnew hf, hev2]
  simp only [Spreadsheet.assign_assign]

/-- A second call of `parseAndEvaluate` right after a successful one, on the
grid the first call left, when the formula does not read its own target. -/
theorem parseAndEvaluate_again (sqrt : Dbl → Dbl) {g g1 : Spreadsheet} (h : g.WF)
    (formula : Str) (c : Int × Int) (v : Dbl)
    (he : parseAndEvaluate sqrt g formula c = .ok (v, g1))
    (hself : ∀ cell, g1.getCell c.1 c.2 = .ok cell → c ∉ cell.dependentCells) :
    parseAndEvaluate sqrt g1 formula c = .ok (v, g1) := by
  by_cases hf : formula = []
  · subst hf
    unfold parseAndEvaluate at he ⊢
    rw [if_pos rfl] at he
    rw [if_pos rfl]
    cases he
    rfl
  · rw [parseAndEvaluate_eq_r1 sqrt g formula c hf] at he
    cases hev : evalFormula sqrt g formula with
    | error e => rw [hev] at he; cases he
    | ok r =>
      obtain ⟨v0, ds⟩ := r
      rw [hev] at he
      cases hg : g.getCell c.1 c.2 with
      | error e => rw [hg] at he; cases he
      | ok cell =>
        rw [hg] at he
        simp only [Except.ok.injEq, Prod.mk.injEq] at he
        obtain ⟨rfl, rfl⟩ := he
        obtain ⟨hin, hc⟩ := Spreadsheet.getCell_ok_inGrid hg
        obtain ⟨hr0, hr1, hc0, hc1⟩ := hin
        obtain ⟨c1, c2⟩ := c
        simp only at hr0 hr1 hc0 hc1 hc hself ⊢
        obtain ⟨i, rfl⟩ := Int.eq_ofNat_of_zero_le hr0
        obtain ⟨j, rfl⟩ := Int.eq_ofNat_of_zero_le hc0
        simp only [Int.toNat_ofNat] at hc hself ⊢
        have hi : i < g.getRowCount := by omega
        have hj : j < g.getColCount := by omega
        have hnew := Spreadsheet.cellAt_assign_same hc
          { cell with formula := formula, dependentCells := ds, content := .double v0 }
        have hget := Spreadsheet.getCell_eq_r1
          (by rw [Spreadsheet.getRowCount_assign_r1]; exact hi)
          (by rw [Spreadsheet.getColCount_assign_r1]; exact hj) hnew
        exact parseAndEvaluate_again_cell sqrt h formula hf i j cell v0 ds hi hj hc hev
          (hself _ hget)

end Rev1

namespace Rev2

theorem parseAndEvaluateRun_ok (sqrt : Dbl → Dbl) (g : Spreadsheet) (formula : Str)
    (c : Int × Int) (dependentCells : Deps) (v : Dbl)
    (he : (parseAndEvaluateRun sqrt g formula c dependentCells).2 = .ok v) :
    (parseAndEvaluateRun sqrt g formula c dependentCells).1.1 = g ∧
    ∃ ud, (parseAndEvaluateRun sqrt g formula c dependentCells).1.2 = dependentCells ++ ud ∧
      ∀ c2 init, parseAndEvaluateRun sqrt g formula c2 init = ((g, init ++ ud), .ok v) := by
  unfold parseAndEvaluateRun at he ⊢
  by_cases hf : formula = []
  · rw [if_pos hf] at he; cases he
  · rw [if_neg hf] at he ⊢
    cases hp : parsePlusAndMinus (formula.drop 1) with
    | error e => rw [hp] at he; cases he
    | ok tokens =>
      rw [hp] at he
      by_cases ht : tokens = []
      · simp only [if_pos ht] at he; cases he
      · simp only [if_neg ht] at he ⊢
        cases hl : parseAndEvaluateLoop (evaluateSingleToken sqrt g) tokens true (Dbl.fin 0) []
          with
        | error e => rw [hl] at he; cases he
        | ok r =>
          obtain ⟨v0, ud⟩ := r
          rw [hl] at he
          simp only [Except.ok.injEq] at he
          subst he
          refine ⟨rfl, ud, rfl, fun c2 init => ?_⟩
          simp only [if_neg hf, if_neg ht]

end Rev2

/-- C22 (counterexample): in the first revision the formula `=C1+1` evaluated for
the empty cell C1 returns 1 and stores it in C1; the same call again returns 2. -/
theorem C22_counterexample :
    (Rev1.parseAndEvaluate id Rev1.sheetA "=C1+1".toList (0, 2)).map Prod.fst
      = .ok (Dbl.fin 1) ∧
    ((Rev1.parseAndEvaluate id Rev1.sheetA "=C1+1".toList (0, 2)).bind
        (fun p => Rev1.parseAndEvaluate id p.2 "=C1+1".toList (0, 2))).map Prod.fst
      = .ok (Dbl.fin 2) :=
  ⟨by decide!, by decide!⟩

/-- C22 (amended): in the first revision, after a successful `parseAndEvaluate`
on a well-formed grid, if the dependency list stored in the target cell does not
contain the target itself, the same call again returns the same value and leaves
the grid, with the value and the dependency list stored by the first call, as it
is.  In the second revision a successful call leaves the grid unchanged and
appends a list `ud` to the vector of the caller; the same call again returns the
same value and appends the same `ud` to the vector it is given. -/
theorem C22_evaluating_again_gives_same_result (sqrt : Dbl → Dbl)
    (g1 g1a : Rev1.Spreadsheet) (g2 : Rev2.Spreadsheet) (formula1 formula2 : Str)
    (c1 c2 : Int × Int) (dependentCells : Deps) (v1 v2 : Dbl)
    (h1 : g1.WF)
    (he1 : Rev1.parseAndEvaluate sqrt g1 formula1 c1 = .ok (v1, g1a))
    (hself : (g1a.getCell c1.1 c1.2).map (fun cell => decide (c1 ∈ cell.dependentCells))
      = .ok false)
    (he2 : (Rev2.parseAndEvaluateRun sqrt g2 formula2 c2 dependentCells).2 = .ok v2) :
    Rev1.parseAndEvaluate sqrt g1a formula1 c1 = .ok (v1, g1a) ∧
    (Rev2.parseAndEvaluateRun sqrt g2 formula2 c2 dependentCells).1.1 = g2 ∧
    ∃ ud, (Rev2.parseAndEvaluateRun sqrt g2 formula2 c2 dependentCells).1.2
        = dependentCells ++ ud ∧
      ∀ init, Rev2.parseAndEvaluate sqrt
          (Rev2.parseAndEvaluateRun sqrt g2 formula2 c2 dependentCells).1.1 formula2 c2 init
        = .ok (v2, init ++ ud) := by
  obtain ⟨hg, ud, hud, hall⟩ :=
    Rev2.parseAndEvaluateRun_ok sqrt g2 formula2 c2 dependentCells v2 he2
  refine ⟨?_, hg, ud, hud, fun init => ?_⟩
  · apply Rev1.parseAndEvaluate_again sqrt h1 formula1 c1 v1 he1
    intro cell hc
    rw [hc] at hself
    simp only [Except.map, Except.ok.injEq, decide_eq_false_iff_not] at hself
    exact hself
  · rw [hg, Rev2.parseAndEvaluate_eq_run_r2, hall c2 init]

/-- C22 (witness): `=A1+B1` evaluated for C1 on the sample grids. -/
theorem C22_witness :
    (Rev1.sheetA.WF ∧
      Rev1.parseAndEvaluate id Rev1.sheetA "=A1+B1".toList (0, 2)
        = .ok (Dbl.fin 15, Rev1.sheetC) ∧
      (Rev1.sheetC.getCell 0 2).map (fun cell => decide (((0 : Int), (2 : Int)) ∈ cell.dependentCells))
        = .ok false ∧
      (Rev2.parseAndEvaluateRun id Rev2.sheetA "=A1+B1".toList (0, 2) [(5, 5)]).2
        = .ok (Dbl.fin 15)) ∧
    Rev1.parseAndEvaluate id Rev1.sheetC "=A1+B1".toList (0, 2) = .ok (Dbl.fin 15, Rev1.sheetC) ∧
    (Rev2.parseAndEvaluateRun id Rev2.sheetA "=A1+B1".toList (0, 2) [(5, 5)]).1
      = (Rev2.sheetA, [(5, 5), (0, 0), (0, 1)]) :=
  have h := C22_evaluating_again_gives_same_result id Rev1.sheetA Rev1.sheetC Rev2.sheetA
    "=A1+B1".toList "=A1+B1".toList (0, 2) (0, 2) [(5, 5)] (Dbl.fin 15) (Dbl.fin 15)
    (by decide) (by decide!) (by decide) (by decide!)
  ⟨⟨by decide, by decide!, by decide, by decide!⟩, h.1, by decide!⟩

/-! ## C23: the record of a recalculation and the cells it leaves alone -/

namespace Rev2

theorem autoCalculateLoopLog_forget (sqrt : Dbl → Dbl)
    (recurse : Spreadsheet → Visited → Int × Int → Except Err (Spreadsheet × Visited))
    (recurseLog : Spreadsheet → Visited → Attempts → Int × Int →
      Except Err (Spreadsheet × Visited × Attempts))
    (hrec : ∀ g visited log c, forgetLog (recurseLog g visited log c) = recurse g visited c)
    (coordinate : Int × Int) :
    ∀ (l : List (Nat × Nat)) (g : Spreadsheet) (visited : Visited) (log : Attempts),
      forgetLog (autoCalculateLoopLog sqrt recurseLog coordinate l (g, visited, log))
        = autoCalculateLoop sqrt recurse coordinate l (g, visited) := by
  intro l
  induction l with
  | nil => intro g visited log; rfl
  | cons p rest ih =>
    intro g visited log
    obtain ⟨i, j⟩ := p
    unfold autoCalculateLoopLog autoCalculateLoop
    cases g.getCell i j with
    | error e => rfl
    | ok cell =>
      simp only
      cases cell.body with
      | FormulaCell formula value dependentCells =>
        simp only
        by_cases hcond : coordinate ∈ dependentCells ∧ formula ≠ [] ∧ formula.head? = some '='
        · rw [if_pos hcond, if_pos hcond]
          cases parseAndEvaluate sqrt g formula ((i : Int), (j : Int)) [] with
          | error e =>
            simp only
            by_cases he : e.isException = true
            · rw [if_pos he, if_pos he]; exact ih _ _ _
            · rw [if_neg he, if_neg he]; rfl
          | ok r =>
            obtain ⟨newValue, newDeps⟩ := r
            simp only
            rw [← hrec _ visited (log ++ [(((i : Int), (j : Int)), true)]) ((i : Int), (j : Int))]
            cases recurseLog (g.assign i j
                { cell with body := .FormulaCell formula newValue (dependentCells ++ newDeps) })
              visited (log ++ [(((i : Int), (j : Int)), true)]) ((i : Int), (j : Int)) with
            | error e => rfl
            | ok s =>
              obtain ⟨g2, visited2, log2⟩ := s
              exact ih _ _ _
        · rw [if_neg hcond, if_neg hcond]; exact ih _ _ _
      | IntValueCell val => exact ih _ _ _
      | StringValueCell val => exact ih _ _ _
      | DoubleValueCell val => exact ih _ _ _

/-- The record is a ghost: without it `autoCalculateLog` is `autoCalculate`. -/
theorem autoCalculateLog_forget (sqrt : Dbl → Dbl) :
    ∀ (fuel : Nat) (g : Spreadsheet) (visited : Visited) (log : Attempts) (c : Int × Int),
      forgetLog (autoCalculateLog sqrt fuel g visited log c) = autoCalculate sqrt fuel g visited c := by
  intro fuel
  induction fuel with
  | zero => intro g visited log c; rfl
  | succ n ih =>
    intro g visited log c
    unfold autoCalculateLog autoCalculate
    by_cases hv : c ∈ visited
    · rw [if_pos hv, if_pos hv]; rfl
    · rw [if_neg hv, if_neg hv]
      rw [← autoCalculateLoopLog_forget sqrt (autoCalculate sqrt n) (autoCalculateLog sqrt n) ih c
        _ g (stdSetInsert c visited) log]
      cases autoCalculateLoopLog sqrt (autoCalculateLog sqrt n) c
          (gridIndices g.getRowCount g.getColCount) (g, stdSetInsert c visited, log) with
      | error e => rfl
      | ok s => rfl

/-- An invariant of the grid and the record is kept by the loops of
`autoCalculate` when every single recalculation keeps it and the recursive call
does. -/
theorem autoCalculateLoopLog_invariant (sqrt : Dbl → Dbl)
    (recurse : Spreadsheet → Visited → Attempts → Int × Int →
      Except Err (Spreadsheet × Visited × Attempts))
    (I : Spreadsheet → Attempts → Prop) (R : Int × Int → Prop) (coordinate : Int × Int)
    (hfail : ∀ (g : Spreadsheet) (log : Attempts) (i j : Nat) (cell : Cell) (formula : Str)
      (value : Dbl) (deps : Deps) (e : Err), I g log → g.getCell i j = .ok cell →
      cell.body = .FormulaCell formula value deps →
      coordinate ∈ deps ∧ formula ≠ [] ∧ formula.head? = some '=' →
      parseAndEvaluate sqrt g formula ((i : Int), (j : Int)) [] = .error e →
      I g (log ++ [(((i : Int), (j : Int)), false)]))
    (hok : ∀ (g : Spreadsheet) (log : Attempts) (i j : Nat) (cell : Cell) (formula : Str)
      (value : Dbl) (deps : Deps) (nv : Dbl) (nd : Deps), I g log → g.getCell i j = .ok cell →
      cell.body = .FormulaCell formula value deps →
      coordinate ∈ deps ∧ formula ≠ [] ∧ formula.head? = some '=' →
      parseAndEvaluate sqrt g formula ((i : Int), (j : Int)) [] = .ok (nv, nd) →
      I (g.assign i j { cell with body := .FormulaCell formula nv (deps ++ nd) })
          (log ++ [(((i : Int), (j : Int)), true)]) ∧
        R ((i : Int), (j : Int)))
    (hrec : ∀ g visited log c g2 visited2 log2, I g log → R c →
      recurse g visited log c = .ok (g2, visited2, log2) → I g2 log2) :
    ∀ (l : List (Nat × Nat)) (g : Spreadsheet) (visited : Visited) (log : Attempts)
      (g2 : Spreadsheet) (visited2 : Visited) (log2 : Attempts), I g log →
      autoCalculateLoopLog sqrt recurse coordinate l (g, visited, log)
        = .ok (g2, visited2, log2) →
      I g2 log2 := by
  intro l
  induction l with
  | nil =>
    intro g visited log g2 visited2 log2 hI h
    unfold autoCalculateLoopLog at h
    cases h
    exact hI
  | cons p rest ih =>
    intro g visited log g2 visited2 log2 hI h
    obtain ⟨i, j⟩ := p
    unfold autoCalculateLoopLog at h
    cases hget : g.getCell i j with
    | error e => rw [hget] at h; cases h
    | ok cell =>
      rw [hget] at h
      simp only at h
      cases hbody : cell.body with
      | FormulaCell formula value deps =>
        rw [hbody] at h
        simp only at h
        by_cases hcond : coordinate ∈ deps ∧ formula ≠ [] ∧ formula.head? = some '='
        · rw [if_pos hcond] at h
          cases hpe : parseAndEvaluate sqrt g formula ((i : Int), (j : Int)) [] with
          | error e =>
            rw [hpe] at h
            simp only at h
            by_cases he : e.isException = true
            · rw [if_pos he] at h
              exact ih _ _ _ _ _ _ (hfail g log i j cell formula value deps e hI hget hbody hcond
                hpe) h
            · rw [if_neg he] at h; cases h
          | ok r =>
            obtain ⟨nv, nd⟩ := r
            rw [hpe] at h
            simp only at h
            obtain ⟨hI1, hR1⟩ := hok g log i j cell formula value deps nv nd hI hget hbody hcond
              hpe
            cases hr : recurse (g.assign i j
                { cell with body := .FormulaCell formula nv (deps ++ nd) })
              visited (log ++ [(((i : Int), (j : Int)), true)]) ((i : Int), (j : Int)) with
            | error e => rw [hr] at h; cases h
            | ok s =>
              obtain ⟨g3, visited3, log3⟩ := s
              rw [hr] at h
              exact ih _ _ _ _ _ _ (hrec _ _ _ _ _ _ _ hI1 hR1 hr) h
        · rw [if_neg hcond] at h
          exact ih _ _ _ _ _ _ hI h
      | IntValueCell val => rw [hbody] at h; exact ih _ _ _ _ _ _ hI h
      | StringValueCell val => rw [hbody] at h; exact ih _ _ _ _ _ _ hI h
      | DoubleValueCell val => rw [hbody] at h; exact ih _ _ _ _ _ _ hI h

/-- An invariant of the grid and the record that every single recalculation
keeps is kept by `autoCalculate`; `R` holds of every coordinate the function is
called for. -/
theorem autoCalculateLog_invariant (sqrt : Dbl → Dbl)
    (I : Spreadsheet → Attempts → Prop) (R : Int × Int → Prop)
    (hfail : ∀ coordinate, R coordinate →
      ∀ (g : Spreadsheet) (log : Attempts) (i j : Nat) (cell : Cell) (formula : Str)
      (value : Dbl) (deps : Deps) (e : Err), I g log → g.getCell i j = .ok cell →
      cell.body = .FormulaCell formula value deps →
      coordinate ∈ deps ∧ formula ≠ [] ∧ formula.head? = some '=' →
      parseAndEvaluate sqrt g formula ((i : Int), (j : Int)) [] = .error e →
      I g (log ++ [(((i : Int), (j : Int)), false)]))
    (hok : ∀ coordinate, R coordinate →
      ∀ (g : Spreadsheet) (log : Attempts) (i j : Nat) (cell : Cell) (formula : Str)
      (value : Dbl) (deps : Deps) (nv : Dbl) (nd : Deps), I g log → g.getCell i j = .ok cell →
      cell.body = .FormulaCell formula value deps →
      coordinate ∈ deps ∧ formula ≠ [] ∧ formula.head? = some '=' →
      parseAndEvaluate sqrt g formula ((i : Int), (j : Int)) [] = .ok (nv, nd) →
      I (g.assign i j { cell with body := .FormulaCell formula nv (deps ++ nd) })
          (log ++ [(((i : Int), (j : Int)), true)]) ∧
        R ((i : Int), (j : Int))) :
    ∀ (fuel : Nat) (g : Spreadsheet) (visited : Visited) (log : Attempts) (c : Int × Int)
      (g2 : Spreadsheet) (visited2 : Visited) (log2 : Attempts), I g log → R c →
      autoCalculateLog sqrt fuel g visited log c = .ok (g2, visited2, log2) → I g2 log2 := by
  intro fuel
  induction fuel with
  | zero =>
    intro g visited log c g2 visited2 log2 _ _ h
    cases h
  | succ n ih =>
    intro g visited log c g2 visited2 log2 hI hR h
    unfold autoCalculateLog at h
    by_cases hv : c ∈ visited
    · rw [if_pos hv] at h
      cases h
      exact hI
    · rw [if_neg hv] at h
      cases hl : autoCalculateLoopLog sqrt (autoCalculateLog sqrt n) c
          (gridIndices g.getRowCount g.getColCount) (g, stdSetInsert c visited, log) with
      | error e => rw [hl] at h; cases h
      | ok s =>
        obtain ⟨g3, visited3, log3⟩ := s
        rw [hl] at h
        simp only [Except.ok.injEq, Prod.mk.injEq] at h
        obtain ⟨rfl, _, rfl⟩ := h
        exact autoCalculateLoopLog_invariant sqrt (autoCalculateLog sqrt n) I R c
          (hfail c hR) (hok c hR) (fun g visited log c g2 visited2 log2 => ih g visited log c g2
            visited2 log2) _ _ _ _ _ _ _ hI hl

theorem Spreadsheet.getCell_ok_cellAt {g : Spreadsheet} {i j : Nat} {cell : Cell}
    (h : g.getCell (i : Int) (j : Int) = .ok cell) : g.cellAt i j = some cell := by
  unfold Spreadsheet.getCell at h
  split at h
  · cases h
  · split at h
    · cases h
    · simp only [Int.toNat_ofNat] at h
      cases hc : g.cellAt i j with
      | none => rw [hc] at h; cases h
      | some cell2 => rw [hc] at h; cases h; rfl

theorem Spreadsheet.formulaAt_of_formulaCell {g : Spreadsheet} {i j : Nat} {cell : Cell}
    {formula : Str} {value : Dbl} {deps : Deps} (hc : g.cellAt i j = some cell)
    (hb : cell.body = .FormulaCell formula value deps) :
    g.formulaAt i j = some (formula, value, deps) := by
  rw [Spreadsheet.formulaAt_of_body hc, hb]

theorem Spreadsheet.cellAt_assign_ne (g : Spreadsheet) (i j i2 j2 : Nat) (cell : Cell)
    (hne : ¬ (i2 = i ∧ j2 = j)) : (g.assign i j cell).cellAt i2 j2 = g.cellAt i2 j2 := by
  rw [Spreadsheet.cellAt_assign, if_neg (fun hh => hne ⟨hh.1, hh.2.1⟩)]

/-- A cell that does not depend on `c0`, directly or through other formula
cells, is not touched by `autoCalculate(c0)`. -/
theorem autoCalculateLog_frame (sqrt : Dbl → Dbl) (g0 : Spreadsheet) (c0 : Int × Int)
    (fuel : Nat) (visited : Visited) (log : Attempts)
    (g2 : Spreadsheet) (visited2 : Visited) (log2 : Attempts)
    (h : autoCalculateLog sqrt fuel g0 visited log c0 = .ok (g2, visited2, log2)) :
    ∀ i j : Nat, ¬ Relation.TransGen (DependsOn g0) c0 ((i : Int), (j : Int)) →
      g2.cellAt i j = g0.cellAt i j := by
  have key := autoCalculateLog_invariant sqrt
    (fun g _ => ∀ i j : Nat, ¬ Relation.TransGen (DependsOn g0) c0 ((i : Int), (j : Int)) →
      g.cellAt i j = g0.cellAt i j)
    (fun c => c = c0 ∨ Relation.TransGen (DependsOn g0) c0 c)
    (fun coordinate _ g log i j cell formula value deps e hI _ _ _ _ => hI)
    (by
      intro coordinate hR g log i j cell formula value deps nv nd hI hget hbody hcond _
      have hc := Spreadsheet.getCell_ok_cellAt hget
      have hT : Relation.TransGen (DependsOn g0) c0 ((i : Int), (j : Int)) := by
        by_contra hnot
        have hsame := hI i j hnot
        rw [hc] at hsame
        have hdep : DependsOn g0 coordinate ((i : Int), (j : Int)) :=
          ⟨i, j, formula, value, deps, rfl,
            Spreadsheet.formulaAt_of_formulaCell hsame.symm hbody, hcond.1⟩
        rcases hR with rfl | hR
        · exact hnot (Relation.TransGen.single hdep)
        · exact hnot (Relation.TransGen.tail hR hdep)
      refine ⟨?_, Or.inr hT⟩
      intro i2 j2 hnot
      rw [Spreadsheet.cellAt_assign_ne _ _ _ _ _ _ (by
        rintro ⟨rfl, rfl⟩
        exact hnot hT)]
      exact hI i2 j2 hnot)
    fuel g0 visited log c0 g2 visited2 log2 (fun _ _ _ => rfl) (Or.inl rfl) h
  exact key

theorem forgetLog_ok {r : Except Err (Spreadsheet × Visited × Attempts)} {g2 : Spreadsheet}
    {visited2 : Visited} (h : forgetLog r = .ok (g2, visited2)) :
    ∃ log2, r = .ok (g2, visited2, log2) := by
  unfold forgetLog at h
  cases r with
  | error e => cases h
  | ok s =>
    obtain ⟨a, b, c⟩ := s
    simp only [Except.map, Except.ok.injEq, Prod.mk.injEq] at h
    obtain ⟨rfl, rfl⟩ := h
    exact ⟨c, rfl⟩

theorem autoCalculate_frame (sqrt : Dbl → Dbl) (g0 : Spreadsheet) (c0 : Int × Int)
    (fuel : Nat) (visited : Visited) (g2 : Spreadsheet) (visited2 : Visited)
    (h : autoCalculate sqrt fuel g0 visited c0 = .ok (g2, visited2)) :
    ∀ i j : Nat, ¬ Relation.TransGen (DependsOn g0) c0 ((i : Int), (j : Int)) →
      g2.cellAt i j = g0.cellAt i j := by
  rw [← autoCalculateLog_forget sqrt fuel g0 visited [] c0] at h
  obtain ⟨log2, hl⟩ := forgetLog_ok h
  exact autoCalculateLog_frame sqrt g0 c0 fuel visited [] g2 visited2 log2 hl

end Rev2

namespace Rev1

theorem autoCalculateLoopLog_forget_r1 (sqrt : Dbl → Dbl)
    (recurse : Spreadsheet → Int × Int → Except Err Spreadsheet)
    (recurseLog : Spreadsheet → Attempts → Int × Int →
      Except Err (Spreadsheet × Attempts))
    (hrec : ∀ g log c, (recurseLog g log c).map Prod.fst = recurse g c)
    (coordinate : Int × Int) :
    ∀ (l : List (Nat × Nat)) (g : Spreadsheet) (log : Attempts),
      (autoCalculateLoopLog sqrt recurseLog coordinate l (g, log)).map Prod.fst
        = autoCalculateLoop sqrt recurse coordinate l g := by
  intro l
  induction l with
  | nil => intro g log; rfl
  | cons p rest ih =>
    intro g log
    obtain ⟨i, j⟩ := p
    unfold autoCalculateLoopLog autoCalculateLoop
    cases g.getCell i j with
    | error e => rfl
    | ok cell =>
      simp only
      by_cases hcond : coordinate ∈ cell.dependentCells ∧ cell.formula ≠ [] ∧
          cell.formula.head? = some '='
      · rw [if_pos hcond, if_pos hcond]
        cases parseAndEvaluate sqrt g cell.formula ((i : Int), (j : Int)) with
        | error e =>
          simp only
          by_cases he : e.isException = true
          · rw [if_pos he, if_pos he]; exact ih _ _
          · rw [if_neg he, if_neg he]; rfl
        | ok r =>
          obtain ⟨newValue, g1⟩ := r
          simp only
          rw [← hrec _ (log ++ [(((i : Int), (j : Int)), true)]) ((i : Int), (j : Int))]
          cases recurseLog (g1.setContentPlain i j (.double newValue))
            (log ++ [(((i : Int), (j : Int)), true)]) ((i : Int), (j : Int)) with
          | error e => rfl
          | ok s =>
            obtain ⟨g2, log2⟩ := s
            exact ih _ _
      · rw [if_neg hcond, if_neg hcond]; exact ih _ _

/-- The record is a ghost: without it `autoCalculateLog` is `autoCalculate`. -/
theorem autoCalculateLog_forget_r1 (sqrt : Dbl → Dbl) :
    ∀ (fuel : Nat) (g : Spreadsheet) (log : Attempts) (c : Int × Int),
      (autoCalculateLog sqrt fuel g log c).map Prod.fst = autoCalculate sqrt fuel g c := by
  intro fuel
  induction fuel with
  | zero => intro g log c; rfl
  | succ n ih =>
    intro g log c
    unfold autoCalculateLog autoCalculate
    exact autoCalculateLoopLog_forget_r1 sqrt (autoCalculate sqrt n) (autoCalculateLog sqrt n) ih c
      _ g log

theorem Spreadsheet.getCell_ok_cellAt_r1 {g : Spreadsheet} {i j : Nat} {cell : Cell}
    (h : g.getCell (i : Int) (j : Int) = .ok cell) :
    g.cellAt i j = some cell ∧ i < g.getRowCount ∧ j < g.getColCount := by
  have h2 := Spreadsheet.getCell_ok_inGrid (c := ((i : Int), (j : Int))) h
  obtain ⟨⟨_, h3, _, h4⟩, h5⟩ := h2
  simp only [Int.toNat_ofNat] at h5
  exact ⟨h5, by omega, by omega⟩

/-- The state after a cell was recalculated. -/
theorem reeval_state (sqrt : Dbl → Dbl) {g g1 : Spreadsheet} {i j : Nat} {cell : Cell}
    {nv : Dbl} (hget : g.getCell (i : Int) (j : Int) = .ok cell) (hne : cell.formula ≠ [])
    (hpe : parseAndEvaluate sqrt g cell.formula ((i : Int), (j : Int)) = .ok (nv, g1)) :
    ∃ ds, evalFormula sqrt g cell.formula = .ok (nv, ds) ∧
      g1.setContentPlain i j (.double nv)
        = g.assign i j { cell with dependentCells := ds, content := .double nv } := by
  obtain ⟨hc, hi, hj⟩ := Spreadsheet.getCell_ok_cellAt_r1 hget
  rw [parseAndEvaluate_cell_r1 sqrt hi hj hc hne] at hpe
  cases hev : evalFormula sqrt g cell.formula with
  | error e => rw [hev] at hpe; cases hpe
  | ok r =>
    obtain ⟨v, ds⟩ := r
    rw [hev] at hpe
    simp only [Except.ok.injEq, Prod.mk.injEq] at hpe
    obtain ⟨rfl, rfl⟩ := hpe
    refine ⟨ds, rfl, ?_⟩
    unfold Spreadsheet.setContentPlain
    rw [Spreadsheet.cellAt_assign_same hc]
    simp only [Spreadsheet.assign_assign]

theorem autoCalculateLoopLog_invariant_r1 (sqrt : Dbl → Dbl)
    (recurse : Spreadsheet → Attempts → Int × Int → Except Err (Spreadsheet × Attempts))
    (I : Spreadsheet → Attempts → Prop) (R : Int × Int → Prop) (coordinate : Int × Int)
    (hfail : ∀ (g : Spreadsheet) (log : Attempts) (i j : Nat) (cell : Cell) (e : Err),
      I g log → g.getCell i j = .ok cell →
      coordinate ∈ cell.dependentCells ∧ cell.formula ≠ [] ∧ cell.formula.head? = some '=' →
      parseAndEvaluate sqrt g cell.formula ((i : Int), (j : Int)) = .error e →
      I g (log ++ [(((i : Int), (j : Int)), false)]))
    (hok : ∀ (g : Spreadsheet) (log : Attempts) (i j : Nat) (cell : Cell) (nv : Dbl)
      (ds : Deps), I g log → g.getCell i j = .ok cell →
      coordinate ∈ cell.dependentCells ∧ cell.formula ≠ [] ∧ cell.formula.head? = some '=' →
      evalFormula sqrt g cell.formula = .ok (nv, ds) →
      I (g.assign i j { cell with dependentCells := ds, content := .double nv })
          (log ++ [(((i : Int), (j : Int)), true)]) ∧
        R ((i : Int), (j : Int)))
    (hrec : ∀ g log c g2 log2, I g log → R c → recurse g log c = .ok (g2, log2) → I g2 log2) :
    ∀ (l : List (Nat × Nat)) (g : Spreadsheet) (log : Attempts) (g2 : Spreadsheet)
      (log2 : Attempts), I g log →
      autoCalculateLoopLog sqrt recurse coordinate l (g, log) = .ok (g2, log2) → I g2 log2 := by
  intro l
  induction l with
  | nil =>
    intro g log g2 log2 hI h
    unfold autoCalculateLoopLog at h
    cases h
    exact hI
  | cons p rest ih =>
    intro g log g2 log2 hI h
    obtain ⟨i, j⟩ := p
    unfold autoCalculateLoopLog at h
    cases hget : g.getCell i j with
    | error e => rw [hget] at h; cases h
    | ok cell =>
      rw [hget] at h
      simp only at h
      by_cases hcond : coordinate ∈ cell.dependentCells ∧ cell.formula ≠ [] ∧
          cell.formula.head? = some '='
      · rw [if_pos hcond] at h
        cases hpe : parseAndEvaluate sqrt g cell.formula ((i : Int), (j : Int)) with
        | error e =>
          rw [hpe] at h
          simp only at h
          by_cases he : e.isException = true
          · rw [if_pos he] at h
            exact ih _ _ _ _ (hfail g log i j cell e hI hget hcond hpe) h
          · rw [if_neg he] at h; cases h
        | ok r =>
          obtain ⟨nv, g1⟩ := r
          rw [hpe] at h
          simp only at h
          obtain ⟨ds, hev, hstate⟩ := reeval_state sqrt hget hcond.2.1 hpe
          rw [hstate] at h
          obtain ⟨hI1, hR1⟩ := hok g log i j cell nv ds hI hget hcond hev
          cases hr : recurse (g.assign i j { cell with dependentCells := ds, content := .double nv })
              (log ++ [(((i : Int), (j : Int)), true)]) ((i : Int), (j : Int)) with
          | error e => rw [hr] at h; cases h
          | ok s =>
            obtain ⟨g3, log3⟩ := s
            rw [hr] at h
            exact ih _ _ _ _ (hrec _ _ _ _ _ hI1 hR1 hr) h
      · rw [if_neg hcond] at h
        exact ih _ _ _ _ hI h

theorem autoCalculateLog_invariant_r1 (sqrt : Dbl → Dbl)
    (I : Spreadsheet → Attempts → Prop) (R : Int × Int → Prop)
    (hfail : ∀ coordinate, R coordinate →
      ∀ (g : Spreadsheet) (log : Attempts) (i j : Nat) (cell : Cell) (e : Err),
      I g log → g.getCell i j = .ok cell →
      coordinate ∈ cell.dependentCells ∧ cell.formula ≠ [] ∧ cell.formula.head? = some '=' →
      parseAndEvaluate sqrt g cell.formula ((i : Int), (j : Int)) = .error e →
      I g (log ++ [(((i : Int), (j : Int)), false)]))
    (hok : ∀ coordinate, R coordinate →
      ∀ (g : Spreadsheet) (log : Attempts) (i j : Nat) (cell : Cell) (nv : Dbl)
      (ds : Deps), I g log → g.getCell i j = .ok cell →
      coordinate ∈ cell.dependentCells ∧ cell.formula ≠ [] ∧ cell.formula.head? = some '=' →
      evalFormula sqrt g cell.formula = .ok (nv, ds) →
      I (g.assign i j { cell with dependentCells := ds, content := .double nv })
          (log ++ [(((i : Int), (j : Int)), true)]) ∧
        R ((i : Int), (j : Int))) :
    ∀ (fuel : Nat) (g : Spreadsheet) (log : Attempts) (c : Int × Int)
      (g2 : Spreadsheet) (log2 : Attempts), I g log → R c →
      autoCalculateLog sqrt fuel g log c = .ok (g2, log2) → I g2 log2 := by
  intro fuel
  induction fuel with
  | zero =>
    intro g log c g2 log2 _ _ h
    cases h
  | succ n ih =>
    intro g log c g2 log2 hI hR h
    unfold autoCalculateLog at h
    exact autoCalculateLoopLog_invariant_r1 sqrt (autoCalculateLog sqrt n) I R c
      (hfail c hR) (hok c hR) (fun g log c g2 log2 => ih g log c g2 log2) _ _ _ _ _ hI h

theorem Spreadsheet.cellAt_assign_ne_r1 (g : Spreadsheet) (i j i2 j2 : Nat) (cell : Cell)
    (hne : ¬ (i2 = i ∧ j2 = j)) : (g.assign i j cell).cellAt i2 j2 = g.cellAt i2 j2 := by
  rw [Spreadsheet.cellAt_assign_r1, if_neg (fun hh => hne ⟨hh.1, hh.2.1⟩)]

/-- A cell that does not depend on `c0`, directly or through other formula
cells, is not touched by `autoCalculate(c0)`. -/
theorem autoCalculateLog_frame_r1 (sqrt : Dbl → Dbl) (g0 : Spreadsheet) (c0 : Int × Int)
    (fuel : Nat) (log : Attempts) (g2 : Spreadsheet) (log2 : Attempts)
    (h : autoCalculateLog sqrt fuel g0 log c0 = .ok (g2, log2)) :
    ∀ i j : Nat, ¬ Relation.TransGen (DependsOn g0) c0 ((i : Int), (j : Int)) →
      g2.cellAt i j = g0.cellAt i j := by
  have key := autoCalculateLog_invariant_r1 sqrt
    (fun g _ => ∀ i j : Nat, ¬ Relation.TransGen (DependsOn g0) c0 ((i : Int), (j : Int)) →
      g.cellAt i j = g0.cellAt i j)
    (fun c => c = c0 ∨ Relation.TransGen (DependsOn g0) c0 c)
    (fun coordinate _ g log i j cell e hI _ _ _ => hI)
    (by
      intro coordinate hR g log i j cell nv ds hI hget hcond _
      have hc := (Spreadsheet.getCell_ok_cellAt_r1 hget).1
      have hT : Relation.TransGen (DependsOn g0) c0 ((i : Int), (j : Int)) := by
        by_contra hnot
        have hsame := hI i j hnot
        rw [hc] at hsame
        have hdep : DependsOn g0 coordinate ((i : Int), (j : Int)) :=
          ⟨i, j, cell.formula, cell.content, cell.dependentCells, rfl,
            by rw [Spreadsheet.formulaAt_of_cell_r1 hsame.symm, if_neg hcond.2.1], hcond.1⟩
        rcases hR with rfl | hR
        · exact hnot (Relation.TransGen.single hdep)
        · exact hnot (Relation.TransGen.tail hR hdep)
      refine ⟨?_, Or.inr hT⟩
      intro i2 j2 hnot
      rw [Spreadsheet.cellAt_assign_ne_r1 _ _ _ _ _ _ (by
        rintro ⟨rfl, rfl⟩
        exact hnot hT)]
      exact hI i2 j2 hnot)
    fuel g0 log c0 g2 log2 (fun _ _ _ => rfl) (Or.inl rfl) h
  exact key

theorem map_fst_ok {r : Except Err (Spreadsheet × Attempts)} {g2 : Spreadsheet}
    (h : r.map Prod.fst = .ok g2) : ∃ log2, r = .ok (g2, log2) := by
  cases r with
  | error e => cases h
  | ok s =>
    obtain ⟨a, b⟩ := s
    simp only [Except.map, Except.ok.injEq] at h
    subst h
    exact ⟨b, rfl⟩

theorem autoCalculate_frame_r1 (sqrt : Dbl → Dbl) (g0 : Spreadsheet) (c0 : Int × Int)
    (fuel : Nat) (g2 : Spreadsheet)
    (h : autoCalculate sqrt fuel g0 c0 = .ok g2) :
    ∀ i j : Nat, ¬ Relation.TransGen (DependsOn g0) c0 ((i : Int), (j : Int)) →
      g2.cellAt i j = g0.cellAt i j := by
  rw [← autoCalculateLog_forget_r1 sqrt fuel g0 [] c0] at h
  obtain ⟨log2, hl⟩ := map_fst_ok h
  exact autoCalculateLog_frame_r1 sqrt g0 c0 fuel [] g2 log2 hl

end Rev1

theorem Rev2.sheetChain_reached :
    (do
      let g ← Rev2.Spreadsheet.new 1 3
      let g ← g.enterData id 0 0 "10".toList
      let g ← g.enterData id 0 1 "=A1".toList
      let g ← g.enterData id 0 2 "=B1".toList
      g.enterData id 0 0 "20".toList) = .ok Rev2.sheetChain := by
  decide!

theorem Rev1.sheetChain_reached_r1 :
    (do
      let g ← Rev1.Spreadsheet.new 1 3
      let g ← g.setContent id 0 0 "10".toList (0, 0)
      let g ← g.setContent id 0 1 "=A1".toList (0, 1)
      let g ← g.setContent id 0 2 "=B1".toList (0, 2)
      g.setContent id 0 0 "20".toList (0, 0)) = .ok Rev1.sheetChain := by
  decide!

/-- C23 (counterexample): A1 was changed from 10 to 20, B1 holds `=A1` and C1
holds `=B1`.  The stored dependency list of C1 is `[B1]`, which does not contain
A1, and `autoCalculate(A1)` changes the value of C1 from 10 to 20, in both
revisions: the recalculation of B1 is followed by `autoCalculate(B1)`. -/
theorem C23_counterexample :
    Rev2.sheetChain.formulaAt 0 2 = some ("=B1".toList, Dbl.fin 10, [(0, 1)]) ∧
    (Rev2.autoCalculate id 5 Rev2.sheetChain [] (0, 0)).map (fun s => s.1.formulaAt 0 2)
      = .ok (some ("=B1".toList, Dbl.fin 20, [(0, 1), (0, 1)])) ∧
    Rev1.sheetChain.formulaAt 0 2 = some ("=B1".toList, .double (Dbl.fin 10), [(0, 1)]) ∧
    (Rev1.autoCalculate id 5 Rev1.sheetChain (0, 0)).map (fun g => g.formulaAt 0 2)
      = .ok (some ("=B1".toList, .double (Dbl.fin 20), [(0, 1)])) :=
  ⟨by decide!, by decide!, by decide!, by decide!⟩

/-- C23 (amended): `autoCalculate(c)` leaves unchanged every cell that does not
depend on `c`, where a cell depends on `c` when it is a formula cell whose
stored dependency list contains `c` or contains a cell that depends on `c`.
In the second revision the call returns on every well-formed grid; in the first
revision the statement is about a call that returns. -/
theorem C23_autoCalculate_changes_dependents_only (sqrt : Dbl → Dbl)
    (g1 r1 : Rev1.Spreadsheet) (g2 : Rev2.Spreadsheet) (c : Int × Int) (fuel : Nat)
    (visited : Rev2.Visited)
    (h1 : Rev1.autoCalculate sqrt fuel g1 c = .ok r1)
    (hw : g2.WF) (hfuel : g2.getRowCount * g2.getColCount + 2 ≤ fuel) :
    (∀ i j : Nat, ¬ Relation.TransGen (Rev1.DependsOn g1) c ((i : Int), (j : Int)) →
      r1.cellAt i j = g1.cellAt i j) ∧
    ∃ r2, Rev2.autoCalculate sqrt fuel g2 visited c = .ok (r2, visited) ∧
      ∀ i j : Nat, ¬ Relation.TransGen (Rev2.DependsOn g2) c ((i : Int), (j : Int)) →
        r2.cellAt i j = g2.cellAt i j := by
  refine ⟨Rev1.autoCalculate_frame_r1 sqrt g1 c fuel r1 h1, ?_⟩
  have hn := Rev2.notVisited_le g2.getRowCount g2.getColCount visited
  obtain ⟨r2, hr, _⟩ := Rev2.autoCalculate_returns sqrt g2.getRowCount g2.getColCount fuel g2
    visited c ⟨hw, rfl, rfl⟩ (Or.inl (by omega))
  exact ⟨r2, hr, Rev2.autoCalculate_frame sqrt g2 c fuel visited r2 visited hr⟩

/-- C23 (witness): `autoCalculate(B1)` on the grids with B1 = `=A1` and
C1 = `=B1`. -/
theorem C23_witness :
    (Rev1.autoCalculate id 5 Rev1.sheetChain (0, 1)
        = .ok (Rev1.sheetOf [[(.int 20, [], []), (.double (Dbl.fin 10), "=A1".toList, [(0, 0)]),
            (.double (Dbl.fin 10), "=B1".toList, [(0, 1)])]]) ∧
      Rev2.sheetChain.WF ∧
      Rev2.sheetChain.getRowCount * Rev2.sheetChain.getColCount + 2 ≤ 5) ∧
    ((∀ i j : Nat,
        ¬ Relation.TransGen (Rev1.DependsOn Rev1.sheetChain) (0, 1) ((i : Int), (j : Int)) →
        (Rev1.sheetOf [[(.int 20, [], []), (.double (Dbl.fin 10), "=A1".toList, [(0, 0)]),
            (.double (Dbl.fin 10), "=B1".toList, [(0, 1)])]]).cellAt i j
          = Rev1.sheetChain.cellAt i j) ∧
      ∃ r2, Rev2.autoCalculate id 5 Rev2.sheetChain [] (0, 1) = .ok (r2, []) ∧
        ∀ i j : Nat,
          ¬ Relation.TransGen (Rev2.DependsOn Rev2.sheetChain) (0, 1) ((i : Int), (j : Int)) →
          r2.cellAt i j = Rev2.sheetChain.cellAt i j) :=
  ⟨⟨by decide!, by decide, by decide⟩,
   C23_autoCalculate_changes_dependents_only id Rev1.sheetChain _ Rev2.sheetChain (0, 1) 5 []
     (by decide!) (by decide) (by decide)⟩

/-! ## C28: failures during a recalculation -/

namespace Rev2

theorem Tracked.step_ok (sqrt : Dbl → Dbl) {g0 g : Spreadsheet} (h0 : g0.WF) {log : Attempts}
    (hT : Tracked sqrt g0 g log) {i j : Nat} {cell : Cell} {formula : Str} {value : Dbl}
    {deps : Deps} {nv : Dbl} {nd : Deps} (hget : g.getCell (i : Int) (j : Int) = .ok cell)
    (hbody : cell.body = .FormulaCell formula value deps)
    (hpe : parseAndEvaluate sqrt g formula ((i : Int), (j : Int)) [] = .ok (nv, nd))
    (log2 : Attempts) (hlog : ∀ x ∈ log, x ∈ log2)
    (hmem : (((i : Int), (j : Int)), true) ∈ log2) :
    Tracked sqrt g0 (g.assign i j { cell with body := .FormulaCell formula nv (deps ++ nd) })
      log2 := by
  obtain ⟨hwf, hsz, hch, hfail⟩ := hT
  have hc := Spreadsheet.getCell_ok_cellAt hget
  have hlt : i < g.getRowCount ∧ j < g.getColCount :=
    Spreadsheet.formulaAt_some_lt hwf (Spreadsheet.formulaAt_of_formulaCell hc hbody)
  obtain ⟨cell2, hc2, hw⟩ := hwf.cellAt_r2 hlt.1 hlt.2
  rw [hc] at hc2
  cases hc2
  have hw2 : Cell.WFAt { cell with body := .FormulaCell formula nv (deps ++ nd) } i j :=
    ⟨hw.1, hw.2.1, hw.2.2⟩
  refine ⟨hwf.assign hw2, ?_, ?_, ?_⟩
  · exact ⟨by rw [Spreadsheet.getRowCount_assign]; exact hsz.1,
      by rw [Spreadsheet.getColCount_assign]; exact hsz.2⟩
  · intro i2 j2
    by_cases heq : i2 = i ∧ j2 = j
    · obtain ⟨rfl, rfl⟩ := heq
      exact Or.inr hmem
    · rw [Spreadsheet.cellAt_assign_ne _ _ _ _ _ _ heq]
      rcases hch i2 j2 with h1 | h1
      · exact Or.inl h1
      · exact Or.inr (hlog _ h1)
  · intro i2 j2 f v d hf0 hfl
    by_cases heq : i2 = i ∧ j2 = j
    · exfalso
      obtain ⟨rfl, rfl⟩ := heq
      have hsame := hfail i2 j2 f v d hf0 hfl
      rw [hc] at hsame
      have hf1 := Spreadsheet.formulaAt_of_formulaCell hsame.symm hbody
      rw [hf0] at hf1
      simp only [Option.some.injEq, Prod.mk.injEq] at hf1
      obtain ⟨rfl, _, _⟩ := hf1
      obtain ⟨v2, hv2⟩ := parseAndEvaluate_shape sqrt hwf h0 ⟨hsz.1.symm, hsz.2.symm⟩ f
        ((i2 : Int), (j2 : Int)) ((i2 : Int), (j2 : Int)) nv nd hpe
      obtain ⟨e, he⟩ := hfl
      rw [hv2] at he
      cases he
    · rw [Spreadsheet.cellAt_assign_ne _ _ _ _ _ _ heq]
      exact hfail i2 j2 f v d hf0 hfl

theorem Tracked.mono (sqrt : Dbl → Dbl) {g0 g : Spreadsheet} {log log2 : Attempts}
    (hT : Tracked sqrt g0 g log) (hlog : ∀ x ∈ log, x ∈ log2) : Tracked sqrt g0 g log2 := by
  obtain ⟨hwf, hsz, hch, hfail⟩ := hT
  refine ⟨hwf, hsz, fun i j => ?_, hfail⟩
  rcases hch i j with h1 | h1
  · exact Or.inl h1
  · exact Or.inr (hlog _ h1)

theorem autoCalculateLog_tracked (sqrt : Dbl → Dbl) (g0 : Spreadsheet) (h0 : g0.WF)
    (fuel : Nat) (g : Spreadsheet) (visited : Visited) (log : Attempts) (c : Int × Int)
    (g2 : Spreadsheet) (visited2 : Visited) (log2 : Attempts)
    (hT : Tracked sqrt g0 g log)
    (h : autoCalculateLog sqrt fuel g visited log c = .ok (g2, visited2, log2)) :
    Tracked sqrt g0 g2 log2 :=
  autoCalculateLog_invariant sqrt (Tracked sqrt g0) (fun _ => True)
    (fun _ _ _ _ _ _ _ _ _ _ _ hI _ _ _ _ =>
      Tracked.mono sqrt hI (fun _ hx => List.mem_append_left _ hx))
    (fun _ _ _ _ _ _ _ _ _ _ _ _ hI hget hbody _ hpe =>
      ⟨Tracked.step_ok sqrt h0 hI hget hbody hpe _ (fun _ hx => List.mem_append_left _ hx)
        (List.mem_append_right _ (List.mem_singleton_self _)), trivial⟩)
    fuel g visited log c g2 visited2 log2 hT trivial h

theorem autoCalculateLog_mono (sqrt : Dbl → Dbl) (fuel : Nat) (g : Spreadsheet)
    (visited : Visited) (log : Attempts) (c : Int × Int)
    (g2 : Spreadsheet) (visited2 : Visited) (log2 : Attempts)
    (h : autoCalculateLog sqrt fuel g visited log c = .ok (g2, visited2, log2)) :
    ∀ x ∈ log, x ∈ log2 :=
  autoCalculateLog_invariant sqrt (fun _ l => ∀ x ∈ log, x ∈ l) (fun _ => True)
    (fun _ _ _ _ _ _ _ _ _ _ _ hI _ _ _ _ x hx =>
      List.mem_append_left _ (hI x hx))
    (fun _ _ _ _ _ _ _ _ _ _ _ _ hI _ _ _ _ =>
      ⟨fun x hx => List.mem_append_left _ (hI x hx), trivial⟩)
    fuel g visited log c g2 visited2 log2 (fun _ hx => hx) trivial h

/-- In the loops of `autoCalculate(c)`, every formula cell of the starting grid
that lists `c`, has a formula starting with `=` and evaluates, is recorded as
recalculated once the loop has passed its position. -/
theorem autoCalculateLoopLog_attempts (sqrt : Dbl → Dbl) (g0 : Spreadsheet) (h0 : g0.WF)
    (n : Nat) (c : Int × Int) :
    ∀ (l : List (Nat × Nat)) (g : Spreadsheet) (visited : Visited) (log : Attempts)
      (g2 : Spreadsheet) (visited2 : Visited) (log2 : Attempts), Tracked sqrt g0 g log →
      autoCalculateLoopLog sqrt (autoCalculateLog sqrt n) c l (g, visited, log)
        = .ok (g2, visited2, log2) →
      Tracked sqrt g0 g2 log2 ∧ (∀ x ∈ log, x ∈ log2) ∧
      ∀ p ∈ l, ∀ (f : Str) (v : Dbl) (d : Deps), g0.formulaAt p.1 p.2 = some (f, v, d) →
        c ∈ d → f.head? = some '=' →
        (∃ v2 ds, parseAndEvaluate sqrt g0 f ((p.1 : Int), (p.2 : Int)) [] = .ok (v2, ds)) →
        (((p.1 : Int), (p.2 : Int)), true) ∈ log2 := by
  intro l
  induction l with
  | nil =>
    intro g visited log g2 visited2 log2 hT h
    unfold autoCalculateLoopLog at h
    cases h
    exact ⟨hT, fun _ hx => hx, fun p hp => by cases hp⟩
  | cons p rest ih =>
    intro g visited log g2 visited2 log2 hT h
    obtain ⟨i, j⟩ := p
    -- what is left to show once the head is dealt with
    have finish : ∀ (g1 : Spreadsheet) (visited1 : Visited) (log1 : Attempts),
        Tracked sqrt g0 g1 log1 → (∀ x ∈ log, x ∈ log1) →
        (∀ (f : Str) (v : Dbl) (d : Deps), g0.formulaAt i j = some (f, v, d) →
          c ∈ d → f.head? = some '=' →
          (∃ v2 ds, parseAndEvaluate sqrt g0 f ((i : Int), (j : Int)) [] = .ok (v2, ds)) →
          (((i : Int), (j : Int)), true) ∈ log1) →
        autoCalculateLoopLog sqrt (autoCalculateLog sqrt n) c rest (g1, visited1, log1)
          = .ok (g2, visited2, log2) →
        Tracked sqrt g0 g2 log2 ∧ (∀ x ∈ log, x ∈ log2) ∧
        ∀ p ∈ (i, j) :: rest, ∀ (f : Str) (v : Dbl) (d : Deps),
          g0.formulaAt p.1 p.2 = some (f, v, d) → c ∈ d → f.head? = some '=' →
          (∃ v2 ds, parseAndEvaluate sqrt g0 f ((p.1 : Int), (p.2 : Int)) [] = .ok (v2, ds)) →
          (((p.1 : Int), (p.2 : Int)), true) ∈ log2 := by
      intro g1 visited1 log1 hT1 hsub hhead hrest
      obtain ⟨hT2, hsub2, hall⟩ := ih g1 visited1 log1 g2 visited2 log2 hT1 hrest
      refine ⟨hT2, fun x hx => hsub2 x (hsub x hx), ?_⟩
      intro p hp f v d hf hc hh hev
      rcases List.mem_cons.1 hp with rfl | hp
      · exact hsub2 _ (hhead f v d hf hc hh hev)
      · exact hall p hp f v d hf hc hh hev
    unfold autoCalculateLoopLog at h
    cases hget : g.getCell i j with
    | error e => rw [hget] at h; cases h
    | ok cell =>
      rw [hget] at h
      simp only at h
      have hcell := Spreadsheet.getCell_ok_cellAt hget
      -- a cell still as in `g0` that is not recalculated here is no dependent that evaluates
      have unchanged : ∀ (f : Str) (v : Dbl) (d : Deps), g0.formulaAt i j = some (f, v, d) →
          g.cellAt i j = g0.cellAt i j → cell.body = .FormulaCell f v d := by
        intro f v d hf hsame
        rw [hcell] at hsame
        rw [Spreadsheet.formulaAt_of_body hsame.symm] at hf
        cases hb : cell.body with
        | FormulaCell f2 v2 d2 =>
          rw [hb] at hf
          simp only [Option.some.injEq, Prod.mk.injEq] at hf
          obtain ⟨rfl, rfl, rfl⟩ := hf
          rfl
        | IntValueCell val => rw [hb] at hf; cases hf
        | StringValueCell val => rw [hb] at hf; cases hf
        | DoubleValueCell val => rw [hb] at hf; cases hf
      cases hbody : cell.body with
      | FormulaCell formula value deps =>
        rw [hbody] at h
        simp only at h
        by_cases hcond : c ∈ deps ∧ formula ≠ [] ∧ formula.head? = some '='
        · rw [if_pos hcond] at h
          cases hpe : parseAndEvaluate sqrt g formula ((i : Int), (j : Int)) [] with
          | error e =>
            rw [hpe] at h
            simp only at h
            by_cases he : e.isException = true
            · rw [if_pos he] at h
              refine finish g visited _ (Tracked.mono sqrt hT
                (fun x hx => List.mem_append_left _ hx))
                (fun x hx => List.mem_append_left _ hx) ?_ h
              intro f v d hf _ _ hev
              rcases hT.2.2.1 i j with hsame | hlogged
              · exfalso
                have hb := unchanged f v d hf hsame
                rw [hbody] at hb
                simp only [CellBody.FormulaCell.injEq] at hb
                obtain ⟨rfl, _, _⟩ := hb
                obtain ⟨v2, ds, hv2⟩ := hev
                obtain ⟨v3, hv3⟩ := parseAndEvaluate_shape sqrt h0 hT.1 hT.2.1 formula
                  ((i : Int), (j : Int)) ((i : Int), (j : Int)) v2 ds hv2
                rw [hv3] at hpe
                cases hpe
              · exact List.mem_append_left _ hlogged
            · rw [if_neg he] at h; cases h
          | ok r =>
            obtain ⟨nv, nd⟩ := r
            rw [hpe] at h
            simp only at h
            cases hr : autoCalculateLog sqrt n (g.assign i j
                { cell with body := .FormulaCell formula nv (deps ++ nd) })
              visited (log ++ [(((i : Int), (j : Int)), true)]) ((i : Int), (j : Int)) with
            | error e => rw [hr] at h; cases h
            | ok s =>
              obtain ⟨g3, visited3, log3⟩ := s
              rw [hr] at h
              have hT1 := Tracked.step_ok sqrt h0 hT hget hbody hpe
                (log ++ [(((i : Int), (j : Int)), true)])
                (fun x hx => List.mem_append_left _ hx)
                (List.mem_append_right _ (List.mem_singleton_self _))
              have hmono := autoCalculateLog_mono sqrt n _ _ _ _ _ _ _ hr
              refine finish g3 visited3 log3
                (autoCalculateLog_tracked sqrt g0 h0 n _ _ _ _ _ _ _ hT1 hr)
                (fun x hx => hmono x (List.mem_append_left _ hx)) ?_ h
              intro _ _ _ _ _ _ _
              exact hmono _ (List.mem_append_right _ (List.mem_singleton_self _))
        · rw [if_neg hcond] at h
          refine finish g visited log hT (fun x hx => hx) ?_ h
          intro f v d hf hc hh _
          rcases hT.2.2.1 i j with hsame | hlogged
          · exfalso
            have hb := unchanged f v d hf hsame
            rw [hbody] at hb
            simp only [CellBody.FormulaCell.injEq] at hb
            obtain ⟨rfl, _, rfl⟩ := hb
            apply hcond
            refine ⟨hc, ?_, hh⟩
            intro hnil
            rw [hnil] at hh
            cases hh
          · exact hlogged
      | IntValueCell val =>
        rw [hbody] at h
        refine finish g visited log hT (fun x hx => hx) ?_ h
        intro f v d hf _ _ _
        rcases hT.2.2.1 i j with hsame | hlogged
        · have hb := unchanged f v d hf hsame
          rw [hbody] at hb
          cases hb
        · exact hlogged
      | StringValueCell val =>
        rw [hbody] at h
        refine finish g visited log hT (fun x hx => hx) ?_ h
        intro f v d hf _ _ _
        rcases hT.2.2.1 i j with hsame | hlogged
        · have hb := unchanged f v d hf hsame
          rw [hbody] at hb
          cases hb
        · exact hlogged
      | DoubleValueCell val =>
        rw [hbody] at h
        refine finish g visited log hT (fun x hx => hx) ?_ h
        intro f v d hf _ _ _
        rcases hT.2.2.1 i j with hsame | hlogged
        · have hb := unchanged f v d hf hsame
          rw [hbody] at hb
          cases hb
        · exact hlogged

end Rev2

namespace Rev1

/-- Whether a formula evaluates for a cell of the grid depends on the size of a
well-formed grid only. -/
theorem parseAndEvaluate_ok_transfer (sqrt : Dbl → Dbl) {g g2 : Spreadsheet} (h : g.WF)
    (h2 : g2.WF) (hsz : SameSize g g2) {i j : Nat} (hi : i < g.getRowCount)
    (hj : j < g.getColCount) {f : Str} (hne : f ≠ []) {v : Dbl} {r : Spreadsheet}
    (he : parseAndEvaluate sqrt g f ((i : Int), (j : Int)) = .ok (v, r)) :
    ∃ v2 r2, parseAndEvaluate sqrt g2 f ((i : Int), (j : Int)) = .ok (v2, r2) := by
  obtain ⟨cell, hc, _⟩ := h.cellAt_r1 hi hj
  obtain ⟨cell2, hc2, _⟩ := h2.cellAt_r1 (i := i) (j := j) (by rw [← hsz.1]; exact hi)
    (by rw [← hsz.2]; exact hj)
  rw [parseAndEvaluate_cell_r1 sqrt hi hj hc hne] at he
  cases hev : evalFormula sqrt g f with
  | error e => rw [hev] at he; cases he
  | ok p =>
    obtain ⟨v0, ds⟩ := p
    obtain ⟨v2, hv2⟩ := (evalFormula_transfer sqrt h h2 hsz f v0 ds hev).1
    rw [parseAndEvaluate_cell_r1 sqrt (by rw [← hsz.1]; exact hi) (by rw [← hsz.2]; exact hj)
      hc2 hne, hv2]
    exact ⟨v2, _, rfl⟩

theorem Tracked.step_ok_r1 (sqrt : Dbl → Dbl) {g0 g : Spreadsheet} (h0 : g0.WF)
    {log : Attempts} (hT : Tracked sqrt g0 g log) {i j : Nat} {cell : Cell} {nv : Dbl}
    {ds : Deps}
    (hget : g.getCell (i : Int) (j : Int) = .ok cell) (hne : cell.formula ≠ [])
    (hev : evalFormula sqrt g cell.formula = .ok (nv, ds))
    (log2 : Attempts) (hlog : ∀ x ∈ log, x ∈ log2)
    (hmem : (((i : Int), (j : Int)), true) ∈ log2) :
    Tracked sqrt g0 (g.assign i j { cell with dependentCells := ds, content := .double nv })
      log2 := by
  obtain ⟨hwf, hsz, hch, hfail⟩ := hT
  obtain ⟨hc, hi, hj⟩ := Spreadsheet.getCell_ok_cellAt_r1 hget
  have hw : Cell.WFAt { cell with dependentCells := ds, content := .double nv } i j :=
    (Spreadsheet.cellAt_some_wf_r1 hwf hc : cell.WFAt i j)
  have hpe : parseAndEvaluate sqrt g cell.formula ((i : Int), (j : Int))
      = .ok (nv, g.assign i j
          { cell with formula := cell.formula, dependentCells := ds, content := .double nv }) := by
    rw [parseAndEvaluate_cell_r1 sqrt hi hj hc hne, hev]
  refine ⟨hwf.assign_r1 hw, ?_, ?_, ?_⟩
  · exact ⟨by rw [Spreadsheet.getRowCount_assign_r1]; exact hsz.1,
      by rw [Spreadsheet.getColCount_assign_r1]; exact hsz.2⟩
  · intro i2 j2
    by_cases heq : i2 = i ∧ j2 = j
    · obtain ⟨rfl, rfl⟩ := heq
      exact Or.inr hmem
    · rw [Spreadsheet.cellAt_assign_ne_r1 _ _ _ _ _ _ heq]
      rcases hch i2 j2 with h1 | h1
      · exact Or.inl h1
      · exact Or.inr (hlog _ h1)
  · intro i2 j2 f c d hf0 hfl
    by_cases heq : i2 = i ∧ j2 = j
    · exfalso
      obtain ⟨rfl, rfl⟩ := heq
      have hsame := hfail i2 j2 f c d hf0 hfl
      rw [hc] at hsame
      rw [Spreadsheet.formulaAt_of_cell_r1 hsame.symm, if_neg hne] at hf0
      simp only [Option.some.injEq, Prod.mk.injEq] at hf0
      obtain ⟨rfl, _, _⟩ := hf0
      obtain ⟨v2, r2, hv2⟩ := parseAndEvaluate_ok_transfer sqrt hwf h0
        ⟨hsz.1.symm, hsz.2.symm⟩ hi hj hne hpe
      obtain ⟨e, he⟩ := hfl
      rw [hv2] at he
      cases he
    · rw [Spreadsheet.cellAt_assign_ne_r1 _ _ _ _ _ _ heq]
      exact hfail i2 j2 f c d hf0 hfl

theorem Tracked.mono_r1 (sqrt : Dbl → Dbl) {g0 g : Spreadsheet} {log log2 : Attempts}
    (hT : Tracked sqrt g0 g log) (hlog : ∀ x ∈ log, x ∈ log2) : Tracked sqrt g0 g log2 := by
  obtain ⟨hwf, hsz, hch, hfail⟩ := hT
  refine ⟨hwf, hsz, fun i j => ?_, hfail⟩
  rcases hch i j with h1 | h1
  · exact Or.inl h1
  · exact Or.inr (hlog _ h1)

theorem autoCalculateLog_tracked_r1 (sqrt : Dbl → Dbl) (g0 : Spreadsheet) (h0 : g0.WF)
    (fuel : Nat) (g : Spreadsheet) (log : Attempts) (c : Int × Int)
    (g2 : Spreadsheet) (log2 : Attempts) (hT : Tracked sqrt g0 g log)
    (h : autoCalculateLog sqrt fuel g log c = .ok (g2, log2)) :
    Tracked sqrt g0 g2 log2 :=
  autoCalculateLog_invariant_r1 sqrt (Tracked sqrt g0) (fun _ => True)
    (fun _ _ _ _ _ _ _ _ hI _ _ _ =>
      Tracked.mono_r1 sqrt hI (fun _ hx => List.mem_append_left _ hx))
    (fun _ _ _ _ _ _ _ _ _ hI hget hcond hev =>
      ⟨Tracked.step_ok_r1 sqrt h0 hI hget hcond.2.1 hev _
        (fun _ hx => List.mem_append_left _ hx)
        (List.mem_append_right _ (List.mem_singleton_self _)), trivial⟩)
    fuel g log c g2 log2 hT trivial h

theorem autoCalculateLog_mono_r1 (sqrt : Dbl → Dbl) (fuel : Nat) (g : Spreadsheet)
    (log : Attempts) (c : Int × Int) (g2 : Spreadsheet) (log2 : Attempts)
    (h : autoCalculateLog sqrt fuel g log c = .ok (g2, log2)) :
    ∀ x ∈ log, x ∈ log2 :=
  autoCalculateLog_invariant_r1 sqrt (fun _ l => ∀ x ∈ log, x ∈ l) (fun _ => True)
    (fun _ _ _ _ _ _ _ _ hI _ _ _ x hx => List.mem_append_left _ (hI x hx))
    (fun _ _ _ _ _ _ _ _ _ hI _ _ _ =>
      ⟨fun x hx => List.mem_append_left _ (hI x hx), trivial⟩)
    fuel g log c g2 log2 (fun _ hx => hx) trivial h

/-- In the loops of `autoCalculate(c)`, every cell of the starting grid that has
a formula starting with `=`, lists `c` and evaluates, is recorded as
recalculated once the loop has passed its position. -/
theorem autoCalculateLoopLog_attempts_r1 (sqrt : Dbl → Dbl) (g0 : Spreadsheet) (h0 : g0.WF)
    (n : Nat) (c : Int × Int) :
    ∀ (l : List (Nat × Nat)) (g : Spreadsheet) (log : Attempts)
      (g2 : Spreadsheet) (log2 : Attempts), Tracked sqrt g0 g log →
      autoCalculateLoopLog sqrt (autoCalculateLog sqrt n) c l (g, log) = .ok (g2, log2) →
      Tracked sqrt g0 g2 log2 ∧ (∀ x ∈ log, x ∈ log2) ∧
      ∀ p ∈ l, ∀ (f : Str) (ct : CellContent) (d : Deps),
        g0.formulaAt p.1 p.2 = some (f, ct, d) → c ∈ d → f.head? = some '=' →
        (∃ v2 r2, parseAndEvaluate sqrt g0 f ((p.1 : Int), (p.2 : Int)) = .ok (v2, r2)) →
        (((p.1 : Int), (p.2 : Int)), true) ∈ log2 := by
  intro l
  induction l with
  | nil =>
    intro g log g2 log2 hT h
    unfold autoCalculateLoopLog at h
    cases h
    exact ⟨hT, fun _ hx => hx, fun p hp => by cases hp⟩
  | cons p rest ih =>
    intro g log g2 log2 hT h
    obtain ⟨i, j⟩ := p
    have finish : ∀ (g1 : Spreadsheet) (log1 : Attempts),
        Tracked sqrt g0 g1 log1 → (∀ x ∈ log, x ∈ log1) →
        (∀ (f : Str) (ct : CellContent) (d : Deps), g0.formulaAt i j = some (f, ct, d) →
          c ∈ d → f.head? = some '=' →
          (∃ v2 r2, parseAndEvaluate sqrt g0 f ((i : Int), (j : Int)) = .ok (v2, r2)) →
          (((i : Int), (j : Int)), true) ∈ log1) →
        autoCalculateLoopLog sqrt (autoCalculateLog sqrt n) c rest (g1, log1)
          = .ok (g2, log2) →
        Tracked sqrt g0 g2 log2 ∧ (∀ x ∈ log, x ∈ log2) ∧
        ∀ p ∈ (i, j) :: rest, ∀ (f : Str) (ct : CellContent) (d : Deps),
          g0.formulaAt p.1 p.2 = some (f, ct, d) → c ∈ d → f.head? = some '=' →
          (∃ v2 r2, parseAndEvaluate sqrt g0 f ((p.1 : Int), (p.2 : Int)) = .ok (v2, r2)) →
          (((p.1 : Int), (p.2 : Int)), true) ∈ log2 := by
      intro g1 log1 hT1 hsub hhead hrest
      obtain ⟨hT2, hsub2, hall⟩ := ih g1 log1 g2 log2 hT1 hrest
      refine ⟨hT2, fun x hx => hsub2 x (hsub x hx), ?_⟩
      intro p hp f ct d hf hc hh hev
      rcases List.mem_cons.1 hp with rfl | hp
      · exact hsub2 _ (hhead f ct d hf hc hh hev)
      · exact hall p hp f ct d hf hc hh hev
    unfold autoCalculateLoopLog at h
    cases hget : g.getCell i j with
    | error e => rw [hget] at h; cases h
    | ok cell =>
      rw [hget] at h
      simp only at h
      obtain ⟨hcell, hi, hj⟩ := Spreadsheet.getCell_ok_cellAt_r1 hget
      have unchanged : ∀ (f : Str) (ct : CellContent) (d : Deps),
          g0.formulaAt i j = some (f, ct, d) → g.cellAt i j = g0.cellAt i j →
          cell.formula = f ∧ cell.dependentCells = d := by
        intro f ct d hf hsame
        rw [hcell] at hsame
        rw [Spreadsheet.formulaAt_of_cell_r1 hsame.symm] at hf
        by_cases hne : cell.formula = []
        · rw [if_pos hne] at hf; cases hf
        · rw [if_neg hne] at hf
          simp only [Option.some.injEq, Prod.mk.injEq] at hf
          exact ⟨hf.1, hf.2.2⟩
      by_cases hcond : c ∈ cell.dependentCells ∧ cell.formula ≠ [] ∧
          cell.formula.head? = some '='
      · rw [if_pos hcond] at h
        cases hpe : parseAndEvaluate sqrt g cell.formula ((i : Int), (j : Int)) with
        | error e =>
          rw [hpe] at h
          simp only at h
          by_cases he : e.isException = true
          · rw [if_pos he] at h
            refine finish g _ (Tracked.mono_r1 sqrt hT
              (fun x hx => List.mem_append_left _ hx))
              (fun x hx => List.mem_append_left _ hx) ?_ h
            intro f ct d hf _ _ hev
            rcases hT.2.2.1 i j with hsame | hlogged
            · exfalso
              obtain ⟨rfl, _⟩ := unchanged f ct d hf hsame
              obtain ⟨v2, r2, hv2⟩ := hev
              obtain ⟨v3, r3, hv3⟩ := parseAndEvaluate_ok_transfer sqrt h0 hT.1 hT.2.1
                (by rw [hT.2.1.1]; exact hi) (by rw [hT.2.1.2]; exact hj) hcond.2.1 hv2
              rw [hv3] at hpe
              cases hpe
            · exact List.mem_append_left _ hlogged
          · rw [if_neg he] at h; cases h
        | ok r =>
          obtain ⟨nv, g1⟩ := r
          rw [hpe] at h
          simp only at h
          obtain ⟨ds, hev, hstate⟩ := reeval_state sqrt hget hcond.2.1 hpe
          rw [hstate] at h
          cases hr : autoCalculateLog sqrt n
              (g.assign i j { cell with dependentCells := ds, content := .double nv })
              (log ++ [(((i : Int), (j : Int)), true)]) ((i : Int), (j : Int)) with
          | error e => rw [hr] at h; cases h
          | ok s =>
            obtain ⟨g3, log3⟩ := s
            rw [hr] at h
            have hT1 := Tracked.step_ok_r1 sqrt h0 hT hget hcond.2.1 hev
              (log ++ [(((i : Int), (j : Int)), true)])
              (fun x hx => List.mem_append_left _ hx)
              (List.mem_append_right _ (List.mem_singleton_self _))
            have hmono := autoCalculateLog_mono_r1 sqrt n _ _ _ _ _ hr
            refine finish g3 log3
              (autoCalculateLog_tracked_r1 sqrt g0 h0 n _ _ _ _ _ hT1 hr)
              (fun x hx => hmono x (List.mem_append_left _ hx)) ?_ h
            intro _ _ _ _ _ _ _
            exact hmono _ (List.mem_append_right _ (List.mem_singleton_self _))
      · rw [if_neg hcond] at h
        refine finish g log hT (fun x hx => hx) ?_ h
        intro f ct d hf hc hh _
        rcases hT.2.2.1 i j with hsame | hlogged
        · exfalso
          obtain ⟨rfl, rfl⟩ := unchanged f ct d hf hsame
          apply hcond
          refine ⟨hc, ?_, hh⟩
          intro hnil
          rw [hnil] at hh
          cases hh
        · exact hlogged

end Rev1

namespace Rev2

theorem Tracked.start (sqrt : Dbl → Dbl) {g : Spreadsheet} (hw : g.WF) : Tracked sqrt g g [] :=
  ⟨hw, ⟨rfl, rfl⟩, fun _ _ => Or.inl rfl, fun _ _ _ _ _ _ _ => rfl⟩

/-- What the record of `autoCalculate(c)` on a well-formed grid holds: the
formula cells whose formula fails to evaluate are unchanged, and each formula
cell that lists `c` and evaluates is recorded as recalculated. -/
theorem autoCalculateLog_attempts (sqrt : Dbl → Dbl) (g : Spreadsheet) (hw : g.WF)
    (fuel : Nat) (visited : Visited) (c : Int × Int) (hv : c ∉ visited)
    (g2 : Spreadsheet) (visited2 : Visited) (log2 : Attempts)
    (h : autoCalculateLog sqrt fuel g visited [] c = .ok (g2, visited2, log2)) :
    (∀ (i j : Nat) (f : Str) (v : Dbl) (d : Deps), g.formulaAt i j = some (f, v, d) →
      (∃ e, parseAndEvaluate sqrt g f ((i : Int), (j : Int)) [] = .error e) →
      g2.cellAt i j = g.cellAt i j) ∧
    ∀ (i j : Nat) (f : Str) (v : Dbl) (d : Deps), g.formulaAt i j = some (f, v, d) →
      c ∈ d → f.head? = some '=' →
      (∃ v2 ds, parseAndEvaluate sqrt g f ((i : Int), (j : Int)) [] = .ok (v2, ds)) →
      (((i : Int), (j : Int)), true) ∈ log2 := by
  have hT := autoCalculateLog_tracked sqrt g hw fuel g visited [] c g2 visited2 log2
    (Tracked.start sqrt hw) h
  refine ⟨hT.2.2.2, ?_⟩
  cases fuel with
  | zero => cases h
  | succ n =>
    unfold autoCalculateLog at h
    rw [if_neg hv] at h
    cases hl : autoCalculateLoopLog sqrt (autoCalculateLog sqrt n) c
        (gridIndices g.getRowCount g.getColCount) (g, stdSetInsert c visited, []) with
    | error e => rw [hl] at h; cases h
    | ok s =>
      obtain ⟨g3, visited3, log3⟩ := s
      rw [hl] at h
      simp only [Except.ok.injEq, Prod.mk.injEq] at h
      obtain ⟨_, _, rfl⟩ := h
      obtain ⟨_, _, hall⟩ := autoCalculateLoopLog_attempts sqrt g hw n c _ g _ [] g3 visited3
        log3 (Tracked.start sqrt hw) hl
      intro i j f v d hf hc hh hev
      have hlt := Spreadsheet.formulaAt_some_lt hw hf
      exact hall (i, j) ((mem_gridIndices _ _ _ _).2 hlt) f v d hf hc hh hev

end Rev2

namespace Rev1

theorem Tracked.start_r1 (sqrt : Dbl → Dbl) {g : Spreadsheet} (hw : g.WF) :
    Tracked sqrt g g [] :=
  ⟨hw, ⟨rfl, rfl⟩, fun _ _ => Or.inl rfl, fun _ _ _ _ _ _ _ => rfl⟩

/-- What the record of `autoCalculate(c)` on a well-formed grid holds: the
cells whose formula fails to evaluate are unchanged, and each cell with a
formula that lists `c` and evaluates is recorded as recalculated. -/
theorem autoCalculateLog_attempts_r1 (sqrt : Dbl → Dbl) (g : Spreadsheet) (hw : g.WF)
    (fuel : Nat) (c : Int × Int) (g2 : Spreadsheet) (log2 : Attempts)
    (h : autoCalculateLog sqrt fuel g [] c = .ok (g2, log2)) :
    (∀ (i j : Nat) (f : Str) (ct : CellContent) (d : Deps),
      g.formulaAt i j = some (f, ct, d) →
      (∃ e, parseAndEvaluate sqrt g f ((i : Int), (j : Int)) = .error e) →
      g2.cellAt i j = g.cellAt i j) ∧
    ∀ (i j : Nat) (f : Str) (ct : CellContent) (d : Deps),
      g.formulaAt i j = some (f, ct, d) → c ∈ d → f.head? = some '=' →
      (∃ v2 r2, parseAndEvaluate sqrt g f ((i : Int), (j : Int)) = .ok (v2, r2)) →
      (((i : Int), (j : Int)), true) ∈ log2 := by
  have hT := autoCalculateLog_tracked_r1 sqrt g hw fuel g [] c g2 log2
    (Tracked.start_r1 sqrt hw) h
  refine ⟨hT.2.2.2, ?_⟩
  cases fuel with
  | zero => cases h
  | succ n =>
    unfold autoCalculateLog at h
    obtain ⟨_, _, hall⟩ := autoCalculateLoopLog_attempts_r1 sqrt g hw n c _ g [] g2 log2
      (Tracked.start_r1 sqrt hw) h
    intro i j f ct d hf hc hh hev
    obtain ⟨hi, hj, _⟩ := Spreadsheet.formulaAt_some_r1 hw hf
    exact hall (i, j) ((mem_gridIndices _ _ _ _).2 ⟨hi, hj⟩) f ct d hf hc hh hev

theorem autoCalculateLoop_no_exception (sqrt : Dbl → Dbl)
    (recurse : Spreadsheet → Int × Int → Except Err Spreadsheet) (G : Spreadsheet)
    (c : Int × Int)
    (hrec : ∀ g p, g.WF → SameSize G g →
      (∀ e, recurse g p = .error e → e.isException = false) ∧
      ∀ g2, recurse g p = .ok g2 → g2.WF ∧ SameSize G g2) :
    ∀ (l : List (Nat × Nat)), (∀ p ∈ l, p.1 < G.getRowCount ∧ p.2 < G.getColCount) →
      ∀ g, g.WF → SameSize G g →
        (∀ e, autoCalculateLoop sqrt recurse c l g = .error e → e.isException = false) ∧
        ∀ g2, autoCalculateLoop sqrt recurse c l g = .ok g2 → g2.WF ∧ SameSize G g2 := by
  intro l
  induction l with
  | nil =>
    intro _ g hw hs
    unfold autoCalculateLoop
    exact ⟨fun e h => (by cases h), fun g2 h => (by cases h; exact ⟨hw, hs⟩)⟩
  | cons p rest ih =>
    intro hl g hw hs
    obtain ⟨i, j⟩ := p
    have hp := hl (i, j) (by simp)
    have ih' := ih (fun q hq => hl q (List.mem_cons_of_mem _ hq))
    have hi : i < g.getRowCount := by rw [← hs.1]; exact hp.1
    have hj : j < g.getColCount := by rw [← hs.2]; exact hp.2
    obtain ⟨cell, hcell, hwc⟩ := hw.cellAt_r1 hi hj
    have hget : g.getCell (i : Int) (j : Int) = .ok cell :=
      Spreadsheet.getCell_eq_r1 hi hj hcell
    unfold autoCalculateLoop
    rw [hget]
    simp only
    by_cases hcond : c ∈ cell.dependentCells ∧ cell.formula ≠ [] ∧
        cell.formula.head? = some '='
    · rw [if_pos hcond]
      cases hpe : parseAndEvaluate sqrt g cell.formula ((i : Int), (j : Int)) with
      | error e =>
        simp only
        by_cases he : e.isException = true
        · rw [if_pos he]
          exact ih' g hw hs
        · rw [if_neg he]
          refine ⟨fun e2 h => ?_, fun g2 h => (by cases h)⟩
          cases h
          simpa using he
      | ok r =>
        obtain ⟨nv, g1⟩ := r
        simp only
        obtain ⟨ds, _, hstate⟩ := reeval_state sqrt hget hcond.2.1 hpe
        rw [hstate]
        have hw1 : (g.assign i j { cell with dependentCells := ds, content := .double nv }).WF :=
          hw.assign_r1 (⟨hwc.1, hwc.2.1, hwc.2.2⟩ :
            Cell.WFAt { cell with dependentCells := ds, content := .double nv } i j)
        have hs1 : SameSize G
            (g.assign i j { cell with dependentCells := ds, content := .double nv }) :=
          ⟨by rw [Spreadsheet.getRowCount_assign_r1]; exact hs.1,
           by rw [Spreadsheet.getColCount_assign_r1]; exact hs.2⟩
        obtain ⟨hre, hro⟩ := hrec _ ((i : Int), (j : Int)) hw1 hs1
        cases hr : recurse (g.assign i j { cell with dependentCells := ds, content := .double nv })
            ((i : Int), (j : Int)) with
        | error e =>
          simp only
          refine ⟨fun e2 h => ?_, fun g2 h => (by cases h)⟩
          cases h
          exact hre e hr
        | ok g3 =>
          simp only
          obtain ⟨hw3, hs3⟩ := hro g3 hr
          exact ih' g3 hw3 hs3
    · rw [if_neg hcond]
      exact ih' g hw hs

/-- No exception leaves `autoCalculate` on a well-formed grid: the function
returns a well-formed grid of the same size, or the recursion does not end. -/
theorem autoCalculate_no_exception (sqrt : Dbl → Dbl) :
    ∀ (fuel : Nat) (G g : Spreadsheet) (c : Int × Int), g.WF → SameSize G g →
      (∀ e, autoCalculate sqrt fuel g c = .error e → e.isException = false) ∧
      ∀ g2, autoCalculate sqrt fuel g c = .ok g2 → g2.WF ∧ SameSize G g2 := by
  intro fuel
  induction fuel with
  | zero =>
    intro G g c _ _
    unfold autoCalculate
    exact ⟨fun e h => (by cases h; rfl), fun g2 h => (by cases h)⟩
  | succ n ih =>
    intro G g c hw hs
    unfold autoCalculate
    refine autoCalculateLoop_no_exception sqrt (autoCalculate sqrt n) G c
      (fun g2 p hw2 hs2 => ih G g2 p hw2 hs2) _ ?_ g hw hs
    intro p hp
    rw [← hs.1, ← hs.2] at hp
    exact (mem_gridIndices _ _ _ _).1 hp

end Rev1

namespace Rev1

theorem noUB_getCell_r1 {g : Spreadsheet} (h : g.WF) (r c : Int) :
    NoUB (g.getCell r c) := by
  unfold Spreadsheet.getCell
  split
  · rename_i hlt
    obtain ⟨cell, hcell, _⟩ := h.cellAt_r1 (i := r.toNat) (j := c.toNat) (by omega) (by omega)
    rw [hcell]
    exact noUB_ok _
  · exact noUB_error rfl

theorem noUB_getCells_r1 {g : Spreadsheet} (h : g.WF) (idx : List (Int × Int))
    (hidx : ∀ p ∈ idx, 0 ≤ p.1 ∧ 0 ≤ p.2) : NoUB (g.getCells idx) := by
  induction idx with
  | nil => exact noUB_ok _
  | cons p rest ih =>
    obtain ⟨i, j⟩ := p
    have hp := hidx (i, j) (by simp)
    have ih' := ih (fun q hq => hidx q (List.mem_cons_of_mem _ hq))
    unfold Spreadsheet.getCells
    split
    · rename_i e he
      exact noUB_error (noUB_getCell_r1 h i j e he)
    · split
      · rename_i e he
        exact noUB_error (ih' e he)
      · exact noUB_ok _

theorem rangeIndices_nonneg_r1 (colCount : Nat) (startPos endPos : Int × Int)
    (h1 : 0 ≤ startPos.1) (h2 : 0 ≤ startPos.2) (h3 : 0 ≤ endPos.1) (h4 : 0 ≤ endPos.2) :
    ∀ p ∈ Spreadsheet.rangeIndices colCount startPos endPos, 0 ≤ p.1 ∧ 0 ≤ p.2 := by
  intro p hp
  unfold Spreadsheet.rangeIndices at hp
  simp only [List.mem_flatMap, List.mem_map, mem_intRange] at hp
  obtain ⟨row, hrow, col, hcol, rfl⟩ := hp
  refine ⟨?_, ?_⟩
  · simp only
    split at hrow <;> omega
  · simp only
    obtain ⟨hc1, _⟩ := hcol
    split at hc1
    · split at hc1 <;> omega
    · omega

theorem noUB_SUM_r1 {g : Spreadsheet} (h : g.WF) (startPos endPos : Int × Int) (deps : Deps)
    (h1 : 0 ≤ startPos.1) (h2 : 0 ≤ startPos.2) (h3 : 0 ≤ endPos.1) (h4 : 0 ≤ endPos.2) :
    NoUB (SUM g startPos endPos deps) := by
  unfold SUM
  split
  · rename_i e he
    exact noUB_error (noUB_getCells_r1 h _ (rangeIndices_nonneg_r1 _ _ _ h1 h2 h3 h4) e he)
  · exact noUB_ok _

theorem noUB_AVER_r1 {g : Spreadsheet} (h : g.WF) (startPos endPos : Int × Int) (deps : Deps)
    (h1 : 0 ≤ startPos.1) (h2 : 0 ≤ startPos.2) (h3 : 0 ≤ endPos.1) (h4 : 0 ≤ endPos.2) :
    NoUB (AVER g startPos endPos deps) := by
  unfold AVER
  split
  · rename_i e he
    exact noUB_error (noUB_getCells_r1 h _ (rangeIndices_nonneg_r1 _ _ _ h1 h2 h3 h4) e he)
  · split
    · exact noUB_ok _
    · simp only
      split <;> exact noUB_ok _

theorem noUB_STDDEV_r1 (sqrt : Dbl → Dbl) {g : Spreadsheet} (h : g.WF) (startPos endPos : Int × Int)
    (deps : Deps) (h1 : 0 ≤ startPos.1) (h2 : 0 ≤ startPos.2) :
    NoUB (STDDEV sqrt g startPos endPos deps) := by
  unfold STDDEV
  simp only
  split
  · rename_i e he
    exact noUB_error (noUB_getCells_r1 h _ (rectIndices_nonneg _ _ h1 h2) e he)
  · split <;> exact noUB_ok _

theorem noUB_MAX_r1 {g : Spreadsheet} (h : g.WF) (startPos endPos : Int × Int)
    (deps : Deps) (h1 : 0 ≤ startPos.1) (h2 : 0 ≤ startPos.2) :
    NoUB (MAX g startPos endPos deps) := by
  unfold MAX
  simp only
  split
  · rename_i e he
    exact noUB_error (noUB_getCells_r1 h _ (rectIndices_nonneg _ _ h1 h2) e he)
  · exact noUB_ok _

theorem noUB_MIN_r1 {g : Spreadsheet} (h : g.WF) (startPos endPos : Int × Int)
    (deps : Deps) (h1 : 0 ≤ startPos.1) (h2 : 0 ≤ startPos.2) :
    NoUB (MIN g startPos endPos deps) := by
  unfold MIN
  simp only
  split
  · rename_i e he
    exact noUB_error (noUB_getCells_r1 h _ (rectIndices_nonneg _ _ h1 h2) e he)
  · exact noUB_ok _

theorem noUB_getCellReference_r1 {g : Spreadsheet} (h : g.WF) (token : Str) :
    NoUB (getCellReference g token) := by
  rw [getCellReference_eq_r1 h]
  exact noUB_ok _

theorem noUB_isValidRange_r1 {g : Spreadsheet} (h : g.WF) (range : Str) :
    NoUB (isValidRange g range) := by
  unfold isValidRange
  simp only
  split
  · exact noUB_ok _
  · refine noUB_bind (noUB_substr _ _ _) (fun startCell _ => ?_)
    refine noUB_bind (noUB_substr _ _ _) (fun endCell _ => ?_)
    refine noUB_bind (noUB_getCellReference_r1 h _) (fun s _ => ?_)
    split
    · exact noUB_bind (noUB_getCellReference_r1 h _) (fun e _ => noUB_pure _)
    · exact noUB_pure _

theorem noUB_getFunctionType_r1 {g : Spreadsheet} (h : g.WF) (token : Str) :
    NoUB (getFunctionType g token) := by
  unfold getFunctionType
  simp only
  split
  · refine noUB_bind (noUB_substr _ _ _) (fun range _ => ?_)
    refine noUB_bind (noUB_isValidRange_r1 h _) (fun b _ => ?_)
    split
    · refine noUB_bind (noUB_substr _ _ _) (fun funcName _ => ?_)
      repeat' split
      all_goals exact noUB_pure _
    · exact noUB_pure _
  · exact noUB_ok _

theorem noUB_evaluateSingleToken_r1 (sqrt : Dbl → Dbl) {g : Spreadsheet} (h : g.WF)
    (singleToken : Str) (deps : Deps) : NoUB (evaluateSingleToken sqrt g singleToken deps) := by
  unfold evaluateSingleToken
  rw [getCellReference_eq_r1 h]
  simp only [bind, Except.bind]
  split
  · rename_i hne
    have hnn := labelLookup_nonneg _ _ _ hne
    have := noUB_getCell_r1 h
      (labelLookup g.getRowCount g.getColCount (removeSpaces singleToken)).1
      (labelLookup g.getRowCount g.getColCount (removeSpaces singleToken)).2
    cases hc : g.getCell (labelLookup g.getRowCount g.getColCount (removeSpaces singleToken)).1
        (labelLookup g.getRowCount g.getColCount (removeSpaces singleToken)).2 with
    | error e => exact noUB_error (this e hc)
    | ok cell => exact noUB_pure _
  · cases hf : getFunctionType g singleToken with
    | error e => exact noUB_error (noUB_getFunctionType_r1 h singleToken e hf)
    | ok func =>
      simp only
      split
      · cases hs1 : substr singleToken ((findChar singleToken '(' + 1) % 2 ^ 64)
            ((findChar singleToken ')' + 2 ^ 64 - findChar singleToken '(' + 2 ^ 64 - 1) % 2 ^ 64)
          with
        | error e => exact noUB_error (noUB_substr _ _ _ e hs1)
        | ok range =>
          simp only
          cases hs2 : substr range 0 (intToSize (sizeToInt (findStr range "..".toList))) with
          | error e => exact noUB_error (noUB_substr _ _ _ e hs2)
          | ok startCell =>
            simp only
            cases hs3 : substr range (intToSize (sizeToInt (findStr range "..".toList) + 2)) npos
              with
            | error e => exact noUB_error (noUB_substr _ _ _ e hs3)
            | ok endCell =>
              simp only
              rw [getCellReference_eq_r1 h, getCellReference_eq_r1 h]
              simp only
              split
              · exact noUB_throw rfl
              · rename_i hpos
                have hpos' := not_or.1 hpos
                have hs := labelLookup_nonneg _ _ _ hpos'.1
                have he := labelLookup_nonneg _ _ _ hpos'.2
                split
                · exact noUB_SUM_r1 h _ _ _ hs.1 hs.2 he.1 he.2
                · exact noUB_AVER_r1 h _ _ _ hs.1 hs.2 he.1 he.2
                · exact noUB_STDDEV_r1 sqrt h _ _ _ hs.1 hs.2
                · exact noUB_MAX_r1 h _ _ _ hs.1 hs.2
                · exact noUB_MIN_r1 h _ _ _ hs.1 hs.2
                · exact noUB_pure _
      · split
        · split
          · exact noUB_pure _
          · split
            · exact noUB_throw rfl
            · rename_i hst hni
              exact noUB_throw (noUB_stod _ _ hst)
        · exact noUB_throw rfl

theorem noUB_parseAndEvaluate_r1 (sqrt : Dbl → Dbl) {g : Spreadsheet} (h : g.WF)
    (formula : Str) (coordinates : Int × Int) :
    NoUB (parseAndEvaluate sqrt g formula coordinates) := by
  unfold parseAndEvaluate
  split
  · exact noUB_ok _
  · split
    · rename_i e he
      exact noUB_error (noUB_parsePlusAndMinus _ e he)
    · split
      · exact noUB_ok _
      · split
        · rename_i e he
          exact noUB_error (noUB_parseAndEvaluateLoop _
            (fun t deps => noUB_evaluateSingleToken_r1 sqrt h t deps) _ _ _ _ e he)
        · split
          · rename_i e he
            exact noUB_error (noUB_getCell_r1 h _ _ e he)
          · exact noUB_ok _

end Rev1

namespace Rev1

theorem Within.initial {sqrt : Dbl → Dbl} {g : Spreadsheet} (hw : g.WF) : Within sqrt g g :=
  ⟨hw, ⟨rfl, rfl⟩, fun _ _ cell hc => ⟨cell, hc, rfl, Or.inl rfl⟩⟩

theorem Within.mayDepend {sqrt : Dbl → Dbl} {g0 g : Spreadsheet} (h : Within sqrt g0 g)
    {i j : Nat} {cell : Cell} (hc : g.cellAt i j = some cell) (hne : cell.formula ≠ [])
    {c : Int × Int} (hmem : c ∈ cell.dependentCells) :
    MayDepend sqrt g0 c ((i : Int), (j : Int)) := by
  obtain ⟨cell0, hc0, hf, hd⟩ := h.2.2 i j cell hc
  have hf0 : g0.formulaAt i j = some (cell0.formula, cell0.content, cell0.dependentCells) := by
    rw [Spreadsheet.formulaAt_of_cell_r1 hc0, if_neg (by rw [← hf]; exact hne)]
  rcases hd with hd | ⟨v, hv⟩
  · exact Or.inl (dependsOn_iff_r1.2 ⟨_, _, _, hf0, by rw [← hd]; exact hmem⟩)
  · exact Or.inr (reads_iff_r1.2 ⟨_, _, _, v, _, hf0, hv, hmem⟩)

theorem Within.step {sqrt : Dbl → Dbl} {g0 g : Spreadsheet} (h0 : g0.WF)
    (h : Within sqrt g0 g) {i j : Nat} {cell : Cell} (hc : g.cellAt i j = some cell)
    {nv : Dbl} {ds : Deps} (hev : evalFormula sqrt g cell.formula = .ok (nv, ds)) :
    Within sqrt g0 (g.assign i j { cell with dependentCells := ds, content := .double nv }) := by
  obtain ⟨hw, hs, hcells⟩ := h
  have hwc : Cell.WFAt { cell with dependentCells := ds, content := .double nv } i j :=
    (Spreadsheet.cellAt_some_wf_r1 hw hc : cell.WFAt i j)
  refine ⟨hw.assign_r1 hwc, ⟨by rw [Spreadsheet.getRowCount_assign_r1]; exact hs.1,
    by rw [Spreadsheet.getColCount_assign_r1]; exact hs.2⟩, ?_⟩
  intro i2 j2 cell2 hc2
  by_cases heq : i2 = i ∧ j2 = j
  · obtain ⟨rfl, rfl⟩ := heq
    rw [Spreadsheet.cellAt_assign_same hc] at hc2
    cases hc2
    obtain ⟨cell0, hc0, hf, _⟩ := hcells i2 j2 cell hc
    obtain ⟨v2, hv2⟩ := (evalFormula_transfer sqrt hw h0 ⟨hs.1.symm, hs.2.symm⟩ _ _ _ hev).1
    refine ⟨cell0, hc0, hf, Or.inr ⟨v2, ?_⟩⟩
    rw [← hf]
    exact hv2
  · rw [Spreadsheet.cellAt_assign_ne_r1 _ _ _ _ _ _ heq] at hc2
    exact hcells i2 j2 cell2 hc2

theorem autoCalculateLoop_returns_r1 (sqrt : Dbl → Dbl) {G : Spreadsheet} (hG : G.WF)
    (recurse : Spreadsheet → Int × Int → Except Err Spreadsheet) (c : Int × Int)
    (hrec : ∀ g (i j : Nat), Within sqrt G g → MayDepend sqrt G c ((i : Int), (j : Int)) →
      ∃ g2, recurse g ((i : Int), (j : Int)) = .ok g2 ∧ Within sqrt G g2) :
    ∀ (l : List (Nat × Nat)), (∀ p ∈ l, p.1 < G.getRowCount ∧ p.2 < G.getColCount) →
      ∀ g, Within sqrt G g →
        ∃ g2, autoCalculateLoop sqrt recurse c l g = .ok g2 ∧ Within sqrt G g2 := by
  intro l
  induction l with
  | nil =>
    intro _ g hg
    exact ⟨g, rfl, hg⟩
  | cons p rest ih =>
    intro hl g hg
    obtain ⟨i, j⟩ := p
    have hp := hl (i, j) (by simp)
    have ih' := ih (fun q hq => hl q (List.mem_cons_of_mem _ hq))
    have hi : i < g.getRowCount := by rw [← hg.2.1.1]; exact hp.1
    have hj : j < g.getColCount := by rw [← hg.2.1.2]; exact hp.2
    obtain ⟨cell, hcell, _⟩ := hg.1.cellAt_r1 hi hj
    have hget : g.getCell (i : Int) (j : Int) = .ok cell :=
      Spreadsheet.getCell_eq_r1 hi hj hcell
    unfold autoCalculateLoop
    rw [hget]
    simp only
    by_cases hcond : c ∈ cell.dependentCells ∧ cell.formula ≠ [] ∧
        cell.formula.head? = some '='
    · rw [if_pos hcond]
      cases hpe : parseAndEvaluate sqrt g cell.formula ((i : Int), (j : Int)) with
      | error e =>
        simp only
        rw [if_pos (noUB_parseAndEvaluate_r1 sqrt hg.1 _ _ e hpe)]
        exact ih' g hg
      | ok r =>
        obtain ⟨nv, g1⟩ := r
        simp only
        obtain ⟨ds, hev, hstate⟩ := reeval_state sqrt hget hcond.2.1 hpe
        rw [hstate]
        obtain ⟨g2, hr, hg2⟩ := hrec _ i j (Within.step hG hg hcell hev)
          (Within.mayDepend hg hcell hcond.2.1 hcond.1)
        rw [hr]
        exact ih' g2 hg2
    · rw [if_neg hcond]
      exact ih' g hg

theorem mayDepend_lt {sqrt : Dbl → Dbl} {G : Spreadsheet} (hG : G.WF) {p q : Int × Int}
    (h : MayDepend sqrt G p q) :
    ∃ i j : Nat, i < G.getRowCount ∧ j < G.getColCount ∧ q = ((i : Int), (j : Int)) := by
  rcases h with ⟨i, j, f, ct, d, rfl, hf, _⟩ | ⟨i, j, f, ct, d, _, _, rfl, hf, _, _⟩
  · obtain ⟨hi, hj, _⟩ := Spreadsheet.formulaAt_some_r1 hG hf
    exact ⟨i, j, hi, hj, rfl⟩
  · obtain ⟨hi, hj, _⟩ := Spreadsheet.formulaAt_some_r1 hG hf
    exact ⟨i, j, hi, hj, rfl⟩

/-- Termination in the first revision: on a well-formed grid in which no cell
may depend on itself through other cells, `autoCalculate` returns once the fuel
exceeds the number of cells that are not among the callers. -/
theorem autoCalculate_returns_r1 (sqrt : Dbl → Dbl) {G : Spreadsheet} (hG : G.WF)
    (hac : ∀ p, ¬ Relation.TransGen (MayDepend sqrt G) p p) :
    ∀ (fuel : Nat) (g : Spreadsheet) (ancestors : Deps) (c : Int × Int),
      Within sqrt G g →
      (∀ v ∈ ancestors, Relation.TransGen (MayDepend sqrt G) v c) →
      (notVisited G.getRowCount G.getColCount ancestors + 2 ≤ fuel ∨
        (notVisited G.getRowCount G.getColCount ancestors + 1 ≤ fuel ∧
          ∃ i j : Nat, i < G.getRowCount ∧ j < G.getColCount ∧ c = ((i : Int), (j : Int)))) →
      ∃ g2, autoCalculate sqrt fuel g c = .ok g2 ∧ Within sqrt G g2 := by
  intro fuel
  induction fuel with
  | zero =>
    intro g ancestors c _ _ hfuel
    omega
  | succ n ih =>
    intro g ancestors c hg hanc hfuel
    have hv : c ∉ ancestors := fun hmem => hac c (hanc c hmem)
    unfold autoCalculate
    have hn : notVisited G.getRowCount G.getColCount (stdSetInsert c ancestors) + 1 ≤ n := by
      rcases hfuel with h | ⟨h, i, j, hi, hj, rfl⟩
      · have := notVisited_insert_le G.getRowCount G.getColCount c ancestors
        omega
      · have := notVisited_insert_lt G.getRowCount G.getColCount i j ancestors hi hj hv
        omega
    have hrec : ∀ g (i j : Nat), Within sqrt G g → MayDepend sqrt G c ((i : Int), (j : Int)) →
        ∃ g2, autoCalculate sqrt n g ((i : Int), (j : Int)) = .ok g2 ∧ Within sqrt G g2 := by
      intro g2 i j hg2 hdep
      obtain ⟨i2, j2, hlt1, hlt2, hq⟩ := mayDepend_lt hG hdep
      simp only [Prod.mk.injEq, Nat.cast_inj] at hq
      obtain ⟨rfl, rfl⟩ := hq
      refine ih g2 (stdSetInsert c ancestors) _ hg2 ?_ (Or.inr ⟨hn, i, j, hlt1, hlt2, rfl⟩)
      intro x hx
      rcases (mem_stdSetInsert _ _ _).1 hx with rfl | hx
      · exact Relation.TransGen.single hdep
      · exact Relation.TransGen.tail (hanc x hx) hdep
    refine autoCalculateLoop_returns_r1 sqrt hG (autoCalculate sqrt n) c hrec _ ?_ g hg
    intro p hp
    rw [← hg.2.1.1, ← hg.2.1.2] at hp
    exact (mem_gridIndices _ _ _ _).1 hp

theorem mayDepend_acyclic_of_forwardReadsB {sqrt : Dbl → Dbl} {g : Spreadsheet} (hw : g.WF)
    (h : forwardReadsB sqrt g = true) : ∀ p, ¬ Relation.TransGen (MayDepend sqrt g) p p := by
  have hstep : ∀ p q, MayDepend sqrt g p q → p.1 < q.1 ∨ (p.1 = q.1 ∧ p.2 < q.2) := by
    intro p q hpq
    rcases hpq with ⟨i, j, f, c, d, rfl, hf, hp⟩ | ⟨i, j, f, c, d, v, ds, rfl, hf, hev, hp⟩
    · obtain ⟨hi, hj, _⟩ := Spreadsheet.formulaAt_some_r1 hw hf
      have hij := (List.all_eq_true.1 h) (i, j) ((mem_gridIndices _ _ _ _).2 ⟨hi, hj⟩)
      simp only [hf, Bool.and_eq_true, List.all_eq_true, decide_eq_true_eq] at hij
      exact hij.1 p hp
    · obtain ⟨hi, hj, _⟩ := Spreadsheet.formulaAt_some_r1 hw hf
      have hij := (List.all_eq_true.1 h) (i, j) ((mem_gridIndices _ _ _ _).2 ⟨hi, hj⟩)
      simp only [hf, hev, Bool.and_eq_true, List.all_eq_true, decide_eq_true_eq] at hij
      exact hij.2 p hp
  have htrans : ∀ p q, Relation.TransGen (MayDepend sqrt g) p q →
      p.1 < q.1 ∨ (p.1 = q.1 ∧ p.2 < q.2) := by
    intro p q hpq
    induction hpq with
    | single h1 => exact hstep _ _ h1
    | tail _ h2 ih =>
      have := hstep _ _ h2
      omega
  intro p hp
  have := htrans p p hp
  omega

end Rev1

/-- C28: a failed re-evaluation during `autoCalculate(c)` is skipped. On a
well-formed grid the call returns: in the second revision always (for `c` not
in the in-progress set), in the first revision when no cell may depend on itself
through other cells; and in the first revision no exception leaves
`autoCalculate` on any well-formed grid.  In the result every cell whose formula
fails to evaluate is as it was before, value and dependency list included; and
for every cell with a formula starting with `=` that lists `c` and evaluates,
`parseAndEvaluate` was called and returned (the record of the run holds the cell
with `true`). -/
theorem C28_failed_recalculation_is_skipped (sqrt : Dbl → Dbl)
    (g1 : Rev1.Spreadsheet) (g2 : Rev2.Spreadsheet) (c : Int × Int) (fuel : Nat)
    (visited : Rev2.Visited)
    (hw1 : g1.WF) (hac1 : ∀ p, ¬ Relation.TransGen (Rev1.MayDepend sqrt g1) p p)
    (hfuel1 : g1.getRowCount * g1.getColCount + 2 ≤ fuel)
    (hw2 : g2.WF) (hv : c ∉ visited) (hfuel2 : g2.getRowCount * g2.getColCount + 2 ≤ fuel) :
    ((∀ fuel2 e, Rev1.autoCalculate sqrt fuel2 g1 c = .error e → e.isException = false) ∧
      ∃ r1 log, Rev1.autoCalculate sqrt fuel g1 c = .ok r1 ∧
        Rev1.autoCalculateLog sqrt fuel g1 [] c = .ok (r1, log) ∧
        (∀ (i j : Nat) (f : Str) (ct : Rev1.CellContent) (d : Deps),
          g1.formulaAt i j = some (f, ct, d) →
          (∃ e, Rev1.parseAndEvaluate sqrt g1 f ((i : Int), (j : Int)) = .error e) →
          r1.cellAt i j = g1.cellAt i j) ∧
        ∀ (i j : Nat) (f : Str) (ct : Rev1.CellContent) (d : Deps),
          g1.formulaAt i j = some (f, ct, d) → c ∈ d → f.head? = some '=' →
          (∃ v s, Rev1.parseAndEvaluate sqrt g1 f ((i : Int), (j : Int)) = .ok (v, s)) →
          (((i : Int), (j : Int)), true) ∈ log) ∧
    ∃ r2 log, Rev2.autoCalculate sqrt fuel g2 visited c = .ok (r2, visited) ∧
      Rev2.autoCalculateLog sqrt fuel g2 visited [] c = .ok (r2, visited, log) ∧
      (∀ (i j : Nat) (f : Str) (v : Dbl) (d : Deps), g2.formulaAt i j = some (f, v, d) →
        (∃ e, Rev2.parseAndEvaluate sqrt g2 f ((i : Int), (j : Int)) [] = .error e) →
        r2.cellAt i j = g2.cellAt i j) ∧
      ∀ (i j : Nat) (f : Str) (v : Dbl) (d : Deps), g2.formulaAt i j = some (f, v, d) →
        c ∈ d → f.head? = some '=' →
        (∃ v2 ds, Rev2.parseAndEvaluate sqrt g2 f ((i : Int), (j : Int)) [] = .ok (v2, ds)) →
        (((i : Int), (j : Int)), true) ∈ log := by
  constructor
  · refine ⟨fun fuel2 e he =>
      (Rev1.autoCalculate_no_exception sqrt fuel2 g1 g1 c hw1 ⟨rfl, rfl⟩).1 e he, ?_⟩
    have hn := Rev2.notVisited_le g1.getRowCount g1.getColCount []
    obtain ⟨r1, hr, _⟩ := Rev1.autoCalculate_returns_r1 sqrt hw1 hac1 fuel g1 [] c
      (Rev1.Within.initial hw1) (fun v hmem => by cases hmem) (Or.inl (by omega))
    have hr1 := hr
    rw [← Rev1.autoCalculateLog_forget_r1 sqrt fuel g1 [] c] at hr1
    obtain ⟨log, hl⟩ := Rev1.map_fst_ok hr1
    exact ⟨r1, log, hr, hl, Rev1.autoCalculateLog_attempts_r1 sqrt g1 hw1 fuel c r1 log hl⟩
  · have hn := Rev2.notVisited_le g2.getRowCount g2.getColCount visited
    obtain ⟨r2, hr, _⟩ := Rev2.autoCalculate_returns sqrt g2.getRowCount g2.getColCount fuel g2
      visited c ⟨hw2, rfl, rfl⟩ (Or.inl (by omega))
    have hr2 := hr
    rw [← Rev2.autoCalculateLog_forget sqrt fuel g2 visited [] c] at hr2
    obtain ⟨log, hl⟩ := Rev2.forgetLog_ok hr2
    exact ⟨r2, log, hr, hl,
      Rev2.autoCalculateLog_attempts sqrt g2 hw2 fuel visited c hv r2 visited log hl⟩

/-- C28 (witness): `autoCalculate(A1)` on the grids with B1 = `=A1+` and
C1 = `=A1`: the call for B1 fails and B1 is left as it was, C1 is recalculated
to 20. -/
theorem C28_witness :
    (Rev1.sheetFail.WF ∧ (∀ p, ¬ Relation.TransGen (Rev1.MayDepend id Rev1.sheetFail) p p) ∧
      Rev1.sheetFail.getRowCount * Rev1.sheetFail.getColCount + 2 ≤ 5 ∧
      Rev2.sheetFail.WF ∧ (0, 0) ∉ ([] : Rev2.Visited) ∧
      Rev2.sheetFail.getRowCount * Rev2.sheetFail.getColCount + 2 ≤ 5) ∧
    Rev1.autoCalculateLog id 5 Rev1.sheetFail [] (0, 0)
      = .ok (Rev1.sheetOf [[(.int 20, [], []),
            (.double (Dbl.fin 10), "=A1+".toList, [(0, 0)]),
            (.double (Dbl.fin 20), "=A1".toList, [(0, 0)])]],
          [((0, 1), false), ((0, 2), true)]) ∧
    Rev2.autoCalculateLog id 5 Rev2.sheetFail [] [] (0, 0)
      = .ok (Rev2.sheetOf [[.IntValueCell 20,
            .FormulaCell "=A1+".toList (Dbl.fin 10) [(0, 0)],
            .FormulaCell "=A1".toList (Dbl.fin 20) [(0, 0), (0, 0)]]], [],
          [((0, 1), false), ((0, 2), true)]) ∧
    ∃ r2 log, Rev2.autoCalculate id 5 Rev2.sheetFail [] (0, 0) = .ok (r2, []) ∧
      Rev2.autoCalculateLog id 5 Rev2.sheetFail [] [] (0, 0) = .ok (r2, [], log) ∧
      (∀ (i j : Nat) (f : Str) (v : Dbl) (d : Deps),
        Rev2.sheetFail.formulaAt i j = some (f, v, d) →
        (∃ e, Rev2.parseAndEvaluate id Rev2.sheetFail f ((i : Int), (j : Int)) [] = .error e) →
        r2.cellAt i j = Rev2.sheetFail.cellAt i j) ∧
      ∀ (i j : Nat) (f : Str) (v : Dbl) (d : Deps),
        Rev2.sheetFail.formulaAt i j = some (f, v, d) →
        (0, 0) ∈ d → f.head? = some '=' →
        (∃ v2 ds, Rev2.parseAndEvaluate id Rev2.sheetFail f ((i : Int), (j : Int)) []
          = .ok (v2, ds)) →
        (((i : Int), (j : Int)), true) ∈ log :=
  ⟨⟨by decide, Rev1.mayDepend_acyclic_of_forwardReadsB (by decide) (by decide!), by decide,
      by decide, by decide, by decide⟩, by decide!, by decide!,
   (C28_failed_recalculation_is_skipped id Rev1.sheetFail Rev2.sheetFail (0, 0) 5 []
     (by decide) (Rev1.mayDepend_acyclic_of_forwardReadsB (by decide) (by decide!))
     (by decide) (by decide) (by decide) (by decide)).2⟩

/-! ## C26: literals and invalid tokens -/

theorem indexOf_getElem? (c : Char) : ∀ (s : Str), c ∈ s → s[s.indexOf c]? = some c := by
  intro s
  induction s with
  | nil => intro h; cases h
  | cons a s ih =>
    intro h
    by_cases hac : a = c
    · subst hac
      simp
    · have hc : c ∈ s := by
        rcases List.mem_cons.1 h with h | h
        · exact absurd h.symm hac
        · exact h
      rw [List.indexOf_cons_ne _ hac]
      simpa using ih hc

theorem findChar_getElem? (s : Str) (c : Char) (h : findChar s c ≠ npos) :
    s[findChar s c]? = some c ∧ findChar s c < s.length := by
  unfold findChar at h ⊢
  by_cases hlt : s.indexOf c < s.length
  · rw [if_pos hlt]
    exact ⟨indexOf_getElem? c s (List.indexOf_lt_length.1 hlt), hlt⟩
  · rw [if_neg hlt] at h
    exact absurd rfl h

theorem findStrFrom_cases (pat : Str) :
    ∀ (s : Str) (i : Nat), findStrFrom pat s i = npos ∨
      ∃ k rest, findStrFrom pat s i = i + k ∧ s.drop k = pat ++ rest := by
  intro s
  induction s with
  | nil =>
    intro i
    unfold findStrFrom
    by_cases hp : pat = []
    · rw [if_pos hp]
      exact Or.inr ⟨0, [], rfl, by simp [hp]⟩
    · rw [if_neg hp]
      exact Or.inl rfl
  | cons a s ih =>
    intro i
    unfold findStrFrom
    by_cases hp : pat.isPrefixOf (a :: s) = true
    · rw [if_pos hp]
      obtain ⟨rest, hrest⟩ := List.isPrefixOf_iff_prefix.1 hp
      exact Or.inr ⟨0, rest, rfl, by simpa using hrest.symm⟩
    · rw [if_neg hp]
      rcases ih (i + 1) with h | ⟨k, rest, h1, h2⟩
      · exact Or.inl h
      · exact Or.inr ⟨k + 1, rest, by rw [h1]; omega, by simpa using h2⟩

theorem findStr_cases (s pat : Str) :
    findStr s pat = npos ∨ ∃ k rest, findStr s pat = k ∧ s.drop k = pat ++ rest := by
  unfold findStr
  rcases findStrFrom_cases pat s 0 with h | ⟨k, rest, h1, h2⟩
  · exact Or.inl h
  · exact Or.inr ⟨k, rest, by rw [h1]; omega, h2⟩

/-- The text between two positions of a string. -/
theorem split_at_two (s : Str) (o c : Nat) (a b : Char) (ho : s[o]? = some a)
    (hc : s[c]? = some b) (hoc : o < c) :
    s = s.take o ++ a :: (s.drop (o + 1)).take (c - o - 1) ++ b :: s.drop (c + 1) := by
  have hol : o < s.length := by
    by_contra hk
    rw [List.getElem?_eq_none (by omega)] at ho
    cases ho
  have hcl : c < s.length := by
    by_contra hk
    rw [List.getElem?_eq_none (by omega)] at hc
    cases hc
  have h1 : s.drop o = a :: s.drop (o + 1) := by
    rw [List.drop_eq_getElem_cons hol]
    rw [List.getElem?_eq_getElem hol] at ho
    simp only [Option.some.injEq] at ho
    rw [ho]
  have h2 : s.drop c = b :: s.drop (c + 1) := by
    rw [List.drop_eq_getElem_cons hcl]
    rw [List.getElem?_eq_getElem hcl] at hc
    simp only [Option.some.injEq] at hc
    rw [hc]
  have h3 : (s.drop (o + 1)).drop (c - o - 1) = s.drop c := by
    rw [List.drop_drop]
    congr 1
    omega
  calc s = s.take o ++ s.drop o := (List.take_append_drop o s).symm
    _ = s.take o ++ a :: s.drop (o + 1) := by rw [h1]
    _ = s.take o ++ a :: ((s.drop (o + 1)).take (c - o - 1)
          ++ (s.drop (o + 1)).drop (c - o - 1)) := by rw [List.take_append_drop]
    _ = s.take o ++ a :: (s.drop (o + 1)).take (c - o - 1) ++ b :: s.drop (c + 1) := by
        rw [h3, h2]
        simp

theorem substr_zero (s : Str) (len : Nat) : substr s 0 len = .ok (s.take len) := by
  unfold substr
  simp

theorem substr_of_le (s : Str) (pos len : Nat) (h : pos ≤ s.length) :
    substr s pos len = .ok ((s.drop pos).take len) := by
  unfold substr
  rw [if_neg (by omega)]

namespace Rev2

theorem isValidRange_cases_r2 {g : Spreadsheet} (h : g.WF) (range : Str)
    (hlen : range.length < 2 ^ 31) (hsp : ∀ c ∈ range, c ≠ ' ') :
    isValidRange g range = .ok false ∨
    (isValidRange g range = .ok true ∧
      ∃ (i1 j1 i2 j2 : Nat), i1 < g.getRowCount ∧ j1 < g.getColCount ∧
        i2 < g.getRowCount ∧ j2 < g.getColCount ∧
        range = cellLabel (i1 : Int) (j1 : Int) ++ '.' :: '.' :: cellLabel (i2 : Int) (j2 : Int)) := by
  unfold isValidRange
  simp only
  by_cases hn : findStr range "..".toList = npos
  · rw [if_pos hn]
    exact Or.inl rfl
  · rw [if_neg hn]
    rcases findStr_cases range "..".toList with h0 | ⟨k, rest, hk, hdrop⟩
    · exact absurd h0 hn
    · have hdrop2 : range.drop k = '.' :: '.' :: rest := hdrop
      have hk2 : k + 2 ≤ range.length := by
        have := congrArg List.length hdrop2
        simp only [List.length_drop, List.length_cons] at this
        omega
      have hrest : range.drop (k + 2) = rest := by
        rw [← List.drop_drop, hdrop2]
        rfl
      have hsplit : range = range.take k ++ '.' :: '.' :: rest := by
        rw [← hdrop2, List.take_append_drop]
      have hmod : (k + 2) % 2 ^ 64 = k + 2 := Nat.mod_eq_of_lt (by omega)
      have htake : rest.take npos = rest := by
        apply List.take_of_length_le
        have := congrArg List.length hrest
        simp only [List.length_drop] at this
        unfold npos
        omega
      have hs1 : removeSpaces (range.take k) = range.take k :=
        removeSpaces_eq_self _ (fun c hc => hsp c (List.mem_of_mem_take hc))
      have hs2 : removeSpaces rest = rest :=
        removeSpaces_eq_self _ (fun c hc => hsp c (by
          rw [hsplit]
          exact List.mem_append_right _ (List.mem_cons_of_mem _ (List.mem_cons_of_mem _ hc))))
      rw [hk, substr_zero, substr_of_le _ _ _ (by rw [hmod]; exact hk2), hmod, hrest, htake]
      simp only [bind, Except.bind, getCellReference_eq_r2 h, hs1, hs2]
      rcases labelLookup_cases g.getRowCount g.getColCount (range.take k) with
        h1 | ⟨i1, j1, hi1, hj1, hl1, he1⟩
      · left
        rw [h1]
        rfl
      · rcases labelLookup_cases g.getRowCount g.getColCount rest with
          h2 | ⟨i2, j2, hi2, hj2, hl2, he2⟩
        · left
          rw [hl1, h2]
          have hne : (((i1 : Int), (j1 : Int)) : Int × Int) ≠ (-1, -1) := by
            intro hh
            simp only [Prod.mk.injEq] at hh
            omega
          rw [if_pos hne]
          simp [pure, Except.pure]
        · right
          rw [hl1, hl2]
          have hne1 : (((i1 : Int), (j1 : Int)) : Int × Int) ≠ (-1, -1) := by
            intro hh
            simp only [Prod.mk.injEq] at hh
            omega
          have hne2 : (((i2 : Int), (j2 : Int)) : Int × Int) ≠ (-1, -1) := by
            intro hh
            simp only [Prod.mk.injEq] at hh
            omega
          rw [if_pos hne1]
          refine ⟨by simp [pure, Except.pure, hne2], i1, j1, i2, j2, hi1, hj1, hi2, hj2, ?_⟩
          rw [← he1, ← he2]
          exact hsplit

end Rev2

theorem length_removeSpaces_le (t : Str) : (removeSpaces t).length ≤ t.length := by
  unfold removeSpaces
  exact List.length_filter_le _ _

theorem removeSpaces_no_space (t : Str) : ∀ c ∈ removeSpaces t, c ≠ ' ' := by
  intro c hc
  unfold removeSpaces at hc
  simpa using (List.mem_filter.1 hc).2

namespace Rev2

theorem getFunctionType_cases_r2 {g : Spreadsheet} (h : g.WF) (t : Str)
    (hlen : t.length < 2 ^ 31) :
    getFunctionType g t = .ok .INVALID ∨
      StartsWithCall g.getRowCount g.getColCount (removeSpaces t) := by
  have hsl := length_removeSpaces_le t
  have hsp := removeSpaces_no_space t
  unfold getFunctionType
  simp only
  generalize removeSpaces t = s at hsl hsp ⊢
  by_cases hcond : findChar s '(' ≠ npos ∧ findChar s ')' ≠ npos ∧
      findChar s ')' > findChar s '('
  · rw [if_pos hcond]
    obtain ⟨ho, hc, hoc⟩ := hcond
    obtain ⟨hgo, hol⟩ := findChar_getElem? s '(' ho
    obtain ⟨hgc, hcl⟩ := findChar_getElem? s ')' hc
    have hsplit := split_at_two s _ _ _ _ hgo hgc hoc
    have hmod : (findChar s '(' + 1) % 2 ^ 64 = findChar s '(' + 1 :=
      Nat.mod_eq_of_lt (by omega)
    rw [hmod, substr_of_le _ _ _ (by omega), substr_zero]
    have hrl : ((s.drop (findChar s '(' + 1)).take (findChar s ')' - findChar s '(' - 1)).length
        < 2 ^ 31 := by
      have := List.length_take_le (findChar s ')' - findChar s '(' - 1)
        (s.drop (findChar s '(' + 1))
      have := List.length_drop (findChar s '(' + 1) s
      omega
    have hrs : ∀ c ∈ (s.drop (findChar s '(' + 1)).take (findChar s ')' - findChar s '(' - 1),
        c ≠ ' ' :=
      fun c hc => hsp c (List.mem_of_mem_drop (List.mem_of_mem_take hc))
    rcases isValidRange_cases_r2 h _ hrl hrs with hv | ⟨hv, i1, j1, i2, j2, hi1, hj1, hi2, hj2, hr⟩
    · left
      simp only [bind, Except.bind, hv]
      rfl
    · simp only [bind, Except.bind, hv, if_true]
      by_cases hname : s.take (findChar s '(') ∈
          ["SUM".toList, "AVER".toList, "STDDEV".toList, "MAX".toList, "MIN".toList]
      · right
        refine ⟨s.take (findChar s '('), s.drop (findChar s ')' + 1), i1, j1, i2, j2, hname,
          hi1, hj1, hi2, hj2, ?_⟩
        rw [← hr]
        exact hsplit
      · left
        simp only [List.mem_cons, List.mem_singleton, List.not_mem_nil, or_false, not_or]
          at hname
        obtain ⟨n1, n2, n3, n4, n5⟩ := hname
        simp only [pure, Except.pure]
        rw [if_neg n1, if_neg n2, if_neg n3, if_neg n4, if_neg n5]
  · rw [if_neg hcond]
    exact Or.inl rfl

/-- A token that is no label of a cell, no literal and does not start with an
aggregate call fails with the invalid-token error. -/
theorem evaluateSingleToken_invalid_r2 (sqrt : Dbl → Dbl) {g : Spreadsheet} (h : g.WF)
    (t : Str) (deps : Deps) (hlen : t.length < 2 ^ 31)
    (hlabel : ∀ i j : Nat, i < g.getRowCount → j < g.getColCount →
      removeSpaces t ≠ cellLabel (i : Int) (j : Int))
    (hval : isValue t = false)
    (hcall : ¬ StartsWithCall g.getRowCount g.getColCount (removeSpaces t)) :
    evaluateSingleToken sqrt g t deps = .error .tokenInvalid := by
  have hf : getFunctionType g t = .ok .INVALID := by
    rcases getFunctionType_cases_r2 h t hlen with h1 | h1
    · exact h1
    · exact absurd h1 hcall
  unfold evaluateSingleToken
  rw [getCellReference_eq_r2 h, labelLookup_of_no_label _ _ _ hlabel, hf]
  simp [bind, Except.bind, hval, throw, throwThe, MonadExceptOf.throw]

theorem evaluateSingleToken_point_r2 (sqrt : Dbl → Dbl) {g : Spreadsheet} (h : g.WF)
    (deps : Deps) : evaluateSingleToken sqrt g ".".toList deps = .error .tokenNotValid := by
  have hlit : ∀ c ∈ ".".toList, isLitChar c := by
    intro c hc
    simp only [String.toList, List.mem_singleton] at hc
    exact Or.inr hc
  have hp : '(' ∉ removeSpaces ".".toList := by decide
  unfold evaluateSingleToken
  rw [getCellReference_eq_r2 h, labelLookup_literal _ _ _ hlit,
    getFunctionType_of_no_paren_r2 g _ hp]
  rfl

end Rev2

namespace Rev1

theorem isValidRange_cases_r1 {g : Spreadsheet} (h : g.WF) (range : Str)
    (hlen : range.length < 2 ^ 31) (hsp : ∀ c ∈ range, c ≠ ' ') :
    isValidRange g range = .ok false ∨
    (isValidRange g range = .ok true ∧
      ∃ (i1 j1 i2 j2 : Nat), i1 < g.getRowCount ∧ j1 < g.getColCount ∧
        i2 < g.getRowCount ∧ j2 < g.getColCount ∧
        range = cellLabel (i1 : Int) (j1 : Int) ++ '.' :: '.' :: cellLabel (i2 : Int) (j2 : Int)) := by
  unfold isValidRange
  simp only
  by_cases hn : findStr range "..".toList = npos
  · rw [if_pos hn]
    exact Or.inl rfl
  · rw [if_neg hn]
    rcases findStr_cases range "..".toList with h0 | ⟨k, rest, hk, hdrop⟩
    · exact absurd h0 hn
    · have hdrop2 : range.drop k = '.' :: '.' :: rest := hdrop
      have hk2 : k + 2 ≤ range.length := by
        have := congrArg List.length hdrop2
        simp only [List.length_drop, List.length_cons] at this
        omega
      have hrest : range.drop (k + 2) = rest := by
        rw [← List.drop_drop, hdrop2]
        rfl
      have hsplit : range = range.take k ++ '.' :: '.' :: rest := by
        rw [← hdrop2, List.take_append_drop]
      have hmod : (k + 2) % 2 ^ 64 = k + 2 := Nat.mod_eq_of_lt (by omega)
      have htake : rest.take npos = rest := by
        apply List.take_of_length_le
        have := congrArg List.length hrest
        simp only [List.length_drop] at this
        unfold npos
        omega
      have hs1 : removeSpaces (range.take k) = range.take k :=
        removeSpaces_eq_self _ (fun c hc => hsp c (List.mem_of_mem_take hc))
      have hs2 : removeSpaces rest = rest :=
        removeSpaces_eq_self _ (fun c hc => hsp c (by
          rw [hsplit]
          exact List.mem_append_right _ (List.mem_cons_of_mem _ (List.mem_cons_of_mem _ hc))))
      rw [hk, substr_zero, substr_of_le _ _ _ (by rw [hmod]; exact hk2), hmod, hrest, htake]
      simp only [bind, Except.bind, getCellReference_eq_r1 h, hs1, hs2]
      rcases labelLookup_cases g.getRowCount g.getColCount (range.take k) with
        h1 | ⟨i1, j1, hi1, hj1, hl1, he1⟩
      · left
        rw [h1]
        rfl
      · rcases labelLookup_cases g.getRowCount g.getColCount rest with
          h2 | ⟨i2, j2, hi2, hj2, hl2, he2⟩
        · left
          rw [hl1, h2]
          have hne : (((i1 : Int), (j1 : Int)) : Int × Int) ≠ (-1, -1) := by
            intro hh
            simp only [Prod.mk.injEq] at hh
            omega
          rw [if_pos hne]
          simp [pure, Except.pure]
        · right
          rw [hl1, hl2]
          have hne1 : (((i1 : Int), (j1 : Int)) : Int × Int) ≠ (-1, -1) := by
            intro hh
            simp only [Prod.mk.injEq] at hh
            omega
          have hne2 : (((i2 : Int), (j2 : Int)) : Int × Int) ≠ (-1, -1) := by
            intro hh
            simp only [Prod.mk.injEq] at hh
            omega
          rw [if_pos hne1]
          refine ⟨by simp [pure, Except.pure, hne2], i1, j1, i2, j2, hi1, hj1, hi2, hj2, ?_⟩
          rw [← he1, ← he2]
          exact hsplit

theorem getFunctionType_cases_r1 {g : Spreadsheet} (h : g.WF) (t : Str)
    (hlen : t.length < 2 ^ 31) :
    getFunctionType g t = .ok .INVALID ∨
      StartsWithCall g.getRowCount g.getColCount (removeSpaces t) := by
  have hsl := length_removeSpaces_le t
  have hsp := removeSpaces_no_space t
  unfold getFunctionType
  simp only
  generalize removeSpaces t = s at hsl hsp ⊢
  by_cases hcond : findChar s '(' ≠ npos ∧ findChar s ')' ≠ npos ∧
      findChar s ')' > findChar s '('
  · rw [if_pos hcond]
    obtain ⟨ho, hc, hoc⟩ := hcond
    obtain ⟨hgo, hol⟩ := findChar_getElem? s '(' ho
    obtain ⟨hgc, hcl⟩ := findChar_getElem? s ')' hc
    have hsplit := split_at_two s _ _ _ _ hgo hgc hoc
    have hmod : (findChar s '(' + 1) % 2 ^ 64 = findChar s '(' + 1 :=
      Nat.mod_eq_of_lt (by omega)
    rw [hmod, substr_of_le _ _ _ (by omega), substr_zero]
    have hrl : ((s.drop (findChar s '(' + 1)).take (findChar s ')' - findChar s '(' - 1)).length
        < 2 ^ 31 := by
      have := List.length_take_le (findChar s ')' - findChar s '(' - 1)
        (s.drop (findChar s '(' + 1))
      have := List.length_drop (findChar s '(' + 1) s
      omega
    have hrs : ∀ c ∈ (s.drop (findChar s '(' + 1)).take (findChar s ')' - findChar s '(' - 1),
        c ≠ ' ' :=
      fun c hc => hsp c (List.mem_of_mem_drop (List.mem_of_mem_take hc))
    rcases isValidRange_cases_r1 h _ hrl hrs with hv | ⟨hv, i1, j1, i2, j2, hi1, hj1, hi2, hj2, hr⟩
    · left
      simp only [bind, Except.bind, hv]
      rfl
    · simp only [bind, Except.bind, hv, if_true]
      by_cases hname : s.take (findChar s '(') ∈
          ["SUM".toList, "AVER".toList, "STDDEV".toList, "MAX".toList, "MIN".toList]
      · right
        refine ⟨s.take (findChar s '('), s.drop (findChar s ')' + 1), i1, j1, i2, j2, hname,
          hi1, hj1, hi2, hj2, ?_⟩
        rw [← hr]
        exact hsplit
      · left
        simp only [List.mem_cons, List.mem_singleton, List.not_mem_nil, or_false, not_or]
          at hname
        obtain ⟨n1, n2, n3, n4, n5⟩ := hname
        simp only [pure, Except.pure]
        rw [if_neg n1, if_neg n2, if_neg n3, if_neg n4, if_neg n5]
  · rw [if_neg hcond]
    exact Or.inl rfl

/-- A token that is no label of a cell, no literal and does not start with an
aggregate call fails with the invalid-token error. -/
theorem evaluateSingleToken_invalid_r1 (sqrt : Dbl → Dbl) {g : Spreadsheet} (h : g.WF)
    (t : Str) (deps : Deps) (hlen : t.length < 2 ^ 31)
    (hlabel : ∀ i j : Nat, i < g.getRowCount → j < g.getColCount →
      removeSpaces t ≠ cellLabel (i : Int) (j : Int))
    (hval : isValue t = false)
    (hcall : ¬ StartsWithCall g.getRowCount g.getColCount (removeSpaces t)) :
    evaluateSingleToken sqrt g t deps = .error .tokenInvalid := by
  have hf : getFunctionType g t = .ok .INVALID := by
    rcases getFunctionType_cases_r1 h t hlen with h1 | h1
    · exact h1
    · exact absurd h1 hcall
  unfold evaluateSingleToken
  rw [getCellReference_eq_r1 h, labelLookup_of_no_label _ _ _ hlabel, hf]
  simp [bind, Except.bind, hval, throw, throwThe, MonadExceptOf.throw]

theorem evaluateSingleToken_point_r1 (sqrt : Dbl → Dbl) {g : Spreadsheet} (h : g.WF)
    (deps : Deps) : evaluateSingleToken sqrt g ".".toList deps = .error .tokenNotValid := by
  have hlit : ∀ c ∈ ".".toList, isLitChar c := by
    intro c hc
    simp only [String.toList, List.mem_singleton] at hc
    exact Or.inr hc
  have hp : '(' ∉ removeSpaces ".".toList := by decide
  unfold evaluateSingleToken
  rw [getCellReference_eq_r1 h, labelLookup_literal _ _ _ hlit,
    getFunctionType_of_no_paren_r1 g _ hp]
  rfl

end Rev1

theorem no_label_of_labelLookup (rows cols : Nat) (str : Str)
    (h : labelLookup rows cols str = (-1, -1)) :
    ∀ i j : Nat, i < rows → j < cols → str ≠ cellLabel (i : Int) (j : Int) := by
  intro i j hi hj heq
  rw [heq, labelLookup_cellLabel rows cols i j hi hj] at h
  simp only [Prod.mk.injEq] at h
  omega

theorem StartsWithCall.mem_paren {rows cols : Nat} {s : Str} (h : StartsWithCall rows cols s) :
    '(' ∈ s := by
  obtain ⟨name, rest, i1, j1, i2, j2, _, _, _, _, _, rfl⟩ := h
  simp

/-- C26 (counterexample): on the grid with the cells A1 = 10, B1 = 5, C1 the
token `.` consists of digits and at most one point and does not evaluate (the
error is `token is not a valid`); the literal `1` followed by 309 zeros does
not evaluate either (`std::stod` throws `out_of_range`); and the token
`SUM(A1..B1)x`, which is no label, no literal and no aggregate call (text
follows the parenthesis), evaluates to 15 in both revisions. -/
theorem C26_counterexample :
    (isValue ".".toList = true ∧
      Rev1.evaluateSingleToken id Rev1.sheetA ".".toList [] = .error .tokenNotValid ∧
      Rev2.evaluateSingleToken id Rev2.sheetA ".".toList [] = .error .tokenNotValid) ∧
    (IsLiteral hugeLiteral ∧ decimalValue hugeLiteral = 10 ^ 309 ∧
      Rev1.evaluateSingleToken id Rev1.sheetA hugeLiteral [] = .error .stodOutOfRange ∧
      Rev2.evaluateSingleToken id Rev2.sheetA hugeLiteral [] = .error .stodOutOfRange) ∧
    (isValue "SUM(A1..B1)x".toList = false ∧ "SUM(A1..B1)x".toList.getLast? = some 'x' ∧
      Rev1.getCellReference Rev1.sheetA "SUM(A1..B1)x".toList = .ok (-1, -1) ∧
      Rev2.getCellReference Rev2.sheetA "SUM(A1..B1)x".toList = .ok (-1, -1) ∧
      Rev1.evaluateSingleToken id Rev1.sheetA "SUM(A1..B1)x".toList []
        = .ok (Dbl.fin 15, [(0, 0), (0, 1)]) ∧
      Rev2.evaluateSingleToken id Rev2.sheetA "SUM(A1..B1)x".toList []
        = .ok (Dbl.fin 15, [(0, 0), (0, 1)])) :=
  ⟨⟨by decide, by decide, by decide⟩,
   ⟨by decide!, by decide!, by decide!, by decide!⟩,
   ⟨by decide, by decide, by decide, by decide, by decide!, by decide!⟩⟩

/-- C26 (amended): on a well-formed grid, in both revisions, a token of digits
and at most one point that has at least one digit, for whose value `std::stod`
reports no range error, evaluates to the value `stod` returns for it and adds
no dependency; when the decimal number the token denotes is a finite value of
binary64 that value is the number itself; when the number rounds to an
infinity the evaluation fails with the `out_of_range` of `stod`.  The token
`.` fails with the error `token is not a valid`; and a token (shorter than
`2 ^ 31` characters) that is not such a token of digits and points, whose
space-stripped text is no label of a cell of the grid and does not start with
an aggregate call `NAME(x..y)` of one of the five functions on two labels of
cells of the grid, fails with the error `token is not a valid cell reference
function or numeric value`. -/
theorem C26_literals_and_invalid_tokens (sqrt : Dbl → Dbl)
    (g1 : Rev1.Spreadsheet) (g2 : Rev2.Spreadsheet) (t : Str) (deps : Deps)
    (h1 : g1.WF) (h2 : g2.WF) :
    (IsLiteral t →
      (¬ stodRangeError (decimalValue t) →
        ∃ v, stod t = .ok (v, t.length) ∧
          Rev1.evaluateSingleToken sqrt g1 t deps = .ok (v, deps) ∧
          Rev2.evaluateSingleToken sqrt g2 t deps = .ok (v, deps)) ∧
      (Dbl.Representable (decimalValue t) →
        Rev1.evaluateSingleToken sqrt g1 t deps = .ok (Dbl.fin (decimalValue t), deps) ∧
        Rev2.evaluateSingleToken sqrt g2 t deps = .ok (Dbl.fin (decimalValue t), deps)) ∧
      (Dbl.overflowBound ≤ decimalValue t →
        Rev1.evaluateSingleToken sqrt g1 t deps = .error .stodOutOfRange ∧
        Rev2.evaluateSingleToken sqrt g2 t deps = .error .stodOutOfRange)) ∧
    (Rev1.evaluateSingleToken sqrt g1 ".".toList deps = .error .tokenNotValid ∧
      Rev2.evaluateSingleToken sqrt g2 ".".toList deps = .error .tokenNotValid) ∧
    (t.length < 2 ^ 31 → isValue t = false →
      ((∀ i j : Nat, i < g1.getRowCount → j < g1.getColCount →
          removeSpaces t ≠ cellLabel (i : Int) (j : Int)) →
        ¬ StartsWithCall g1.getRowCount g1.getColCount (removeSpaces t) →
        Rev1.evaluateSingleToken sqrt g1 t deps = .error .tokenInvalid) ∧
      ((∀ i j : Nat, i < g2.getRowCount → j < g2.getColCount →
          removeSpaces t ≠ cellLabel (i : Int) (j : Int)) →
        ¬ StartsWithCall g2.getRowCount g2.getColCount (removeSpaces t) →
        Rev2.evaluateSingleToken sqrt g2 t deps = .error .tokenInvalid)) :=
  ⟨fun ht =>
    ⟨fun hr => ⟨Dbl.fin (decimalValue t), by rw [stod_literal t ht, if_neg hr],
        Rev1.evaluateSingleToken_literal_r1 sqrt h1 t ht hr deps,
        Rev2.evaluateSingleToken_literal_r2 sqrt h2 t ht hr deps⟩,
     fun hq =>
      ⟨Rev1.evaluateSingleToken_literal_r1 sqrt h1 t ht
          (not_stodRangeError_of_representable _ hq) deps,
        Rev2.evaluateSingleToken_literal_r2 sqrt h2 t ht
          (not_stodRangeError_of_representable _ hq) deps⟩,
     fun hov =>
      have hre : stodRangeError (decimalValue t) := Or.inl hov
      ⟨by rw [Rev1.evaluateSingleToken_literal_stod_r1 sqrt h1 t ht deps, if_pos hre],
        by rw [Rev2.evaluateSingleToken_literal_stod_r2 sqrt h2 t ht deps, if_pos hre]⟩⟩,
   ⟨Rev1.evaluateSingleToken_point_r1 sqrt h1 deps, Rev2.evaluateSingleToken_point_r2 sqrt h2 deps⟩,
   fun hlen hval =>
    ⟨fun hl hc => Rev1.evaluateSingleToken_invalid_r1 sqrt h1 t deps hlen hl hval hc,
     fun hl hc => Rev2.evaluateSingleToken_invalid_r2 sqrt h2 t deps hlen hl hval hc⟩⟩

/-- C26 (witness): on the grids with the cells A1, B1, C1 the token `12.5`,
whose value 25/2 is a finite value of binary64, evaluates to 25/2; the token
`0.1` evaluates successfully; and the token `1.2.3`, with two points, fails
with the error of an invalid token. -/
theorem C26_witness :
    (Rev1.sheetA.WF ∧ Rev2.sheetA.WF ∧ IsLiteral "12.5".toList ∧
      Dbl.Representable (decimalValue "12.5".toList) ∧
      IsLiteral "0.1".toList ∧ ¬ stodRangeError (decimalValue "0.1".toList) ∧
      "1.2.3".toList.length < 2 ^ 31 ∧ isValue "1.2.3".toList = false ∧
      (∀ i j : Nat, i < Rev2.sheetA.getRowCount → j < Rev2.sheetA.getColCount →
        removeSpaces "1.2.3".toList ≠ cellLabel (i : Int) (j : Int)) ∧
      ¬ StartsWithCall Rev2.sheetA.getRowCount Rev2.sheetA.getColCount
        (removeSpaces "1.2.3".toList)) ∧
    Rev1.evaluateSingleToken id Rev1.sheetA "12.5".toList [] = .ok (Dbl.fin (25 / 2), []) ∧
    Rev2.evaluateSingleToken id Rev2.sheetA "12.5".toList [] = .ok (Dbl.fin (25 / 2), []) ∧
    (∃ v, stod "0.1".toList = .ok (v, "0.1".toList.length) ∧
      Rev1.evaluateSingleToken id Rev1.sheetA "0.1".toList [] = .ok (v, []) ∧
      Rev2.evaluateSingleToken id Rev2.sheetA "0.1".toList [] = .ok (v, [])) ∧
    Rev1.evaluateSingleToken id Rev1.sheetA "1.2.3".toList [] = .error .tokenInvalid ∧
    Rev2.evaluateSingleToken id Rev2.sheetA "1.2.3".toList [] = .error .tokenInvalid :=
  have hlit : IsLiteral "12.5".toList := ⟨by decide, '1', by decide, by decide⟩
  have hrep : Dbl.Representable (decimalValue "12.5".toList) := by decide!
  have hlit2 : IsLiteral "0.1".toList := ⟨by decide, '0', by decide, by decide⟩
  have hin2 : ¬ stodRangeError (decimalValue "0.1".toList) := by decide!
  have hval : decimalValue "12.5".toList = 25 / 2 := by decide!
  have a := ((C26_literals_and_invalid_tokens id Rev1.sheetA Rev2.sheetA "12.5".toList []
    (by decide) (by decide)).1 hlit).2.1 hrep
  have a2 := ((C26_literals_and_invalid_tokens id Rev1.sheetA Rev2.sheetA "0.1".toList []
    (by decide) (by decide)).1 hlit2).1 hin2
  have b := (C26_literals_and_invalid_tokens id Rev1.sheetA Rev2.sheetA "1.2.3".toList []
    (by decide) (by decide)).2.2 (by decide) (by decide)
  have hl1 := no_label_of_labelLookup Rev1.sheetA.getRowCount Rev1.sheetA.getColCount
    (removeSpaces "1.2.3".toList) (by decide)
  have hl2 := no_label_of_labelLookup Rev2.sheetA.getRowCount Rev2.sheetA.getColCount
    (removeSpaces "1.2.3".toList) (by decide)
  have hc1 : ¬ StartsWithCall Rev1.sheetA.getRowCount Rev1.sheetA.getColCount
      (removeSpaces "1.2.3".toList) := fun hc => absurd hc.mem_paren (by decide)
  have hc2 : ¬ StartsWithCall Rev2.sheetA.getRowCount Rev2.sheetA.getColCount
      (removeSpaces "1.2.3".toList) := fun hc => absurd hc.mem_paren (by decide)
  ⟨⟨by decide, by decide, hlit, hrep, hlit2, hin2, by decide, by decide, hl2, hc2⟩,
    hval ▸ a.1, hval ▸ a.2, a2, b.1 hl1 hc1, b.2 hl2 hc2⟩

/-! ## C25: a range that names no cell of the grid -/

theorem append_cons_unique {α : Type} (c : α) :
    ∀ (a a2 b b2 : List α), c ∉ a → c ∉ a2 → a ++ c :: b = a2 ++ c :: b2 → a = a2 ∧ b = b2 := by
  intro a
  induction a with
  | nil =>
    intro a2 b b2 _ h2 h
    cases a2 with
    | nil => simpa using h
    | cons d a2 =>
      simp only [List.nil_append, List.cons_append, List.cons.injEq] at h
      exact absurd (by rw [h.1]; exact List.mem_cons_self _ _) h2
  | cons d a ih =>
    intro a2 b b2 h1 h2 h
    cases a2 with
    | nil =>
      simp only [List.nil_append, List.cons_append, List.cons.injEq] at h
      exact absurd (by rw [← h.1]; exact List.mem_cons_self _ _) h1
    | cons d2 a2 =>
      simp only [List.cons_append, List.cons.injEq] at h
      obtain ⟨rfl, h⟩ := h
      obtain ⟨e1, e2⟩ := ih a2 b b2 (fun hm => h1 (List.mem_cons_of_mem _ hm))
        (fun hm => h2 (List.mem_cons_of_mem _ hm)) h
      exact ⟨by rw [e1], e2⟩

theorem cellLabel_chars (i j : Nat) :
    ∀ c ∈ cellLabel (i : Int) (j : Int), c ≠ '(' ∧ c ≠ ')' ∧ c ≠ '.' := by
  intro c hc
  unfold cellLabel at hc
  rcases List.mem_append.1 hc with hc | hc
  · have := getLetterTransformation_capital _ c hc
    unfold isCapital at this
    refine ⟨?_, ?_, ?_⟩ <;> (intro hs; subst hs; revert this; decide)
  · have := (to_string_value i).2 c hc
    refine ⟨?_, ?_, ?_⟩ <;> (intro hs; subst hs; revert this; decide)

/-- A call `NAME(x..y)` whose `x` has no point and whose `y` has no closing
parenthesis starts with a call on two labels of the grid only when `x` and `y`
are these labels. -/
theorem startsWithCall_call (rows cols : Nat) (name x y : Str)
    (hname : name ∈ ["SUM".toList, "AVER".toList, "STDDEV".toList, "MAX".toList, "MIN".toList])
    (hx : ∀ c ∈ x, c ≠ '.') (hy : ∀ c ∈ y, c ≠ ')')
    (h : StartsWithCall rows cols (name ++ '(' :: (x ++ '.' :: '.' :: (y ++ [')'])))) :
    (∃ i j : Nat, i < rows ∧ j < cols ∧ x = cellLabel (i : Int) (j : Int)) ∧
    ∃ i j : Nat, i < rows ∧ j < cols ∧ y = cellLabel (i : Int) (j : Int) := by
  obtain ⟨name2, rest, i1, j1, i2, j2, hname2, hi1, hj1, hi2, hj2, heq⟩ := h
  have hp : ∀ n ∈ ["SUM".toList, "AVER".toList, "STDDEV".toList, "MAX".toList, "MIN".toList],
      '(' ∉ n := by decide
  have heq2 : name ++ '(' :: (x ++ '.' :: '.' :: (y ++ [')']))
      = name2 ++ '(' :: (cellLabel (i1 : Int) (j1 : Int) ++ '.' :: '.' ::
          (cellLabel (i2 : Int) (j2 : Int) ++ ')' :: rest)) := by
    rw [heq]
    simp only [List.append_assoc, List.cons_append]
  obtain ⟨_, hX⟩ := append_cons_unique '(' _ _ _ _ (hp name hname) (hp name2 hname2) heq2
  obtain ⟨e1, hY⟩ := append_cons_unique '.' _ _ _ _ (fun hm => hx _ hm rfl)
    (fun hm => (cellLabel_chars i1 j1 _ hm).2.2 rfl) hX
  simp only [List.cons.injEq, true_and] at hY
  obtain ⟨e2, _⟩ := append_cons_unique ')' _ _ _ _ (fun hm => hy _ hm rfl)
    (fun hm => (cellLabel_chars i2 j2 _ hm).2.1 rfl) hY
  exact ⟨⟨i1, j1, hi1, hj1, e1⟩, ⟨i2, j2, hi2, hj2, e2⟩⟩

theorem call_facts (name x y : Str)
    (hname : name ∈ ["SUM".toList, "AVER".toList, "STDDEV".toList, "MAX".toList, "MIN".toList])
    (hx : ∀ c ∈ x, c ≠ ' ') (hy : ∀ c ∈ y, c ≠ ' ') :
    removeSpaces (name ++ '(' :: (x ++ '.' :: '.' :: (y ++ [')'])))
      = name ++ '(' :: (x ++ '.' :: '.' :: (y ++ [')'])) ∧
    isValue (name ++ '(' :: (x ++ '.' :: '.' :: (y ++ [')']))) = false ∧
    (name ++ '(' :: (x ++ '.' :: '.' :: (y ++ [')']))).length ≤ x.length + y.length + 10 ∧
    ∀ i j : Nat, name ++ '(' :: (x ++ '.' :: '.' :: (y ++ [')']))
      ≠ cellLabel (i : Int) (j : Int) := by
  have hs : ∀ n ∈ ["SUM".toList, "AVER".toList, "STDDEV".toList, "MAX".toList, "MIN".toList],
      (∀ c ∈ n, c ≠ ' ') ∧ n.length ≤ 6 := by decide
  have hmem : '(' ∈ name ++ '(' :: (x ++ '.' :: '.' :: (y ++ [')'])) := by simp
  refine ⟨?_, ?_, ?_, ?_⟩
  · apply removeSpaces_eq_self
    intro c hc
    simp only [List.mem_append, List.mem_cons, List.mem_singleton, List.not_mem_nil,
      or_false] at hc
    rcases hc with hc | rfl | hc | rfl | rfl | hc | rfl
    · exact (hs name hname).1 c hc
    · decide
    · exact hx c hc
    · decide
    · decide
    · exact hy c hc
    · decide
  · cases hv : isValue (name ++ '(' :: (x ++ '.' :: '.' :: (y ++ [')']))) with
    | false => rfl
    | true => exact absurd rfl (isLitChar_ne_paren _ (isValue_mem_isLitChar _ hv _ hmem))
  · have := (hs name hname).2
    simp only [List.length_append, List.length_cons, List.length_nil]
    omega
  · intro i j heq
    rw [heq] at hmem
    exact (cellLabel_chars i j _ hmem).1 rfl

/-- C25 (failing input, in general): on a well-formed grid, in both revisions,
every call `NAME(x..y)` of one of the five functions whose `x` or `y` is not the
label of a cell of the grid fails with the error of an invalid token, `token is
not a valid cell reference function or numeric value`, not with `Invalid cell
reference in function range` (for `x` and `y` without spaces, `x` without a
point and `y` without a closing parenthesis).  `getFunctionType` has already
rejected the range, so the token is not taken for a function call. -/
theorem C25_invalid_range_fails_as_invalid_token (sqrt : Dbl → Dbl)
    (g1 : Rev1.Spreadsheet) (g2 : Rev2.Spreadsheet) (name x y : Str) (deps : Deps)
    (h1 : g1.WF) (h2 : g2.WF)
    (hname : name ∈ ["SUM".toList, "AVER".toList, "STDDEV".toList, "MAX".toList, "MIN".toList])
    (hx : ∀ c ∈ x, c ≠ ' ' ∧ c ≠ '.') (hy : ∀ c ∈ y, c ≠ ' ' ∧ c ≠ ')')
    (hlen : x.length + y.length < 2 ^ 30) :
    ((¬ (∃ i j : Nat, i < g1.getRowCount ∧ j < g1.getColCount ∧
            x = cellLabel (i : Int) (j : Int)) ∨
        ¬ (∃ i j : Nat, i < g1.getRowCount ∧ j < g1.getColCount ∧
            y = cellLabel (i : Int) (j : Int))) →
      Rev1.evaluateSingleToken sqrt g1 (name ++ '(' :: (x ++ '.' :: '.' :: (y ++ [')']))) deps
        = .error .tokenInvalid) ∧
    ((¬ (∃ i j : Nat, i < g2.getRowCount ∧ j < g2.getColCount ∧
            x = cellLabel (i : Int) (j : Int)) ∨
        ¬ (∃ i j : Nat, i < g2.getRowCount ∧ j < g2.getColCount ∧
            y = cellLabel (i : Int) (j : Int))) →
      Rev2.evaluateSingleToken sqrt g2 (name ++ '(' :: (x ++ '.' :: '.' :: (y ++ [')']))) deps
        = .error .tokenInvalid) := by
  obtain ⟨hrs, hval, hl, hlab⟩ := call_facts name x y hname (fun c hc => (hx c hc).1)
    (fun c hc => (hy c hc).1)
  have hcall : ∀ rows cols : Nat,
      (¬ (∃ i j : Nat, i < rows ∧ j < cols ∧ x = cellLabel (i : Int) (j : Int)) ∨
        ¬ (∃ i j : Nat, i < rows ∧ j < cols ∧ y = cellLabel (i : Int) (j : Int))) →
      ¬ StartsWithCall rows cols
        (removeSpaces (name ++ '(' :: (x ++ '.' :: '.' :: (y ++ [')'])))) := by
    intro rows cols hno hs
    rw [hrs] at hs
    obtain ⟨ex, ey⟩ := startsWithCall_call rows cols name x y hname (fun c hc => (hx c hc).2)
      (fun c hc => (hy c hc).2) hs
    rcases hno with hno | hno
    · exact hno ex
    · exact hno ey
  have hlt : (name ++ '(' :: (x ++ '.' :: '.' :: (y ++ [')']))).length < 2 ^ 31 := by omega
  constructor
  · intro hno
    exact Rev1.evaluateSingleToken_invalid_r1 sqrt h1 _ deps hlt
      (fun i j _ _ => by rw [hrs]; exact hlab i j) hval (hcall _ _ hno)
  · intro hno
    exact Rev2.evaluateSingleToken_invalid_r2 sqrt h2 _ deps hlt
      (fun i j _ _ => by rw [hrs]; exact hlab i j) hval (hcall _ _ hno)

/-- C25 (witness): on the grid with the cells A1, B1, C1 the tokens
`SUM(A1..Z9)`, `MAX(Z9..A1)` and `AVER(Q7..Z9)`, whose range names a cell that
does not exist, fail with the error of an invalid token in both revisions; so
does the formula `=SUM(A1..Z9)`. -/
theorem C25_witness :
    (Rev1.sheetA.WF ∧ Rev2.sheetA.WF ∧
      "SUM".toList ∈ ["SUM".toList, "AVER".toList, "STDDEV".toList, "MAX".toList,
        "MIN".toList] ∧
      (∀ c ∈ "A1".toList, c ≠ ' ' ∧ c ≠ '.') ∧ (∀ c ∈ "Z9".toList, c ≠ ' ' ∧ c ≠ ')') ∧
      "A1".toList.length + "Z9".toList.length < 2 ^ 30 ∧
      ¬ (∃ i j : Nat, i < Rev2.sheetA.getRowCount ∧ j < Rev2.sheetA.getColCount ∧
          "Z9".toList = cellLabel (i : Int) (j : Int))) ∧
    Rev2.getFunctionType Rev2.sheetA "SUM(A1..Z9)".toList = .ok .INVALID ∧
    Rev2.evaluateSingleToken id Rev2.sheetA "SUM(A1..Z9)".toList [] = .error .tokenInvalid ∧
    Rev2.evaluateSingleToken id Rev2.sheetA "MAX(Z9..A1)".toList [] = .error .tokenInvalid ∧
    Rev2.evaluateSingleToken id Rev2.sheetA "AVER(Q7..Z9)".toList [] = .error .tokenInvalid ∧
    Rev2.parseAndEvaluate id Rev2.sheetA "=SUM(A1..Z9)".toList (0, 2) [] = .error .tokenInvalid ∧
    Rev1.getFunctionType Rev1.sheetA "SUM(A1..Z9)".toList = .ok .INVALID ∧
    Rev1.evaluateSingleToken id Rev1.sheetA "SUM(A1..Z9)".toList [] = .error .tokenInvalid ∧
    Rev1.evaluateSingleToken id Rev1.sheetA "MAX(Z9..A1)".toList [] = .error .tokenInvalid ∧
    Rev1.evaluateSingleToken id Rev1.sheetA "AVER(Q7..Z9)".toList [] = .error .tokenInvalid ∧
    Rev1.parseAndEvaluate id Rev1.sheetA "=SUM(A1..Z9)".toList (0, 2) = .error .tokenInvalid :=
  have hz1 : ¬ (∃ i j : Nat, i < Rev1.sheetA.getRowCount ∧ j < Rev1.sheetA.getColCount ∧
      "Z9".toList = cellLabel (i : Int) (j : Int)) :=
    fun ⟨i, j, hi, hj, h⟩ => no_label_of_labelLookup _ _ _ (by decide) i j hi hj h
  have hz2 : ¬ (∃ i j : Nat, i < Rev2.sheetA.getRowCount ∧ j < Rev2.sheetA.getColCount ∧
      "Z9".toList = cellLabel (i : Int) (j : Int)) :=
    fun ⟨i, j, hi, hj, h⟩ => no_label_of_labelLookup _ _ _ (by decide) i j hi hj h
  have h := C25_invalid_range_fails_as_invalid_token id Rev1.sheetA Rev2.sheetA "SUM".toList
    "A1".toList "Z9".toList [] (by decide) (by decide) (by decide) (by decide) (by decide)
    (by decide)
  ⟨⟨by decide, by decide, by decide, by decide, by decide, by decide, hz2⟩,
    by decide, h.2 (Or.inr hz2), by decide, by decide, by decide,
    by decide, h.1 (Or.inr hz1), by decide, by decide, by decide⟩

/-! ## C37: the set of visited cells after a recalculation -/

namespace Rev2

theorem autoCalculateLoop_visited (sqrt : Dbl → Dbl)
    (recurse : Spreadsheet → Visited → Int × Int → Except Err (Spreadsheet × Visited))
    (hrec : ∀ g v c g2 v2, recurse g v c = .ok (g2, v2) → v2 = v) (coordinate : Int × Int) :
    ∀ (l : List (Nat × Nat)) (g : Spreadsheet) (v : Visited) (g2 : Spreadsheet) (v2 : Visited),
      autoCalculateLoop sqrt recurse coordinate l (g, v) = .ok (g2, v2) → v2 = v := by
  intro l
  induction l with
  | nil =>
    intro g v g2 v2 h
    unfold autoCalculateLoop at h
    cases h
    rfl
  | cons p rest ih =>
    intro g v g2 v2 h
    obtain ⟨i, j⟩ := p
    unfold autoCalculateLoop at h
    cases hget : g.getCell i j with
    | error e => rw [hget] at h; cases h
    | ok cell =>
      rw [hget] at h
      simp only at h
      cases hbody : cell.body with
      | FormulaCell formula value deps =>
        rw [hbody] at h
        simp only at h
        by_cases hcond : coordinate ∈ deps ∧ formula ≠ [] ∧ formula.head? = some '='
        · rw [if_pos hcond] at h
          cases hpe : parseAndEvaluate sqrt g formula ((i : Int), (j : Int)) [] with
          | error e =>
            rw [hpe] at h
            simp only at h
            by_cases he : e.isException = true
            · rw [if_pos he] at h
              exact ih _ _ _ _ h
            · rw [if_neg he] at h
              cases h
          | ok r =>
            obtain ⟨nv, nd⟩ := r
            rw [hpe] at h
            simp only at h
            cases hr : recurse (g.assign i j
                { cell with body := .FormulaCell formula nv (deps ++ nd) }) v
                ((i : Int), (j : Int)) with
            | error e => rw [hr] at h; cases h
            | ok s =>
              obtain ⟨g3, v3⟩ := s
              rw [hr] at h
              simp only at h
              have := hrec _ _ _ _ _ hr
              subst this
              exact ih _ _ _ _ h
        · rw [if_neg hcond] at h
          exact ih _ _ _ _ h
      | IntValueCell val => rw [hbody] at h; exact ih _ _ _ _ h
      | StringValueCell val => rw [hbody] at h; exact ih _ _ _ _ h
      | DoubleValueCell val => rw [hbody] at h; exact ih _ _ _ _ h

/-- A returning call of `autoCalculate` leaves the in-progress set as it found
it. -/
theorem autoCalculate_visited (sqrt : Dbl → Dbl) :
    ∀ (fuel : Nat) (g : Spreadsheet) (v : Visited) (c : Int × Int) (g2 : Spreadsheet)
      (v2 : Visited), autoCalculate sqrt fuel g v c = .ok (g2, v2) → v2 = v := by
  intro fuel
  induction fuel with
  | zero =>
    intro g v c g2 v2 h
    cases h
  | succ n ih =>
    intro g v c g2 v2 h
    unfold autoCalculate at h
    by_cases hv : c ∈ v
    · rw [if_pos hv] at h
      cases h
      rfl
    · rw [if_neg hv] at h
      cases hl : autoCalculateLoop sqrt (autoCalculate sqrt n) c
          (gridIndices g.getRowCount g.getColCount) (g, stdSetInsert c v) with
      | error e => rw [hl] at h; cases h
      | ok s =>
        obtain ⟨g3, v3⟩ := s
        rw [hl] at h
        simp only [Except.ok.injEq, Prod.mk.injEq] at h
        obtain ⟨_, rfl⟩ := h
        have := autoCalculateLoop_visited sqrt (autoCalculate sqrt n) ih c _ _ _ _ _ hl
        subst this
        exact stdSetErase_stdSetInsert c v hv

end Rev2

/-- C37: in the second revision every call `autoCalculate(c)` that returns,
returns with the in-progress set equal to its content at entry, whatever the
grid and the depth of the recursion; and on a well-formed grid the call returns.
A top-level call that finds the set empty leaves it empty, so the next one finds
it empty again. -/
theorem C37_visited_set_restored (sqrt : Dbl → Dbl) (g : Rev2.Spreadsheet)
    (visited : Rev2.Visited) (c : Int × Int) (fuel : Nat)
    (hw : g.WF) (hfuel : g.getRowCount * g.getColCount + 2 ≤ fuel) :
    (∃ g2, Rev2.autoCalculate sqrt fuel g visited c = .ok (g2, visited)) ∧
    (∀ (n : Nat) (g0 : Rev2.Spreadsheet) (v0 : Rev2.Visited) (c0 : Int × Int)
        (g2 : Rev2.Spreadsheet) (v2 : Rev2.Visited),
      Rev2.autoCalculate sqrt n g0 v0 c0 = .ok (g2, v2) → v2 = v0) ∧
    ∀ c2 : Int × Int, ∃ g2 g3, Rev2.autoCalculate sqrt fuel g [] c = .ok (g2, []) ∧
      Rev2.autoCalculate sqrt fuel g2 [] c2 = .ok (g3, []) := by
  have hn := Rev2.notVisited_le g.getRowCount g.getColCount visited
  have hn0 := Rev2.notVisited_le g.getRowCount g.getColCount []
  obtain ⟨g2, h1, _⟩ := Rev2.autoCalculate_returns sqrt g.getRowCount g.getColCount fuel g
    visited c ⟨hw, rfl, rfl⟩ (Or.inl (by omega))
  refine ⟨⟨g2, h1⟩, Rev2.autoCalculate_visited sqrt, ?_⟩
  intro c2
  obtain ⟨g3, h3, hs3⟩ := Rev2.autoCalculate_returns sqrt g.getRowCount g.getColCount fuel g
    [] c ⟨hw, rfl, rfl⟩ (Or.inl (by omega))
  obtain ⟨g4, h4, _⟩ := Rev2.autoCalculate_returns sqrt g.getRowCount g.getColCount fuel g3
    [] c2 hs3 (Or.inl (by omega))
  exact ⟨g3, g4, h3, h4⟩

/-- C37 (witness): recalculation for A1 and then for B1 on the cyclic grid
A1 = `=B1`, B1 = `=A1`, the set empty before, between and after. -/
theorem C37_witness :
    (Rev2.sheetCyc.WF ∧ Rev2.sheetCyc.getRowCount * Rev2.sheetCyc.getColCount + 2 ≤ 4) ∧
    (Rev2.autoCalculate id 4 Rev2.sheetCyc [] (0, 0)).map Prod.snd = .ok [] ∧
    ∃ g2 g3, Rev2.autoCalculate id 4 Rev2.sheetCyc [] (0, 0) = .ok (g2, []) ∧
      Rev2.autoCalculate id 4 g2 [] (0, 1) = .ok (g3, []) :=
  ⟨⟨by decide, by decide⟩, by decide!,
    (C37_visited_set_restored id Rev2.sheetCyc [] (0, 0) 4 (by decide) (by decide)).2.2 (0, 1)⟩

/-! ## C34: the tokens of a formula -/

theorem parsePlusAndMinusLoop_tokens (cs : Str) :
    ∀ (tokens : List Str) (token : Str),
      (parsePlusAndMinusLoop cs tokens token).1.flatten ++ (parsePlusAndMinusLoop cs tokens token).2
        = tokens.flatten ++ token ++ removeSpaces cs ∧
      ((∀ t ∈ tokens, t = ['+'] ∨ t = ['-'] ∨ (t ≠ [] ∧ IsAddOperand t)) → IsAddOperand token →
        (∀ t ∈ (parsePlusAndMinusLoop cs tokens token).1,
          t = ['+'] ∨ t = ['-'] ∨ (t ≠ [] ∧ IsAddOperand t)) ∧
        IsAddOperand (parsePlusAndMinusLoop cs tokens token).2) := by
  induction cs with
  | nil =>
    intro tokens token
    simp only [parsePlusAndMinusLoop, removeSpaces, List.filter_nil, List.append_nil, true_and]
    exact fun h1 h2 => ⟨h1, h2⟩
  | cons c cs ih =>
    intro tokens token
    unfold parsePlusAndMinusLoop
    by_cases hop : c = '+' ∨ c = '-'
    · rw [if_pos hop]
      have hsp : c ≠ ' ' := by rcases hop with rfl | rfl <;> decide
      rw [removeSpaces_cons_of_ne c cs hsp]
      by_cases hne : token ≠ []
      · rw [if_pos hne]
        obtain ⟨e, p⟩ := ih (tokens ++ [token] ++ [[c]]) []
        refine ⟨?_, ?_⟩
        · rw [e]
          simp
        · intro h1 h2
          refine p ?_ (by intro x hx; cases hx)
          intro t ht
          simp only [List.mem_append, List.mem_singleton] at ht
          rcases ht with (ht | rfl) | rfl
          · exact h1 t ht
          · exact Or.inr (Or.inr ⟨hne, h2⟩)
          · rcases hop with rfl | rfl
            · exact Or.inl rfl
            · exact Or.inr (Or.inl rfl)
      · have hnil : token = [] := by simpa using hne
        subst hnil
        rw [if_neg (fun hh => hh rfl)]
        obtain ⟨e, p⟩ := ih (tokens ++ [[c]]) []
        refine ⟨?_, ?_⟩
        · rw [e]
          simp
        · intro h1 h2
          refine p ?_ (by intro x hx; cases hx)
          intro t ht
          simp only [List.mem_append, List.mem_singleton] at ht
          rcases ht with ht | rfl
          · exact h1 t ht
          · rcases hop with rfl | rfl
            · exact Or.inl rfl
            · exact Or.inr (Or.inl rfl)
    · rw [if_neg hop]
      by_cases hsp : c = ' '
      · rw [if_pos hsp]
        subst hsp
        rw [removeSpaces_cons_space]
        exact ih tokens token
      · rw [if_neg hsp, removeSpaces_cons_of_ne c cs hsp]
        obtain ⟨e, p⟩ := ih tokens (token ++ [c])
        refine ⟨?_, ?_⟩
        · rw [e]
          simp
        · intro h1 h2
          refine p h1 ?_
          intro x hx
          rcases List.mem_append.1 hx with hx | hx
          · exact h2 x hx
          · simp only [List.mem_singleton] at hx
            subst hx
            exact ⟨fun h => hop (Or.inl h), fun h => hop (Or.inr h), hsp⟩

theorem parsePlusAndMinus_tokens (text : Str) (tokens : List Str)
    (h : parsePlusAndMinus text = .ok tokens) :
    tokens.flatten = removeSpaces text ∧
    ∀ t ∈ tokens, t = ['+'] ∨ t = ['-'] ∨ (t ≠ [] ∧ IsAddOperand t) := by
  obtain ⟨e, p⟩ := parsePlusAndMinusLoop_tokens text [] []
  obtain ⟨p1, p2⟩ := p (by intro t ht; cases ht) (by intro x hx; cases hx)
  unfold parsePlusAndMinus at h
  cases hl : parsePlusAndMinusLoop text [] [] with
  | mk ts token =>
    rw [hl] at h e p1 p2
    simp only at h e p1 p2
    by_cases hnil : token = []
    · rw [if_pos hnil] at h
      cases h
    · rw [if_neg hnil] at h
      simp only [Except.ok.injEq] at h
      subst h
      refine ⟨?_, ?_⟩
      · simpa using e
      · intro t ht
        rcases List.mem_append.1 ht with ht | ht
        · exact p1 t ht
        · simp only [List.mem_singleton] at ht
          subst ht
          exact Or.inr (Or.inr ⟨hnil, p2⟩)

theorem parseMultpAndDivLoop_tokens (cs : Str) :
    ∀ (tokens : List Str) (subToken : Str),
      (parseMultpAndDivLoop cs tokens subToken).1.flatten
          ++ (parseMultpAndDivLoop cs tokens subToken).2
        = tokens.flatten ++ subToken ++ cs ∧
      ((∀ t ∈ tokens, t = ['*'] ∨ t = ['/'] ∨ IsMulOperand t) → IsMulOperand subToken →
        (∀ t ∈ (parseMultpAndDivLoop cs tokens subToken).1,
          t = ['*'] ∨ t = ['/'] ∨ IsMulOperand t) ∧
        IsMulOperand (parseMultpAndDivLoop cs tokens subToken).2) := by
  induction cs with
  | nil =>
    intro tokens subToken
    simp only [parseMultpAndDivLoop, List.append_nil, true_and]
    exact fun h1 h2 => ⟨h1, h2⟩
  | cons c cs ih =>
    intro tokens subToken
    unfold parseMultpAndDivLoop
    by_cases hop : c = '/' ∨ c = '*'
    · rw [if_pos hop]
      by_cases hne : subToken ≠ []
      · rw [if_pos hne]
        obtain ⟨e, p⟩ := ih (tokens ++ [subToken] ++ [[c]]) []
        refine ⟨?_, ?_⟩
        · rw [e]
          simp
        · intro h1 h2
          refine p ?_ (by intro x hx; cases hx)
          intro t ht
          simp only [List.mem_append, List.mem_singleton] at ht
          rcases ht with (ht | rfl) | rfl
          · exact h1 t ht
          · exact Or.inr (Or.inr h2)
          · rcases hop with rfl | rfl
            · exact Or.inr (Or.inl rfl)
            · exact Or.inl rfl
      · have hnil : subToken = [] := by simpa using hne
        subst hnil
        rw [if_neg (fun hh => hh rfl)]
        obtain ⟨e, p⟩ := ih (tokens ++ [[c]]) []
        refine ⟨?_, ?_⟩
        · rw [e]
          simp
        · intro h1 h2
          refine p ?_ (by intro x hx; cases hx)
          intro t ht
          simp only [List.mem_append, List.mem_singleton] at ht
          rcases ht with ht | rfl
          · exact h1 t ht
          · rcases hop with rfl | rfl
            · exact Or.inr (Or.inl rfl)
            · exact Or.inl rfl
    · rw [if_neg hop]
      obtain ⟨e, p⟩ := ih tokens (subToken ++ [c])
      refine ⟨?_, ?_⟩
      · rw [e]
        simp
      · intro h1 h2
        refine p h1 ?_
        intro x hx
        rcases List.mem_append.1 hx with hx | hx
        · exact h2 x hx
        · simp only [List.mem_singleton] at hx
          subst hx
          exact ⟨fun h => hop (Or.inr h), fun h => hop (Or.inl h)⟩

theorem parseMultpAndDiv_tokens (operand : Str) (h : operand ≠ []) :
    ∃ tokens, parseMultpAndDiv operand = .ok tokens ∧ tokens.flatten = operand ∧
      ∀ t ∈ tokens, t = ['*'] ∨ t = ['/'] ∨ IsMulOperand t := by
  obtain ⟨e, p⟩ := parseMultpAndDivLoop_tokens operand [] []
  obtain ⟨p1, p2⟩ := p (by intro t ht; cases ht) (by intro x hx; cases hx)
  unfold parseMultpAndDiv
  cases hl : parseMultpAndDivLoop operand [] [] with
  | mk ts sub =>
    rw [hl] at e p1 p2
    simp only at e p1 p2
    simp only [if_neg h]
    refine ⟨_, rfl, ?_, ?_⟩
    · simpa using e
    · intro t ht
      rcases List.mem_append.1 ht with ht | ht
      · exact p1 t ht
      · simp only [List.mem_singleton] at ht
        subst ht
        exact Or.inr (Or.inr p2)

/-- C34: when `parsePlusAndMinus` succeeds on a text, the tokens it returns,
concatenated in order, are the text with its spaces removed, and each token is
`+`, `-`, or a non-empty operand without `+`, `-` and space.  On a non-empty
operand `parseMultpAndDiv` succeeds; its tokens, concatenated in order, are the
operand, and each token is `*`, `/`, or an operand without `*` and `/`. -/
theorem C34_tokens_cover_the_text (text operand : Str) (tokens : List Str)
    (h : parsePlusAndMinus text = .ok tokens) (ho : operand ≠ []) :
    (tokens.flatten = removeSpaces text ∧
      ∀ t ∈ tokens, t = ['+'] ∨ t = ['-'] ∨ (t ≠ [] ∧ IsAddOperand t)) ∧
    ∃ subTokens, parseMultpAndDiv operand = .ok subTokens ∧ subTokens.flatten = operand ∧
      ∀ t ∈ subTokens, t = ['*'] ∨ t = ['/'] ∨ IsMulOperand t :=
  ⟨parsePlusAndMinus_tokens text tokens h, parseMultpAndDiv_tokens operand ho⟩

/-- C34 (witness): the text `A1 + 2*B1-3` and its operand `2*B1`. -/
theorem C34_witness :
    (parsePlusAndMinus "A1 + 2*B1-3".toList
        = .ok ["A1".toList, "+".toList, "2*B1".toList, "-".toList, "3".toList] ∧
      "2*B1".toList ≠ []) ∧
    (["A1".toList, "+".toList, "2*B1".toList, "-".toList, "3".toList].flatten
        = removeSpaces "A1 + 2*B1-3".toList ∧
      ∀ t ∈ ["A1".toList, "+".toList, "2*B1".toList, "-".toList, "3".toList],
        t = ['+'] ∨ t = ['-'] ∨ (t ≠ [] ∧ IsAddOperand t)) ∧
    parseMultpAndDiv "2*B1".toList = .ok ["2".toList, "*".toList, "B1".toList] ∧
    ∃ subTokens, parseMultpAndDiv "2*B1".toList = .ok subTokens ∧
      subTokens.flatten = "2*B1".toList ∧
      ∀ t ∈ subTokens, t = ['*'] ∨ t = ['/'] ∨ IsMulOperand t :=
  have h := C34_tokens_cover_the_text "A1 + 2*B1-3".toList "2*B1".toList
    ["A1".toList, "+".toList, "2*B1".toList, "-".toList, "3".toList] (by decide) (by decide)
  ⟨⟨by decide, by decide⟩, h.1, by decide, h.2⟩

/-! ## C35: a run of signs -/

/-- A run of additive signs before an operand: only the last one is kept. -/
theorem parseAndEvaluateLoop_signs (ev : Str → Deps → Except Err (Dbl × Deps)) :
    ∀ (signs : List Str) (s : Str) (rest : List Str) (isAddition : Bool) (result : Dbl)
      (deps : Deps), (∀ x ∈ signs ++ [s], x = ['+'] ∨ x = ['-']) →
      parseAndEvaluateLoop ev (signs ++ s :: rest) isAddition result deps
        = parseAndEvaluateLoop ev rest (decide (s = ['+'])) result deps := by
  intro signs
  induction signs with
  | nil =>
    intro s rest isAddition result deps h
    rcases h s (by simp) with rfl | rfl
    · simp [parseAndEvaluateLoop]
    · simp [parseAndEvaluateLoop]
  | cons x signs ih =>
    intro s rest isAddition result deps h
    have hx := h x (by simp)
    have ih' := fun b => ih s rest b result deps (fun y hy => h y (by
      simp only [List.cons_append, List.mem_cons]
      exact Or.inr hy))
    rcases hx with rfl | rfl
    · simp only [List.cons_append]
      rw [parseAndEvaluateLoop, if_pos rfl]
      exact ih' true
    · simp only [List.cons_append]
      rw [parseAndEvaluateLoop, if_neg (by decide), if_pos rfl]
      exact ih' false

/-- An operand is added or subtracted as the flag says, and the flag stays. -/
theorem parseAndEvaluateLoop_operand (ev : Str → Deps → Except Err (Dbl × Deps))
    (t : Str) (rest : List Str) (isAddition : Bool) (result : Dbl) (deps : Deps)
    (h1 : t ≠ ['+']) (h2 : t ≠ ['-']) :
    parseAndEvaluateLoop ev (t :: rest) isAddition result deps
      = match evaluateMultpAndDivToken ev t deps with
        | .error e => .error e
        | .ok (v, deps2) =>
          parseAndEvaluateLoop ev rest isAddition
            (if isAddition then result.add v else result.sub v) deps2 := by
  rw [parseAndEvaluateLoop, if_neg h1, if_neg h2]

/-- C35: in the loop of `parseAndEvaluate` over the additive tokens, after a run
of `+`/`-` signs the operand that follows is added when the last sign of the run
is `+` and subtracted when it is `-`, whatever the earlier signs of the run and
the operator in force before it; and an operand with nothing before it is added
(the loop starts with `isAddition = true`).  So `=2-+3` evaluates to 5, `=2--3`
to -1 and `=-5` to -5, in both revisions. -/
theorem C35_last_sign_decides (ev : Str → Deps → Except Err (Dbl × Deps))
    (signs : List Str) (s t : Str) (rest : List Str) (isAddition : Bool) (result : Dbl)
    (deps : Deps) (hs : ∀ x ∈ signs ++ [s], x = ['+'] ∨ x = ['-'])
    (h1 : t ≠ ['+']) (h2 : t ≠ ['-']) :
    parseAndEvaluateLoop ev (signs ++ s :: t :: rest) isAddition result deps
      = (match evaluateMultpAndDivToken ev t deps with
        | .error e => .error e
        | .ok (v, deps2) =>
          parseAndEvaluateLoop ev rest (decide (s = ['+']))
            (if decide (s = ['+']) then result.add v else result.sub v) deps2) ∧
    parseAndEvaluateLoop ev (t :: rest) true result deps
      = (match evaluateMultpAndDivToken ev t deps with
        | .error e => .error e
        | .ok (v, deps2) => parseAndEvaluateLoop ev rest true (result.add v) deps2) ∧
    (Rev2.parseAndEvaluate id Rev2.sheetA "=2-+3".toList (0, 2) [] = .ok (Dbl.fin 5, []) ∧
      Rev2.parseAndEvaluate id Rev2.sheetA "=2--3".toList (0, 2) [] = .ok (Dbl.fin (-1), []) ∧
      Rev2.parseAndEvaluate id Rev2.sheetA "=-5".toList (0, 2) [] = .ok (Dbl.fin (-5), [])) ∧
    ((Rev1.parseAndEvaluate id Rev1.sheetA "=2-+3".toList (0, 2)).map Prod.fst
        = .ok (Dbl.fin 5) ∧
      (Rev1.parseAndEvaluate id Rev1.sheetA "=2--3".toList (0, 2)).map Prod.fst
        = .ok (Dbl.fin (-1)) ∧
      (Rev1.parseAndEvaluate id Rev1.sheetA "=-5".toList (0, 2)).map Prod.fst
        = .ok (Dbl.fin (-5))) := by
  refine ⟨?_, ?_, ⟨by decide!, by decide!, by decide!⟩, ⟨by decide!, by decide!, by decide!⟩⟩
  · rw [parseAndEvaluateLoop_signs ev signs s (t :: rest) isAddition result deps hs,
      parseAndEvaluateLoop_operand ev t rest _ result deps h1 h2]
  · rw [parseAndEvaluateLoop_operand ev t rest true result deps h1 h2]
    rfl

/-- C35 (witness): the tokens `2`, `+`, `-`, `-`, `3` of `2+--3` give 2 - 3. -/
theorem C35_witness :
    ((∀ x ∈ ["+".toList, "-".toList] ++ ["-".toList], x = ['+'] ∨ x = ['-']) ∧
      "3".toList ≠ ['+'] ∧ "3".toList ≠ ['-']) ∧
    parsePlusAndMinus "2+--3".toList
      = .ok ["2".toList, "+".toList, "-".toList, "-".toList, "3".toList] ∧
    parseAndEvaluateLoop (Rev2.evaluateSingleToken id Rev2.sheetA)
        (["+".toList, "-".toList] ++ "-".toList :: "3".toList :: []) true (Dbl.fin 2) []
      = .ok (Dbl.fin (-1), []) :=
  have h := (C35_last_sign_decides (Rev2.evaluateSingleToken id Rev2.sheetA)
    ["+".toList, "-".toList] "-".toList "3".toList [] true (Dbl.fin 2) []
    (by decide) (by decide) (by decide)).1
  ⟨⟨by decide, by decide, by decide⟩, by decide, h.trans (by decide!)⟩

/-! ## C38: the operands are never empty -/

theorem parsePlusAndMinus_operands_ne_nil (formula : Str) (tokens : List Str)
    (h : parsePlusAndMinus formula = .ok tokens) : ∀ t ∈ tokens, t ≠ [] := by
  intro t ht
  rcases (parsePlusAndMinus_tokens formula tokens h).2 t ht with rfl | rfl | ⟨hne, _⟩
  · simp
  · simp
  · exact hne

theorem parseMultpAndDiv_cons (t : Str) (h : t ≠ []) :
    ∃ t0 ts, parseMultpAndDiv t = .ok (t0 :: ts) := by
  obtain ⟨tokens, ht⟩ := parseMultpAndDiv_ok_of_ne_nil t h
  cases tokens with
  | nil => exact absurd ht (parseMultpAndDiv_ne_nil t)
  | cons t0 ts => exact ⟨t0, ts, ht⟩

theorem evaluateMultpAndDivLoop_error (ev : Str → Deps → Except Err (Dbl × Deps)) :
    ∀ (ts : List Str) (result : Dbl) (isMultp : Bool) (deps : Deps) (e : Err),
      evaluateMultpAndDivLoop ev ts result isMultp deps = .error e →
      ∃ sub deps2, ev sub deps2 = .error e := by
  intro ts
  induction ts with
  | nil =>
    intro result isMultp deps e h
    simp [evaluateMultpAndDivLoop] at h
  | cons t ts ih =>
    intro result isMultp deps e h
    rw [evaluateMultpAndDivLoop] at h
    by_cases h1 : t = ['*']
    · rw [if_pos h1] at h
      exact ih _ _ _ _ h
    · rw [if_neg h1] at h
      by_cases h2 : t = ['/']
      · rw [if_pos h2] at h
        exact ih _ _ _ _ h
      · rw [if_neg h2] at h
        cases hev : ev t deps with
        | error e2 =>
          rw [hev] at h
          cases h
          exact ⟨t, deps, hev⟩
        | ok p =>
          rw [hev] at h
          exact ih _ _ _ _ h

theorem evaluateMultpAndDivToken_error (ev : Str → Deps → Except Err (Dbl × Deps))
    (t : Str) (deps : Deps) (e : Err) (hne : t ≠ [])
    (h : evaluateMultpAndDivToken ev t deps = .error e) :
    ∃ sub deps2, ev sub deps2 = .error e := by
  obtain ⟨t0, ts, ht⟩ := parseMultpAndDiv_cons t hne
  unfold evaluateMultpAndDivToken at h
  rw [ht] at h
  simp only at h
  cases hev : ev t0 deps with
  | error e2 =>
    rw [hev] at h
    cases h
    exact ⟨t0, deps, hev⟩
  | ok p =>
    rw [hev] at h
    exact evaluateMultpAndDivLoop_error ev _ _ _ _ _ h

theorem parseAndEvaluateLoop_error (ev : Str → Deps → Except Err (Dbl × Deps)) :
    ∀ (tokens : List Str) (isAddition : Bool) (result : Dbl) (deps : Deps) (e : Err),
      (∀ t ∈ tokens, t ≠ []) →
      parseAndEvaluateLoop ev tokens isAddition result deps = .error e →
      ∃ sub deps2, ev sub deps2 = .error e := by
  intro tokens
  induction tokens with
  | nil =>
    intro isAddition result deps e _ h
    simp [parseAndEvaluateLoop] at h
  | cons t ts ih =>
    intro isAddition result deps e hne h
    have hts : ∀ x ∈ ts, x ≠ [] := fun x hx => hne x (List.mem_cons_of_mem _ hx)
    rw [parseAndEvaluateLoop] at h
    by_cases h1 : t = ['+']
    · rw [if_pos h1] at h
      exact ih _ _ _ _ hts h
    · rw [if_neg h1] at h
      by_cases h2 : t = ['-']
      · rw [if_pos h2] at h
        exact ih _ _ _ _ hts h
      · rw [if_neg h2] at h
        cases hev : evaluateMultpAndDivToken ev t deps with
        | error e2 =>
          rw [hev] at h
          cases h
          exact evaluateMultpAndDivToken_error ev t deps e (hne t (List.mem_cons_self _ _)) hev
        | ok p =>
          rw [hev] at h
          exact ih _ _ _ _ hts h

theorem parsePlusAndMinus_error (formula : Str) (e : Err)
    (h : parsePlusAndMinus formula = .error e) : e = .plusMinusAtEnd := by
  unfold parsePlusAndMinus at h
  cases hl : parsePlusAndMinusLoop formula [] [] with
  | mk tokens token =>
    rw [hl] at h
    simp only at h
    by_cases hn : token = []
    · rw [if_pos hn] at h
      cases h
      rfl
    · rw [if_neg hn] at h
      cases h

namespace Rev2

/-- Where a failure of `parseAndEvaluate` comes from. -/
theorem parseAndEvaluate_error_r2 (sqrt : Dbl → Dbl) (g : Spreadsheet) (formula : Str)
    (c : Int × Int) (deps : Deps) (e : Err)
    (h : parseAndEvaluate sqrt g formula c deps = .error e) :
    e = .emptyFormulaInput ∨ e = .plusMinusAtEnd ∨
      ∃ sub deps2, evaluateSingleToken sqrt g sub deps2 = .error e := by
  unfold parseAndEvaluate at h
  by_cases hf : formula = []
  · rw [if_pos hf] at h
    cases h
    exact Or.inl rfl
  · rw [if_neg hf] at h
    cases hp : parsePlusAndMinus (formula.drop 1) with
    | error e2 =>
      rw [hp] at h
      cases h
      exact Or.inr (Or.inl (parsePlusAndMinus_error _ _ hp))
    | ok tokens =>
      rw [hp] at h
      simp only at h
      by_cases ht : tokens = []
      · exact absurd (ht ▸ hp) (Rev1.parsePlusAndMinus_ne_nil _)
      · rw [if_neg ht] at h
        cases hl : parseAndEvaluateLoop (evaluateSingleToken sqrt g) tokens true (Dbl.fin 0) []
          with
        | error e2 =>
          rw [hl] at h
          cases h
          exact Or.inr (Or.inr (parseAndEvaluateLoop_error _ _ _ _ _ _
            (parsePlusAndMinus_operands_ne_nil _ _ hp) hl))
        | ok r =>
          rw [hl] at h
          cases h

end Rev2

namespace Rev1

/-- Where a failure of `parseAndEvaluate` comes from. -/
theorem parseAndEvaluate_error_r1 (sqrt : Dbl → Dbl) (g : Spreadsheet) (formula : Str)
    (c : Int × Int) (e : Err)
    (h : parseAndEvaluate sqrt g formula c = .error e) :
    e = .plusMinusAtEnd ∨ g.getCell c.1 c.2 = .error e ∨
      ∃ sub deps2, evaluateSingleToken sqrt g sub deps2 = .error e := by
  unfold parseAndEvaluate at h
  by_cases hf : formula = []
  · rw [if_pos hf] at h
    cases h
  · rw [if_neg hf] at h
    cases hp : parsePlusAndMinus (formula.drop 1) with
    | error e2 =>
      rw [hp] at h
      cases h
      exact Or.inl (parsePlusAndMinus_error _ _ hp)
    | ok tokens =>
      rw [hp] at h
      simp only at h
      by_cases ht : tokens = []
      · exact absurd (ht ▸ hp) (parsePlusAndMinus_ne_nil _)
      · rw [if_neg ht] at h
        cases hl : parseAndEvaluateLoop (evaluateSingleToken sqrt g) tokens true (Dbl.fin 0) []
          with
        | error e2 =>
          rw [hl] at h
          cases h
          exact Or.inr (Or.inr (parseAndEvaluateLoop_error _ _ _ _ _ _
            (parsePlusAndMinus_operands_ne_nil _ _ hp) hl))
        | ok r =>
          rw [hl] at h
          simp only at h
          cases hg : g.getCell c.1 c.2 with
          | error e2 =>
            rw [hg] at h
            cases h
            exact Or.inr (Or.inl rfl)
          | ok cell =>
            rw [hg] at h
            cases h

end Rev1

/-- C38: `parseMultpAndDiv` never returns an empty token list; every token that
`parsePlusAndMinus` returns is non-empty, and on it `parseMultpAndDiv` returns a
list with a first element; so every failure of the loop of `parseAndEvaluate`
over the tokens of a formula, and of `parseAndEvaluate` itself, is a failure
raised by `evaluateSingleToken` (or, for the whole function, one of its own
errors): the error of the empty operand and the unchecked access `tokens[0]`
contribute none.  The empty operand itself would take the error branch. -/
theorem C38_empty_operand_branch_unreachable (sqrt : Dbl → Dbl) :
    (∀ token : Str, parseMultpAndDiv token ≠ .ok []) ∧
    parseMultpAndDiv [] = .error .multDivAtEnd ∧
    (∀ (formula : Str) (tokens : List Str), parsePlusAndMinus formula = .ok tokens →
      ∀ t ∈ tokens, t ≠ [] ∧ ∃ t0 ts, parseMultpAndDiv t = .ok (t0 :: ts)) ∧
    (∀ (ev : Str → Deps → Except Err (Dbl × Deps)) (formula : Str) (tokens : List Str)
        (isAddition : Bool) (result : Dbl) (deps : Deps) (e : Err),
      parsePlusAndMinus formula = .ok tokens →
      parseAndEvaluateLoop ev tokens isAddition result deps = .error e →
      ∃ sub deps2, ev sub deps2 = .error e) ∧
    (∀ (g : Rev2.Spreadsheet) (formula : Str) (c : Int × Int) (deps : Deps) (e : Err),
      Rev2.parseAndEvaluate sqrt g formula c deps = .error e →
      e = .emptyFormulaInput ∨ e = .plusMinusAtEnd ∨
        ∃ sub deps2, Rev2.evaluateSingleToken sqrt g sub deps2 = .error e) ∧
    ∀ (g : Rev1.Spreadsheet) (formula : Str) (c : Int × Int) (e : Err),
      Rev1.parseAndEvaluate sqrt g formula c = .error e →
      e = .plusMinusAtEnd ∨ g.getCell c.1 c.2 = .error e ∨
        ∃ sub deps2, Rev1.evaluateSingleToken sqrt g sub deps2 = .error e :=
  ⟨parseMultpAndDiv_ne_nil, by decide,
    fun formula tokens h t ht =>
      ⟨parsePlusAndMinus_operands_ne_nil formula tokens h t ht,
        parseMultpAndDiv_cons t (parsePlusAndMinus_operands_ne_nil formula tokens h t ht)⟩,
    fun ev formula tokens isAddition result deps e h hl =>
      parseAndEvaluateLoop_error ev tokens isAddition result deps e
        (parsePlusAndMinus_operands_ne_nil formula tokens h) hl,
    Rev2.parseAndEvaluate_error_r2 sqrt, Rev1.parseAndEvaluate_error_r1 sqrt⟩

/-! ## C39: the two column-label loops -/

theorem columnLabelLoop_eq_letterLoop (fuel : Nat) : ∀ (n : Int) (label : Str),
    columnLabelLoop fuel n label = letterLoop fuel (n - 1) label := by
  induction fuel with
  | zero => intro n label; rfl
  | succ k ih =>
    intro n label
    unfold columnLabelLoop letterLoop
    by_cases hn : 0 < n
    · rw [if_pos hn, if_pos (by omega), ih]
    · rw [if_neg hn, if_neg (by omega)]

theorem letterLoop_stable (fuel : Nat) : ∀ (c : Int) (letter : Str), c < (fuel : Int) →
    ∀ k : Nat, letterLoop (fuel + k) c letter = letterLoop fuel c letter := by
  induction fuel with
  | zero =>
    intro c letter hc k
    cases k with
    | zero => rfl
    | succ k =>
      rw [show 0 + (k + 1) = (0 + k) + 1 from rfl]
      unfold letterLoop
      rw [if_neg (by omega)]
  | succ n ih =>
    intro c letter hc k
    rw [show n + 1 + k = (n + k) + 1 by omega]
    rw [letterLoop, letterLoop]
    by_cases h0 : 0 ≤ c
    · rw [if_pos h0, if_pos h0]
      exact ih _ _ (by push_cast at hc; omega) k
    · rw [if_neg h0, if_neg h0]

/-- C39: for every column `j`, counted from 0, `getColumnLabel(j + 1)` is the
letter part that the conversion of the cell gives for column `j`; and both loops
end within `j + 1` iterations: a larger bound on the iterations gives the same
result.  The headers of the columns 0, 25, 26 and 702 are `A`, `Z`, `AA` and
`AAA`. -/
theorem C39_column_labels_agree (j : Nat) :
    getColumnLabel ((j : Int) + 1) = getLetterTransformation (j : Int) ∧
    (∀ fuel : Nat, j + 1 ≤ fuel →
      columnLabelLoop fuel ((j : Int) + 1) [] = getColumnLabel ((j : Int) + 1)) ∧
    (∀ fuel : Nat, j + 1 ≤ fuel →
      letterLoop fuel (j : Int) [] = getLetterTransformation (j : Int)) ∧
    (getColumnLabel 1 = "A".toList ∧ getColumnLabel 26 = "Z".toList ∧
      getColumnLabel 27 = "AA".toList ∧ getColumnLabel 703 = "AAA".toList) := by
  have hfuel : ((j : Int) + 1).toNat = j + 1 := by omega
  have hfuel2 : ((j : Int)).toNat + 1 = j + 1 := by omega
  have hst : ∀ fuel : Nat, j + 1 ≤ fuel →
      letterLoop fuel (j : Int) [] = getLetterTransformation (j : Int) := by
    intro fuel hf
    obtain ⟨k, rfl⟩ := Nat.exists_eq_add_of_le hf
    unfold getLetterTransformation
    rw [hfuel2]
    exact letterLoop_stable (j + 1) _ _ (by push_cast; omega) k
  have heq : getColumnLabel ((j : Int) + 1) = getLetterTransformation (j : Int) := by
    unfold getColumnLabel getLetterTransformation
    rw [hfuel, hfuel2, columnLabelLoop_eq_letterLoop]
    congr 1
    omega
  refine ⟨heq, ?_, hst, ⟨by decide, by decide, by decide, by decide⟩⟩
  intro fuel hf
  rw [heq, columnLabelLoop_eq_letterLoop, ← hst fuel hf]
  congr 1
  omega

/-! ## C36: reachable grids of the second revision -/

namespace Rev2

theorem Spreadsheet.new_cells {rows cols : Int} {g : Spreadsheet}
    (h : Spreadsheet.new rows cols = .ok g) :
    g.cells = [] ∨
    (0 < rows.toNat ∧ 0 < cols.toNat ∧
      g.cells = (List.range rows.toNat).map fun (i : Nat) =>
        (List.range cols.toNat).map (freshCell i)) := by
  unfold Spreadsheet.new at h
  by_cases hr : rows.toNat = 0
  · left
    rw [hr] at h
    simp only [List.range_zero, List.mapM_nil, bind, Except.bind, pure, Except.pure,
      Except.ok.injEq] at h
    rw [← h]
  · by_cases hc : cols ≤ 0
    · exfalso
      obtain ⟨n, hn⟩ := Nat.exists_eq_succ_of_ne_zero hr
      rw [hn, List.range_succ_eq_map, List.mapM_cons] at h
      simp only [if_pos hc, bind, Except.bind] at h
      cases h
    · right
      have hm : (List.range rows.toNat).mapM (fun (i : Nat) =>
          if cols ≤ 0 then (.error .capacityNotPositive : Except Err (List Cell))
          else freshCells (i : Int) (List.range cols.toNat))
          = .ok ((List.range rows.toNat).map fun (i : Nat) =>
              (List.range cols.toNat).map (freshCell i)) := by
        apply mapM_ok_of_forall
        intro i _
        rw [if_neg hc, freshCells_eq]
      rw [hm] at h
      simp only [bind, Except.bind, pure, Except.pure, Except.ok.injEq] at h
      refine ⟨by omega, by omega, ?_⟩
      rw [← h]

theorem Spreadsheet.new_WF {rows cols : Int} {g : Spreadsheet}
    (h : Spreadsheet.new rows cols = .ok g) : g.cells = [] ∨ g.WF := by
  rcases Spreadsheet.new_cells h with h0 | ⟨hr, hc, hcells⟩
  · exact Or.inl h0
  · right
    obtain ⟨n, hn⟩ := Nat.exists_eq_succ_of_ne_zero (Nat.pos_iff_ne_zero.1 hr)
    have hrows : g.getRowCount = rows.toNat := by
      unfold Spreadsheet.getRowCount
      rw [hcells]
      simp
    have hcols : g.getColCount = cols.toNat := by
      unfold Spreadsheet.getColCount
      rw [hcells, hn, List.range_succ_eq_map]
      simp
    refine ⟨by omega, by omega, ?_, ?_⟩
    · intro row hrow
      rw [hcells] at hrow
      simp only [List.mem_map, List.mem_range] at hrow
      obtain ⟨i, _, rfl⟩ := hrow
      rw [hcols]
      simp
    · intro i hi j hj
      refine ⟨freshCell i j, ?_, rfl, rfl, rfl⟩
      unfold Spreadsheet.cellAt
      rw [hcells]
      rw [hrows] at hi
      rw [hcols] at hj
      simp [hi, hj]

theorem Spreadsheet.assign_nil {g : Spreadsheet} (h : g.cells = []) (i j : Nat) (cell : Cell) :
    (g.assign i j cell).cells = [] := by
  unfold Spreadsheet.assign
  rw [h]
  cases i <;> rfl

theorem setCell_keeps {g G : Spreadsheet} {r c : Int} {cell : Cell}
    (hj : g.cells = [] ∨ g.WF) (h : g.setCell r c cell = .ok G)
    (hcell : cell.row = r ∧ cell.col = c ∧ cell.letter_rep = cellLabel r c) :
    G.cells = [] ∨ G.WF := by
  unfold Spreadsheet.setCell at h
  split at h
  · cases h
  · split at h
    · cases h
    · rename_i hneg
      split at h
      · simp only [Except.ok.injEq] at h
        subst h
        rcases hj with h0 | hw
        · exact Or.inl (Spreadsheet.assign_nil h0 _ _ _)
        · right
          apply hw.assign
          have e1 : ((r.toNat : Nat) : Int) = r := Int.toNat_of_nonneg (by omega)
          have e2 : ((c.toNat : Nat) : Int) = c := Int.toNat_of_nonneg (by omega)
          refine ⟨?_, ?_, ?_⟩
          · rw [hcell.1, e1]
          · rw [hcell.2.1, e2]
          · rw [hcell.2.2, e1, e2]
      · cases h

theorem setCell_new_keeps {g G : Spreadsheet} {r c : Int} {body : CellBody}
    (hj : g.cells = [] ∨ g.WF)
    (h : (do let cell ← Cell.new r c body; g.setCell r c cell) = .ok G) :
    G.cells = [] ∨ G.WF := by
  unfold Cell.new at h
  by_cases hneg : r < 0 ∨ c < 0
  · rw [if_pos hneg] at h
    cases h
  · rw [if_neg hneg] at h
    simp only [bind, Except.bind] at h
    exact setCell_keeps hj h ⟨rfl, rfl, rfl⟩

theorem enterData_keeps {sqrt : Dbl → Dbl} {g G : Spreadsheet} {r c : Int} {input : Str}
    (hj : g.cells = [] ∨ g.WF) (h : g.enterData sqrt r c input = .ok G) :
    G.cells = [] ∨ G.WF := by
  by_cases hf : input ≠ [] ∧ input.head? = some '='
  · unfold Spreadsheet.enterData at h
    rw [if_pos hf] at h
    simp only at h
    split at h
    · rename_i g2 hat
      simp only [Except.ok.injEq] at h
      subst h
      cases hpe : parseAndEvaluate sqrt g input (r, c) [] with
      | error e => rw [hpe] at hat; cases hat
      | ok p =>
        obtain ⟨result, dependentCells⟩ := p
        rw [hpe] at hat
        simp only [bind, Except.bind] at hat
        unfold Cell.new at hat
        by_cases hneg : r < 0 ∨ c < 0
        · rw [if_pos hneg] at hat
          cases hat
        · rw [if_neg hneg] at hat
          simp only at hat
          cases hs1 : g.setCell r c
              { letter_rep := cellLabel r c, row := r, col := c,
                body := .FormulaCell input (Dbl.fin 0) [] } with
          | error e => rw [hs1] at hat; cases hat
          | ok g1 =>
            rw [hs1] at hat
            simp only at hat
            have hj1 := setCell_keeps hj hs1 ⟨rfl, rfl, rfl⟩
            cases hg1 : g1.getCell r c with
            | error e => rw [hg1] at hat; cases hat
            | ok cell1 =>
              rw [hg1] at hat
              simp only at hat
              exact setCell_keeps hj1 hat ⟨rfl, rfl, rfl⟩
    · rename_i e hat
      split at h
      · exact setCell_new_keeps hj h
      · cases h
  · unfold Spreadsheet.enterData at h
    rw [if_neg hf] at h
    split at h
    · exact setCell_new_keeps hj h
    · split at h
      · split at h
        · exact setCell_new_keeps hj h
        · split at h
          · exact setCell_new_keeps hj h
          · cases h
      · cases h

theorem expand_keeps {g G : Spreadsheet} {r c : Int}
    (hj : g.cells = [] ∨ g.WF) (h : g.expand r c = .ok G) : G.cells = [] ∨ G.WF := by
  rcases hj with h0 | hw
  · left
    unfold Spreadsheet.expand at h
    have hr : g.getRowCount = 0 := by unfold Spreadsheet.getRowCount; rw [h0]; rfl
    have hc : g.getColCount = 0 := by unfold Spreadsheet.getColCount; rw [h0]; rfl
    rw [hr, hc, h0] at h
    by_cases hn : r.toNat = 0
    · rw [hn] at h
      simp only [Nat.sub_zero, List.range'_zero, List.mapM_nil, bind, Except.bind, pure,
        Except.pure, List.append_nil, List.enum_nil, Except.ok.injEq] at h
      rw [← h]
    · exfalso
      obtain ⟨n, hn2⟩ := Nat.exists_eq_succ_of_ne_zero hn
      rw [hn2] at h
      simp only [Nat.sub_zero, List.range'_succ, List.mapM_cons, Nat.cast_zero, le_refl,
        if_true, bind, Except.bind] at h
      cases h
  · right
    rw [Spreadsheet.expand_eq g hw.2.1] at h
    simp only [Except.ok.injEq] at h
    rw [← h]
    exact Spreadsheet.expanded_WF g hw r c

theorem Reachable.keeps {sqrt : Dbl → Dbl} {g : Spreadsheet} (h : Reachable sqrt g) :
    g.cells = [] ∨ g.WF := by
  induction h with
  | new rows cols g h => exact Spreadsheet.new_WF h
  | enterData g g2 r c input _ h ih => exact enterData_keeps ih h
  | expand g g2 r c _ h ih => exact expand_keeps ih h

theorem cellAt_wfAt {g : Spreadsheet} (hj : g.cells = [] ∨ g.WF) {i j : Nat} {cell : Cell}
    (hc : g.cellAt i j = some cell) : cell.WFAt i j := by
  rcases hj with h0 | hw
  · unfold Spreadsheet.cellAt at hc
    rw [h0] at hc
    simp at hc
  · have hlt : i < g.getRowCount ∧ j < g.getColCount := by
      unfold Spreadsheet.cellAt at hc
      cases hrow : g.cells[i]? with
      | none => rw [hrow] at hc; cases hc
      | some row =>
        rw [hrow] at hc
        simp only at hc
        have hi : i < g.cells.length := (List.getElem?_eq_some_iff.1 hrow).1
        have hmem : row ∈ g.cells := by
          obtain ⟨hi2, heq⟩ := List.getElem?_eq_some_iff.1 hrow
          rw [← heq]
          exact List.getElem_mem _
        have hlen := hw.2.2.1 row hmem
        have hj2 : j < row.length := (List.getElem?_eq_some_iff.1 hc).1
        exact ⟨hi, by omega⟩
    obtain ⟨cell2, hc2, hwf⟩ := hw.2.2.2 i hlt.1 j hlt.2
    rw [hc] at hc2
    cases hc2
    exact hwf

end Rev2

/-- C36: in every grid state of the second revision reachable from the
constructor through `enterData` and `expand`, the cell stored at position
`(i, j)` reports row `i` and column `j` and carries the label of `(i, j)`, the
column letters of `j` followed by `i + 1`; so the token that is the label of the
cell at `(i, j)` reads that cell and records the coordinate `(i, j)`. -/
theorem C36_reachable_cells_at_their_positions (sqrt : Dbl → Dbl) (g : Rev2.Spreadsheet)
    (h : Rev2.Reachable sqrt g) :
    (∀ (i j : Nat) (cell : Rev2.Cell), g.cellAt i j = some cell →
      cell.row = (i : Int) ∧ cell.col = (j : Int) ∧
      cell.letter_rep = getLetterTransformation (j : Int) ++ to_string ((i : Int) + 1)) ∧
    ∀ (i j : Nat) (cell : Rev2.Cell) (deps : Deps), g.cellAt i j = some cell →
      i < g.getRowCount → j < g.getColCount →
      Rev2.evaluateSingleToken sqrt g cell.letter_rep deps
        = .ok (cell.getCellValueAsDouble, mysetInsert ((i : Int), (j : Int)) deps) := by
  have hk := Rev2.Reachable.keeps h
  refine ⟨fun i j cell hc => Rev2.cellAt_wfAt hk hc, ?_⟩
  intro i j cell deps hc hi hj
  rcases hk with h0 | hw
  · exfalso
    unfold Rev2.Spreadsheet.getRowCount at hi
    rw [h0] at hi
    simp at hi
  · exact Rev2.evaluateSingleToken_label_r2 sqrt hw deps hi hj hc

/-- C36 (witness): the grid built by `Spreadsheet(1, 2)`, the entries 10 into A1
and `=A1` into B1, and `expand(2, 3)`. -/
theorem C36_witness :
    Rev2.Reachable id
      (Rev2.sheetOf [[.IntValueCell 10, .FormulaCell "=A1".toList (Dbl.fin 10) [(0, 0)],
          .StringValueCell []],
        [.StringValueCell [], .StringValueCell [], .StringValueCell []]]) ∧
    ∀ (i j : Nat) (cell : Rev2.Cell),
      (Rev2.sheetOf [[.IntValueCell 10, .FormulaCell "=A1".toList (Dbl.fin 10) [(0, 0)],
          .StringValueCell []],
        [.StringValueCell [], .StringValueCell [], .StringValueCell []]]).cellAt i j
        = some cell →
      cell.row = (i : Int) ∧ cell.col = (j : Int) ∧
      cell.letter_rep = getLetterTransformation (j : Int) ++ to_string ((i : Int) + 1) :=
  have hr : Rev2.Reachable id
      (Rev2.sheetOf [[.IntValueCell 10, .FormulaCell "=A1".toList (Dbl.fin 10) [(0, 0)],
          .StringValueCell []],
        [.StringValueCell [], .StringValueCell [], .StringValueCell []]]) :=
    Rev2.Reachable.expand _ _ 2 3
      (Rev2.Reachable.enterData _ _ 0 1 "=A1".toList
        (Rev2.Reachable.enterData _ _ 0 0 "10".toList
          (Rev2.Reachable.new 1 2 (Rev2.sheetOf [[.StringValueCell [], .StringValueCell []]])
            (by decide))
          (by decide : Rev2.Spreadsheet.enterData id
              (Rev2.sheetOf [[.StringValueCell [], .StringValueCell []]]) 0 0 "10".toList
            = .ok (Rev2.sheetOf [[.IntValueCell 10, .StringValueCell []]])))
        (by decide! : Rev2.Spreadsheet.enterData id
            (Rev2.sheetOf [[.IntValueCell 10, .StringValueCell []]]) 0 1 "=A1".toList
          = .ok (Rev2.sheetOf [[.IntValueCell 10,
              .FormulaCell "=A1".toList (Dbl.fin 10) [(0, 0)]]])))
      (by decide!)
  ⟨hr, (C36_reachable_cells_at_their_positions id _ hr).1⟩

/-! ## C33: recalculation and cells without a formula -/

namespace Rev1

/-- A cell without a formula is never touched by a recalculation that
returns. -/
theorem autoCalculate_keeps_plain_r1 (sqrt : Dbl → Dbl) (fuel : Nat) (g g2 : Spreadsheet)
    (c : Int × Int) (i j : Nat) (cell : Cell)
    (hcell : g.cellAt i j = some cell) (hf : cell.formula = [])
    (h : autoCalculate sqrt fuel g c = .ok g2) :
    g2.cellAt i j = some cell := by
  rw [← autoCalculateLog_forget_r1 sqrt fuel g [] c] at h
  obtain ⟨log2, hl⟩ := map_fst_ok h
  exact autoCalculateLog_invariant_r1 sqrt
    (fun g _ => g.cellAt i j = some cell) (fun _ => True)
    (fun _ _ g log i2 j2 cell2 e hI _ _ _ => hI)
    (by
      intro coordinate _ g0 log i2 j2 cell2 nv ds hI hget hcond _
      refine ⟨?_, trivial⟩
      have hc := (Spreadsheet.getCell_ok_cellAt_r1 hget).1
      show (Spreadsheet.assign _ _ _ _).cellAt i j = some cell
      rw [Spreadsheet.cellAt_assign_ne_r1 _ _ _ _ _ _ (by
        rintro ⟨rfl, rfl⟩
        rw [hI] at hc
        cases hc
        exact hcond.2.1 hf)]
      exact hI)
    fuel g [] c g2 log2 hcell trivial hl

/-- C33 (first revision): a cell whose content was set by the overload
`setContent(input, parser, coords)` with a non-formula input has no formula and
is left as it is by every recalculation that returns; the plain overloads
`setContent(string / double / int)` keep the formula and the dependency list,
so after `A1 = 10`, `B1 = =A1`, clearing `B1` with the empty input (the plain
overload in `Spreadsheet::run`) and entering `7` into `A1`, the recalculation
from `A1` replaces the emptied content of `B1` by `7.0`. -/
theorem C33_plain_overload_keeps_formula (sqrt : Dbl → Dbl) :
    (∀ (g G G2 : Spreadsheet) (r c : Nat) (input : Str) (coords coordinate : Int × Int)
      (fuel : Nat), ¬ (input ≠ [] ∧ input.head? = some '=') →
      g.setContent sqrt r c input coords = .ok G →
      autoCalculate sqrt fuel G coordinate = .ok G2 →
      G2.cellAt r c = G.cellAt r c) ∧
    (∀ (g g2 : Spreadsheet) (c : Int × Int) (fuel i j : Nat) (cell : Cell),
      g.cellAt i j = some cell → cell.formula = [] →
      autoCalculate sqrt fuel g c = .ok g2 → g2.cellAt i j = some cell) ∧
    (∀ (g : Spreadsheet) (r c : Nat) (value : CellContent) (cell : Cell),
      g.cellAt r c = some cell →
      ((g.setContentPlain r c value).cellAt r c).map (fun x => (x.formula, x.dependentCells))
        = some (cell.formula, cell.dependentCells)) ∧
    ((do
        let g0 := sheetOf [[(.int 10, [], []), (.monostate, [], [])]]
        let g1 ← g0.setContent id 0 1 "=A1".toList (0, 1)
        let g2 ← autoCalculate id 3 g1 (0, 1)
        let g3 := g2.setContentPlain 0 1 (.string [])
        let g4 ← autoCalculate id 3 g3 (0, 1)
        let g5 ← g4.setContent id 0 0 "7".toList (0, 0)
        let g6 ← autoCalculate id 3 g5 (0, 0)
        pure ((g1.cellAt 0 1).map (·.content), (g4.cellAt 0 1).map (·.content),
          (g6.cellAt 0 1).map (·.content)) : Except Err _)
      = .ok (some (.double (Dbl.fin 10)), some (.string []), some (.double (Dbl.fin 7)))) := by
  refine ⟨?_, ?_, ?_, by decide!⟩
  · intro g G G2 r c input coords coordinate fuel hlit hset hauto
    obtain ⟨cell, content, hcell, hG⟩ := setContent_literal_r1 hlit hset
    have hG2 : G.cellAt r c = some { cell with formula := [], content := content } := by
      rw [hG, Spreadsheet.cellAt_assign_r1, if_pos ⟨rfl, rfl, by rw [hcell]; rfl⟩]
    rw [hG2]
    exact autoCalculate_keeps_plain_r1 sqrt fuel G G2 coordinate r c _ hG2 rfl hauto
  · intro g g2 c fuel i j cell hcell hf h
    exact autoCalculate_keeps_plain_r1 sqrt fuel g g2 c i j cell hcell hf h
  · intro g r c value cell hcell
    unfold Spreadsheet.setContentPlain
    rw [hcell]
    show Option.map _ ((Spreadsheet.assign _ _ _ _).cellAt r c) = _
    rw [Spreadsheet.cellAt_assign_r1, if_pos ⟨rfl, rfl, by rw [hcell]; rfl⟩]
    rfl

end Rev1

/-! ## C32: entering a value that is not a formula -/

/-- C32: the two revisions store the same kind and value when `stoi` uses the
whole input (an integer), and when `stoi` finds no number and `stod` either
uses the whole input (a real) or finds no number (a text).  `enterData` of the
second revision never compares the position `stoi` / `stod` stopped at with the
length of the input: `3.7` is stored there as the integer 3 and `12abc` as the
integer 12, where the first revision stores the real 3.7 and the text `12abc`;
the integer numeral `99999999999`, a real in the first revision, leaves
`enterData` with the uncaught `out_of_range` of `stoi`. -/
theorem C32_enterData_ignores_the_parse_position (sqrt : Dbl → Dbl) :
    (∀ (g1 : Rev1.Spreadsheet) (g2 : Rev2.Spreadsheet) (i j : Nat) (cell : Rev1.Cell)
      (r c : Int) (input : Str) (coords : Int × Int) (v : Int),
      ¬ (input ≠ [] ∧ input.head? = some '=') → g1.cellAt i j = some cell →
      stoi input = .ok (v, input.length) → findChar input '.' = npos →
      g1.setContent sqrt i j input coords
          = .ok (g1.assign i j { cell with formula := [], content := .int v }) ∧
        g2.enterData sqrt r c input
          = (do let x ← Rev2.Cell.new r c (.IntValueCell v); g2.setCell r c x)) ∧
    (∀ (g1 : Rev1.Spreadsheet) (g2 : Rev2.Spreadsheet) (i j : Nat) (cell : Rev1.Cell)
      (r c : Int) (input : Str) (coords : Int × Int) (e : Err) (d : Dbl),
      ¬ (input ≠ [] ∧ input.head? = some '=') → g1.cellAt i j = some cell →
      stoi input = .error e → e.isInvalidArgument = true →
      stod input = .ok (d, input.length) →
      g1.setContent sqrt i j input coords
          = .ok (g1.assign i j { cell with formula := [], content := .double d }) ∧
        g2.enterData sqrt r c input
          = (do let x ← Rev2.Cell.new r c (.DoubleValueCell d); g2.setCell r c x)) ∧
    (∀ (g1 : Rev1.Spreadsheet) (g2 : Rev2.Spreadsheet) (i j : Nat) (cell : Rev1.Cell)
      (r c : Int) (input : Str) (coords : Int × Int) (e e2 : Err),
      ¬ (input ≠ [] ∧ input.head? = some '=') → g1.cellAt i j = some cell →
      stoi input = .error e → e.isInvalidArgument = true →
      stod input = .error e2 → e2.isInvalidArgument = true →
      g1.setContent sqrt i j input coords
          = .ok (g1.assign i j { cell with formula := [], content := .string input }) ∧
        g2.enterData sqrt r c input
          = (do let x ← Rev2.Cell.new r c (.StringValueCell input); g2.setCell r c x)) ∧
    ((Rev1.sheetA.setContent id 0 2 "3.7".toList (0, 2)).map
        (fun g => (g.cellAt 0 2).map (·.content))
      = .ok (some (.double (Dbl.fin (37 / 10))))) ∧
    ((Rev2.sheetA.enterData id 0 2 "3.7".toList).map
        (fun g => (g.cellAt 0 2).map (·.body))
      = .ok (some (.IntValueCell 3))) ∧
    ((Rev1.sheetA.setContent id 0 2 "12abc".toList (0, 2)).map
        (fun g => (g.cellAt 0 2).map (·.content))
      = .ok (some (.string "12abc".toList))) ∧
    ((Rev2.sheetA.enterData id 0 2 "12abc".toList).map
        (fun g => (g.cellAt 0 2).map (·.body))
      = .ok (some (.IntValueCell 12))) ∧
    ((Rev1.sheetA.setContent id 0 2 "99999999999".toList (0, 2)).map
        (fun g => (g.cellAt 0 2).map (·.content))
      = .ok (some (.double (Dbl.fin 99999999999)))) ∧
    (Rev2.sheetA.enterData id 0 2 "99999999999".toList = .error .stoiOutOfRange) := by
  refine ⟨?_, ?_, ?_, by decide!, by decide!, by decide!, by decide!, by decide!, by decide!⟩
  · intro g1 g2 i j cell r c input coords v hlit hcell hs hdot
    constructor
    · unfold Rev1.Spreadsheet.setContent
      rw [hcell]
      simp only [if_neg hlit, Rev1.tryParseToInt, hs, if_true, hdot]
    · unfold Rev2.Spreadsheet.enterData
      rw [if_neg hlit, hs]
  · intro g1 g2 i j cell r c input coords e d hlit hcell hs he hd
    constructor
    · unfold Rev1.Spreadsheet.setContent
      rw [hcell]
      simp only [if_neg hlit, Rev1.tryParseToInt, Rev1.tryParseToDouble, hs, hd, if_true]
    · unfold Rev2.Spreadsheet.enterData
      rw [if_neg hlit, hs]
      simp only [he, if_true, hd]
  · intro g1 g2 i j cell r c input coords e e2 hlit hcell hs he hd he2
    constructor
    · unfold Rev1.Spreadsheet.setContent
      rw [hcell]
      simp only [if_neg hlit, Rev1.tryParseToInt, Rev1.tryParseToDouble, hs, hd]
    · unfold Rev2.Spreadsheet.enterData
      rw [if_neg hlit, hs]
      simp only [he, if_true, hd, he2]

/-! ## C40: the bounds of `spc::myvec` -/

namespace spc.myvec

theorem new_inv {T : Type} (cap : Int) (h : 0 < cap) :
    ∃ v, new T cap = .ok v ∧ v.Inv ∧ v.Allocated ∧ v.size = 0 ∧ v.capacity = cap := by
  refine ⟨{ data := List.replicate cap.toNat none, size := 0, capacity := cap }, ?_, ?_, ?_,
    rfl, rfl⟩
  · unfold new newArray
    rw [if_neg (by omega), if_neg (by omega)]
    rfl
  · exact ⟨le_refl _, by show (0 : Int) ≤ cap; omega, by show (1 : Int) ≤ cap; omega⟩
  · show (List.replicate cap.toNat none).length = cap.toNat
    simp

theorem copy_inv {T : Type} (other : myvec T) (hi : other.Inv) (ha : other.Allocated) :
    ∃ v, copy other = .ok v ∧ v.Inv ∧ v.Allocated ∧ v.size = other.size ∧
      v.capacity = other.capacity := by
  obtain ⟨h0, h1, h2⟩ := hi
  unfold Allocated at ha
  refine ⟨{ data := other.data.take other.size.toNat ++
              (List.replicate other.capacity.toNat none).drop other.size.toNat,
            size := other.size, capacity := other.capacity }, ?_, ⟨h0, h1, h2⟩, ?_, rfl, rfl⟩
  · unfold copy newArray
    rw [if_neg (by omega)]
    simp only [bind, Except.bind]
    rw [if_pos ⟨by simp; omega, by rw [ha]; omega⟩]
    rfl
  · show List.length (_ ++ _) = other.capacity.toNat
    simp only [List.length_append, List.length_take, List.length_drop, List.length_replicate]
    omega

theorem clear_inv {T : Type} (v : myvec T) (hi : v.Inv) (ha : v.Allocated) :
    (clear v).Inv ∧ (clear v).Allocated ∧ (clear v).size = 0 ∧
      (clear v).capacity = v.capacity :=
  ⟨⟨le_refl _, le_trans hi.1 hi.2.1, hi.2.2⟩, ha, rfl, rfl⟩

theorem push_back_inv {T : Type} (v : myvec T) (val : T) (hi : v.Inv) (ha : v.Allocated)
    (hcap : v.capacity < 2 ^ 30) :
    ∃ v2, push_back v val = .ok v2 ∧ v2.Inv ∧ v2.Allocated ∧ v2.size = v.size + 1 ∧
      v.size < v2.capacity ∧ v2.data[v.size.toNat]? = some (some val) ∧
      (v2.capacity = v.capacity ∨ v2.capacity = v.capacity * 2) := by
  obtain ⟨h0, h1, h2⟩ := hi
  unfold Allocated at ha
  by_cases hfull : v.size = v.capacity
  · refine ⟨{ data := (v.data.take v.size.toNat ++
                  (List.replicate (v.capacity * 2).toNat none).drop v.size.toNat).set
                    v.size.toNat (some val),
                size := v.size + 1, capacity := v.capacity * 2 }, ?_, ?_, ?_, rfl, ?_, ?_,
        Or.inr rfl⟩
    · unfold push_back
      rw [if_pos hfull]
      unfold resize newArray
      rw [if_neg (by omega), if_neg (by omega)]
      simp only [bind, Except.bind, pure, Except.pure]
      rw [if_pos ⟨by simp; omega, by rw [ha]; omega⟩]
      simp only []
      rw [if_pos ⟨h0, by simp; omega, by omega⟩]
    · exact ⟨by show (0 : Int) ≤ v.size + 1; omega, by show v.size + 1 ≤ v.capacity * 2; omega,
        by show (1 : Int) ≤ v.capacity * 2; omega⟩
    · show (List.set _ _ _).length = (v.capacity * 2).toNat
      simp only [List.length_set, List.length_append, List.length_take, List.length_drop,
        List.length_replicate]
      omega
    · show v.size < v.capacity * 2
      omega
    · show (List.set _ _ _)[v.size.toNat]? = _
      rw [List.getElem?_set_self]
      simp only [List.length_append, List.length_take, List.length_drop,
        List.length_replicate]
      omega
  · refine ⟨{ data := v.data.set v.size.toNat (some val), size := v.size + 1,
                capacity := v.capacity }, ?_, ?_, ?_, rfl, ?_, ?_, Or.inl rfl⟩
    · unfold push_back
      rw [if_neg hfull]
      simp only [bind, Except.bind, pure, Except.pure]
      rw [if_pos ⟨h0, by rw [ha]; omega, by omega⟩]
    · exact ⟨by show (0 : Int) ≤ v.size + 1; omega, by show v.size + 1 ≤ v.capacity; omega, h2⟩
    · show (List.set _ _ _).length = v.capacity.toNat
      rw [List.length_set, ha]
    · show v.size < v.capacity
      omega
    · show (List.set _ _ _)[v.size.toNat]? = _
      rw [List.getElem?_set_self]
      rw [ha]
      omega

theorem sizeToInt_small (n : Nat) (h : n < 2 ^ 31) : sizeToInt n = (n : Int) := by
  unfold sizeToInt
  have h1 : n % 2 ^ 32 = n := Nat.mod_eq_of_lt (by omega)
  simp only [h1]
  rw [if_pos h]

theorem ofRange_inv {T : Type} (xs : List T) (hne : xs ≠ []) (hlen : xs.length < 2 ^ 31) :
    ∃ v, ofRange xs = .ok v ∧ v.Inv ∧ v.Allocated ∧ v.size = (xs.length : Int) ∧
      v.capacity = (xs.length : Int) := by
  have hpos : 0 < xs.length := List.length_pos.2 hne
  refine ⟨{ data := xs.map some ++ (List.replicate xs.length none).drop xs.length,
            size := (xs.length : Int), capacity := (xs.length : Int) }, ?_, ?_, ?_, rfl, rfl⟩
  · unfold ofRange newArray
    simp only [sizeToInt_small xs.length hlen]
    rw [if_neg (by omega)]
    simp only [bind, Except.bind, pure, Except.pure, Int.toNat_ofNat, List.length_replicate,
      le_refl, if_true]
  · exact ⟨by show (0 : Int) ≤ (xs.length : Int); omega, le_refl _,
      by show (1 : Int) ≤ (xs.length : Int); omega⟩
  · show List.length (_ ++ _) = ((xs.length : Int)).toNat
    simp

theorem push_back_capacity_zero {T : Type} (v : myvec T) (val : T)
    (hs : v.size = 0) (hc : v.capacity = 0) :
    push_back v val = .error .undefinedBehaviour := by
  obtain ⟨data, size, capacity⟩ := v
  subst hs
  subst hc
  simp [push_back, resize, newArray, bind, Except.bind, pure, Except.pure, throw, throwThe,
    MonadExceptOf.throw]

/-- C40: the capacity constructor, the copy of a vector within the bounds,
`clear`, `push_back` (below `2 ^ 30` slots, where doubling the `int` capacity
does not overflow) and the range constructor on a non-empty range keep
`0 <= size <= capacity`, `capacity >= 1`, and `push_back` then writes the value
at the index `size`, below the capacity.  The range constructor on an empty
range and the source of a move are left with capacity 0, against the bound
that the capacity constructor enforces; `resize()` doubles 0 to 0, and
`push_back` writes at index 0 of an array of length zero. -/
theorem C40_myvec_capacity_can_be_zero :
    (∀ (T : Type) (cap : Int), 0 < cap →
      ∃ v, new T cap = .ok v ∧ v.Inv ∧ v.Allocated ∧ v.size = 0 ∧ v.capacity = cap) ∧
    (∀ (T : Type) (cap : Int), cap ≤ 0 → new T cap = .error .capacityNotPositive) ∧
    (∀ (T : Type) (other : myvec T), other.Inv → other.Allocated →
      ∃ v, copy other = .ok v ∧ v.Inv ∧ v.Allocated ∧ v.size = other.size ∧
        v.capacity = other.capacity) ∧
    (∀ (T : Type) (v : myvec T), v.Inv → v.Allocated →
      (clear v).Inv ∧ (clear v).Allocated ∧ (clear v).size = 0 ∧
        (clear v).capacity = v.capacity) ∧
    (∀ (T : Type) (v : myvec T) (val : T), v.Inv → v.Allocated → v.capacity < 2 ^ 30 →
      ∃ v2, push_back v val = .ok v2 ∧ v2.Inv ∧ v2.Allocated ∧ v2.size = v.size + 1 ∧
        v.size < v2.capacity ∧ v2.data[v.size.toNat]? = some (some val) ∧
        (v2.capacity = v.capacity ∨ v2.capacity = v.capacity * 2)) ∧
    (∀ (T : Type) (xs : List T), xs ≠ [] → xs.length < 2 ^ 31 →
      ∃ v, ofRange xs = .ok v ∧ v.Inv ∧ v.Allocated ∧ v.size = (xs.length : Int) ∧
        v.capacity = (xs.length : Int)) ∧
    (∀ (T : Type) (other : myvec T) (val : T),
      (move other).1 = other ∧ (move other).2.capacity = 0 ∧ ¬ (move other).2.Inv ∧
        push_back (move other).2 val = .error .undefinedBehaviour) ∧
    (ofRange ([] : List Int) = .ok { data := [], size := 0, capacity := 0 }) ∧
    (¬ ({ data := [], size := 0, capacity := 0 } : myvec Int).Inv) ∧
    ((do let v ← ofRange ([] : List Int); push_back v 1) = .error .undefinedBehaviour) ∧
    ((do
        let v ← new Int 1
        let v ← push_back v 7
        let v ← push_back v 8
        let v ← push_back v 9
        pure (v.data, v.size, v.capacity) : Except Err _)
      = .ok ([some 7, some 8, some 9, none], 3, 4)) := by
  refine ⟨fun T cap h => new_inv cap h, ?_, fun T other hi ha => copy_inv other hi ha,
    fun T v hi ha => clear_inv v hi ha, fun T v val hi ha hc => push_back_inv v val hi ha hc,
    fun T xs hne hlen => ofRange_inv xs hne hlen, ?_, by decide, by decide, by decide,
    by decide⟩
  · intro T cap h
    unfold new
    rw [if_pos h]
  · intro T other val
    refine ⟨rfl, rfl, ?_, push_back_capacity_zero _ val rfl rfl⟩
    intro hinv
    have h2 : (1 : Int) ≤ 0 := hinv.2.2
    omega

end spc.myvec

/-! ## C31: the two revisions of the evaluator -/

theorem sameOutcome_bind {α : Type} (x : Except Err α) (f1 f2 : α → Except Err (Dbl × Deps))
    (h : ∀ a, x = .ok a → SameOutcome (f1 a) (f2 a)) : SameOutcome (x >>= f1) (x >>= f2) := by
  cases x with
  | error e => exact rfl
  | ok a => exact h a rfl

theorem sameOutcome_error (e : Err) : SameOutcome (.error e) (.error e) := rfl

theorem sameOutcome_ok (v : Dbl) (d1 d2 : Deps) (h : ∀ p, p ∈ d1 ↔ p ∈ d2) :
    SameOutcome (.ok (v, d1)) (.ok (v, d2)) := ⟨rfl, h⟩

theorem corresponds_value {c1 : Rev1.Cell} {c2 : Rev2.Cell}
    (h : Corresponds c1.content c2.body) :
    (c1.content.numeric?).getD (Dbl.fin 0) = c2.getCellValueAsDouble := by
  unfold Rev2.Cell.getCellValueAsDouble
  cases hc : c1.content <;> cases hb : c2.body <;> rw [hc, hb] at h <;>
    simp only [Corresponds] at h <;> first | rfl | (subst h; rfl)

theorem correspondingGrids_value {g1 : Rev1.Spreadsheet} {g2 : Rev2.Spreadsheet}
    (h1 : g1.WF) (h2 : g2.WF) (hc : CorrespondingGrids g1 g2) {p : Int × Int}
    (hp : InGrid g1.getRowCount g1.getColCount p) :
    (g1.numAt p).getD (Dbl.fin 0) = g2.valueAt p := by
  obtain ⟨cell1, _, _, _, hcell1, hn⟩ := Rev1.getCell_inGrid_r1 h1 hp
  have hp2 : InGrid g2.getRowCount g2.getColCount p := by
    rw [← hc.1, ← hc.2.1]; exact hp
  obtain ⟨cell2, _, _, _, _, hcell2, hv⟩ := Rev2.getCell_inGrid h2 hp2
  obtain ⟨q1, q2, q3, q4⟩ := hp
  obtain ⟨c1, hc1, c2, hc2, hcor⟩ := hc.2.2 p.1.toNat (by omega) p.2.toNat (by omega)
  rw [hcell1] at hc1
  rw [hcell2] at hc2
  cases hc1
  cases hc2
  rw [← hn, ← hv]
  exact corresponds_value hcor

theorem Dbl.add_zero (a : Dbl) : a.add (Dbl.fin 0) = a := by
  cases a <;> simp [Dbl.add]

theorem insertAll_same (idx : List (Int × Int)) (d1 d2 : Deps) (hd : ∀ p, p ∈ d1 ↔ p ∈ d2) :
    ∀ p, p ∈ stdSetInsertAll idx d1 ↔ p ∈ mysetInsertAll idx d2 := by
  intro p
  rw [mem_stdSetInsertAll, mem_mysetInsertAll, hd p]

theorem insert_same (c : Int × Int) (d1 d2 : Deps) (hd : ∀ p, p ∈ d1 ↔ p ∈ d2) :
    ∀ p, p ∈ stdSetInsert c d1 ↔ p ∈ mysetInsert c d2 := by
  intro p
  rw [mem_stdSetInsert, mem_mysetInsert, hd p]

theorem correspondingGrids_values {g1 : Rev1.Spreadsheet} {g2 : Rev2.Spreadsheet}
    (h1 : g1.WF) (h2 : g2.WF) (hc : CorrespondingGrids g1 g2) (idx : List (Int × Int))
    (hidx : ∀ p ∈ idx, InGrid g1.getRowCount g1.getColCount p) :
    (idx.map g1.numAt).map (fun o => o.getD (Dbl.fin 0)) = idx.map g2.valueAt := by
  rw [List.map_map]
  apply List.map_congr_left
  intro p hp
  exact correspondingGrids_value h1 h2 hc (hidx p hp)

theorem foldl_addOpt_eq (os : List (Option Dbl)) :
    ∀ acc : Dbl, os.foldl addOpt acc
      = (os.map fun o => o.getD (Dbl.fin 0)).foldl Dbl.add acc := by
  induction os with
  | nil => intro acc; rfl
  | cons o rest ih =>
    intro acc
    simp only [List.foldl_cons, List.map_cons]
    rw [ih]
    cases o with
    | none => simp only [addOpt, Option.getD_none, Dbl.add_zero]
    | some v => rfl

theorem foldl_countOpt_eq (os : List (Option Dbl)) (hall : ∀ o ∈ os, o.isSome = true) :
    ∀ acc : Int, os.foldl countOpt acc = acc + (os.length : Int) := by
  induction os with
  | nil => intro acc; simp
  | cons o rest ih =>
    intro acc
    simp only [List.foldl_cons, List.length_cons]
    rw [ih (fun o ho => hall o (List.mem_cons_of_mem _ ho))]
    have := hall o (List.mem_cons_self _ _)
    cases o with
    | none => cases this
    | some v =>
      simp only [countOpt]
      push_cast
      omega

theorem foldl_maxOpt_eq (os : List (Option Dbl)) (hall : ∀ o ∈ os, o.isSome = true) :
    ∀ acc : Dbl, os.foldl maxOpt acc
      = (os.map fun o => o.getD (Dbl.fin 0)).foldl Dbl.max acc := by
  induction os with
  | nil => intro acc; rfl
  | cons o rest ih =>
    intro acc
    simp only [List.foldl_cons, List.map_cons]
    rw [ih (fun o ho => hall o (List.mem_cons_of_mem _ ho))]
    have := hall o (List.mem_cons_self _ _)
    cases o with
    | none => cases this
    | some v => rfl

theorem foldl_minOpt_eq (os : List (Option Dbl)) (hall : ∀ o ∈ os, o.isSome = true) :
    ∀ acc : Dbl, os.foldl minOpt acc
      = (os.map fun o => o.getD (Dbl.fin 0)).foldl Dbl.min acc := by
  induction os with
  | nil => intro acc; rfl
  | cons o rest ih =>
    intro acc
    simp only [List.foldl_cons, List.map_cons]
    rw [ih (fun o ho => hall o (List.mem_cons_of_mem _ ho))]
    have := hall o (List.mem_cons_self _ _)
    cases o with
    | none => cases this
    | some v => rfl

theorem SUM_same {g1 : Rev1.Spreadsheet} {g2 : Rev2.Spreadsheet}
    (h1 : g1.WF) (h2 : g2.WF) (hc : CorrespondingGrids g1 g2) (s e : Int × Int)
    (hs : InGrid g1.getRowCount g1.getColCount s) (he : InGrid g1.getRowCount g1.getColCount e)
    (d1 d2 : Deps) (hd : ∀ p, p ∈ d1 ↔ p ∈ d2) :
    SameOutcome (Rev1.SUM g1 s e d1) (Rev2.SUM g2 s e d2) := by
  have hs2 : InGrid g2.getRowCount g2.getColCount s := by rw [← hc.1, ← hc.2.1]; exact hs
  have he2 : InGrid g2.getRowCount g2.getColCount e := by rw [← hc.1, ← hc.2.1]; exact he
  rw [Rev1.SUM_eq_r1 h1 _ _ _ hs he, Rev2.SUM_eq h2 _ _ _ hs2 he2, Rev1.rangeIndices_eq_r1,
    ← hc.2.1, foldl_addOpt_eq,
    correspondingGrids_values h1 h2 hc _ (Rev2.rangeIndices_inGrid _ _ _ _ hs he)]
  exact sameOutcome_ok _ _ _ (insertAll_same _ _ _ hd)

theorem STDDEV_same (sqrt : Dbl → Dbl) {g1 : Rev1.Spreadsheet} {g2 : Rev2.Spreadsheet}
    (h1 : g1.WF) (h2 : g2.WF) (hc : CorrespondingGrids g1 g2) (s e : Int × Int)
    (hs : InGrid g1.getRowCount g1.getColCount s) (he : InGrid g1.getRowCount g1.getColCount e)
    (d1 d2 : Deps) (hd : ∀ p, p ∈ d1 ↔ p ∈ d2) :
    SameOutcome (Rev1.STDDEV sqrt g1 s e d1) (Rev2.STDDEV sqrt g2 s e d2) := by
  have hs2 : InGrid g2.getRowCount g2.getColCount s := by rw [← hc.1, ← hc.2.1]; exact hs
  have he2 : InGrid g2.getRowCount g2.getColCount e := by rw [← hc.1, ← hc.2.1]; exact he
  rw [Rev1.STDDEV_eq_r1 sqrt h1 _ _ _ hs he, Rev2.STDDEV_eq sqrt h2 _ _ _ hs2 he2,
    correspondingGrids_values h1 h2 hc _ (rectIndices_inGrid _ _ _ _ hs he)]
  exact sameOutcome_ok _ _ _ (insertAll_same _ _ _ hd)

theorem MAX_same {g1 : Rev1.Spreadsheet} {g2 : Rev2.Spreadsheet}
    (h1 : g1.WF) (h2 : g2.WF) (hc : CorrespondingGrids g1 g2) (s e : Int × Int)
    (hs : InGrid g1.getRowCount g1.getColCount s) (he : InGrid g1.getRowCount g1.getColCount e)
    (hnum : ∀ p ∈ rectIndices s e, (g1.numAt p).isSome = true)
    (d1 d2 : Deps) (hd : ∀ p, p ∈ d1 ↔ p ∈ d2) :
    SameOutcome (Rev1.MAX g1 s e d1) (Rev2.MAX g2 s e d2) := by
  have hs2 : InGrid g2.getRowCount g2.getColCount s := by rw [← hc.1, ← hc.2.1]; exact hs
  have he2 : InGrid g2.getRowCount g2.getColCount e := by rw [← hc.1, ← hc.2.1]; exact he
  rw [Rev1.MAX_eq_r1 h1 _ _ _ hs he, Rev2.MAX_eq h2 _ _ _ hs2 he2,
    foldl_maxOpt_eq _ (by
      intro o ho
      obtain ⟨p, hp, rfl⟩ := List.mem_map.1 ho
      exact hnum p hp),
    correspondingGrids_values h1 h2 hc _ (rectIndices_inGrid _ _ _ _ hs he)]
  exact sameOutcome_ok _ _ _ (insertAll_same _ _ _ hd)

theorem MIN_same {g1 : Rev1.Spreadsheet} {g2 : Rev2.Spreadsheet}
    (h1 : g1.WF) (h2 : g2.WF) (hc : CorrespondingGrids g1 g2) (s e : Int × Int)
    (hs : InGrid g1.getRowCount g1.getColCount s) (he : InGrid g1.getRowCount g1.getColCount e)
    (hnum : ∀ p ∈ rectIndices s e, (g1.numAt p).isSome = true)
    (d1 d2 : Deps) (hd : ∀ p, p ∈ d1 ↔ p ∈ d2) :
    SameOutcome (Rev1.MIN g1 s e d1) (Rev2.MIN g2 s e d2) := by
  have hs2 : InGrid g2.getRowCount g2.getColCount s := by rw [← hc.1, ← hc.2.1]; exact hs
  have he2 : InGrid g2.getRowCount g2.getColCount e := by rw [← hc.1, ← hc.2.1]; exact he
  rw [Rev1.MIN_eq_r1 h1 _ _ _ hs he, Rev2.MIN_eq h2 _ _ _ hs2 he2,
    foldl_minOpt_eq _ (by
      intro o ho
      obtain ⟨p, hp, rfl⟩ := List.mem_map.1 ho
      exact hnum p hp),
    correspondingGrids_values h1 h2 hc _ (rectIndices_inGrid _ _ _ _ hs he)]
  exact sameOutcome_ok _ _ _ (insertAll_same _ _ _ hd)

theorem AVER_same {g1 : Rev1.Spreadsheet} {g2 : Rev2.Spreadsheet}
    (h1 : g1.WF) (h2 : g2.WF) (hc : CorrespondingGrids g1 g2) (s e : Int × Int)
    (hs : InGrid g1.getRowCount g1.getColCount s) (he : InGrid g1.getRowCount g1.getColCount e)
    (hnum : ∀ p ∈ Rev2.Spreadsheet.rangeIndices g1.getColCount s e, (g1.numAt p).isSome = true)
    (d1 d2 : Deps) (hd : ∀ p, p ∈ d1 ↔ p ∈ d2) :
    SameOutcome (Rev1.AVER g1 s e d1) (Rev2.AVER g2 s e d2) := by
  have hs2 : InGrid g2.getRowCount g2.getColCount s := by rw [← hc.1, ← hc.2.1]; exact hs
  have he2 : InGrid g2.getRowCount g2.getColCount e := by rw [← hc.1, ← hc.2.1]; exact he
  rw [Rev1.AVER_eq_r1 h1 _ _ _ hs he, Rev2.AVER_eq h2 _ _ _ hs2 he2, Rev1.rangeIndices_eq_r1,
    ← hc.2.1]
  by_cases hnil : Rev2.Spreadsheet.rangeIndices g1.getColCount s e = []
  · rw [if_pos hnil, if_pos hnil]
    exact sameOutcome_ok _ _ _ hd
  · rw [if_neg hnil, if_neg hnil]
    have hcount := foldl_countOpt_eq
      ((Rev2.Spreadsheet.rangeIndices g1.getColCount s e).map g1.numAt) (by
        intro o ho
        obtain ⟨p, hp, rfl⟩ := List.mem_map.1 ho
        exact hnum p hp) 0
    rw [List.length_map, Int.zero_add] at hcount
    have hpos : ((Rev2.Spreadsheet.rangeIndices g1.getColCount s e).length : Int) ≠ 0 := by
      have := List.length_pos.2 hnil
      omega
    rw [hcount, if_neg hpos, foldl_addOpt_eq,
      correspondingGrids_values h1 h2 hc _ (Rev2.rangeIndices_inGrid _ _ _ _ hs he)]
    exact sameOutcome_ok _ _ _ (insertAll_same _ _ _ hd)

theorem getCellReference_same {g1 : Rev1.Spreadsheet} {g2 : Rev2.Spreadsheet}
    (h1 : g1.WF) (h2 : g2.WF) (hc : CorrespondingGrids g1 g2) (t : Str) :
    Rev2.getCellReference g2 t = Rev1.getCellReference g1 t := by
  rw [Rev2.getCellReference_eq_r2 h2, Rev1.getCellReference_eq_r1 h1, hc.1, hc.2.1]

theorem getFunctionType_same {g1 : Rev1.Spreadsheet} {g2 : Rev2.Spreadsheet}
    (h1 : g1.WF) (h2 : g2.WF) (hc : CorrespondingGrids g1 g2) (t : Str) :
    Rev2.getFunctionType g2 t = Rev1.getFunctionType g1 t := by
  unfold Rev2.getFunctionType Rev1.getFunctionType Rev2.isValidRange Rev1.isValidRange
  simp only [getCellReference_same h1 h2 hc]

theorem evaluateSingleToken_same (sqrt : Dbl → Dbl) {g1 : Rev1.Spreadsheet}
    {g2 : Rev2.Spreadsheet} (h1 : g1.WF) (h2 : g2.WF) (hc : CorrespondingGrids g1 g2)
    (t : Str) (hnum : CountsOnlyNumbers sqrt g1 t) (d1 d2 : Deps)
    (hd : ∀ p, p ∈ d1 ↔ p ∈ d2) :
    SameOutcome (Rev1.evaluateSingleToken sqrt g1 t d1)
      (Rev2.evaluateSingleToken sqrt g2 t d2) := by
  unfold CountsOnlyNumbers at hnum
  unfold Rev1.evaluateSingleToken at hnum ⊢
  unfold Rev2.evaluateSingleToken
  simp only [getCellReference_same h1 h2 hc, getFunctionType_same h1 h2 hc]
  simp only [Rev1.getCellReference_eq_r1 h1] at hnum ⊢
  simp only [bind, Except.bind] at hnum ⊢
  by_cases hne : labelLookup g1.getRowCount g1.getColCount (removeSpaces t) ≠ (-1, -1)
  · rw [if_pos hne, if_pos hne]
    have hin := labelLookup_inGrid _ _ _ hne
    obtain ⟨cell1, hget1, hr1, hc1, _, hn1⟩ := Rev1.getCell_inGrid_r1 h1 hin
    obtain ⟨cell2, hget2, hr2, hc2, _, _, hv2⟩ := Rev2.getCell_inGrid h2
      (by rw [← hc.1, ← hc.2.1]; exact hin)
    rw [hget1, hget2]
    simp only [pure, Except.pure]
    rw [hr1, hc1, hr2, hc2, hn1, hv2, correspondingGrids_value h1 h2 hc hin]
    exact sameOutcome_ok _ _ _ (insert_same _ _ _ hd)
  · rw [if_neg hne, if_neg hne]
    rw [if_neg hne] at hnum
    cases hf : Rev1.getFunctionType g1 t with
    | error e => exact sameOutcome_error e
    | ok func =>
      rw [hf] at hnum
      simp only at hnum ⊢
      by_cases hfunc : func ≠ .INVALID
      · rw [if_pos hfunc, if_pos hfunc]
        rw [if_pos hfunc] at hnum
        cases hs1 : substr t ((findChar t '(' + 1) % 2 ^ 64)
            ((findChar t ')' + 2 ^ 64 - findChar t '(' + 2 ^ 64 - 1) % 2 ^ 64) with
        | error e => exact sameOutcome_error e
        | ok range =>
          rw [hs1] at hnum
          simp only at hnum ⊢
          cases hs2 : substr range 0 (intToSize (sizeToInt (findStr range "..".toList))) with
          | error e => exact sameOutcome_error e
          | ok startCell =>
            rw [hs2] at hnum
            simp only at hnum ⊢
            cases hs3 : substr range (intToSize (sizeToInt (findStr range "..".toList) + 2))
                npos with
            | error e => exact sameOutcome_error e
            | ok endCell =>
              rw [hs3] at hnum
              simp only at hnum ⊢
              by_cases hpos : labelLookup g1.getRowCount g1.getColCount (removeSpaces startCell)
                  = (-1, -1) ∨
                labelLookup g1.getRowCount g1.getColCount (removeSpaces endCell) = (-1, -1)
              · rw [if_pos hpos, if_pos hpos]
                exact sameOutcome_error _
              · rw [if_neg hpos, if_neg hpos]
                rw [if_neg hpos] at hnum
                have hpos2 := not_or.1 hpos
                have hs := labelLookup_inGrid _ _ _ hpos2.1
                have hen := labelLookup_inGrid _ _ _ hpos2.2
                cases func with
                | SUM => exact SUM_same h1 h2 hc _ _ hs hen _ _ hd
                | STDDEV => exact STDDEV_same sqrt h1 h2 hc _ _ hs hen _ _ hd
                | INVALID => exact absurd rfl hfunc
                | AVER =>
                  refine AVER_same h1 h2 hc _ _ hs hen ?_ _ _ hd
                  intro p hp
                  have hn := hnum (Or.inl rfl)
                  simp only at hn
                  rw [Rev1.AVER_eq_r1 h1 _ _ _ hs hen, Rev1.rangeIndices_eq_r1] at hn
                  have hnil : Rev2.Spreadsheet.rangeIndices g1.getColCount
                      (labelLookup g1.getRowCount g1.getColCount (removeSpaces startCell))
                      (labelLookup g1.getRowCount g1.getColCount (removeSpaces endCell))
                        ≠ [] := by
                    intro hnil
                    rw [hnil] at hp
                    cases hp
                  rw [if_neg hnil] at hn
                  apply hn p
                  split <;> exact (mem_stdSetInsertAll _ _ _).2 (Or.inl hp)
                | MAX =>
                  refine MAX_same h1 h2 hc _ _ hs hen ?_ _ _ hd
                  intro p hp
                  have hn := hnum (Or.inr (Or.inl rfl))
                  simp only at hn
                  rw [Rev1.MAX_eq_r1 h1 _ _ _ hs hen] at hn
                  exact hn p ((mem_stdSetInsertAll _ _ _).2 (Or.inl hp))
                | MIN =>
                  refine MIN_same h1 h2 hc _ _ hs hen ?_ _ _ hd
                  intro p hp
                  have hn := hnum (Or.inr (Or.inr rfl))
                  simp only at hn
                  rw [Rev1.MIN_eq_r1 h1 _ _ _ hs hen] at hn
                  exact hn p ((mem_stdSetInsertAll _ _ _).2 (Or.inl hp))
      · rw [if_neg hfunc, if_neg hfunc]
        by_cases hv : isValue t = true
        · rw [if_pos hv, if_pos hv]
          cases hstod : stod t with
          | error e =>
            simp only
            split <;> exact sameOutcome_error _
          | ok r => exact sameOutcome_ok _ _ _ hd
        · rw [if_neg hv, if_neg hv]
          exact sameOutcome_error _

theorem evaluateMultpAndDivLoop_same (ev1 ev2 : Str → Deps → Except Err (Dbl × Deps))
    (P : Str → Prop)
    (hev : ∀ t, P t → ∀ d1 d2 : Deps, (∀ p, p ∈ d1 ↔ p ∈ d2) →
      SameOutcome (ev1 t d1) (ev2 t d2))
    (ts : List Str) (hts : ∀ t ∈ ts, P t) :
    ∀ (result : Dbl) (isMultp : Bool) (d1 d2 : Deps), (∀ p, p ∈ d1 ↔ p ∈ d2) →
      SameOutcome (evaluateMultpAndDivLoop ev1 ts result isMultp d1)
        (evaluateMultpAndDivLoop ev2 ts result isMultp d2) := by
  induction ts with
  | nil =>
    intro result isMultp d1 d2 hd
    exact sameOutcome_ok _ _ _ hd
  | cons t rest ih =>
    intro result isMultp d1 d2 hd
    have ih2 := ih (fun x hx => hts x (List.mem_cons_of_mem _ hx))
    unfold evaluateMultpAndDivLoop
    by_cases hm : t = ['*']
    · rw [if_pos hm, if_pos hm]
      exact ih2 _ _ _ _ hd
    · rw [if_neg hm, if_neg hm]
      by_cases hdv : t = ['/']
      · rw [if_pos hdv, if_pos hdv]
        exact ih2 _ _ _ _ hd
      · rw [if_neg hdv, if_neg hdv]
        have hsame := hev t (hts t (List.mem_cons_self _ _)) d1 d2 hd
        cases he1 : ev1 t d1 with
        | error e1 =>
          cases he2 : ev2 t d2 with
          | error e2 =>
            rw [he1, he2] at hsame
            exact hsame
          | ok r2 =>
            rw [he1, he2] at hsame
            exact hsame.elim
        | ok r1 =>
          cases he2 : ev2 t d2 with
          | error e2 =>
            rw [he1, he2] at hsame
            exact hsame.elim
          | ok r2 =>
            rw [he1, he2] at hsame
            obtain ⟨v1, m1⟩ := r1
            obtain ⟨v2, m2⟩ := r2
            obtain ⟨hv, hm2⟩ := hsame
            subst hv
            exact ih2 _ _ _ _ hm2

theorem evaluateMultpAndDivToken_same (ev1 ev2 : Str → Deps → Except Err (Dbl × Deps))
    (P : Str → Prop)
    (hev : ∀ t, P t → ∀ d1 d2 : Deps, (∀ p, p ∈ d1 ↔ p ∈ d2) →
      SameOutcome (ev1 t d1) (ev2 t d2))
    (token : Str) (htok : ∀ subTokens, parseMultpAndDiv token = .ok subTokens →
      ∀ t ∈ subTokens, P t)
    (d1 d2 : Deps) (hd : ∀ p, p ∈ d1 ↔ p ∈ d2) :
    SameOutcome (evaluateMultpAndDivToken ev1 token d1)
      (evaluateMultpAndDivToken ev2 token d2) := by
  unfold evaluateMultpAndDivToken
  cases hp : parseMultpAndDiv token with
  | error e => exact sameOutcome_error e
  | ok subTokens =>
    cases subTokens with
    | nil => exact sameOutcome_error _
    | cons t0 ts =>
      simp only
      have hP := htok _ hp
      have hsame := hev t0 (hP t0 (List.mem_cons_self _ _)) d1 d2 hd
      cases he1 : ev1 t0 d1 with
      | error e1 =>
        cases he2 : ev2 t0 d2 with
        | error e2 =>
          rw [he1, he2] at hsame
          exact hsame
        | ok r2 =>
          rw [he1, he2] at hsame
          exact hsame.elim
      | ok r1 =>
        cases he2 : ev2 t0 d2 with
        | error e2 =>
          rw [he1, he2] at hsame
          exact hsame.elim
        | ok r2 =>
          rw [he1, he2] at hsame
          obtain ⟨v1, m1⟩ := r1
          obtain ⟨v2, m2⟩ := r2
          obtain ⟨hv, hm2⟩ := hsame
          subst hv
          exact evaluateMultpAndDivLoop_same ev1 ev2 P hev ts
            (fun x hx => hP x (List.mem_cons_of_mem _ hx)) _ _ _ _ hm2

theorem parseAndEvaluateLoop_same (ev1 ev2 : Str → Deps → Except Err (Dbl × Deps))
    (P : Str → Prop)
    (hev : ∀ t, P t → ∀ d1 d2 : Deps, (∀ p, p ∈ d1 ↔ p ∈ d2) →
      SameOutcome (ev1 t d1) (ev2 t d2))
    (tokens : List Str)
    (htok : ∀ token ∈ tokens, ∀ subTokens, parseMultpAndDiv token = .ok subTokens →
      ∀ t ∈ subTokens, P t) :
    ∀ (isAddition : Bool) (result : Dbl) (d1 d2 : Deps), (∀ p, p ∈ d1 ↔ p ∈ d2) →
      SameOutcome (parseAndEvaluateLoop ev1 tokens isAddition result d1)
        (parseAndEvaluateLoop ev2 tokens isAddition result d2) := by
  induction tokens with
  | nil =>
    intro isAddition result d1 d2 hd
    exact sameOutcome_ok _ _ _ hd
  | cons token rest ih =>
    intro isAddition result d1 d2 hd
    have ih2 := ih (fun x hx => htok x (List.mem_cons_of_mem _ hx))
    unfold parseAndEvaluateLoop
    by_cases hp : token = ['+']
    · rw [if_pos hp, if_pos hp]
      exact ih2 _ _ _ _ hd
    · rw [if_neg hp, if_neg hp]
      by_cases hm : token = ['-']
      · rw [if_pos hm, if_pos hm]
        exact ih2 _ _ _ _ hd
      · rw [if_neg hm, if_neg hm]
        have hsame := evaluateMultpAndDivToken_same ev1 ev2 P hev token
          (htok token (List.mem_cons_self _ _)) d1 d2 hd
        cases he1 : evaluateMultpAndDivToken ev1 token d1 with
        | error e1 =>
          cases he2 : evaluateMultpAndDivToken ev2 token d2 with
          | error e2 =>
            rw [he1, he2] at hsame
            exact hsame
          | ok r2 =>
            rw [he1, he2] at hsame
            exact hsame.elim
        | ok r1 =>
          cases he2 : evaluateMultpAndDivToken ev2 token d2 with
          | error e2 =>
            rw [he1, he2] at hsame
            exact hsame.elim
          | ok r2 =>
            rw [he1, he2] at hsame
            obtain ⟨v1, m1⟩ := r1
            obtain ⟨v2, m2⟩ := r2
            obtain ⟨hv, hm2⟩ := hsame
            subst hv
            exact ih2 _ _ _ _ hm2

theorem valueAndDeps_parseAndEvaluate (sqrt : Dbl → Dbl) {g : Rev1.Spreadsheet} (h : g.WF)
    (formula : Str) (c : Int × Int) (hf : formula ≠ [])
    (hin : InGrid g.getRowCount g.getColCount c) :
    Rev1.valueAndDeps (Rev1.parseAndEvaluate sqrt g formula c) c.1.toNat c.2.toNat
      = Rev1.evalFormula sqrt g formula := by
  rw [Rev1.parseAndEvaluate_eq_r1 sqrt g formula c hf]
  obtain ⟨cell, hget, _, _, hcell, _⟩ := Rev1.getCell_inGrid_r1 h hin
  cases he : Rev1.evalFormula sqrt g formula with
  | error e => rfl
  | ok r =>
    obtain ⟨v, ds⟩ := r
    simp only [hget]
    unfold Rev1.valueAndDeps
    simp only [Except.map]
    rw [Rev1.Spreadsheet.cellAt_assign_r1, if_pos ⟨rfl, rfl, by rw [hcell]; rfl⟩]
    rfl

theorem parseAndEvaluate_same (sqrt : Dbl → Dbl) (g1 : Rev1.Spreadsheet)
    (g2 : Rev2.Spreadsheet) (formula : Str) (coordinates : Int × Int)
    (h1 : g1.WF) (h2 : g2.WF) (hc : CorrespondingGrids g1 g2) (hf : formula ≠ [])
    (hin : InGrid g1.getRowCount g1.getColCount coordinates)
    (hnum : ∀ t ∈ operandsOf formula, CountsOnlyNumbers sqrt g1 t) :
    SameOutcome
      (Rev1.valueAndDeps (Rev1.parseAndEvaluate sqrt g1 formula coordinates)
        coordinates.1.toNat coordinates.2.toNat)
      (Rev2.parseAndEvaluate sqrt g2 formula coordinates []) := by
  rw [valueAndDeps_parseAndEvaluate sqrt h1 formula coordinates hf hin]
  unfold Rev1.evalFormula Rev2.parseAndEvaluate
  rw [if_neg hf]
  unfold operandsOf at hnum
  cases hp : parsePlusAndMinus (formula.drop 1) with
  | error e => exact sameOutcome_error e
  | ok tokens =>
    rw [hp] at hnum
    simp only at hnum ⊢
    have hne : tokens ≠ [] := by
      intro hnil
      rw [hnil] at hp
      exact Rev1.parsePlusAndMinus_ne_nil _ hp
    rw [if_neg hne]
    have hsame := parseAndEvaluateLoop_same (Rev1.evaluateSingleToken sqrt g1)
      (Rev2.evaluateSingleToken sqrt g2) (CountsOnlyNumbers sqrt g1)
      (fun t ht d1 d2 hd => evaluateSingleToken_same sqrt h1 h2 hc t ht d1 d2 hd) tokens
      (by
        intro token htoken subTokens hsub t ht
        apply hnum t
        rw [List.mem_flatMap]
        exact ⟨token, htoken, by rw [hsub]; exact ht⟩)
      true (Dbl.fin 0) [] [] (fun _ => Iff.rfl)
    cases he1 : parseAndEvaluateLoop (Rev1.evaluateSingleToken sqrt g1) tokens true
        (Dbl.fin 0) [] with
    | error e1 =>
      cases he2 : parseAndEvaluateLoop (Rev2.evaluateSingleToken sqrt g2) tokens true
          (Dbl.fin 0) [] with
      | error e2 =>
        rw [he1, he2] at hsame
        exact hsame
      | ok r2 =>
        rw [he1, he2] at hsame
        exact hsame.elim
    | ok r1 =>
      cases he2 : parseAndEvaluateLoop (Rev2.evaluateSingleToken sqrt g2) tokens true
          (Dbl.fin 0) [] with
      | error e2 =>
        rw [he1, he2] at hsame
        exact hsame.elim
      | ok r2 =>
        rw [he1, he2] at hsame
        obtain ⟨v1, m1⟩ := r1
        obtain ⟨v2, m2⟩ := r2
        simp only [List.nil_append]
        exact hsame

/-- C31 (counterexample): on the corresponding grids holding 4, 8 and a text,
`=AVER(A1..C1)` is 6 in revision 1 and 4 in revision 2, and `=MIN(A1..C1)` is
4 in revision 1 and 0 in revision 2; on the corresponding grids holding -4 and
an empty cell, `=MAX(A1..B1)` is -4 in revision 1 and 0 in revision 2.  The
empty formula text evaluates to 0 in revision 1 and fails in revision 2, and
for a target cell outside the grid revision 1 fails where revision 2 returns
the value. -/
theorem C31_counterexample :
    (Rev1.sheetT.WF ∧ Rev2.sheetT.WF ∧ CorrespondingGrids Rev1.sheetT Rev2.sheetT) ∧
    (Rev1.valueAndDeps (Rev1.parseAndEvaluate id Rev1.sheetT "=AVER(A1..C1)".toList (0, 0)) 0 0
        = .ok (Dbl.fin 6, [(0, 0), (0, 1), (0, 2)]) ∧
      Rev2.parseAndEvaluate id Rev2.sheetT "=AVER(A1..C1)".toList (0, 0) []
        = .ok (Dbl.fin 4, [(0, 0), (0, 1), (0, 2)])) ∧
    (Rev1.valueAndDeps (Rev1.parseAndEvaluate id Rev1.sheetT "=MIN(A1..C1)".toList (0, 0)) 0 0
        = .ok (Dbl.fin 4, [(0, 0), (0, 1), (0, 2)]) ∧
      Rev2.parseAndEvaluate id Rev2.sheetT "=MIN(A1..C1)".toList (0, 0) []
        = .ok (Dbl.fin 0, [(0, 0), (0, 1), (0, 2)])) ∧
    (CorrespondingGrids (Rev1.sheetOf [[(.int (-4), [], []), (.monostate, [], [])]])
        (Rev2.sheetOf [[.IntValueCell (-4), .StringValueCell []]]) ∧
      Rev1.valueAndDeps (Rev1.parseAndEvaluate id
          (Rev1.sheetOf [[(.int (-4), [], []), (.monostate, [], [])]])
          "=MAX(A1..B1)".toList (0, 0)) 0 0
        = .ok (Dbl.fin (-4), [(0, 0), (0, 1)]) ∧
      Rev2.parseAndEvaluate id (Rev2.sheetOf [[.IntValueCell (-4), .StringValueCell []]])
          "=MAX(A1..B1)".toList (0, 0) []
        = .ok (Dbl.fin 0, [(0, 0), (0, 1)])) ∧
    ((Rev1.parseAndEvaluate id Rev1.sheetT [] (0, 0)).map Prod.fst = .ok (Dbl.fin 0) ∧
      Rev2.parseAndEvaluate id Rev2.sheetT [] (0, 0) [] = .error .emptyFormulaInput) ∧
    (Rev1.parseAndEvaluate id Rev1.sheetT "=A1".toList (5, 5) = .error .cellOutOfRange ∧
      Rev2.parseAndEvaluate id Rev2.sheetT "=A1".toList (5, 5) []
        = .ok (Dbl.fin 4, [(0, 0)])) :=
  ⟨⟨by decide, by decide, by decide⟩, ⟨by decide!, by decide!⟩, ⟨by decide!, by decide!⟩,
    ⟨by decide, by decide!, by decide!⟩, ⟨by decide!, by decide!⟩, ⟨by decide!, by decide!⟩⟩

/-- C31 (amended): for well-formed corresponding grids (same dimensions, each
cell holding the same integer, real, text or empty content, a formula cell of
the second revision holding its calculated value), a formula text
that is not empty and a target cell inside the grid, the two revisions of
`parseAndEvaluate` fail with the same error or succeed with the same value and
the same set of dependencies, provided every cell read by an `AVER`, `MAX` or
`MIN` call of the formula holds a number. -/
theorem C31_revisions_agree_where_numbers_are_read (sqrt : Dbl → Dbl)
    (g1 : Rev1.Spreadsheet) (g2 : Rev2.Spreadsheet) (formula : Str) (coordinates : Int × Int)
    (h1 : g1.WF) (h2 : g2.WF) (hc : CorrespondingGrids g1 g2) (hf : formula ≠ [])
    (hin : InGrid g1.getRowCount g1.getColCount coordinates)
    (hnum : ∀ t ∈ operandsOf formula, CountsOnlyNumbers sqrt g1 t) :
    SameOutcome
      (Rev1.valueAndDeps (Rev1.parseAndEvaluate sqrt g1 formula coordinates)
        coordinates.1.toNat coordinates.2.toNat)
      (Rev2.parseAndEvaluate sqrt g2 formula coordinates []) :=
  parseAndEvaluate_same sqrt g1 g2 formula coordinates h1 h2 hc hf hin hnum

/-- C31 (witness): on the grids holding 4, 8 and a text the formula
`=AVER(A1..B1)+SUM(A1..C1)*2-C1/MIN(B1..B1)` meets the hypotheses, and both
revisions give 30 and the three cells; on the grids holding 10, 5 and the
formula cell C1 = `=A1+B1` with the value 15 the formula `=C1*2+AVER(A1..C1)`
meets them, and both revisions give 40. -/
theorem C31_witness :
    (Rev1.sheetT.WF ∧ Rev2.sheetT.WF ∧ CorrespondingGrids Rev1.sheetT Rev2.sheetT ∧
      "=AVER(A1..B1)+SUM(A1..C1)*2-C1/MIN(B1..B1)".toList ≠ [] ∧
      InGrid Rev1.sheetT.getRowCount Rev1.sheetT.getColCount (0, 2) ∧
      ∀ t ∈ operandsOf "=AVER(A1..B1)+SUM(A1..C1)*2-C1/MIN(B1..B1)".toList,
        CountsOnlyNumbers id Rev1.sheetT t) ∧
    SameOutcome
      (Rev1.valueAndDeps (Rev1.parseAndEvaluate id Rev1.sheetT
        "=AVER(A1..B1)+SUM(A1..C1)*2-C1/MIN(B1..B1)".toList (0, 2)) 0 2)
      (Rev2.parseAndEvaluate id Rev2.sheetT
        "=AVER(A1..B1)+SUM(A1..C1)*2-C1/MIN(B1..B1)".toList (0, 2) []) ∧
    Rev2.parseAndEvaluate id Rev2.sheetT
        "=AVER(A1..B1)+SUM(A1..C1)*2-C1/MIN(B1..B1)".toList (0, 2) []
      = .ok (Dbl.fin 30, [(0, 0), (0, 1), (0, 2)]) ∧
    (Rev1.sheetC.WF ∧ Rev2.sheetC.WF ∧ CorrespondingGrids Rev1.sheetC Rev2.sheetC ∧
      "=C1*2+AVER(A1..C1)".toList ≠ [] ∧
      InGrid Rev1.sheetC.getRowCount Rev1.sheetC.getColCount (0, 0) ∧
      ∀ t ∈ operandsOf "=C1*2+AVER(A1..C1)".toList, CountsOnlyNumbers id Rev1.sheetC t) ∧
    SameOutcome
      (Rev1.valueAndDeps (Rev1.parseAndEvaluate id Rev1.sheetC
        "=C1*2+AVER(A1..C1)".toList (0, 0)) 0 0)
      (Rev2.parseAndEvaluate id Rev2.sheetC "=C1*2+AVER(A1..C1)".toList (0, 0) []) ∧
    Rev2.parseAndEvaluate id Rev2.sheetC "=C1*2+AVER(A1..C1)".toList (0, 0) []
      = .ok (Dbl.fin 40, [(0, 2), (0, 0), (0, 1)]) :=
  ⟨⟨by decide, by decide, by decide, by decide, by decide, by decide!⟩,
    C31_revisions_agree_where_numbers_are_read id Rev1.sheetT Rev2.sheetT _ (0, 2)
      (by decide) (by decide) (by decide) (by decide) (by decide) (by decide!),
    by decide!,
    ⟨by decide, by decide, by decide, by decide, by decide, by decide!⟩,
    C31_revisions_agree_where_numbers_are_read id Rev1.sheetC Rev2.sheetC _ (0, 0)
      (by decide) (by decide) (by decide) (by decide) (by decide) (by decide!),
    by decide!⟩
